import Mathlib

/-!
Verification development for the columnar DataChunk of duckdb
(src/common/types/data_chunk.cpp).

The chunk operations are embedded from the source file.  The Vector layer
(vector.cpp, vector_operations, the serializer and the class headers) is not
among the sources; the parts of it the chunk operations call are modelled from
the specification and are marked as such.

Conventions of the embedding:
 * a D_ASSERT that fails is the exception Exception.Assertion (debug build);
 * an operation that mutates its chunk returns a Result: the final state of the
   chunk and the exception that ended the operation, if any;
 * idx_t values are natural numbers; the unsigned subtraction of the source is
   idx_sub, which wraps modulo 2^64;
 * buffers are maps from the row index to the slot: a buffer is present or
   absent, its number of slots and its memory layout are not part of the
   model.
-/

namespace duckdb

/-! Basic types.  The integer types idx_t (unsigned 64-bit), sel_t (unsigned 16-bit) and
data_t (a byte) of the source are embedded as Nat; a width is made explicit
where the source truncates or wraps. -/

/-- Modelled from the spec: the compile-time constant VECTOR_SIZE ("e.g., 1024
or 2048"); the header that defines STANDARD_VECTOR_SIZE is not among the
sources. -/
def STANDARD_VECTOR_SIZE : Nat := 1024

/-- Subtraction of two idx_t (unsigned 64-bit) values: wraps around when the
subtrahend is the larger one. -/
def idx_sub (a b : Nat) : Nat :=
  if b ≤ a then a - b else a + 2 ^ 64 - b

/-- Exceptions raised by the chunk operations.  Assertion is a failed
D_ASSERT; the next four are the exception classes thrown in the source;
UnsupportedType, UnsupportedDecimalType and NullKeyInMap are the three
std::runtime_error of the export (lines 584, 501 and 379), UnsupportedType
also the std::runtime_error of the NumPy conversion for a type it has no case
for; NullPointer is the
dereference of an empty unique_ptr and IndexOutOfBounds an index past the end
of a vector or array, both undefined in the source and failures here;
BinderException is the exception class of the binder. -/
inductive Exception where
  | Assertion
  | InternalException
  | OutOfRangeException
  | NotImplementedException
  | SerializationException
  | UnsupportedType
  | UnsupportedDecimalType
  | NullKeyInMap
  | NullPointer
  | IndexOutOfBounds
  | BinderException
  deriving DecidableEq, Repr

/-- Outcome of an operation that mutates a state: the state it leaves behind
and the exception that ended it, if any. -/
structure Result (σ : Type) where
  state : σ
  error : Option Exception

mutual
/-- Modelled from the spec: the closed set of logical types (section 2, Type
System); types.hpp is not among the sources. -/
inductive LogicalType where
  | SQLNULL
  | BOOLEAN
  | TINYINT
  | SMALLINT
  | INTEGER
  | BIGINT
  | UTINYINT
  | USMALLINT
  | UINTEGER
  | UBIGINT
  | HUGEINT
  | FLOAT
  | DOUBLE
  | DECIMAL (width scale : Nat)
  | DATE
  | TIME
  | TIMESTAMP_SEC
  | TIMESTAMP_MS
  | TIMESTAMP
  | TIMESTAMP_NS
  | INTERVAL
  | VARCHAR
  | BLOB
  | HASH
  | LIST (child : LogicalType)
  | STRUCT (children : ChildTypes)
  | MAP (children : ChildTypes)
/-- Modelled from the spec: the named fields of a struct or map type. -/
inductive ChildTypes where
  | nil
  | cons (name : String) (type : LogicalType) (rest : ChildTypes)
end

deriving instance DecidableEq for LogicalType, ChildTypes

/-- Modelled from the spec: the contents of one non-null slot of a vector:
a fixed-width slot (its contents read as a little-endian unsigned number) or a
variable-length byte string (varchar, blob). -/
inductive Datum where
  | fixed (bits : Nat)
  | varlen (bytes : List Nat)
  deriving DecidableEq, Repr

/-- Modelled from the spec: Value, "a tagged union of a single scalar"; none is
the SQL NULL. -/
abbrev Value := Option Datum

/-- The encodings of a vector (VectorType of the source). -/
inductive VectorType where
  | FLAT_VECTOR
  | CONSTANT_VECTOR
  | DICTIONARY_VECTOR
  | SEQUENCE_VECTOR
  deriving DecidableEq, Repr

/-- Modelled from the spec: SelectionVector, "an array of row indices".  Two
selection vectors with the same entries stand for the same selection buffer. -/
structure SelectionVector where
  sel_vector : List Nat
  deriving DecidableEq, Repr

/-- Modelled from the spec: entry idx of a selection vector (an entry past the
end of the array reads as 0). -/
def SelectionVector.get_index (s : SelectionVector) (idx : Nat) : Nat :=
  s.sel_vector.getD idx 0

/-- Modelled from the spec: composition of the selection held by a dictionary
vector with an incoming selection: entry i of the result is
this[sel[i]] for i < count. -/
def SelectionVector.Slice (s sel : SelectionVector) (count : Nat) : SelectionVector :=
  ⟨(List.range count).map (fun i => s.get_index (sel.get_index i))⟩

/-- Modelled from the spec: VectorCache, "a per-type reusable allocation pool
held by a DataChunk for each of its columns"; it is constructed from the type
alone (data_chunk.cpp line 39). -/
structure VectorCache where
  type : LogicalType

/-- Modelled from the spec: buffer ownership of a flat vector: no storage
(constructed with a null buffer), its own storage, or storage borrowed from a
cache. -/
inductive VectorBuffer where
  | unbacked
  | owned
  | cache (c : VectorCache)

/-- Modelled from the spec: Vector, a single column in one of the encodings
flat, constant, dictionary, sequence.  The row count is not stored in the
vector.  A flat vector holds a validity bit and a slot for every row index. -/
inductive Vector where
  | flat (type : LogicalType) (buffer : VectorBuffer) (validity : Nat → Bool)
      (data : Nat → Datum)
  | constant (type : LogicalType) (validity : Bool) (data : Datum)
  | dictionary (type : LogicalType) (sel : SelectionVector) (child : Vector)
  | sequence (type : LogicalType) (start increment : Int)

/-- Modelled from the spec: the selection cache, a mapping from the selection a
dictionary vector held to the composed selection produced for it; it lives for
one slice call of a chunk. -/
structure SelCache where
  cache : List (SelectionVector × SelectionVector)

/-- A DataChunk: its columns, its row count and its caches
(the members data, count and vector_caches of the class). -/
structure DataChunk where
  data : List Vector
  count : Nat
  vector_caches : List VectorCache

/-! Vector operations (modelled) -/

/-- Modelled from the spec: the logical type of a vector. -/
def Vector.GetType : Vector → LogicalType
  | .flat t _ _ _ => t
  | .constant t _ _ => t
  | .dictionary t _ _ => t
  | .sequence t _ _ => t

/-- Modelled from the spec: the encoding of a vector. -/
def Vector.GetVectorType : Vector → VectorType
  | .flat _ _ _ _ => .FLAT_VECTOR
  | .constant _ _ _ => .CONSTANT_VECTOR
  | .dictionary _ _ _ => .DICTIONARY_VECTOR
  | .sequence _ _ _ => .SEQUENCE_VECTOR

/-- Modelled from the spec: get_value, random access that "follows
dictionary/sequence encodings transparently"; the validity bitmap is
authoritative. -/
def Vector.GetValue : Vector → Nat → Value
  | .flat _ _ validity data, index => if validity index then some (data index) else none
  | .constant _ validity data, _ => if validity then some data else none
  | .dictionary _ sel child, index => child.GetValue (sel.get_index index)
  | .sequence _ start increment, index =>
      some (.fixed ((start + increment * (index : Int)) % (2 ^ 64 : Int)).toNat)

/-- Modelled from the spec: the contents of freshly allocated or recycled
storage are unspecified; the model fixes them to a zero slot. -/
def Datum.unspecified : Datum := .fixed 0

/-- Modelled from the spec: construct(type, null buffer): an unbacked flat
vector, "no storage is allocated". -/
def Vector.unbacked (type : LogicalType) : Vector :=
  .flat type .unbacked (fun _ => true) (fun _ => Datum.unspecified)

/-- Modelled from the spec: a vector constructed on a cache: flat, all rows
valid, storage borrowed from the cache. -/
def Vector.ofCache (cache : VectorCache) : Vector :=
  .flat cache.type (.cache cache) (fun _ => true) (fun _ => Datum.unspecified)

/-- Modelled from the spec: reset_from_cache, "re-point this vector's flat
buffer at the cache's preallocated storage; clear validity.  Post-condition:
flat encoding, owned by cache". -/
def Vector.ResetFromCache (v : Vector) (cache : VectorCache) : Vector :=
  .flat v.GetType (.cache cache) (fun _ => true) (fun _ => Datum.unspecified)

/-- Modelled from the spec: slice(selection, count) with the selection cache:
"in place, produce a dictionary encoding wrapping the current storage.  If the
vector is already a dictionary, compose selections using a selection cache" so
that sibling columns that hold the same selection share the composed one: an
entry of the cache is keyed by the selection the dictionary held (the identity
of a selection buffer is its contents) and holds its composition with the
incoming selection. -/
def Vector.Slice (v : Vector) (sel : SelectionVector) (count : Nat) (cache : SelCache) :
    Vector × SelCache :=
  match v with
  | .dictionary t current_sel child =>
      match cache.cache.lookup current_sel with
      | some merged => (.dictionary t merged child, cache)
      | none =>
          let merged := current_sel.Slice sel count
          (.dictionary t merged child, ⟨(current_sel, merged) :: cache.cache⟩)
  | .flat t b validity data => (.dictionary t sel (.flat t b validity data), cache)
  | .constant t validity data => (.dictionary t sel (.constant t validity data), cache)
  | .sequence t start increment => (.dictionary t sel (.sequence t start increment), cache)

/-- Modelled from the spec: whether a flat buffer has storage; a vector
constructed with a null buffer has none ("no storage is allocated"). -/
def VectorBuffer.hasStorage : VectorBuffer → Bool
  | .unbacked => false
  | .owned => true
  | .cache _ => true

/-- Modelled from the spec: whether a vector has storage for its slots; only a
flat vector constructed with a null buffer has none. -/
def Vector.hasStorage : Vector → Bool
  | .flat _ b _ _ => b.hasStorage
  | _ => true

/-- Modelled from the spec: the flat target after rows source_offset up to
source_count of the source are written to it from row target_offset on, values
and validity alike (append: "copy rows [0, other.row_count) from other into
this chunk starting at row_count"); no row is written when source_offset is not
below source_count. -/
def VectorOperations.Copy.write (source target : Vector) (source_count source_offset
    target_offset : Nat) : Vector :=
  match target with
  | .flat t b validity data =>
      let copy_count := source_count - source_offset
      .flat t b
        (fun i =>
          if target_offset ≤ i ∧ i - target_offset < copy_count then
            (source.GetValue (source_offset + (i - target_offset))).isSome
          else validity i)
        (fun i =>
          if target_offset ≤ i ∧ i - target_offset < copy_count then
            (source.GetValue (source_offset + (i - target_offset))).getD (data i)
          else data i)
  | v => v

/-- Modelled from the spec: VectorOperations::Copy(source, target,
source_count, source_offset, target_offset).  A source of another type than the
target is a programming error ("type mismatch": an assertion in debug builds);
rows written to a target without storage are written through a null buffer
(undefined, a failure here).  A target that is not flat is outside the model
(the callers assert it), and so is the number of slots of the storage. -/
def VectorOperations.Copy (source target : Vector) (source_count source_offset
    target_offset : Nat) : Except Exception Vector :=
  if source.GetType ≠ target.GetType then .error .Assertion
  else if 0 < source_count - source_offset ∧ target.hasStorage = false then .error .NullPointer
  else .ok (VectorOperations.Copy.write source target source_count source_offset target_offset)

/-- Modelled from the spec: the flat target after the source rows
sel[source_offset], ..., sel[source_count - 1] are written to it from row
target_offset on. -/
def VectorOperations.CopySel.write (source target : Vector) (sel : SelectionVector)
    (source_count source_offset target_offset : Nat) : Vector :=
  match target with
  | .flat t b validity data =>
      let copy_count := source_count - source_offset
      .flat t b
        (fun i =>
          if target_offset ≤ i ∧ i - target_offset < copy_count then
            (source.GetValue (sel.get_index (source_offset + (i - target_offset)))).isSome
          else validity i)
        (fun i =>
          if target_offset ≤ i ∧ i - target_offset < copy_count then
            (source.GetValue (sel.get_index (source_offset + (i - target_offset)))).getD (data i)
          else data i)
  | v => v

/-- Modelled from the spec: VectorOperations::Copy through a selection, with
the failures of the copy without selection. -/
def VectorOperations.CopySel (source target : Vector) (sel : SelectionVector)
    (source_count source_offset target_offset : Nat) : Except Exception Vector :=
  if source.GetType ≠ target.GetType then .error .Assertion
  else if 0 < source_count - source_offset ∧ target.hasStorage = false then .error .NullPointer
  else
    .ok (VectorOperations.CopySel.write source target sel source_count source_offset
      target_offset)

/-! DataChunk operations (data_chunk.cpp) -/

/-- The constructor DataChunk(): no columns, no caches, count 0. -/
def DataChunk.new : DataChunk := ⟨[], 0, []⟩

/-- Modelled from the spec: size(), the row count of the chunk (the accessor is
declared in the class header, which is not among the sources). -/
def DataChunk.size (d : DataChunk) : Nat := d.count

/-- Modelled from the spec: ColumnCount(), the number of columns of the chunk
(declared in the class header). -/
def DataChunk.ColumnCount (d : DataChunk) : Nat := d.data.length

/-- Modelled from the spec: SetCardinality(count), which sets the row count
(declared in the class header). -/
def DataChunk.SetCardinality (d : DataChunk) (count_p : Nat) : DataChunk :=
  { d with count := count_p }

/-- DataChunk::InitializeEmpty (lines 27-33). -/
def DataChunk.InitializeEmpty (d : DataChunk) (types : List LogicalType) : Result DataChunk :=
  if ¬ d.data.isEmpty then ⟨d, some .Assertion⟩
  else if ¬ types.length > 0 then ⟨d, some .Assertion⟩
  else ⟨types.foldl (fun acc t => { acc with data := acc.data ++ [Vector.unbacked t] }) d, none⟩

/-- DataChunk::Initialize (lines 35-43). -/
def DataChunk.Initialize (d : DataChunk) (types : List LogicalType) : Result DataChunk :=
  if ¬ d.data.isEmpty then ⟨d, some .Assertion⟩
  else if types.isEmpty then ⟨d, some .Assertion⟩
  else
    ⟨types.foldl (fun acc t =>
        let cache : VectorCache := ⟨t⟩
        { acc with data := acc.data ++ [Vector.ofCache cache],
                   vector_caches := acc.vector_caches ++ [cache] }) d, none⟩

/-- DataChunk::Reset (lines 45-56). -/
def DataChunk.Reset (d : DataChunk) : Result DataChunk :=
  if d.data.isEmpty then ⟨d, none⟩
  else if d.vector_caches.length ≠ d.data.length then ⟨d, some .InternalException⟩
  else
    ⟨({ d with data := List.zipWith Vector.ResetFromCache d.data d.vector_caches }).SetCardinality 0,
      none⟩

/-- DataChunk::Destroy (lines 58-62). -/
def DataChunk.Destroy (d : DataChunk) : DataChunk :=
  ({ d with data := [], vector_caches := [] }).SetCardinality 0

/-- DataChunk::GetValue (lines 64-67).  A column index past the last column is
undefined in the source and is a failure here. -/
def DataChunk.GetValue (d : DataChunk) (col_idx index : Nat) : Except Exception Value :=
  if ¬ index < d.size then .error .Assertion
  else
    match d.data[col_idx]? with
    | some v => .ok (v.GetValue index)
    | none => .error .Assertion

/-- The column loop of DataChunk::Copy (lines 93-96): the columns of the
destination after the loop, and the failure that stopped it, if any (the
columns before the failing one are written). -/
def DataChunk.Copy.loop (count offset : Nat) :
    List Vector → List Vector → List Vector × Option Exception
  | src :: srcs, dst :: dsts =>
      if dst.GetVectorType ≠ .FLAT_VECTOR then (dst :: dsts, some .Assertion)
      else
        match VectorOperations.Copy src dst count offset 0 with
        | .error e => (dst :: dsts, some e)
        | .ok v =>
            let r := DataChunk.Copy.loop count offset srcs dsts
            (v :: r.1, r.2)
  | _, dsts => (dsts, none)

/-- DataChunk::Copy(other, offset) (lines 89-98).  The receiver is const; the
result pairs it with the final state of other. -/
def DataChunk.Copy (d other : DataChunk) (offset : Nat) : Result (DataChunk × DataChunk) :=
  if d.ColumnCount ≠ other.ColumnCount then ⟨(d, other), some .Assertion⟩
  else if other.size ≠ 0 then ⟨(d, other), some .Assertion⟩
  else
    match DataChunk.Copy.loop d.size offset d.data other.data with
    | (cols, some e) => ⟨(d, { other with data := cols }), some e⟩
    | (cols, none) =>
        ⟨(d, ({ other with data := cols }).SetCardinality (idx_sub d.size offset)), none⟩

/-- The column loop of DataChunk::Copy with a selection (lines 105-108). -/
def DataChunk.CopySel.loop (sel : SelectionVector) (source_count offset : Nat) :
    List Vector → List Vector → List Vector × Option Exception
  | src :: srcs, dst :: dsts =>
      if dst.GetVectorType ≠ .FLAT_VECTOR then (dst :: dsts, some .Assertion)
      else
        match VectorOperations.CopySel src dst sel source_count offset 0 with
        | .error e => (dst :: dsts, some e)
        | .ok v =>
            let r := DataChunk.CopySel.loop sel source_count offset srcs dsts
            (v :: r.1, r.2)
  | _, dsts => (dsts, none)

/-- DataChunk::Copy(other, sel, source_count, offset) (lines 100-110). -/
def DataChunk.CopySel (d other : DataChunk) (sel : SelectionVector)
    (source_count offset : Nat) : Result (DataChunk × DataChunk) :=
  if d.ColumnCount ≠ other.ColumnCount then ⟨(d, other), some .Assertion⟩
  else if other.size ≠ 0 then ⟨(d, other), some .Assertion⟩
  else if ¬ offset + source_count ≤ d.size then ⟨(d, other), some .Assertion⟩
  else
    match DataChunk.CopySel.loop sel source_count offset d.data other.data with
    | (cols, some e) => ⟨(d, { other with data := cols }), some e⟩
    | (cols, none) =>
        ⟨(d, ({ other with data := cols }).SetCardinality (idx_sub source_count offset)), none⟩

/-- The column loop of DataChunk::Append (lines 119-122): other_data are the
columns of the appended chunk, the second list the columns of this chunk. -/
def DataChunk.Append.loop (other_size size : Nat) :
    List Vector → List Vector → List Vector × Option Exception
  | o :: os, v :: vs =>
      if v.GetVectorType ≠ .FLAT_VECTOR then (v :: vs, some .Assertion)
      else
        match VectorOperations.Copy o v other_size 0 size with
        | .error e => (v :: vs, some e)
        | .ok w =>
            let r := DataChunk.Append.loop other_size size os vs
            (w :: r.1, r.2)
  | _, vs => (vs, none)

/-- DataChunk::Append (lines 112-124). -/
def DataChunk.Append (d other : DataChunk) : Result DataChunk :=
  if other.size = 0 then ⟨d, none⟩
  else if d.ColumnCount ≠ other.ColumnCount then ⟨d, some .OutOfRangeException⟩
  else
    match DataChunk.Append.loop other.size d.size other.data d.data with
    | (cols, some e) => ⟨{ d with data := cols }, some e⟩
    | (cols, none) => ⟨({ d with data := cols }).SetCardinality (d.size + other.size), none⟩

/-- DataChunk::GetTypes (lines 132-138). -/
def DataChunk.GetTypes (d : DataChunk) : List LogicalType :=
  d.data.map Vector.GetType

/-- The column loop of DataChunk::Slice (lines 182-184): every column is sliced
with the same selection and the same merge cache. -/
def DataChunk.Slice.loop (sel_vector : SelectionVector) (count_p : Nat) :
    List Vector → SelCache → List Vector
  | [], _ => []
  | v :: vs, merge_cache =>
      let r := v.Slice sel_vector count_p merge_cache
      r.1 :: DataChunk.Slice.loop sel_vector count_p vs r.2

/-- DataChunk::Slice(sel_vector, count_p) (lines 179-185). -/
def DataChunk.Slice (d : DataChunk) (sel_vector : SelectionVector) (count_p : Nat) :
    DataChunk :=
  { d with count := count_p,
           data := DataChunk.Slice.loop sel_vector count_p d.data ⟨[]⟩ }

/-! Serialization (lines 148-177).  The serializer, the serialization of a
logical type and the payload of a vector are not among the sources; they are
modelled from section 6 of the spec.  A serializer is the list of the bytes
written so far, a deserializer the list of the bytes not yet read. -/

/-- Modelled from the spec: Serializer::Write of a fixed-width integer,
"little-endian, fixed-width integers": the low width bytes of the value, least
significant first (a wider value is truncated). -/
def Serializer.Write : (width : Nat) → (value : Nat) → List Nat
  | 0, _ => []
  | w + 1, v => v % 256 :: Serializer.Write w (v / 256)

/-- Modelled from the spec: Deserializer::Read of a fixed-width little-endian
integer; reading past the end of the input is an error. -/
def Deserializer.Read : (width : Nat) → List Nat → Except Exception (Nat × List Nat)
  | 0, source => .ok (0, source)
  | _ + 1, [] => .error .SerializationException
  | w + 1, b :: source =>
      match Deserializer.Read w source with
      | .ok (v, rest) => .ok (b + 256 * v, rest)
      | .error e => .error e

/-- Modelled from the spec: Deserializer::ReadData, the next n bytes. -/
def Deserializer.ReadData (n : Nat) (source : List Nat) : Except Exception (List Nat × List Nat) :=
  if source.length < n then .error .SerializationException
  else .ok (source.take n, source.drop n)

/-- Modelled from the spec: the "u8 type_id" of a logical type.  The spec does
not give the numbering; the model fixes an injective one. -/
def LogicalType.id : LogicalType → Nat
  | .SQLNULL => 1
  | .BOOLEAN => 10
  | .TINYINT => 11
  | .SMALLINT => 12
  | .INTEGER => 13
  | .BIGINT => 14
  | .DATE => 15
  | .TIME => 16
  | .TIMESTAMP_SEC => 17
  | .TIMESTAMP_MS => 18
  | .TIMESTAMP => 19
  | .TIMESTAMP_NS => 20
  | .DECIMAL _ _ => 21
  | .FLOAT => 22
  | .DOUBLE => 23
  | .VARCHAR => 25
  | .BLOB => 26
  | .INTERVAL => 27
  | .UTINYINT => 28
  | .USMALLINT => 29
  | .UINTEGER => 30
  | .UBIGINT => 31
  | .HUGEINT => 50
  | .HASH => 52
  | .STRUCT _ => 100
  | .LIST _ => 101
  | .MAP _ => 102

/-- Modelled from the spec: the width in bytes of a slot of a fixed-width type
(the physical type: "the width/shape of stored values"; a decimal is "stored in
one of four integer widths"); none for strings, blobs and nested types. -/
def LogicalType.fixedWidth : LogicalType → Option Nat
  | .BOOLEAN | .TINYINT | .UTINYINT => some 1
  | .SMALLINT | .USMALLINT => some 2
  | .INTEGER | .UINTEGER | .DATE | .FLOAT | .SQLNULL => some 4
  | .BIGINT | .UBIGINT | .DOUBLE | .TIME | .HASH => some 8
  | .TIMESTAMP_SEC | .TIMESTAMP_MS | .TIMESTAMP | .TIMESTAMP_NS => some 8
  | .HUGEINT | .INTERVAL => some 16
  | .DECIMAL width _ =>
      some (if width ≤ 4 then 2 else if width ≤ 9 then 4 else if width ≤ 18 then 8 else 16)
  | .VARCHAR | .BLOB => none
  | .LIST _ | .STRUCT _ | .MAP _ => none

/-- Modelled from the spec: the variable-length types, "string and blob are
length-prefixed per cell". -/
def LogicalType.isVarlen : LogicalType → Bool
  | .VARCHAR | .BLOB => true
  | _ => false

/-- Modelled from the spec: LogicalType::Serialize, "u8 type_id followed by
type-specific parameters (decimal: u8 width, u8 scale ...)".  The spec lets
lists and structs recurse; the payload of nested vectors has no layout in the
spec, so nested types are outside the modelled format. -/
def LogicalType.Serialize : LogicalType → Except Exception (List Nat)
  | .DECIMAL width scale =>
      .ok (Serializer.Write 1 (LogicalType.DECIMAL width scale).id
        ++ Serializer.Write 1 width ++ Serializer.Write 1 scale)
  | .LIST _ => .error .NotImplementedException
  | .STRUCT _ => .error .NotImplementedException
  | .MAP _ => .error .NotImplementedException
  | t => .ok (Serializer.Write 1 t.id)

/-- Modelled from the spec: LogicalType::Deserialize, the inverse reading. -/
def LogicalType.Deserialize (source : List Nat) : Except Exception (LogicalType × List Nat) :=
  match Deserializer.Read 1 source with
  | .error e => .error e
  | .ok (id, rest) =>
      match id with
      | 1 => .ok (.SQLNULL, rest)
      | 10 => .ok (.BOOLEAN, rest)
      | 11 => .ok (.TINYINT, rest)
      | 12 => .ok (.SMALLINT, rest)
      | 13 => .ok (.INTEGER, rest)
      | 14 => .ok (.BIGINT, rest)
      | 15 => .ok (.DATE, rest)
      | 16 => .ok (.TIME, rest)
      | 17 => .ok (.TIMESTAMP_SEC, rest)
      | 18 => .ok (.TIMESTAMP_MS, rest)
      | 19 => .ok (.TIMESTAMP, rest)
      | 20 => .ok (.TIMESTAMP_NS, rest)
      | 21 =>
          match Deserializer.Read 1 rest with
          | .error e => .error e
          | .ok (width, rest1) =>
              match Deserializer.Read 1 rest1 with
              | .error e => .error e
              | .ok (scale, rest2) => .ok (.DECIMAL width scale, rest2)
      | 22 => .ok (.FLOAT, rest)
      | 23 => .ok (.DOUBLE, rest)
      | 25 => .ok (.VARCHAR, rest)
      | 26 => .ok (.BLOB, rest)
      | 27 => .ok (.INTERVAL, rest)
      | 28 => .ok (.UTINYINT, rest)
      | 29 => .ok (.USMALLINT, rest)
      | 30 => .ok (.UINTEGER, rest)
      | 31 => .ok (.UBIGINT, rest)
      | 50 => .ok (.HUGEINT, rest)
      | 52 => .ok (.HASH, rest)
      | _ => .error .NotImplementedException

/-- Modelled from the spec: n validity bits packed into a number, the bit of
row base first (least significant). -/
def packBits : (n : Nat) → (bits : Nat → Bool) → (base : Nat) → Nat
  | 0, _, _ => 0
  | n + 1, bits, base => (if bits base then 1 else 0) + 2 * packBits n bits (base + 1)

/-- Modelled from the spec: the validity bitmap of the rows, "ceil(n/8)
bytes", bit i = 1 when row i is non-null. -/
def validityBitmap (rows : List Value) : List Nat :=
  (List.range ((rows.length + 7) / 8)).map
    (fun j => packBits 8 (fun i => (rows.getD i none).isSome) (8 * j))

/-- Modelled from the spec: bit i of a validity bitmap. -/
def bitmapRowIsValid (bitmap : List Nat) (i : Nat) : Bool :=
  (bitmap.getD (i / 8) 0 / 2 ^ (i % 8)) % 2 == 1

/-- Modelled from the spec: the values of a fixed-width column, width bytes per
row; the slot of a null row is written as zero. -/
def writeFixed (width : Nat) : List Value → List Nat
  | [] => []
  | some (.fixed bits) :: rows => Serializer.Write width bits ++ writeFixed width rows
  | _ :: rows => Serializer.Write width 0 ++ writeFixed width rows

/-- Modelled from the spec: the cells of a string or blob column, each
"length-prefixed" by a 32-bit length; a null row is written as the empty
string. -/
def writeVarlen : List Value → List Nat
  | [] => []
  | some (.varlen bytes) :: rows =>
      Serializer.Write 4 bytes.length ++ bytes ++ writeVarlen rows
  | _ :: rows => Serializer.Write 4 0 ++ writeVarlen rows

/-- Modelled from the spec: reading back the values of a fixed-width column. -/
def readFixed (width : Nat) : (rows : Nat) → List Nat → Except Exception (List Datum × List Nat)
  | 0, source => .ok ([], source)
  | n + 1, source =>
      match Deserializer.Read width source with
      | .error e => .error e
      | .ok (bits, rest) =>
          match readFixed width n rest with
          | .error e => .error e
          | .ok (values, rest1) => .ok (.fixed bits :: values, rest1)

/-- Modelled from the spec: reading back the cells of a string or blob
column. -/
def readVarlen : (rows : Nat) → List Nat → Except Exception (List Datum × List Nat)
  | 0, source => .ok ([], source)
  | n + 1, source =>
      match Deserializer.Read 4 source with
      | .error e => .error e
      | .ok (len, rest) =>
          match Deserializer.ReadData len rest with
          | .error e => .error e
          | .ok (bytes, rest1) =>
              match readVarlen n rest1 with
              | .error e => .error e
              | .ok (values, rest2) => .ok (.varlen bytes :: values, rest2)

/-- Modelled from the spec: the validity part of a vector payload: "a validity
bitmap (ceil(n/8) bytes; absent => all valid, indicated by a leading u8
flag)". -/
def writeValidity (rows : List Value) : List Nat :=
  if rows.any Option.isNone then Serializer.Write 1 1 ++ validityBitmap rows
  else Serializer.Write 1 0

/-- Modelled from the spec: Vector::Serialize(count, serializer): the payload
of the first count rows, read through the encoding of the vector: the validity
part, then the values. -/
def Vector.Serialize (v : Vector) (count : Nat) : Except Exception (List Nat) :=
  let rows := (List.range count).map v.GetValue
  match v.GetType.fixedWidth with
  | some width => .ok (writeValidity rows ++ writeFixed width rows)
  | none =>
      if v.GetType.isVarlen then .ok (writeValidity rows ++ writeVarlen rows)
      else .error .NotImplementedException

/-- Modelled from the spec: reading the validity part of a payload of count
rows. -/
def readValidity (count : Nat) (source : List Nat) :
    Except Exception ((Nat → Bool) × List Nat) :=
  match Deserializer.Read 1 source with
  | .error e => .error e
  | .ok (flag, rest) =>
      if flag = 0 then .ok (fun _ => true, rest)
      else
        match Deserializer.ReadData ((count + 7) / 8) rest with
        | .error e => .error e
        | .ok (bitmap, rest1) => .ok (bitmapRowIsValid bitmap, rest1)

/-- Modelled from the spec: Vector::Deserialize(count, source): fills the flat
vector (it comes from Initialize) with the payload of count rows. -/
def Vector.Deserialize (v : Vector) (count : Nat) (source : List Nat) :
    Except Exception (Vector × List Nat) :=
  match v with
  | .flat t b _ _ =>
      match readValidity count source with
      | .error e => .error e
      | .ok (validity, rest) =>
          match (match t.fixedWidth with
                 | some width => readFixed width count rest
                 | none =>
                     if t.isVarlen then readVarlen count rest
                     else .error .NotImplementedException) with
          | .error e => .error e
          | .ok (values, rest1) =>
              .ok (.flat t b validity (fun i => values.getD i Datum.unspecified), rest1)
  | _ => .error .Assertion

/-- The type loop of DataChunk::Serialize (lines 152-155). -/
def DataChunk.Serialize.types : List Vector → Except Exception (List Nat)
  | [] => .ok []
  | v :: vs =>
      match v.GetType.Serialize with
      | .error e => .error e
      | .ok bytes =>
          match DataChunk.Serialize.types vs with
          | .error e => .error e
          | .ok more => .ok (bytes ++ more)

/-- The data loop of DataChunk::Serialize (lines 157-159). -/
def DataChunk.Serialize.payloads (size : Nat) : List Vector → Except Exception (List Nat)
  | [] => .ok []
  | v :: vs =>
      match v.Serialize size with
      | .error e => .error e
      | .ok bytes =>
          match DataChunk.Serialize.payloads size vs with
          | .error e => .error e
          | .ok more => .ok (bytes ++ more)

/-- DataChunk::Serialize (lines 148-160): the row count as sel_t (16 bits), the
column count as idx_t (64 bits), the types, then the data. -/
def DataChunk.Serialize (d : DataChunk) : Except Exception (List Nat) :=
  match DataChunk.Serialize.types d.data with
  | .error e => .error e
  | .ok types =>
      match DataChunk.Serialize.payloads d.size d.data with
      | .error e => .error e
      | .ok payloads =>
          .ok (Serializer.Write 2 d.size ++ Serializer.Write 8 d.ColumnCount ++ types ++ payloads)

/-- DataChunk::Verify (lines 218-226), debug build: the row count is at most
STANDARD_VECTOR_SIZE.  Vector::Verify is not among the sources; the invariants
the spec gives for a vector concern buffer sizes, which the model does not
have, so the column loop adds no check. -/
def DataChunk.Verify (d : DataChunk) : Option Exception :=
  if ¬ d.size ≤ STANDARD_VECTOR_SIZE then some .Assertion else none

/-- The type loop of DataChunk::Deserialize (lines 167-169). -/
def DataChunk.Deserialize.types :
    (column_count : Nat) → List Nat → Except Exception (List LogicalType × List Nat)
  | 0, source => .ok ([], source)
  | n + 1, source =>
      match LogicalType.Deserialize source with
      | .error e => .error e
      | .ok (t, rest) =>
          match DataChunk.Deserialize.types n rest with
          | .error e => .error e
          | .ok (types, rest1) => .ok (t :: types, rest1)

/-- The data loop of DataChunk::Deserialize (lines 173-175). -/
def DataChunk.Deserialize.payloads (rows : Nat) :
    List Vector → List Nat → Except Exception (List Vector × List Nat)
  | [], source => .ok ([], source)
  | v :: vs, source =>
      match v.Deserialize rows source with
      | .error e => .error e
      | .ok (v1, rest) =>
          match DataChunk.Deserialize.payloads rows vs rest with
          | .error e => .error e
          | .ok (vs1, rest1) => .ok (v1 :: vs1, rest1)

/-- DataChunk::Deserialize (lines 162-177): the chunk read and the bytes left
in the source. -/
def DataChunk.Deserialize (d : DataChunk) (source : List Nat) :
    Except Exception (DataChunk × List Nat) :=
  match Deserializer.Read 2 source with
  | .error e => .error e
  | .ok (rows, rest) =>
      match Deserializer.Read 8 rest with
      | .error e => .error e
      | .ok (column_count, rest1) =>
          match DataChunk.Deserialize.types column_count rest1 with
          | .error e => .error e
          | .ok (types, rest2) =>
              match d.Initialize types with
              | ⟨_, some e⟩ => .error e
              | ⟨d1, none⟩ =>
                  let d2 := d1.SetCardinality rows
                  match DataChunk.Deserialize.payloads rows d2.data rest2 with
                  | .error e => .error e
                  | .ok (columns, rest3) =>
                      let d3 : DataChunk := { d2 with data := columns }
                      match d3.Verify with
                      | some e => .error e
                      | none => .ok (d3, rest3)

/-- The types whose columns the modelled format writes: the fixed-width
scalars (a decimal with parameters that fit a byte), strings and blobs. -/
def LogicalType.Serializable : LogicalType → Bool
  | .DECIMAL width scale => decide (width < 256) && decide (scale < 256)
  | .LIST _ | .STRUCT _ | .MAP _ => false
  | _ => true

/-- A value fits a type: NULL fits every type, a fixed-width slot fits a
fixed-width type whose width holds it, a byte string (bytes below 256, length
below 2^32) fits VARCHAR and BLOB. -/
def LogicalType.fits (t : LogicalType) : Value → Bool
  | none => true
  | some (.fixed bits) =>
      match t.fixedWidth with
      | some width => decide (bits < 256 ^ width)
      | none => false
  | some (.varlen bytes) =>
      t.fixedWidth.isNone && t.isVarlen && decide (bytes.length < 2 ^ 32)
        && bytes.all (fun b => decide (b < 256))

/-- A column of supported type whose first count rows fit the type. -/
def Vector.Serializable (v : Vector) (count : Nat) : Bool :=
  v.GetType.Serializable && (List.range count).all (fun i => v.GetType.fits (v.GetValue i))

/-- A chunk of supported types: every column is serializable over the rows of
the chunk. -/
def DataChunk.Serializable (d : DataChunk) : Bool :=
  d.data.all (fun v => v.Serializable d.size)

/-- Invariant of the merge cache during one slice call with the selection sel
and the count count: every entry maps a selection to its composition with
sel. -/
def SelCache.Consistent (cache : SelCache) (sel : SelectionVector) (count : Nat) : Prop :=
  ∀ k v, cache.cache.lookup k = some v → v = k.Slice sel count

/-- The slice of one vector on an empty cache. -/
def Vector.SliceFresh (v : Vector) (sel : SelectionVector) (count : Nat) : Vector :=
  (v.Slice sel count ⟨[]⟩).1

/-! Reference, Move and Hash (lines 73-87 and 210-216) -/

/-- Modelled from the spec: reference(other), "makes this vector share other's
storage, encoding, validity, and any child vectors"; the logical type of the
vector stays its own. -/
def Vector.Reference (v other : Vector) : Vector :=
  match other with
  | .flat _ b validity data => .flat v.GetType b validity data
  | .constant _ validity data => .constant v.GetType validity data
  | .dictionary _ sel child => .dictionary v.GetType sel child
  | .sequence _ start increment => .sequence v.GetType start increment

/-- The column loop of DataChunk::Reference (lines 76-78): column i of this
chunk references column i of the other chunk, for every column of the other
chunk; the first list holds the columns of this chunk. -/
def DataChunk.Reference.loop : List Vector → List Vector → List Vector
  | v :: vs, c :: cs => v.Reference c :: DataChunk.Reference.loop vs cs
  | vs, [] => vs
  | [], _ :: _ => []

/-- DataChunk::Reference (lines 73-79).  The result pairs the final state of
this chunk with the other chunk, which the function does not write. -/
def DataChunk.Reference (d chunk : DataChunk) : Result (DataChunk × DataChunk) :=
  if ¬ chunk.ColumnCount ≤ d.ColumnCount then ⟨(d, chunk), some .Assertion⟩
  else
    ⟨({ d.SetCardinality chunk.size with
          data := DataChunk.Reference.loop d.data chunk.data }, chunk), none⟩

/-- Modelled from the spec: Vector::Slice(other, sel, count), "apply a
selection" to another vector: this vector references the other vector and is
sliced with the selection, without a selection cache. -/
def Vector.SliceOther (v other : Vector) (sel : SelectionVector) (count : Nat) : Vector :=
  ((Vector.Reference v other).Slice sel count ⟨[]⟩).1

/-- The column loop of DataChunk::Slice(other, sel, count_p, col_offset) (lines
191-199), from column c of the other chunk on: the columns of this chunk and
the merge cache after the loop.  The index col_offset + c is not checked in the
source; an index past the last column is a failure here. -/
def DataChunk.SliceOther.loop (sel : SelectionVector) (count_p col_offset : Nat) :
    Nat → List Vector → List Vector → SelCache → List Vector × Option Exception
  | _, [], data, _ => (data, none)
  | c, other_column :: rest, data, merge_cache =>
      match data[col_offset + c]? with
      | none => (data, some .IndexOutOfBounds)
      | some column =>
          if other_column.GetVectorType = .DICTIONARY_VECTOR then
            let r := (Vector.Reference column other_column).Slice sel count_p merge_cache
            DataChunk.SliceOther.loop sel count_p col_offset (c + 1) rest
              (data.set (col_offset + c) r.1) r.2
          else
            DataChunk.SliceOther.loop sel count_p col_offset (c + 1) rest
              (data.set (col_offset + c) (column.SliceOther other_column sel count_p))
              merge_cache

/-- DataChunk::Slice(other, sel, count_p, col_offset) (lines 187-200). -/
def DataChunk.SliceOther (d other : DataChunk) (sel : SelectionVector)
    (count_p col_offset : Nat) : Result DataChunk :=
  if ¬ other.ColumnCount ≤ col_offset + d.ColumnCount then ⟨d, some .Assertion⟩
  else
    let r := DataChunk.SliceOther.loop sel count_p col_offset 0 other.data d.data ⟨[]⟩
    ⟨{ d with count := count_p, data := r.1 }, r.2⟩

/-- DataChunk::Move (lines 81-87): this chunk takes the row count, the columns
and the caches of the other chunk; the other chunk, left without columns and
caches by the moves, is destroyed.  The pair is (this chunk, other chunk). -/
def DataChunk.Move (d chunk : DataChunk) : DataChunk × DataChunk :=
  ({ d.SetCardinality chunk.size with
       data := chunk.data, vector_caches := chunk.vector_caches },
   ({ chunk with data := [], vector_caches := [] }).Destroy)

/-- The test result.GetType().id() == LogicalTypeId::HASH of line 211. -/
def LogicalType.isHash : LogicalType → Bool
  | .HASH => true
  | _ => false

/-- The hash kernels VectorOperations::Hash(input, result, count) and
VectorOperations::CombineHash(hashes, input, count) are not among the sources
and the spec gives no formula for them; DataChunk::Hash is embedded over
arbitrary kernels, each returning the new contents of its result vector. -/
structure HashKernels where
  Hash : Vector → Vector → Nat → Vector
  CombineHash : Vector → Vector → Nat → Vector

/-- The column loop of DataChunk::Hash (lines 213-215), from column index i on,
for the given number of remaining iterations. -/
def DataChunk.Hash.loop (ops : HashKernels) (data : List Vector) (size : Nat) :
    (remaining : Nat) → (i : Nat) → Vector → Vector
  | 0, _, result => result
  | n + 1, i, result =>
      match data[i]? with
      | some column => DataChunk.Hash.loop ops data size n (i + 1) (ops.CombineHash result column size)
      | none => result

/-- DataChunk::Hash (lines 210-216): the final contents of the result vector.
Reading data[0] of a chunk without columns is undefined in the source and is a
failure here. -/
def DataChunk.Hash (ops : HashKernels) (d : DataChunk) (result : Vector) : Result Vector :=
  if ¬ result.GetType.isHash then ⟨result, some .Assertion⟩
  else
    match d.data[0]? with
    | none => ⟨result, some .Assertion⟩
    | some column =>
        ⟨DataChunk.Hash.loop ops d.data d.size (d.ColumnCount - 1) 1
          (ops.Hash column result d.size), none⟩

/-- A pair of hash kernels used as a concrete input: the hash of a row is the
number its value holds (0 for NULL), the combination multiplies the hash so far
by 31 and adds the hash of the row. -/
def HashKernels.sample : HashKernels where
  Hash := fun input _ _ =>
    .flat .HASH .owned (fun _ => true)
      (fun i => match input.GetValue i with
        | some (.fixed bits) => .fixed bits
        | _ => .fixed 0)
  CombineHash := fun hashes input _ =>
    .flat .HASH .owned (fun _ => true)
      (fun i => match hashes.GetValue i, input.GetValue i with
        | some (.fixed h), some (.fixed bits) => .fixed (31 * h + bits)
        | some (.fixed h), _ => .fixed (31 * h)
        | _, _ => .fixed 0)

/-! The export to the Arrow C data interface (lines 232-628).

The export reads the storage of the columns after Normalify(): validity masks,
value slots, list entries and child vectors, through the accessors FlatVector,
ListVector and StructVector.  The row-level type Vector above has no nested
storage, so the export is embedded over FlatVector, the storage of a flat
vector.  Pointers are embedded by what they point to. -/

/-- Modelled from the spec: list_entry_t, the "(offset, length)" entry of a
list vector. -/
structure list_entry_t where
  offset : Nat
  length : Nat
  deriving DecidableEq, Repr

/-- Modelled from the spec: ValidityMask, "a bitmap where bit i = 1 means row i
is non-null.  Absent bitmap => all valid". -/
structure ValidityMask where
  validity_mask : Option (Nat → Bool)

/-- Modelled from the spec: RowIsValid, bit row_idx of the bitmap; every row is
valid when the bitmap is absent. -/
def ValidityMask.RowIsValid (mask : ValidityMask) (row_idx : Nat) : Bool :=
  match mask.validity_mask with
  | none => true
  | some bits => bits row_idx

/-- Modelled from the spec: AllValid, which takes no row count: the bitmap is
absent ("absent bitmap => all valid").  A mask that has a bitmap is not
AllValid, whatever its bits are (line 275: "might have nulls"). -/
def ValidityMask.AllValid (mask : ValidityMask) : Bool :=
  mask.validity_mask.isNone

/-- Modelled from the spec: CheckAllValid(to, from): every row of
[from, to) is valid. -/
def ValidityMask.CheckAllValid (mask : ValidityMask) (to_idx from_idx : Nat) : Bool :=
  (List.range (to_idx - from_idx)).all (fun k => mask.RowIsValid (from_idx + k))

mutual
/-- Modelled from the spec: the storage of a flat vector: fixed-width slots
(each slot is the bit pattern it holds), strings, a list vector ("a flat vector
of (offset, length) entries pointing into a single child vector; the child's
logical length is independent of the parent's row count") or a struct vector
("an ordered list of child vectors").  A map is a struct of two list vectors
(lines 564-566). -/
inductive FlatVector where
  | fixed (validity : ValidityMask) (data : Nat → Nat)
  | strings (validity : ValidityMask) (data : Nat → List Nat)
  | list (validity : ValidityMask) (data : Nat → list_entry_t) (child : FlatVector)
      (list_size : Nat)
  | struct (validity : ValidityMask) (children : FlatVectorList)
/-- Modelled from the spec: the child vectors of a struct vector. -/
inductive FlatVectorList where
  | nil
  | cons (head : FlatVector) (tail : FlatVectorList)
end

/-- Modelled from the spec: FlatVector::Validity(vector). -/
def FlatVector.Validity : FlatVector → ValidityMask
  | .fixed validity _ => validity
  | .strings validity _ => validity
  | .list validity _ _ _ => validity
  | .struct validity _ => validity

/-- Modelled from the spec: FlatVector::GetData(vector) of a vector of
fixed-width slots: the bit pattern of every slot.  Reading the slots of another
storage through this accessor is not modelled (it reads zeros). -/
def FlatVector.GetData : FlatVector → Nat → Nat
  | .fixed _ data => data
  | _ => fun _ => 0

/-- Modelled from the spec: FlatVector::GetData<string_t>(vector): the bytes of
the string of every row. -/
def FlatVector.GetStrings : FlatVector → Nat → List Nat
  | .strings _ data => data
  | _ => fun _ => []

/-- The number of children of a struct vector (StructVector::GetEntries(v).size()). -/
def FlatVectorList.size : FlatVectorList → Nat
  | .nil => 0
  | .cons _ tail => tail.size + 1

/-- Modelled from the spec: StructType::GetChildType(type, index) on the
fields of a struct type. -/
def ChildTypes.get? : ChildTypes → Nat → Option LogicalType
  | .nil, _ => none
  | .cons _ type _, 0 => some type
  | .cons _ _ rest, i + 1 => rest.get? i

/-- Modelled from the spec: the physical types ("the width/shape of stored
values"). -/
inductive PhysicalType where
  | BOOL | UINT8 | INT8 | UINT16 | INT16 | UINT32 | INT32 | UINT64 | INT64 | INT128
  | FLOAT | DOUBLE | INTERVAL | VARCHAR | LIST | STRUCT | MAP | INVALID
  deriving DecidableEq, Repr

/-- Modelled from the spec: LogicalType::InternalType(); a decimal is "stored
in one of four integer widths", chosen by its width. -/
def LogicalType.InternalType : LogicalType → PhysicalType
  | .BOOLEAN => .BOOL
  | .TINYINT => .INT8
  | .UTINYINT => .UINT8
  | .SMALLINT => .INT16
  | .USMALLINT => .UINT16
  | .INTEGER | .DATE | .SQLNULL => .INT32
  | .UINTEGER => .UINT32
  | .BIGINT | .TIME | .TIMESTAMP_SEC | .TIMESTAMP_MS | .TIMESTAMP | .TIMESTAMP_NS => .INT64
  | .UBIGINT | .HASH => .UINT64
  | .HUGEINT => .INT128
  | .FLOAT => .FLOAT
  | .DOUBLE => .DOUBLE
  | .DECIMAL width _ =>
      if width ≤ 4 then .INT16 else if width ≤ 9 then .INT32
      else if width ≤ 18 then .INT64 else if width ≤ 38 then .INT128 else .INVALID
  | .INTERVAL => .INTERVAL
  | .VARCHAR | .BLOB => .VARCHAR
  | .LIST _ => .LIST
  | .STRUCT _ => .STRUCT
  | .MAP _ => .MAP

/-- The value of a slot of the given width in bits read as a signed
(two's complement) integer. -/
def signedOfBits (width bits : Nat) : Int :=
  if bits % 2 ^ width < 2 ^ (width - 1) then (bits % 2 ^ width : Nat)
  else (bits % 2 ^ width : Nat) - (2 ^ width : Nat)

/-- The bit pattern an integer has when stored in width bits (the conversion
to an unsigned or to a wider signed integer type). -/
def bitsOfInt (width : Nat) (value : Int) : Nat :=
  (value % ((2 ^ width : Nat) : Int)).toNat

/-- What a buffer pointer of an exported array points to: nothing, the bitmap
of a validity mask (mask.GetData()), the value buffer of the source vector
(FlatVector::GetData, aliased), or one of the two allocations of the holder of
the array (child_holder.offsets.get(), child_holder.data.get()). -/
inductive BufferPtr where
  | nullptr
  | validity (bits : Nat → Bool)
  | vector_data (data : Nat → Nat)
  | offsets
  | data

/-- The ArrowArray struct of the Arrow C data interface (arrow.hpp is not
among the sources).  buffers holds what the member buffers points to, the
buffers member of the holder of the array (empty while the pointer is null);
the member children points to the arrays of the children of the holder.
dictionary, release and private_data record whether the pointer is set. -/
structure ArrowArray where
  length : Int
  null_count : Int
  offset : Int
  n_buffers : Int
  n_children : Int
  buffers : List BufferPtr
  dictionary : Bool
  release : Bool
  private_data : Bool

/-- DuckDBArrowArrayChildHolder (lines 232-242): the array, the retained source
vector, the allocations offsets and data (the elements they hold), and the
holders of the children.  The members buffers and children_ptrs are what the
pointers of the array point to. -/
inductive DuckDBArrowArrayChildHolder where
  | mk (array : ArrowArray) (vector : Option FlatVector) (offsets : Option (List Nat))
      (data : Option (List Nat)) (children : List DuckDBArrowArrayChildHolder)

/-- The member array of a holder. -/
def DuckDBArrowArrayChildHolder.array : DuckDBArrowArrayChildHolder → ArrowArray
  | .mk array _ _ _ _ => array

/-- The member vector of a holder. -/
def DuckDBArrowArrayChildHolder.vector : DuckDBArrowArrayChildHolder → Option FlatVector
  | .mk _ vector _ _ _ => vector

/-- The member offsets of a holder. -/
def DuckDBArrowArrayChildHolder.offsets : DuckDBArrowArrayChildHolder → Option (List Nat)
  | .mk _ _ offsets _ _ => offsets

/-- The member data of a holder. -/
def DuckDBArrowArrayChildHolder.data : DuckDBArrowArrayChildHolder → Option (List Nat)
  | .mk _ _ _ data _ => data

/-- The member children of a holder. -/
def DuckDBArrowArrayChildHolder.children :
    DuckDBArrowArrayChildHolder → List DuckDBArrowArrayChildHolder
  | .mk _ _ _ _ children => children

/-- The holder with another array. -/
def DuckDBArrowArrayChildHolder.setArray (h : DuckDBArrowArrayChildHolder)
    (array : ArrowArray) : DuckDBArrowArrayChildHolder :=
  .mk array h.vector h.offsets h.data h.children

/-- A holder as children.resize(n) makes it: every member zero or empty. -/
def DuckDBArrowArrayChildHolder.new : DuckDBArrowArrayChildHolder :=
  .mk ⟨0, 0, 0, 0, 0, [], false, false, false⟩ none none none []

/-- DuckDBArrowArrayHolder (lines 244-248), the root holder: the holders of the
columns; its one buffer is null. -/
structure DuckDBArrowArrayHolder where
  children : List DuckDBArrowArrayChildHolder

/-- Freshly allocated memory of n elements; uninit gives the unspecified
contents an allocation starts with. -/
def allocate (uninit : Nat → Nat) (n : Nat) : List Nat :=
  (List.range n).map uninit

/-- The memcpy of line 537: the bytes of source written into target from
position pos on.  Bytes written past the end of the target are undefined in
the source and a failure (none) here. -/
def memcpy (target : List Nat) (pos : Nat) (source : List Nat) : Option (List Nat) :=
  if pos + source.length ≤ target.length then
    some (target.take pos ++ source ++ target.drop (pos + source.length))
  else none

/-- InitializeChild (lines 259-270). -/
def InitializeChild (child_holder : DuckDBArrowArrayChildHolder) (size : Nat) :
    DuckDBArrowArrayChildHolder :=
  child_holder.setArray
    { child_holder.array with
        private_data := false, release := true, n_children := 0, null_count := 0,
        offset := 0, dictionary := false,
        buffers := [.nullptr, .nullptr, .nullptr], length := size }

/-- Modelled from the spec: mask.GetData(), the pointer to the bitmap, null
when the bitmap is absent. -/
def ValidityMask.GetData (mask : ValidityMask) : BufferPtr :=
  match mask.validity_mask with
  | none => .nullptr
  | some bits => .validity bits

/-- SetChildValidityMask (lines 272-282). -/
def SetChildValidityMask (vector : FlatVector) (child : ArrowArray) : ArrowArray :=
  let mask := vector.Validity
  { child with
      null_count := if !mask.AllValid then -1 else 0,
      buffers := child.buffers.set 0 mask.GetData }

/-- Modelled from the spec: FlatVector::GetData<list_entry_t>(vector), the
entries of a list vector (zeros for another storage, which is not modelled). -/
def FlatVector.GetListData : FlatVector → Nat → list_entry_t
  | .list _ data _ _ => data
  | _ => fun _ => ⟨0, 0⟩

/-- Modelled from the spec: ListVector::GetListSize(vector), the logical
length of the child of a list vector. -/
def ListVector.GetListSize : FlatVector → Option Nat
  | .list _ _ _ list_size => some list_size
  | _ => none

/-- Modelled from the spec: StructType::GetChildTypes(type). -/
def StructType.GetChildTypes : LogicalType → Option ChildTypes
  | .STRUCT children => some children
  | .MAP children => some children
  | _ => none

/-- Modelled from the spec: ListType::GetChildType(type). -/
def ListType.GetChildType : LogicalType → Option LogicalType
  | .LIST child => some child
  | _ => none

/-- The bit-packing loop of the BOOLEAN case (lines 406-419), for the given
number of remaining rows from row_idx on. -/
def SetArrowChild.booleans (source_ptr : Nat → Nat) :
    (rows : Nat) → (row_idx : Nat) → (target_ptr : List Nat) → (target_pos cur_bit : Nat) →
      List Nat
  | 0, _, target_ptr, _, _ => target_ptr
  | n + 1, row_idx, target_ptr, target_pos, cur_bit =>
      let target_pos := if cur_bit = 8 then target_pos + 1 else target_pos
      let cur_bit := if cur_bit = 8 then 0 else cur_bit
      let byte := target_ptr.getD target_pos 0
      let byte :=
        if source_ptr row_idx % 256 = 0 then byte &&& (255 ^^^ (1 <<< cur_bit))
        else byte ||| (1 <<< cur_bit)
      SetArrowChild.booleans source_ptr n (row_idx + 1) (target_ptr.set target_pos byte)
        target_pos (cur_bit + 1)

/-- The conversion loop of the TIME case (lines 454-456): microseconds (a
signed 64-bit slot) divided by 1000, truncating, stored as uint32. -/
def SetArrowChild.times (source_ptr : Nat → Nat) (size : Nat) : List Nat :=
  (List.range size).map
    (fun row_idx => bitsOfInt 32 ((signedOfBits 64 (source_ptr row_idx)).tdiv 1000))

/-- The widening loops of the DECIMAL case (lines 471-473, 481-483, 491-493):
the signed slot of the given width stored as a 128-bit integer. -/
def SetArrowChild.decimals (width : Nat) (source_ptr : Nat → Nat) (size : Nat) : List Nat :=
  (List.range size).map
    (fun row_idx => bitsOfInt 128 (signedOfBits width (source_ptr row_idx)))

/-- Step 1 of the VARCHAR case (lines 514-522): the total length of the valid
strings, for the given number of remaining rows from row_idx on. -/
def SetArrowChild.stringLength (string_t_ptr : Nat → List Nat) (mask : ValidityMask) :
    (rows : Nat) → (row_idx : Nat) → (total_string_length : Nat) → Nat
  | 0, _, total_string_length => total_string_length
  | n + 1, row_idx, total_string_length =>
      if !mask.RowIsValid row_idx then
        SetArrowChild.stringLength string_t_ptr mask n (row_idx + 1) total_string_length
      else
        SetArrowChild.stringLength string_t_ptr mask n (row_idx + 1)
          (total_string_length + (string_t_ptr row_idx).length)

/-- Step 3 of the VARCHAR case (lines 531-539): the offsets (uint32), the heap
and the heap offset after the given number of remaining rows from row_idx on;
none when a memcpy writes past the end of the heap. -/
def SetArrowChild.strings (string_t_ptr : Nat → List Nat) (mask : ValidityMask) :
    (rows : Nat) → (row_idx : Nat) → (target_ptr heap : List Nat) →
      (current_heap_offset : Nat) → Option (List Nat × List Nat × Nat)
  | 0, _, target_ptr, heap, current_heap_offset =>
      some (target_ptr, heap, current_heap_offset)
  | n + 1, row_idx, target_ptr, heap, current_heap_offset =>
      let target_ptr := target_ptr.set row_idx (current_heap_offset % 2 ^ 32)
      if !mask.RowIsValid row_idx then
        SetArrowChild.strings string_t_ptr mask n (row_idx + 1) target_ptr heap
          current_heap_offset
      else
        match memcpy heap current_heap_offset (string_t_ptr row_idx) with
        | none => none
        | some heap =>
            SetArrowChild.strings string_t_ptr mask n (row_idx + 1) target_ptr heap
              (current_heap_offset + (string_t_ptr row_idx).length)

/-- The VARCHAR case (lines 510-540): the offset array of size + 1 entries and
the heap, which is allocated with the total length step 1 computes; none when
step 3 writes past the end of the heap. -/
def SetArrowChild.varchar (uninit : Nat → Nat) (string_t_ptr : Nat → List Nat)
    (mask : ValidityMask) (size : Nat) : Option (List Nat × List Nat) :=
  let offsets := allocate uninit (size + 1)
  let total_string_length := SetArrowChild.stringLength string_t_ptr mask size 0 0
  let heap := allocate uninit total_string_length
  match SetArrowChild.strings string_t_ptr mask size 0 offsets heap 0 with
  | none => none
  | some r => some (r.1.set size (r.2.2 % 2 ^ 32), r.2.1)

/-- The offset loop of SetList (lines 301-312) and of the MAP case (lines
569-575, where the mask is the validity of the map itself): offset_ptr after
the given number of remaining rows from row i on.  Without a mask every row
advances the offset. -/
def SetList.offsets (list_data : Nat → list_entry_t) (parent_mask : Option ValidityMask) :
    (rows : Nat) → (i : Nat) → (offset_ptr : List Nat) → (offset : Nat) → List Nat
  | 0, _, offset_ptr, _ => offset_ptr
  | n + 1, i, offset_ptr, offset =>
      let le := list_data i
      let offset :=
        match parent_mask with
        | some mask => if mask.RowIsValid i then offset + le.length else offset
        | none => offset + le.length
      SetList.offsets list_data parent_mask n (i + 1)
        (offset_ptr.set (i + 1) (offset % 2 ^ 32)) offset

/-- The offset array of a list or map of size rows (lines 295-312): size + 1
entries, entry 0 set to 0, then the loop. -/
def SetList.offsetArray (uninit : Nat → Nat) (list_data : Nat → list_entry_t)
    (parent_mask : Option ValidityMask) (size : Nat) : List Nat :=
  SetList.offsets list_data parent_mask size 0 ((allocate uninit (size + 1)).set 0 0) 0

/-- The check of the keys of a map (lines 373-382): some row of the first size
rows has a null in the range of its key list. -/
def SetStructMap.hasNullKey (list_child_validity : ValidityMask)
    (list_offsets : Nat → list_entry_t) (size : Nat) : Bool :=
  !list_child_validity.AllValid &&
    (List.range size).any (fun list_idx =>
      let offset := list_offsets list_idx
      !list_child_validity.CheckAllValid (offset.length + offset.offset) offset.offset)

mutual
/-- SetArrowChild (lines 391-586) with SetList (lines 287-324), SetStruct
(lines 326-347) and SetStructMap (lines 349-389) in the cases that call them:
the holder after the call.  uninit gives the contents of fresh allocations.  A
vector whose storage is not the one of the type (the accessors ListVector and
StructVector assert it) is a failure. -/
def SetArrowChild (uninit : Nat → Nat) (child_holder : DuckDBArrowArrayChildHolder)
    (type : LogicalType) (data : FlatVector) (size : Nat)
    (parent_mask : Option ValidityMask) : Except Exception DuckDBArrowArrayChildHolder :=
  match child_holder with
  | .mk child _ holder_offsets holder_data holder_children =>
    match type with
    | .BOOLEAN =>
        let num_bytes := (size + 8 - 1) / 8
        let target := SetArrowChild.booleans data.GetData size 0 (allocate uninit num_bytes) 0 0
        .ok (.mk { child with n_buffers := 2, buffers := child.buffers.set 1 .data }
          (some data) holder_offsets (some target) holder_children)
    | .TINYINT | .SMALLINT | .INTEGER | .BIGINT | .UTINYINT | .USMALLINT | .UINTEGER
    | .UBIGINT | .FLOAT | .DOUBLE | .HUGEINT | .DATE | .TIMESTAMP | .TIMESTAMP_MS
    | .TIMESTAMP_NS | .TIMESTAMP_SEC =>
        .ok (.mk { child with n_buffers := 2,
                              buffers := child.buffers.set 1 (.vector_data data.GetData) }
          (some data) holder_offsets holder_data holder_children)
    | .SQLNULL =>
        .ok (.mk { child with n_buffers := 1 } child_holder.vector holder_offsets holder_data
          holder_children)
    | .TIME =>
        let target := SetArrowChild.times data.GetData size ++ [uninit size]
        .ok (.mk { child with n_buffers := 2, buffers := child.buffers.set 1 .data }
          (some data) holder_offsets (some target) holder_children)
    | .DECIMAL width scale =>
        match (LogicalType.DECIMAL width scale).InternalType with
        | .INT16 =>
            .ok (.mk { child with n_buffers := 2, buffers := child.buffers.set 1 .data }
              (some data) holder_offsets (some (SetArrowChild.decimals 16 data.GetData size))
              holder_children)
        | .INT32 =>
            .ok (.mk { child with n_buffers := 2, buffers := child.buffers.set 1 .data }
              (some data) holder_offsets (some (SetArrowChild.decimals 32 data.GetData size))
              holder_children)
        | .INT64 =>
            .ok (.mk { child with n_buffers := 2, buffers := child.buffers.set 1 .data }
              (some data) holder_offsets (some (SetArrowChild.decimals 64 data.GetData size))
              holder_children)
        | .INT128 =>
            .ok (.mk { child with n_buffers := 2,
                                  buffers := child.buffers.set 1 (.vector_data data.GetData) }
              (some data) holder_offsets holder_data holder_children)
        | _ => .error .UnsupportedDecimalType
    | .VARCHAR =>
        match SetArrowChild.varchar uninit data.GetStrings data.Validity size with
        | none => .error .IndexOutOfBounds
        | some r =>
            .ok (.mk { child with n_buffers := 3,
                                  buffers := (child.buffers.set 1 .offsets).set 2 .data }
              (some data) (some r.1) (some r.2) holder_children)
    | .LIST child_type =>
        match data with
        | .list list_mask list_data child_vector list_size =>
            let offsets := SetList.offsetArray uninit list_data parent_mask size
            match SetArrowChild uninit (InitializeChild .new list_size) child_type child_vector
                list_size (some list_mask) with
            | .error e => .error e
            | .ok c =>
                .ok (.mk { child with n_buffers := 2, buffers := child.buffers.set 1 .offsets,
                                      n_children := 1 }
                  (some data) (some offsets) holder_data
                  [c.setArray (SetChildValidityMask child_vector c.array)])
        | _ => .error .Assertion
    | .STRUCT child_types =>
        match data with
        | .struct struct_mask children =>
            match SetStruct.loop uninit child_types size struct_mask children 0 with
            | .error e => .error e
            | .ok holders =>
                .ok (.mk { child with n_buffers := 1, n_children := children.size }
                  (some data) holder_offsets holder_data holders)
        | _ => .error .Assertion
    | .MAP child_types =>
        match data with
        | .struct map_mask struct_children =>
            match struct_children with
            | .nil => .error .Assertion
            | .cons keys _ =>
                let offsets := SetList.offsetArray uninit keys.GetListData (some map_mask) size
                match ListVector.GetListSize keys with
                | none => .error .Assertion
                | some list_size =>
                    match SetStructMap.loop uninit child_types size list_size map_mask
                        struct_children 0 with
                    | .error e => .error e
                    | .ok holders =>
                        let struct_child : DuckDBArrowArrayChildHolder :=
                          .mk { (InitializeChild .new size).array with
                                  n_buffers := 1, n_children := struct_children.size,
                                  length := list_size }
                            (some data) none none holders
                        .ok (.mk { child with n_buffers := 2, n_children := 1,
                                              buffers := child.buffers.set 1 .offsets }
                          (some data) (some offsets) holder_data [struct_child])
        | _ => .error .Assertion
    | _ => .error .UnsupportedType

/-- The child loop of SetStruct (lines 341-346), from child child_idx on: the
holders of these children, each initialized with size rows (lines 336-339). -/
def SetStruct.loop (uninit : Nat → Nat) (child_types : ChildTypes) (size : Nat)
    (struct_mask : ValidityMask) :
    FlatVectorList → Nat → Except Exception (List DuckDBArrowArrayChildHolder)
  | .nil, _ => .ok []
  | .cons child rest, child_idx =>
      match child_types.get? child_idx with
      | none => .error .Assertion
      | some child_type =>
          match SetArrowChild uninit (InitializeChild .new size) child_type child size
              (some struct_mask) with
          | .error e => .error e
          | .ok c =>
              match SetStruct.loop uninit child_types size struct_mask rest (child_idx + 1) with
              | .error e => .error e
              | .ok holders =>
                  .ok (c.setArray (SetChildValidityMask child c.array) :: holders)

/-- The child loop of SetStructMap (lines 367-388), from child child_idx on:
the holders of these children, each initialized with list_size rows (lines
361-364). -/
def SetStructMap.loop (uninit : Nat → Nat) (child_types : ChildTypes) (size list_size : Nat)
    (map_mask : ValidityMask) :
    FlatVectorList → Nat → Except Exception (List DuckDBArrowArrayChildHolder)
  | .nil, _ => .ok []
  | .cons (.list _ list_offsets list_vector_child _) rest, child_idx =>
      if child_idx = 0 ∧
          SetStructMap.hasNullKey list_vector_child.Validity list_offsets size then
        .error .NullKeyInMap
      else
        let holder := InitializeChild .new list_size
        let holder :=
          if child_idx = 0 then holder
          else holder.setArray (SetChildValidityMask list_vector_child holder.array)
        match (child_types.get? child_idx).bind ListType.GetChildType with
        | none => .error .Assertion
        | some child_type =>
            match SetArrowChild uninit holder child_type list_vector_child list_size
                (some map_mask) with
            | .error e => .error e
            | .ok c =>
                match SetStructMap.loop uninit child_types size list_size map_mask rest
                    (child_idx + 1) with
                | .error e => .error e
                | .ok holders => .ok (c :: holders)
  | .cons _ _, _ => .error .Assertion
end

/-- The column loop of DataChunk::ToArrowArray (lines 613-623): the holders of
the columns. -/
def DataChunk.ToArrowArray.columns (uninit : Nat → Nat) (size : Nat) :
    List (LogicalType × FlatVector) → Except Exception (List DuckDBArrowArrayChildHolder)
  | [] => .ok []
  | (type, data) :: rest =>
      match SetArrowChild uninit (InitializeChild .new size) type data size none with
      | .error e => .error e
      | .ok child_holder =>
          match child_holder.vector with
          | none => .error .NullPointer
          | some vector =>
              match DataChunk.ToArrowArray.columns uninit size rest with
              | .error e => .error e
              | .ok holders =>
                  .ok (child_holder.setArray (SetChildValidityMask vector child_holder.array)
                    :: holders)

/-- DataChunk::ToArrowArray (lines 587-628) on the chunk after Normalify()
(line 588): the chunk is given by its flat columns, each with its type
(GetTypes()), and its row count; the result is the array written to out_array
and the root holder its private_data points to. -/
def DataChunk.ToArrowArray (uninit : Nat → Nat) (columns : List (LogicalType × FlatVector))
    (size : Nat) : Except Exception (ArrowArray × DuckDBArrowArrayHolder) :=
  match DataChunk.ToArrowArray.columns uninit size columns with
  | .error e => .error e
  | .ok holders =>
      .ok ({ length := size, null_count := 0, offset := 0, n_buffers := 1,
             n_children := columns.length, buffers := [.nullptr], dictionary := false,
             release := true, private_data := true },
           { children := holders })

/-- The memory the release callback of an exported array works on: the root
holder the private_data of the array points to (none once it has been deleted)
and the number of times it has been deleted. -/
structure ExportHeap where
  holder : Option DuckDBArrowArrayHolder
  deleted : Nat

/-- ReleaseDuckDBArrowArray (lines 250-257) on a pointer to an array (none is
the null pointer) and the memory: the array and the memory after the call.
Deleting through a null private_data does nothing. -/
def ReleaseDuckDBArrowArray (array : Option ArrowArray) (heap : ExportHeap) :
    Option ArrowArray × ExportHeap :=
  match array with
  | none => (none, heap)
  | some a =>
      if !a.release then (some a, heap)
      else
        (some { a with release := false },
          if a.private_data then { holder := none, deleted := heap.deleted + 1 } else heap)

/-- The column "# buffers" of the layout table of the specification, by
logical type; none for a type the table has no row for. -/
def LogicalType.tableBuffers : LogicalType → Option Int
  | .BOOLEAN => some 2
  | .TINYINT | .SMALLINT | .INTEGER | .BIGINT | .UTINYINT | .USMALLINT | .UINTEGER
  | .UBIGINT | .FLOAT | .DOUBLE | .HUGEINT | .DATE | .TIMESTAMP | .TIMESTAMP_MS
  | .TIMESTAMP_NS | .TIMESTAMP_SEC => some 2
  | .SQLNULL => some 1
  | .TIME => some 2
  | .DECIMAL _ _ => some 2
  | .VARCHAR => some 3
  | .LIST _ => some 2
  | .STRUCT _ => some 1
  | .MAP _ => some 2
  | _ => none

mutual
/-- A type of the layout table of the specification, at every level of
nesting: the element type of a list and the field types of a struct or map are
types of the table too. -/
def LogicalType.inTable : LogicalType → Bool
  | .LIST child => child.inTable
  | .STRUCT children => children.inTable
  | .MAP children => children.inTable
  | type => type.tableBuffers.isSome
/-- Every field type is a type of the layout table. -/
def ChildTypes.inTable : ChildTypes → Bool
  | .nil => true
  | .cons _ type rest => type.inTable && rest.inTable
end

mutual
/-- The array of the holder, and the array of every nested child below it, has
the number of buffers the layout table gives for its type: the child of a list
for the element type, the children of a struct for the field types, the one
child of a map for a struct whose children are laid out for the element types
of the key and value lists. -/
def LogicalType.layout : LogicalType → DuckDBArrowArrayChildHolder → Bool
  | .LIST child, h =>
      decide (some h.array.n_buffers = (LogicalType.LIST child).tableBuffers) &&
        h.children.all (fun c => child.layout c)
  | .STRUCT children, h =>
      decide (some h.array.n_buffers = (LogicalType.STRUCT children).tableBuffers) &&
        children.layout h.children
  | .MAP children, h =>
      decide (some h.array.n_buffers = (LogicalType.MAP children).tableBuffers) &&
        h.children.all (fun s =>
          decide (some s.array.n_buffers = (LogicalType.STRUCT children).tableBuffers) &&
            children.mapLayout s.children)
  | type, h => decide (some h.array.n_buffers = type.tableBuffers)
/-- The holder is laid out for the element type of the list type. -/
def LogicalType.elementLayout : LogicalType → DuckDBArrowArrayChildHolder → Bool
  | .LIST child, h => child.layout h
  | _, _ => false
/-- The holders of the fields of a struct, each laid out for its field
type. -/
def ChildTypes.layout : ChildTypes → List DuckDBArrowArrayChildHolder → Bool
  | _, [] => true
  | .nil, _ :: _ => false
  | .cons _ type rest, h :: hs => type.layout h && rest.layout hs
/-- The holders of the children of a map, each laid out for the element type
of the list that is its field type. -/
def ChildTypes.mapLayout : ChildTypes → List DuckDBArrowArrayChildHolder → Bool
  | _, [] => true
  | .nil, _ :: _ => false
  | .cons _ type rest, h :: hs => type.elementLayout h && rest.mapLayout hs
end

mutual
/-- The column of the given type, or a nested child of it when it is a list or
struct column, has a logical type that is not in the layout table of the
specification. -/
def FlatVector.unsupported : FlatVector → LogicalType → Bool
  | .list _ _ child _, .LIST child_type => child.unsupported child_type
  | .struct _ children, .STRUCT child_types => children.unsupported child_types 0
  | _, type => type.tableBuffers.isNone
/-- One of the children of a struct column, from child child_idx on, or a nested
child of it, has a logical type that is not in the layout table. -/
def FlatVectorList.unsupported : FlatVectorList → ChildTypes → Nat → Bool
  | .nil, _, _ => false
  | .cons child rest, child_types, child_idx =>
      (match child_types.get? child_idx with
        | some child_type => child.unsupported child_type
        | none => false) ||
      rest.unsupported child_types (child_idx + 1)
end

/-- The byte length a row contributes to the heap of an exported string
column: the length of its string when the row is valid, else 0. -/
def validLength (string_t_ptr : Nat → List Nat) (mask : ValidityMask) (row_idx : Nat) : Nat :=
  if mask.RowIsValid row_idx then (string_t_ptr row_idx).length else 0

/-- The total byte length of the valid strings among the first n rows. -/
def validTotal (string_t_ptr : Nat → List Nat) (mask : ValidityMask) (n : Nat) : Nat :=
  ((List.range n).map (validLength string_t_ptr mask)).sum

/-- The length by which row i advances the offset of an exported list or map
column: the length of the entry of the row, or 0 when a mask is given and the
row is not valid in it. -/
def entryLength (list_data : Nat → list_entry_t) (parent_mask : Option ValidityMask)
    (i : Nat) : Nat :=
  match parent_mask with
  | some mask => if mask.RowIsValid i then (list_data i).length else 0
  | none => (list_data i).length

/-- The total of entryLength over the first n rows. -/
def entryTotal (list_data : Nat → list_entry_t) (parent_mask : Option ValidityMask)
    (n : Nat) : Nat :=
  ((List.range n).map (entryLength list_data parent_mask)).sum

/-! ODBC statement functions (tools/odbc/prepared.cpp).  The handle types, the
function WithStatementPrepared and the ODBC headers are not among the sources:
a function is embedded as the body that WithStatementPrepared runs on a
prepared statement, and it returns the return code with the statement it
leaves. -/

/-- The return codes SQL_SUCCESS and SQL_ERROR. -/
inductive SQLRETURN where
  | SQL_SUCCESS
  | SQL_ERROR
  deriving DecidableEq, Repr

/-- The C data type identifiers of value_type that the switch of
SQLBindParameter has a case for (lines 21-57); other is every other
identifier. -/
inductive SQL_C_TYPE where
  | SQL_C_CHAR | SQL_C_TINYINT | SQL_C_STINYINT | SQL_C_UTINYINT | SQL_C_SHORT | SQL_C_SSHORT
  | SQL_C_USHORT | SQL_C_SLONG | SQL_C_LONG | SQL_C_ULONG | SQL_C_SBIGINT | SQL_C_UBIGINT
  | SQL_C_FLOAT | SQL_C_DOUBLE | other
  deriving DecidableEq, Repr

/-- The values of input_output_type: SQL_PARAM_INPUT, or another one. -/
inductive SQL_PARAM_TYPE where
  | SQL_PARAM_INPUT
  | other
  deriving DecidableEq, Repr

/-- Modelled from the spec: duckdb::Value as SQLBindParameter builds it, a
value with its logical type: a signed or unsigned integer of the width of the
type, the bit pattern of a float or double, or the bytes of a string; null is
the value the default constructor makes.  (The name Value is the slot of the
chunk model above.) -/
inductive TypedValue where
  | null
  | VARCHAR (bytes : List Nat)
  | TINYINT (value : Int)
  | SMALLINT (value : Int)
  | USMALLINT (value : Int)
  | INTEGER (value : Int)
  | UINTEGER (value : Int)
  | BIGINT (value : Int)
  | UBIGINT (value : Int)
  | FLOAT (bits : Nat)
  | DOUBLE (bits : Nat)
  deriving DecidableEq, Repr

/-- The number an integer value holds. -/
def TypedValue.numeric : TypedValue → Option Int
  | .TINYINT value | .SMALLINT value | .USMALLINT value | .INTEGER value | .UINTEGER value
  | .BIGINT value | .UBIGINT value => some value
  | _ => none

/-- Modelled from the spec: Value::TINYINT(int8_t value); the argument is
converted to the parameter type, a signed 8-bit integer. -/
def Value.TINYINT (value : Int) : TypedValue := .TINYINT (signedOfBits 8 (bitsOfInt 8 value))

/-- Modelled from the spec: Value::SMALLINT(int16_t value). -/
def Value.SMALLINT (value : Int) : TypedValue := .SMALLINT (signedOfBits 16 (bitsOfInt 16 value))

/-- Modelled from the spec: Value::USMALLINT(uint16_t value). -/
def Value.USMALLINT (value : Int) : TypedValue := .USMALLINT (bitsOfInt 16 value)

/-- Modelled from the spec: Value::INTEGER(int32_t value). -/
def Value.INTEGER (value : Int) : TypedValue := .INTEGER (signedOfBits 32 (bitsOfInt 32 value))

/-- Modelled from the spec: Value::UINTEGER(uint32_t value). -/
def Value.UINTEGER (value : Int) : TypedValue := .UINTEGER (bitsOfInt 32 value)

/-- Modelled from the spec: Value::BIGINT(int64_t value). -/
def Value.BIGINT (value : Int) : TypedValue := .BIGINT (signedOfBits 64 (bitsOfInt 64 value))

/-- Modelled from the spec: Value::UBIGINT(uint64_t value). -/
def Value.UBIGINT (value : Int) : TypedValue := .UBIGINT (bitsOfInt 64 value)

/-- Modelled from the spec: Load<T>(ptr) for a type T of n bytes: the number
the first n bytes of the buffer hold, least significant byte first. -/
def Load (n : Nat) (dataptr : List Nat) : Nat :=
  ((List.range n).map (fun i => dataptr.getD i 0 % 256 * 256 ^ i)).sum

/-- Modelled from the spec: OdbcUtils::ReadString(ptr, len): the first len bytes
of the buffer, or the bytes before the first zero byte when len is negative
(SQL_NTS). -/
def OdbcUtils.ReadString (ptr : List Nat) (len : Int) : List Nat :=
  if len < 0 then ptr.takeWhile (fun b => b != 0) else ptr.take len.toNat

/-- OdbcBoundCol (duckdb_odbc.hpp is not among the sources): the four members
SQLBindCol writes; pointers are addresses. -/
structure OdbcBoundCol where
  type : Int
  ptr : Nat
  len : Int
  strlen_or_ind : Nat
  deriving DecidableEq, Repr

/-- The members of OdbcHandleStmt that the two functions use: n_param of the
prepared statement, params and bound_cols. -/
structure OdbcHandleStmt where
  n_param : Nat
  params : List TypedValue
  bound_cols : List OdbcBoundCol
  deriving DecidableEq, Repr

/-- The switch of SQLBindParameter (lines 21-57): the value read from the
parameter buffer, none in the default case. -/
def SQLBindParameter.res (value_type : SQL_C_TYPE) (parameter_value_ptr : List Nat)
    (buffer_length : Int) : Option TypedValue :=
  match value_type with
  | .SQL_C_CHAR => some (.VARCHAR (OdbcUtils.ReadString parameter_value_ptr buffer_length))
  | .SQL_C_TINYINT | .SQL_C_STINYINT =>
      some (Value.TINYINT (signedOfBits 8 (Load 1 parameter_value_ptr)))
  | .SQL_C_UTINYINT => some (Value.TINYINT (Load 1 parameter_value_ptr))
  | .SQL_C_SHORT | .SQL_C_SSHORT =>
      some (Value.SMALLINT (signedOfBits 16 (Load 2 parameter_value_ptr)))
  | .SQL_C_USHORT => some (Value.USMALLINT (Load 2 parameter_value_ptr))
  | .SQL_C_SLONG | .SQL_C_LONG =>
      some (Value.INTEGER (signedOfBits 32 (Load 4 parameter_value_ptr)))
  | .SQL_C_ULONG => some (Value.UINTEGER (Load 4 parameter_value_ptr))
  | .SQL_C_SBIGINT => some (Value.BIGINT (signedOfBits 64 (Load 8 parameter_value_ptr)))
  | .SQL_C_UBIGINT => some (Value.UBIGINT (Load 8 parameter_value_ptr))
  | .SQL_C_FLOAT => some (.FLOAT (Load 4 parameter_value_ptr))
  | .SQL_C_DOUBLE => some (.DOUBLE (Load 8 parameter_value_ptr))
  | .other => none

/-- SQLBindParameter (lines 5-68); the arguments parameter_type, column_size,
decimal_digits and str_len_or_ind_ptr are not used by the function and are left
out.  The index parameter_number - 1 is not checked against params in the
source (for parameter_number 0 it is -1, as size_t 2^64 - 1); an index past
the end is a failure here. -/
def SQLBindParameter (stmt : OdbcHandleStmt) (parameter_number : Nat)
    (input_output_type : SQL_PARAM_TYPE) (value_type : SQL_C_TYPE)
    (parameter_value_ptr : List Nat) (buffer_length : Int) :
    Except Exception (SQLRETURN × OdbcHandleStmt) :=
  if parameter_number > stmt.n_param then .ok (.SQL_ERROR, stmt)
  else if input_output_type ≠ .SQL_PARAM_INPUT then .ok (.SQL_ERROR, stmt)
  else
    match SQLBindParameter.res value_type parameter_value_ptr buffer_length with
    | none => .ok (.SQL_ERROR, stmt)
    | some res =>
        if idx_sub parameter_number 1 < stmt.params.length then
          .ok (.SQL_SUCCESS,
            { stmt with params := stmt.params.set (idx_sub parameter_number 1) res })
        else .error .IndexOutOfBounds

/-- The resize of a std::vector: the first n elements, filled up with value
initialized elements. -/
def resize (bound_cols : List OdbcBoundCol) (n : Nat) : List OdbcBoundCol :=
  bound_cols.take n ++ List.replicate (n - bound_cols.length) ⟨0, 0, 0, 0⟩

/-- SQLBindCol (lines 94-109).  The index col_nr_internal is not checked in the
source after the resize; an index past the end is a failure here. -/
def SQLBindCol (stmt : OdbcHandleStmt) (column_number : Nat) (target_type : Int)
    (target_value_ptr : Nat) (buffer_length : Int) (str_len_or_ind_ptr : Nat) :
    Except Exception (SQLRETURN × OdbcHandleStmt) :=
  let col_nr_internal := idx_sub column_number 1
  let bound_cols :=
    if col_nr_internal ≥ stmt.bound_cols.length then resize stmt.bound_cols col_nr_internal
    else stmt.bound_cols
  if col_nr_internal < bound_cols.length then
    .ok (.SQL_SUCCESS,
      { stmt with
          bound_cols := bound_cols.set col_nr_internal
            ⟨target_type, target_value_ptr, buffer_length, str_len_or_ind_ptr⟩ })
  else .error .IndexOutOfBounds

/-! NumPy result conversion (tools/pythonpkg/src/array_wrapper.cpp).  A numpy
array is represented by its length.  The values the conversion writes
(ConvertColumn and the conversions it calls, lines 12-311) and the member
requires_mask are not part of the model: a column records its type, whether
its arrays are allocated, how long they are and how many rows they hold. -/

/-- RawArrayWrapper: the length of the numpy array (a default py::array is
empty), whether the member data points to it (it is the null pointer until
Initialize), and the members type and count. -/
structure RawArrayWrapper where
  array : Nat
  data : Bool
  type : LogicalType
  count : Nat
  deriving DecidableEq

/-- The switch of the constructor RawArrayWrapper(type) (lines 330-391): the
member type_width in bytes (8 for a double and for a pointer); none is the
default case, which throws. -/
def RawArrayWrapper.type_width : LogicalType → Option Nat
  | .BOOLEAN => some 1
  | .UTINYINT => some 1
  | .USMALLINT => some 2
  | .UINTEGER => some 4
  | .UBIGINT => some 8
  | .TINYINT => some 1
  | .SMALLINT => some 2
  | .INTEGER => some 4
  | .BIGINT => some 8
  | .HUGEINT => some 8
  | .FLOAT => some 4
  | .DOUBLE => some 8
  | .DECIMAL _ _ => some 8
  | .TIMESTAMP | .TIMESTAMP_SEC | .TIMESTAMP_MS | .TIMESTAMP_NS | .DATE | .INTERVAL => some 8
  | .TIME => some 8
  | .VARCHAR => some 8
  | .BLOB => some 8
  | _ => none

/-- The constructor RawArrayWrapper(type) (lines 329-392): no array, a null
data pointer, count 0; it throws for a type its switch has no case for. -/
def RawArrayWrapper.new (type : LogicalType) : Except Exception RawArrayWrapper :=
  match RawArrayWrapper.type_width type with
  | none => .error .UnsupportedType
  | some _ => .ok ⟨0, false, type, 0⟩

/-- The switch of RawArrayWrapper::Initialize (lines 396-449): the dtype of the
array; none is the default case, which throws. -/
def RawArrayWrapper.dtype : LogicalType → Option String
  | .BOOLEAN => some "bool"
  | .TINYINT => some "int8"
  | .SMALLINT => some "int16"
  | .INTEGER => some "int32"
  | .BIGINT => some "int64"
  | .UTINYINT => some "uint8"
  | .USMALLINT => some "uint16"
  | .UINTEGER => some "uint32"
  | .UBIGINT => some "uint64"
  | .FLOAT => some "float32"
  | .HUGEINT | .DOUBLE | .DECIMAL _ _ => some "float64"
  | .TIMESTAMP | .TIMESTAMP_NS | .TIMESTAMP_MS | .TIMESTAMP_SEC | .DATE => some "datetime64[ns]"
  | .INTERVAL => some "timedelta64[ns]"
  | .TIME | .VARCHAR | .BLOB => some "object"
  | _ => none

/-- RawArrayWrapper::Initialize (lines 394-452): a new array of capacity
elements, to which data points. -/
def RawArrayWrapper.Initialize (w : RawArrayWrapper) (capacity : Nat) :
    Except Exception RawArrayWrapper :=
  match RawArrayWrapper.dtype w.type with
  | none => .error .UnsupportedType
  | some _ => .ok { w with array := capacity, data := true }

/-- RawArrayWrapper::Resize (lines 454-458): the array resized to new_capacity
elements, to which data points. -/
def RawArrayWrapper.Resize (w : RawArrayWrapper) (new_capacity : Nat) : RawArrayWrapper :=
  { w with array := new_capacity, data := true }

/-- ArrayWrapper: the data array and the mask array of one column (the member
requires_mask is not modelled). -/
structure ArrayWrapper where
  data : RawArrayWrapper
  mask : RawArrayWrapper
  deriving DecidableEq

/-- The constructor ArrayWrapper(type) (lines 460-463): a wrapper of the type
and a wrapper of booleans for the mask. -/
def ArrayWrapper.new (type : LogicalType) : Except Exception ArrayWrapper :=
  match RawArrayWrapper.new type with
  | .error e => .error e
  | .ok data =>
      match RawArrayWrapper.new .BOOLEAN with
      | .error e => .error e
      | .ok mask => .ok ⟨data, mask⟩

/-- ArrayWrapper::Initialize (lines 465-468). -/
def ArrayWrapper.Initialize (w : ArrayWrapper) (capacity : Nat) : Except Exception ArrayWrapper :=
  match w.data.Initialize capacity with
  | .error e => .error e
  | .ok data =>
      match w.mask.Initialize capacity with
      | .error e => .error e
      | .ok mask => .ok ⟨data, mask⟩

/-- ArrayWrapper::Resize (lines 470-473). -/
def ArrayWrapper.Resize (w : ArrayWrapper) (new_capacity : Nat) : ArrayWrapper :=
  ⟨w.data.Resize new_capacity, w.mask.Resize new_capacity⟩

/-- The switch of ArrayWrapper::Append on the type of the input (lines
485-564): the exception thrown before a row is written, if any: the one of the
default case (line 563) and, for a decimal, the one of the default case of
ConvertDecimal (lines 312-327) on its internal type. -/
def ArrayWrapper.Append.throws : LogicalType → Option Exception
  | .BOOLEAN | .TINYINT | .SMALLINT | .INTEGER | .BIGINT | .UTINYINT | .USMALLINT
  | .UINTEGER | .UBIGINT | .HUGEINT | .FLOAT | .DOUBLE => none
  | .DECIMAL width scale =>
      match (LogicalType.DECIMAL width scale).InternalType with
      | .INT16 | .INT32 | .INT64 | .INT128 => none
      | _ => some .NotImplementedException
  | .TIMESTAMP | .TIMESTAMP_SEC | .TIMESTAMP_MS | .TIMESTAMP_NS | .DATE | .TIME | .INTERVAL
  | .VARCHAR | .BLOB => none
  | _ => some .UnsupportedType

/-- ArrayWrapper::Append(current_offset, input, count) (lines 475-570): the
assertions on the two data pointers and on the type of the input (lines
478-480), the switch on the type, in which the rows current_offset, ...,
current_offset + count - 1 of the data array and of the mask array are written
(ConvertColumn, lines 252-271), then both counts grow by count.  A row past
the end of an array is not checked in the source and is a failure here. -/
def ArrayWrapper.Append (w : ArrayWrapper) (current_offset : Nat) (input : Vector)
    (count : Nat) : Except Exception ArrayWrapper :=
  if w.data.data = false then .error .Assertion
  else if w.mask.data = false then .error .Assertion
  else if input.GetType ≠ w.data.type then .error .Assertion
  else
    match ArrayWrapper.Append.throws input.GetType with
    | some e => .error e
    | none =>
        if 0 < count ∧
            (w.data.array < current_offset + count ∨ w.mask.array < current_offset + count)
        then .error .IndexOutOfBounds
        else .ok ⟨{ w.data with count := w.data.count + count },
                  { w.mask with count := w.mask.count + count }⟩

/-- NumpyResultConversion: the wrappers of the columns, count and capacity. -/
structure NumpyResultConversion where
  owned_data : List ArrayWrapper
  count : Nat
  capacity : Nat
  deriving DecidableEq

/-- The loop of NumpyResultConversion::Resize over the wrappers when capacity
is 0 (lines 599-601): every wrapper is initialized. -/
def NumpyResultConversion.Resize.loop (new_capacity : Nat) :
    List ArrayWrapper → Except Exception (List ArrayWrapper)
  | [] => .ok []
  | data :: rest =>
      match data.Initialize new_capacity with
      | .error e => .error e
      | .ok initialized =>
          match NumpyResultConversion.Resize.loop new_capacity rest with
          | .error e => .error e
          | .ok wrappers => .ok (initialized :: wrappers)

/-- NumpyResultConversion::Resize (lines 597-608). -/
def NumpyResultConversion.Resize (c : NumpyResultConversion) (new_capacity : Nat) :
    Except Exception NumpyResultConversion :=
  if c.capacity = 0 then
    match NumpyResultConversion.Resize.loop new_capacity c.owned_data with
    | .error e => .error e
    | .ok wrappers => .ok { c with owned_data := wrappers, capacity := new_capacity }
  else
    .ok { c with
            owned_data := c.owned_data.map (fun data => data.Resize new_capacity),
            capacity := new_capacity }

/-- The loop of the constructor of NumpyResultConversion (lines 591-593): one
wrapper per type. -/
def NumpyResultConversion.new.loop : List LogicalType → Except Exception (List ArrayWrapper)
  | [] => .ok []
  | type :: types =>
      match ArrayWrapper.new type with
      | .error e => .error e
      | .ok data =>
          match NumpyResultConversion.new.loop types with
          | .error e => .error e
          | .ok wrappers => .ok (data :: wrappers)

/-- The constructor NumpyResultConversion(types, initial_capacity) (lines
588-595): one wrapper per type, count 0, capacity 0, then Resize. -/
def NumpyResultConversion.new (types : List LogicalType) (initial_capacity : Nat) :
    Except Exception NumpyResultConversion :=
  match NumpyResultConversion.new.loop types with
  | .error e => .error e
  | .ok wrappers => (NumpyResultConversion.mk wrappers 0 0).Resize initial_capacity

/-- The column loop of NumpyResultConversion::Append (lines 614-616): wrapper
col_idx appends column col_idx of the chunk; a chunk with fewer columns than
wrappers is indexed past its columns. -/
def NumpyResultConversion.Append.loop (count chunk_size : Nat) :
    List ArrayWrapper → List Vector → Except Exception (List ArrayWrapper)
  | [], _ => .ok []
  | _ :: _, [] => .error .IndexOutOfBounds
  | data :: rest, column :: columns =>
      match data.Append count column chunk_size with
      | .error e => .error e
      | .ok appended =>
          match NumpyResultConversion.Append.loop count chunk_size rest columns with
          | .error e => .error e
          | .ok wrappers => .ok (appended :: wrappers)

/-- NumpyResultConversion::Append (lines 610-624), with the assertions of the
debug build. -/
def NumpyResultConversion.Append (c : NumpyResultConversion) (chunk : DataChunk) :
    Except Exception NumpyResultConversion :=
  match (if c.count + chunk.size > c.capacity then c.Resize (c.capacity * 2) else .ok c) with
  | .error e => .error e
  | .ok c =>
      match NumpyResultConversion.Append.loop c.count chunk.size c.owned_data chunk.data with
      | .error e => .error e
      | .ok wrappers =>
          let count := c.count + chunk.size
          if wrappers.all (fun data => data.data.count = count ∧ data.mask.count = count) then
            .ok { c with owned_data := wrappers, count := count }
          else .error .Assertion

/-- The state a conversion is in after its constructor and any number of
successful appends: the two arrays of every column are allocated with capacity
elements and its counts are the count of the conversion. -/
def NumpyResultConversion.Valid (c : NumpyResultConversion) : Prop :=
  ∀ data ∈ c.owned_data,
    data.data.array = c.capacity ∧ data.mask.array = c.capacity ∧
    data.data.count = c.count ∧ data.mask.count = c.count ∧
    data.data.data = true ∧ data.mask.data = true

/-- The types of the columns of a conversion. -/
def NumpyResultConversion.types (c : NumpyResultConversion) : List LogicalType :=
  c.owned_data.map (fun data => data.data.type)

/-! The binder (planner/binder.cpp, planner/binder.hpp).  Binders are shared
objects that point to their parent: a binder is an index into the list of the
binders created so far. -/

/-- Modelled from the spec: ColumnBinding (column_binding.hpp is not among the
sources): a table index and a column index, compared member by member. -/
structure ColumnBinding where
  table_index : Nat
  column_index : Nat
  deriving DecidableEq, Repr

/-- CorrelatedColumnInfo (binder.hpp, lines 34-47). -/
structure CorrelatedColumnInfo where
  binding : ColumnBinding
  type : LogicalType
  name : String
  depth : Nat

/-- CorrelatedColumnInfo::operator== (lines 44-46): the bindings are equal. -/
def CorrelatedColumnInfo.eq (info rhs : CorrelatedColumnInfo) : Bool :=
  info.binding == rhs.binding

/-- CommonTableExpressionInfo, as far as the binder looks into it: an identity
and whether query->node->type is RECURSIVE_CTE_NODE. -/
structure CommonTableExpressionInfo where
  id : Nat
  recursive : Bool
  deriving DecidableEq, Repr

/-- The members of Binder that the functions below use (binder.hpp): the CTE
bindings (an entry per bound name), the correlated columns, the member alias
(here subquery_alias), the parent, the count of bound tables and
inherit_ctes. -/
structure Binder where
  CTE_bindings : String → Option CommonTableExpressionInfo
  correlated_columns : List CorrelatedColumnInfo
  subquery_alias : String
  parent : Option Nat
  bound_tables : Nat
  inherit_ctes : Bool

/-- The constructor of Binder (binder.cpp, lines 18-33), as far as these members
go: no CTE bindings, no correlated columns, no alias, bound_tables 0. -/
def Binder.new (parent : Option Nat) (inherit_ctes : Bool) : Binder :=
  ⟨fun _ => none, [], "", parent, 0, inherit_ctes⟩

/-- Binder::CreateBinder (lines 14-16): the new binder is added to the binders
created so far; a binder that has a parent points to it. -/
def Binder.CreateBinder (binders : List Binder) (parent : Option Nat) (inherit_ctes : Bool) :
    List Binder :=
  binders ++ [Binder.new parent inherit_ctes]

/-- Binder::GenerateTableIndex (lines 227-232) on binder b: the index returned
and the binders after the call.  The recursion to the parent is bounded by
fuel; none is a recursion that ran out of fuel, or a parent that is not a
binder. -/
def Binder.GenerateTableIndex : (fuel : Nat) → List Binder → (b : Nat) →
    Option (Nat × List Binder)
  | 0, _, _ => none
  | fuel + 1, binders, b =>
      match binders[b]? with
      | none => none
      | some binder =>
          match binder.parent with
          | some parent => Binder.GenerateTableIndex fuel binders parent
          | none =>
              some (binder.bound_tables,
                binders.set b { binder with bound_tables := binder.bound_tables + 1 })

/-- The root of binder b: the binder without parent its parent chain ends
in. -/
def Binder.root : (fuel : Nat) → List Binder → (b : Nat) → Option Nat
  | 0, _, _ => none
  | fuel + 1, binders, b =>
      match binders[b]? with
      | none => none
      | some binder =>
          match binder.parent with
          | some parent => Binder.root fuel binders parent
          | none => some b

/-- The parent of every binder was created before the binder: every parent
chain is finite. -/
def Binder.WellFounded (binders : List Binder) : Prop :=
  ∀ (b : Nat) (binder : Binder) (parent : Nat),
    binders[b]? = some binder → binder.parent = some parent → parent < b

/-- A step in the life of a binder tree: a call of GenerateTableIndex on a
binder, or the creation of a binder below a parent (CreateBinder). -/
inductive BinderStep where
  | generate (b : Nat)
  | create (parent : Nat) (inherit_ctes : Bool)
  deriving DecidableEq, Repr

/-- The steps act on binders that exist when the step is made, n being the
number of binders before the first step. -/
def Binder.validSteps : Nat → List BinderStep → Bool
  | _, [] => true
  | n, .generate b :: steps => decide (b < n) && Binder.validSteps n steps
  | n, .create parent _ :: steps => decide (parent < n) && Binder.validSteps (n + 1) steps

/-- The number of calls of GenerateTableIndex among the steps. -/
def Binder.calls : List BinderStep → Nat
  | [] => 0
  | .generate _ :: steps => Binder.calls steps + 1
  | .create _ _ :: steps => Binder.calls steps

/-- The steps made one after the other: the indexes the calls of
GenerateTableIndex return, in the order of the calls, and the binders after the
last step.  A call has the number of binders as fuel. -/
def Binder.run : List Binder → List BinderStep → Option (List Nat × List Binder)
  | binders, [] => some ([], binders)
  | binders, .generate b :: steps =>
      match Binder.GenerateTableIndex binders.length binders b with
      | none => none
      | some r =>
          match Binder.run r.2 steps with
          | none => none
          | some rest => some (r.1 :: rest.1, rest.2)
  | binders, .create parent inherit_ctes :: steps =>
      Binder.run (Binder.CreateBinder binders (some parent) inherit_ctes) steps

/-- Binder::AddCTE (lines 194-202); info is a pointer, none the null
pointer. -/
def Binder.AddCTE (binder : Binder) (name : String) (info : Option CommonTableExpressionInfo) :
    Result Binder :=
  if info.isNone then ⟨binder, some .Assertion⟩
  else if name.isEmpty then ⟨binder, some .Assertion⟩
  else
    match binder.CTE_bindings name with
    | some _ => ⟨binder, some .BinderException⟩
    | none =>
        ⟨{ binder with
            CTE_bindings := fun n => if n = name then info else binder.CTE_bindings n }, none⟩

/-- Binder::FindCTE (lines 204-215) on binder b: the pointer returned (none the
null pointer).  The recursion to the parent is bounded by fuel; the outer none
is a recursion that ran out of fuel, or a parent that is not a binder. -/
def Binder.FindCTE : (fuel : Nat) → List Binder → (b : Nat) → (name : String) →
    (skip : Bool) → Option (Option CommonTableExpressionInfo)
  | 0, _, _, _, _ => none
  | fuel + 1, binders, b, name, skip =>
      match binders[b]? with
      | none => none
      | some binder =>
          match binder.CTE_bindings name with
          | some entry =>
              if !skip || entry.recursive then some (some entry)
              else
                match binder.parent with
                | some parent =>
                    if binder.inherit_ctes then
                      Binder.FindCTE fuel binders parent name (name == binder.subquery_alias)
                    else some none
                | none => some none
          | none =>
              match binder.parent with
              | some parent =>
                  if binder.inherit_ctes then
                    Binder.FindCTE fuel binders parent name (name == binder.subquery_alias)
                  else some none
              | none => some none

/-- Binder::AddCorrelatedColumn (lines 274-279). -/
def Binder.AddCorrelatedColumn (binder : Binder) (info : CorrelatedColumnInfo) : Binder :=
  if binder.correlated_columns.any (fun entry => entry.eq info) then binder
  else { binder with correlated_columns := binder.correlated_columns ++ [info] }

/-- Binder::MergeCorrelatedColumns (lines 268-272). -/
def Binder.MergeCorrelatedColumns (binder : Binder) (other : List CorrelatedColumnInfo) :
    Binder :=
  other.foldl Binder.AddCorrelatedColumn binder

/-! Concrete chunks used as inputs -/

/-- A flat vector that owns its storage and holds the given rows. -/
def Vector.ofValues (type : LogicalType) (rows : List Value) : Vector :=
  .flat type .owned (fun i => (rows.getD i none).isSome)
    (fun i => (rows.getD i none).getD Datum.unspecified)

/-- A chunk of one flat INTEGER column with the given rows. -/
def DataChunk.ofIntegers (rows : List Value) : DataChunk :=
  ⟨[Vector.ofValues .INTEGER rows], rows.length, []⟩

/-- A chunk of one flat INTEGER column with the given row count, all rows
holding 7. -/
def DataChunk.filled (count : Nat) : DataChunk :=
  ⟨[.flat .INTEGER .owned (fun _ => true) (fun _ => .fixed 7)], count, []⟩

/-- The chunk of the round-trip scenario of the spec: columns
[int32, varchar, boolean], rows (1,"a",true), (2,"bb",false), (NULL,"",true). -/
def DataChunk.mixed : DataChunk :=
  ⟨[Vector.ofValues .INTEGER [some (.fixed 1), some (.fixed 2), none],
    Vector.ofValues .VARCHAR [some (.varlen [97]), some (.varlen [98, 98]), some (.varlen [])],
    Vector.ofValues .BOOLEAN [some (.fixed 1), some (.fixed 0), some (.fixed 1)]], 3, []⟩

/-- A chunk made by Initialize([INTEGER, VARCHAR]) and used since: its columns
are sliced and its row count is 2. -/
def DataChunk.used : DataChunk :=
  (DataChunk.new.Initialize [.INTEGER, .VARCHAR]).state.Slice ⟨[1, 0]⟩ 2

/-- A chunk of two rows with the columns [INTEGER, VARCHAR]. -/
def DataChunk.pairs : DataChunk :=
  ⟨[Vector.ofValues .INTEGER [some (.fixed 1), none],
    Vector.ofValues .VARCHAR [some (.varlen [97]), some (.varlen [])]], 2, []⟩

/-- The string column ["", "hi", NULL, "world"] of the export scenario of the
spec; the slot of the null row holds the given bytes. -/
def FlatVector.scenarioStrings (slot : List Nat) : FlatVector :=
  .strings ⟨some (fun i => i != 2)⟩
    (fun i => [[], [104, 105], slot, [119, 111, 114, 108, 100]].getD i [])

/-- The list column [[1,2],[],NULL,[3]] of the export scenario of the spec,
over the child [1, 2, 3]; the slot of the null row holds the given entry. -/
def FlatVector.scenarioList (slot : list_entry_t) : FlatVector :=
  .list ⟨some (fun i => i != 2)⟩
    (fun i => [⟨0, 2⟩, ⟨2, 0⟩, slot, ⟨2, 1⟩].getD i ⟨0, 0⟩)
    (.fixed ⟨none⟩ (fun i => [1, 2, 3].getD i 0)) 3

/-- A map column of two rows, {1: 10, 2: 20} and {3: 30}: a struct of the list
of the keys and the list of the values. -/
def FlatVector.sampleMap : FlatVector :=
  .struct ⟨none⟩
    (.cons (.list ⟨none⟩ (fun i => [⟨0, 2⟩, ⟨2, 1⟩].getD i ⟨0, 0⟩)
        (.fixed ⟨none⟩ (fun i => [1, 2, 3].getD i 0)) 3)
      (.cons (.list ⟨none⟩ (fun i => [⟨0, 2⟩, ⟨2, 1⟩].getD i ⟨0, 0⟩)
          (.fixed ⟨none⟩ (fun i => [10, 20, 30].getD i 0)) 3)
        .nil))

/-- A chunk of two rows after Normalify, one column for every row of the layout
table: boolean, integer, time, decimal, string, list, struct (of a null and an
integer field) and map. -/
def DataChunk.exported : List (LogicalType × FlatVector) :=
  [(.BOOLEAN, .fixed ⟨none⟩ (fun i => i % 2)),
   (.INTEGER, .fixed ⟨some (fun i => i != 1)⟩ (fun i => i + 5)),
   (.TIME, .fixed ⟨none⟩ (fun i => 1000 * i + 999)),
   (.DECIMAL 4 1, .fixed ⟨none⟩ (fun _ => 65535)),
   (.VARCHAR, FlatVector.scenarioStrings [120]),
   (.LIST .INTEGER, FlatVector.scenarioList ⟨2, 0⟩),
   (.STRUCT (.cons "a" .SQLNULL (.cons "b" .INTEGER .nil)),
     .struct ⟨none⟩
       (.cons (.fixed ⟨some (fun _ => false)⟩ (fun _ => 0))
         (.cons (.fixed ⟨none⟩ (fun i => i)) .nil))),
   (.MAP (.cons "key" (.LIST .INTEGER) (.cons "value" (.LIST .INTEGER) .nil)),
     FlatVector.sampleMap)]

/-- A conversion of one INTEGER column that holds 3 rows in arrays of 4
elements. -/
def NumpyResultConversion.sample : NumpyResultConversion :=
  ⟨[⟨⟨4, true, .INTEGER, 3⟩, ⟨4, true, .BOOLEAN, 3⟩⟩], 3, 4⟩

/-- A map column of one row whose key list and value list have 2^32 elements
(key i is i, value i is i). -/
def FlatVector.hugeMap : FlatVector :=
  .struct ⟨none⟩
    (.cons (.list ⟨none⟩ (fun _ => ⟨0, 2 ^ 32⟩) (.fixed ⟨none⟩ (fun i => i)) (2 ^ 32))
      (.cons (.list ⟨none⟩ (fun _ => ⟨0, 2 ^ 32⟩) (.fixed ⟨none⟩ (fun i => i)) (2 ^ 32))
        .nil))

/-- The type map(integer, integer): a key field and a value field, each a
list. -/
def LogicalType.sampleMapType : LogicalType :=
  .MAP (.cons "key" (.LIST .INTEGER) (.cons "value" (.LIST .INTEGER) .nil))

/-- A map column of two rows, {1: 10, NULL: 20} and {3: 30}: the key at
position 1 of the child of the key list is null. -/
def FlatVector.nullKeyMap : FlatVector :=
  .struct ⟨none⟩
    (.cons (.list ⟨none⟩ (fun i => [⟨0, 2⟩, ⟨2, 1⟩].getD i ⟨0, 0⟩)
        (.fixed ⟨some (fun i => i != 1)⟩ (fun i => [1, 0, 3].getD i 0)) 3)
      (.cons (.list ⟨none⟩ (fun i => [⟨0, 2⟩, ⟨2, 1⟩].getD i ⟨0, 0⟩)
          (.fixed ⟨none⟩ (fun i => [10, 20, 30].getD i 0)) 3)
        .nil))

/-- The list-of-lists column [[[1], [2, 3]], NULL] of two rows: the outer
entries (0, 2) and the slot of the null row, over the inner list vector with
the entries (0, 1) and (1, 2), over the innermost child [1, 2, 3]. -/
def FlatVector.nestedList (slot : list_entry_t) : FlatVector :=
  .list ⟨some (fun i => i != 1)⟩ (fun i => [⟨0, 2⟩, slot].getD i ⟨0, 0⟩)
    (.list ⟨none⟩ (fun i => [⟨0, 1⟩, ⟨1, 2⟩].getD i ⟨0, 0⟩)
      (.fixed ⟨none⟩ (fun i => [1, 2, 3].getD i 0)) 3) 2

/-- The column [10, 20, 30, 40, 50] of the slice scenario of the spec, as a
chunk of one flat INTEGER column. -/
def DataChunk.scenario : DataChunk :=
  DataChunk.ofIntegers
    [some (.fixed 10), some (.fixed 20), some (.fixed 30), some (.fixed 40), some (.fixed 50)]

/-! Lemmas on the modelled vector operations -/

theorem idx_sub_of_le {a b : Nat} (h : b ≤ a) : idx_sub a b = a - b := by
  simp [idx_sub, h]

theorem Vector.flat_cases (v : Vector) (h : v.GetVectorType = .FLAT_VECTOR) :
    ∃ t b validity data, v = .flat t b validity data := by
  cases v <;> simp [Vector.GetVectorType] at h
  exact ⟨_, _, _, _, rfl⟩

theorem VectorOperations.Copy_GetValue_before (s v : Vector) (cnt src tgt i : Nat)
    (h : i < tgt) :
    (VectorOperations.Copy.write s v cnt src tgt).GetValue i = v.GetValue i := by
  have hn : ¬ (tgt ≤ i ∧ i - tgt < cnt - src) := by omega
  cases v <;> simp only [VectorOperations.Copy.write, Vector.GetValue, if_neg hn]

theorem VectorOperations.Copy_GetValue_copied (s v : Vector) (cnt src tgt j : Nat)
    (hflat : v.GetVectorType = .FLAT_VECTOR) (h : j < cnt - src) :
    (VectorOperations.Copy.write s v cnt src tgt).GetValue (tgt + j) = s.GetValue (src + j) := by
  obtain ⟨t, b, validity, data, rfl⟩ := v.flat_cases hflat
  simp only [VectorOperations.Copy.write, Vector.GetValue]
  have h1 : tgt ≤ tgt + j ∧ tgt + j - tgt < cnt - src := by
    constructor
    · omega
    · simpa using h
  simp only [if_pos h1, Nat.add_sub_cancel_left]
  have hlt : ¬ cnt ≤ j + src := by omega
  cases s.GetValue (src + j) <;> simp [h, hlt]

/-- A copy into a target of the type of the source that has storage writes the
rows. -/
theorem VectorOperations.Copy_ok (s v : Vector) (cnt src tgt : Nat)
    (htype : s.GetType = v.GetType) (hstorage : v.hasStorage = true) :
    VectorOperations.Copy s v cnt src tgt = .ok (VectorOperations.Copy.write s v cnt src tgt) := by
  simp [VectorOperations.Copy, htype, hstorage]

theorem DataChunk.Append_loop_flat (n k : Nat) :
    ∀ (os vs : List Vector), os.map Vector.GetType = vs.map Vector.GetType →
      (∀ v ∈ vs, v.GetVectorType = .FLAT_VECTOR) →
      (∀ v ∈ vs, v.hasStorage = true) →
      DataChunk.Append.loop n k os vs
        = (List.zipWith (fun o v => VectorOperations.Copy.write o v n 0 k) os vs, none)
  | [], [], _, _, _ => by simp [DataChunk.Append.loop]
  | [], _ :: _, h, _, _ => by simp at h
  | _ :: _, [], h, _, _ => by simp at h
  | o :: os, v :: vs, h, hf, hs => by
      have hv : v.GetVectorType = .FLAT_VECTOR := hf v (by simp)
      simp only [List.map_cons, List.cons.injEq] at h
      have ih := DataChunk.Append_loop_flat n k os vs h.2
        (fun w hw => hf w (by simp [hw])) (fun w hw => hs w (by simp [hw]))
      simp [DataChunk.Append.loop, hv, ih,
        VectorOperations.Copy_ok o v n 0 k h.1 (hs v (by simp))]

theorem DataChunk.Copy_loop_flat (n k : Nat) :
    ∀ (srcs dsts : List Vector), srcs.map Vector.GetType = dsts.map Vector.GetType →
      (∀ v ∈ dsts, v.GetVectorType = .FLAT_VECTOR) →
      (∀ v ∈ dsts, v.hasStorage = true) →
      DataChunk.Copy.loop n k srcs dsts
        = (List.zipWith (fun s v => VectorOperations.Copy.write s v n k 0) srcs dsts, none)
  | [], [], _, _, _ => by simp [DataChunk.Copy.loop]
  | [], _ :: _, h, _, _ => by simp at h
  | _ :: _, [], h, _, _ => by simp at h
  | s :: srcs, v :: dsts, h, hf, hs => by
      have hv : v.GetVectorType = .FLAT_VECTOR := hf v (by simp)
      simp only [List.map_cons, List.cons.injEq] at h
      have ih := DataChunk.Copy_loop_flat n k srcs dsts h.2
        (fun w hw => hf w (by simp [hw])) (fun w hw => hs w (by simp [hw]))
      simp [DataChunk.Copy.loop, hv, ih,
        VectorOperations.Copy_ok s v n k 0 h.1 (hs v (by simp))]

theorem DataChunk.GetValue_ok (d : DataChunk) (c i : Nat) (v : Vector)
    (hc : d.data[c]? = some v) (hi : i < d.size) :
    d.GetValue c i = .ok (v.GetValue i) := by
  simp [DataChunk.GetValue, hi, hc]

theorem List.getElem?_zipWith_some {α β γ : Type} (f : α → β → γ) (xs : List α) (ys : List β)
    (c : Nat) (x : α) (y : β) (hx : xs[c]? = some x) (hy : ys[c]? = some y) :
    (List.zipWith f xs ys)[c]? = some (f x y) := by
  simp [List.getElem?_zipWith, hx, hy]

theorem DataChunk.Append_eq (d o : DataChunk) (hrows : o.size ≠ 0)
    (hflat : ∀ v ∈ d.data, v.GetVectorType = .FLAT_VECTOR)
    (hstorage : ∀ v ∈ d.data, v.hasStorage = true)
    (htypes : o.GetTypes = d.GetTypes) :
    d.Append o =
      ⟨⟨List.zipWith (fun s v => VectorOperations.Copy.write s v o.size 0 d.size) o.data
          d.data, d.size + o.size, d.vector_caches⟩, none⟩ := by
  have hlen : o.data.length = d.data.length := by
    have h := congrArg List.length htypes
    simpa [DataChunk.GetTypes] using h
  have hcols : d.ColumnCount = o.ColumnCount := hlen.symm
  simp [DataChunk.Append, hrows, hcols,
    DataChunk.Append_loop_flat _ _ _ _ htypes hflat hstorage, DataChunk.SetCardinality]

theorem DataChunk.column_exists (d : DataChunk) (c : Nat) (h : c < d.ColumnCount) :
    ∃ v, d.data[c]? = some v ∧ v ∈ d.data := by
  have h' : c < d.data.length := h
  exact ⟨d.data[c], List.getElem?_eq_getElem h', List.getElem_mem h'⟩

/-! Append (claims C2 to C5) -/

/-- C2 (counterexample): three calls with a destination and an appended chunk
of one row and one column each.  The destination is a chunk of one dictionary
column (a sliced chunk): Append stops at the assertion of line 120 and the row
count stays 1.  The destination is the chunk InitializeEmpty([INTEGER]) makes,
whose column is flat and has no storage: the row is written through a null
buffer and the row count stays 0.  The destination has an INTEGER column and
the appended chunk a VARCHAR column: the copy stops at the type mismatch and
the row count stays 1. -/
theorem DataChunk.Append_rows_counterexample :
    (0 < (DataChunk.ofIntegers [some (.fixed 30)]).size ∧
    ((DataChunk.ofIntegers [some (.fixed 10), some (.fixed 20)]).Slice ⟨[1]⟩ 1).ColumnCount
      = (DataChunk.ofIntegers [some (.fixed 30)]).ColumnCount ∧
    (((DataChunk.ofIntegers [some (.fixed 10), some (.fixed 20)]).Slice ⟨[1]⟩ 1).Append
      (DataChunk.ofIntegers [some (.fixed 30)])).error = some .Assertion ∧
    (((DataChunk.ofIntegers [some (.fixed 10), some (.fixed 20)]).Slice ⟨[1]⟩ 1).Append
      (DataChunk.ofIntegers [some (.fixed 30)])).state.size
      ≠ ((DataChunk.ofIntegers [some (.fixed 10), some (.fixed 20)]).Slice ⟨[1]⟩ 1).size
        + (DataChunk.ofIntegers [some (.fixed 30)]).size) ∧
    ((DataChunk.new.InitializeEmpty [.INTEGER]).state.ColumnCount
      = (DataChunk.ofIntegers [some (.fixed 30)]).ColumnCount ∧
    (∀ v ∈ (DataChunk.new.InitializeEmpty [.INTEGER]).state.data,
      v.GetVectorType = .FLAT_VECTOR) ∧
    ((DataChunk.new.InitializeEmpty [.INTEGER]).state.Append
      (DataChunk.ofIntegers [some (.fixed 30)])).error = some .NullPointer ∧
    ((DataChunk.new.InitializeEmpty [.INTEGER]).state.Append
      (DataChunk.ofIntegers [some (.fixed 30)])).state.size
      ≠ (DataChunk.new.InitializeEmpty [.INTEGER]).state.size
        + (DataChunk.ofIntegers [some (.fixed 30)]).size) ∧
    ((DataChunk.ofIntegers [some (.fixed 10)]).ColumnCount
      = (⟨[Vector.ofValues .VARCHAR [some (.varlen [97])]], 1, []⟩ : DataChunk).ColumnCount ∧
    (∀ v ∈ (DataChunk.ofIntegers [some (.fixed 10)]).data,
      v.GetVectorType = .FLAT_VECTOR ∧ v.hasStorage = true) ∧
    ((DataChunk.ofIntegers [some (.fixed 10)]).Append
      ⟨[Vector.ofValues .VARCHAR [some (.varlen [97])]], 1, []⟩).error = some .Assertion ∧
    ((DataChunk.ofIntegers [some (.fixed 10)]).Append
      ⟨[Vector.ofValues .VARCHAR [some (.varlen [97])]], 1, []⟩).state.size
      ≠ (DataChunk.ofIntegers [some (.fixed 10)]).size + 1) := by
  refine ⟨by decide, ⟨by decide, ?_, by decide, by decide⟩, ⟨by decide, ?_, by decide, by decide⟩⟩
  · intro v hv
    simp only [DataChunk.InitializeEmpty, DataChunk.new] at hv
    simp at hv
    subst hv
    rfl
  · intro v hv
    simp only [DataChunk.ofIntegers, List.mem_singleton] at hv
    subst hv
    exact ⟨rfl, rfl⟩

/-- C2 (amended): for every destination chunk d whose columns are all flat
and have storage, and every chunk o with at least one row and the column types
of d, the two together holding at most VECTOR_SIZE rows, Append succeeds, the
row count of d becomes old_row_count + o.row_count, which is at most
VECTOR_SIZE, every row i < old_row_count of every column of d is unchanged,
and row old_row_count + j of column c of d equals row j of column c of o for
every j < o.row_count. -/
theorem DataChunk.Append_rows (d o : DataChunk) (hrows : 0 < o.size)
    (hcols : d.ColumnCount = o.ColumnCount)
    (hflat : ∀ v ∈ d.data, v.GetVectorType = .FLAT_VECTOR)
    (hstorage : ∀ v ∈ d.data, v.hasStorage = true)
    (htypes : d.GetTypes = o.GetTypes)
    (hsum : d.size + o.size ≤ STANDARD_VECTOR_SIZE) :
    (d.Append o).error = none ∧
    (d.Append o).state.size = d.size + o.size ∧
    (d.Append o).state.size ≤ STANDARD_VECTOR_SIZE ∧
    ∀ c, c < d.ColumnCount →
      (∀ i, i < d.size →
        ∃ x, d.GetValue c i = .ok x ∧ (d.Append o).state.GetValue c i = .ok x) ∧
      (∀ j, j < o.size →
        ∃ x, o.GetValue c j = .ok x ∧
          (d.Append o).state.GetValue c (d.size + j) = .ok x) := by
  rw [DataChunk.Append_eq d o (by omega) hflat hstorage htypes.symm]
  refine ⟨rfl, rfl, hsum, ?_⟩
  intro c hc
  obtain ⟨v, hv, hvmem⟩ := d.column_exists c hc
  obtain ⟨s, hs, _⟩ := o.column_exists c (hcols ▸ hc)
  have hcol := List.getElem?_zipWith_some
    (fun s v => VectorOperations.Copy.write s v o.size 0 d.size) o.data d.data c s v hs hv
  constructor
  · intro i hi
    refine ⟨v.GetValue i, d.GetValue_ok c i v hv hi, ?_⟩
    rw [DataChunk.GetValue_ok _ c i _ hcol (by simp only [DataChunk.size] at hi hrows ⊢; omega)]
    rw [VectorOperations.Copy_GetValue_before _ _ _ _ _ _ hi]
  · intro j hj
    refine ⟨s.GetValue j, o.GetValue_ok c j s hs hj, ?_⟩
    rw [DataChunk.GetValue_ok _ c (d.size + j) _ hcol (by simp only [DataChunk.size] at hj ⊢; omega)]
    rw [VectorOperations.Copy_GetValue_copied _ _ _ _ _ _ (hflat v hvmem)
      (by simpa using hj)]
    simp

/-- C2 (witness): a two-row flat chunk receives a one-row chunk. -/
theorem DataChunk.Append_rows_witness :
    ((DataChunk.ofIntegers [some (.fixed 10), none]).Append
        (DataChunk.ofIntegers [some (.fixed 30)])).error = none ∧
    ((DataChunk.ofIntegers [some (.fixed 10), none]).Append
        (DataChunk.ofIntegers [some (.fixed 30)])).state.size
      = (DataChunk.ofIntegers [some (.fixed 10), none]).size
        + (DataChunk.ofIntegers [some (.fixed 30)]).size ∧
    ((DataChunk.ofIntegers [some (.fixed 10), none]).Append
        (DataChunk.ofIntegers [some (.fixed 30)])).state.size ≤ STANDARD_VECTOR_SIZE ∧
    ∀ c, c < (DataChunk.ofIntegers [some (.fixed 10), none]).ColumnCount →
      (∀ i, i < (DataChunk.ofIntegers [some (.fixed 10), none]).size →
        ∃ x, (DataChunk.ofIntegers [some (.fixed 10), none]).GetValue c i = .ok x ∧
          ((DataChunk.ofIntegers [some (.fixed 10), none]).Append
            (DataChunk.ofIntegers [some (.fixed 30)])).state.GetValue c i = .ok x) ∧
      (∀ j, j < (DataChunk.ofIntegers [some (.fixed 30)]).size →
        ∃ x, (DataChunk.ofIntegers [some (.fixed 30)]).GetValue c j = .ok x ∧
          ((DataChunk.ofIntegers [some (.fixed 10), none]).Append
            (DataChunk.ofIntegers [some (.fixed 30)])).state.GetValue c
              ((DataChunk.ofIntegers [some (.fixed 10), none]).size + j) = .ok x) :=
  DataChunk.Append_rows (DataChunk.ofIntegers [some (.fixed 10), none])
    (DataChunk.ofIntegers [some (.fixed 30)]) (by decide) (by decide)
    (by simp [DataChunk.ofIntegers, Vector.ofValues, Vector.GetVectorType])
    (by simp [DataChunk.ofIntegers, Vector.ofValues, Vector.hasStorage,
      VectorBuffer.hasStorage])
    rfl (by decide)

/-- C3 (counterexample): the destination has one column, the appended chunk is
a chunk made by Initialize([INTEGER, VARCHAR]) that holds no rows; the column
counts differ (1 and 2) and Append returns at line 114 without an error. -/
theorem DataChunk.Append_mismatch_counterexample :
    (DataChunk.ofIntegers [some (.fixed 10)]).ColumnCount
      ≠ (DataChunk.new.Initialize [.INTEGER, .VARCHAR]).state.ColumnCount ∧
    ((DataChunk.ofIntegers [some (.fixed 10)]).Append
      (DataChunk.new.Initialize [.INTEGER, .VARCHAR]).state).error = none := by
  decide

/-- C3 (amended): for every pair of chunks whose column counts differ and whose
appended chunk has at least one row, Append fails with an OutOfRange error and
leaves the destination chunk (columns, caches and row count) unchanged. -/
theorem DataChunk.Append_mismatch (d o : DataChunk) (hcols : d.ColumnCount ≠ o.ColumnCount)
    (hrows : 0 < o.size) :
    (d.Append o).error = some .OutOfRangeException ∧ (d.Append o).state = d := by
  have h0 : o.size ≠ 0 := by omega
  simp [DataChunk.Append, h0, hcols]

/-- C3 (witness): a one-column chunk receives a one-row chunk that has two
columns. -/
theorem DataChunk.Append_mismatch_witness :
    ((DataChunk.ofIntegers [some (.fixed 10)]).Append
        ⟨[Vector.ofValues .INTEGER [none], Vector.ofValues .VARCHAR [none]], 1, []⟩).error
      = some .OutOfRangeException ∧
    ((DataChunk.ofIntegers [some (.fixed 10)]).Append
        ⟨[Vector.ofValues .INTEGER [none], Vector.ofValues .VARCHAR [none]], 1, []⟩).state
      = DataChunk.ofIntegers [some (.fixed 10)] :=
  DataChunk.Append_mismatch (DataChunk.ofIntegers [some (.fixed 10)])
    ⟨[Vector.ofValues .INTEGER [none], Vector.ofValues .VARCHAR [none]], 1, []⟩
    (by decide) (by decide)

/-- C4: appending a chunk with zero rows is the identity: Append returns
without error and the destination (row count, columns, caches) is unchanged,
whatever the columns of the two chunks are. -/
theorem DataChunk.Append_empty (d o : DataChunk) (hrows : o.size = 0) :
    (d.Append o).error = none ∧ (d.Append o).state = d := by
  simp [DataChunk.Append, hrows]

/-- C4 (witness): a sliced chunk receives the chunk without rows and columns. -/
theorem DataChunk.Append_empty_witness :
    (((DataChunk.ofIntegers [some (.fixed 10), none]).Slice ⟨[1]⟩ 1).Append
        DataChunk.new).error = none ∧
    (((DataChunk.ofIntegers [some (.fixed 10), none]).Slice ⟨[1]⟩ 1).Append
        DataChunk.new).state
      = (DataChunk.ofIntegers [some (.fixed 10), none]).Slice ⟨[1]⟩ 1 :=
  DataChunk.Append_empty ((DataChunk.ofIntegers [some (.fixed 10), none]).Slice ⟨[1]⟩ 1)
    DataChunk.new (by decide)

/-- C5 (counterexample): a full chunk (STANDARD_VECTOR_SIZE rows) receives a
one-row chunk with the same column count; Append succeeds and leaves 1025
rows. -/
theorem DataChunk.Append_capacity_counterexample :
    (DataChunk.filled 1024).size ≤ STANDARD_VECTOR_SIZE ∧
    (DataChunk.filled 1).size ≤ STANDARD_VECTOR_SIZE ∧
    (DataChunk.filled 1024).ColumnCount = (DataChunk.filled 1).ColumnCount ∧
    ((DataChunk.filled 1024).Append (DataChunk.filled 1)).error = none ∧
    ((DataChunk.filled 1024).Append (DataChunk.filled 1)).state.size = 1025 ∧
    ¬ ((DataChunk.filled 1024).Append (DataChunk.filled 1)).state.size
        ≤ STANDARD_VECTOR_SIZE := by
  decide

/-- C5 (amended): for every destination chunk and every appended chunk that
have equal column counts and together hold at most VECTOR_SIZE rows, the
destination's row count after Append is at most VECTOR_SIZE. -/
theorem DataChunk.Append_capacity (d o : DataChunk)
    (_hcols : d.ColumnCount = o.ColumnCount)
    (hsum : d.size + o.size ≤ STANDARD_VECTOR_SIZE) :
    (d.Append o).state.size ≤ STANDARD_VECTOR_SIZE := by
  have hd : d.count ≤ STANDARD_VECTOR_SIZE := by
    simp only [DataChunk.size] at hsum; omega
  unfold DataChunk.Append
  split_ifs
  · exact hd
  · exact hd
  · split
    · exact hd
    · simpa [DataChunk.SetCardinality, DataChunk.size] using hsum

/-- C5 (witness): a chunk of 1000 rows receives a chunk of 24 rows. -/
theorem DataChunk.Append_capacity_witness :
    ((DataChunk.filled 1000).Append (DataChunk.filled 24)).state.size
      ≤ STANDARD_VECTOR_SIZE :=
  DataChunk.Append_capacity (DataChunk.filled 1000) (DataChunk.filled 24)
    (by decide) (by decide)

/-! Copy (claims C6 and C7) -/

theorem DataChunk.Copy_eq (d other : DataChunk) (offset : Nat)
    (hempty : other.size = 0)
    (hflat : ∀ v ∈ other.data, v.GetVectorType = .FLAT_VECTOR)
    (hstorage : ∀ v ∈ other.data, v.hasStorage = true)
    (htypes : d.GetTypes = other.GetTypes) :
    d.Copy other offset =
      ⟨(d, ⟨List.zipWith (fun s v => VectorOperations.Copy.write s v d.size offset 0) d.data
              other.data, idx_sub d.size offset, other.vector_caches⟩), none⟩ := by
  have hlen : d.data.length = other.data.length := by
    have h := congrArg List.length htypes
    simpa [DataChunk.GetTypes] using h
  have hcols : d.ColumnCount = other.ColumnCount := hlen
  simp [DataChunk.Copy, hempty, hcols,
    DataChunk.Copy_loop_flat _ _ _ _ htypes hflat hstorage, DataChunk.SetCardinality]

/-- C6 (counterexample): a source of three rows and one INTEGER column is
copied from offset 0 into an empty destination with one flat column.  The
destination is the chunk InitializeEmpty([INTEGER]) makes, whose column has no
storage: the rows are written through a null buffer and the destination keeps
0 rows, not 3.  The destination is the chunk Initialize([VARCHAR]) makes: the
copy stops at the type mismatch and the destination keeps 0 rows. -/
theorem DataChunk.Copy_rows_counterexample :
    ((DataChunk.new.InitializeEmpty [.INTEGER]).state.size = 0 ∧
    (∀ v ∈ (DataChunk.new.InitializeEmpty [.INTEGER]).state.data,
      v.GetVectorType = .FLAT_VECTOR) ∧
    (DataChunk.new.InitializeEmpty [.INTEGER]).state.ColumnCount
      = (DataChunk.ofIntegers [some (.fixed 10), none, some (.fixed 30)]).ColumnCount ∧
    ((DataChunk.ofIntegers [some (.fixed 10), none, some (.fixed 30)]).Copy
      (DataChunk.new.InitializeEmpty [.INTEGER]).state 0).error = some .NullPointer ∧
    ((DataChunk.ofIntegers [some (.fixed 10), none, some (.fixed 30)]).Copy
      (DataChunk.new.InitializeEmpty [.INTEGER]).state 0).state.2.size
      ≠ (DataChunk.ofIntegers [some (.fixed 10), none, some (.fixed 30)]).size - 0) ∧
    ((DataChunk.new.Initialize [.VARCHAR]).state.size = 0 ∧
    (∀ v ∈ (DataChunk.new.Initialize [.VARCHAR]).state.data,
      v.GetVectorType = .FLAT_VECTOR ∧ v.hasStorage = true) ∧
    (DataChunk.new.Initialize [.VARCHAR]).state.ColumnCount
      = (DataChunk.ofIntegers [some (.fixed 10), none, some (.fixed 30)]).ColumnCount ∧
    ((DataChunk.ofIntegers [some (.fixed 10), none, some (.fixed 30)]).Copy
      (DataChunk.new.Initialize [.VARCHAR]).state 0).error = some .Assertion ∧
    ((DataChunk.ofIntegers [some (.fixed 10), none, some (.fixed 30)]).Copy
      (DataChunk.new.Initialize [.VARCHAR]).state 0).state.2.size
      ≠ (DataChunk.ofIntegers [some (.fixed 10), none, some (.fixed 30)]).size - 0) := by
  refine ⟨⟨by decide, ?_, by decide, by decide, by decide⟩,
    ⟨by decide, ?_, by decide, by decide, by decide⟩⟩
  · intro v hv
    simp only [DataChunk.InitializeEmpty, DataChunk.new] at hv
    simp at hv
    subst hv
    rfl
  · intro v hv
    simp only [DataChunk.Initialize, DataChunk.new] at hv
    simp at hv
    subst hv
    exact ⟨rfl, rfl⟩

/-- C6 (amended): for every source chunk with n <= VECTOR_SIZE rows, every
offset <= n and every empty destination whose columns are flat, have storage
and have the types of the source's columns, Copy(dest, offset) succeeds, gives
the destination row count n - offset, which is at most VECTOR_SIZE, and makes
row i of each destination column equal to row offset + i of the same source
column for every i < n - offset; the source chunk is unchanged. -/
theorem DataChunk.Copy_rows (d other : DataChunk) (offset : Nat) (hoff : offset ≤ d.size)
    (hempty : other.size = 0)
    (hflat : ∀ v ∈ other.data, v.GetVectorType = .FLAT_VECTOR)
    (hstorage : ∀ v ∈ other.data, v.hasStorage = true)
    (htypes : other.GetTypes = d.GetTypes)
    (hsize : d.size ≤ STANDARD_VECTOR_SIZE) :
    (d.Copy other offset).error = none ∧
    (d.Copy other offset).state.2.size = d.size - offset ∧
    (d.Copy other offset).state.2.size ≤ STANDARD_VECTOR_SIZE ∧
    (d.Copy other offset).state.1 = d ∧
    ∀ c, c < d.ColumnCount → ∀ i, i < d.size - offset →
      ∃ x, d.GetValue c (offset + i) = .ok x ∧
        (d.Copy other offset).state.2.GetValue c i = .ok x := by
  have hcols : other.ColumnCount = d.ColumnCount := by
    have h := congrArg List.length htypes
    simpa [DataChunk.GetTypes] using h
  rw [DataChunk.Copy_eq d other offset hempty hflat hstorage htypes.symm]
  refine ⟨rfl, idx_sub_of_le hoff, ?_, rfl, ?_⟩
  · show idx_sub d.size offset ≤ STANDARD_VECTOR_SIZE
    rw [idx_sub_of_le hoff]
    omega
  · intro c hc i hi
    obtain ⟨s, hs, _⟩ := d.column_exists c hc
    obtain ⟨v, hv, hvmem⟩ := other.column_exists c (hcols ▸ hc)
    have hcol := List.getElem?_zipWith_some
      (fun s v => VectorOperations.Copy.write s v d.size offset 0) d.data other.data c s v hs hv
    refine ⟨s.GetValue (offset + i), d.GetValue_ok c (offset + i) s hs (by omega), ?_⟩
    rw [DataChunk.GetValue_ok _ c i _ hcol
      (by show i < idx_sub d.size offset; rw [idx_sub_of_le hoff]; exact hi)]
    have h := VectorOperations.Copy_GetValue_copied s v d.size offset 0 i (hflat v hvmem) hi
    rw [Nat.zero_add] at h
    rw [h]

/-- C6 (witness): rows 1 and 2 of a three-row chunk are copied into an empty
flat chunk. -/
theorem DataChunk.Copy_rows_witness :
    ((DataChunk.ofIntegers [some (.fixed 10), none, some (.fixed 30)]).Copy
        (DataChunk.ofIntegers []) 1).error = none ∧
    ((DataChunk.ofIntegers [some (.fixed 10), none, some (.fixed 30)]).Copy
        (DataChunk.ofIntegers []) 1).state.2.size
      = (DataChunk.ofIntegers [some (.fixed 10), none, some (.fixed 30)]).size - 1 ∧
    ((DataChunk.ofIntegers [some (.fixed 10), none, some (.fixed 30)]).Copy
        (DataChunk.ofIntegers []) 1).state.2.size ≤ STANDARD_VECTOR_SIZE ∧
    ((DataChunk.ofIntegers [some (.fixed 10), none, some (.fixed 30)]).Copy
        (DataChunk.ofIntegers []) 1).state.1
      = DataChunk.ofIntegers [some (.fixed 10), none, some (.fixed 30)] ∧
    ∀ c, c < (DataChunk.ofIntegers [some (.fixed 10), none, some (.fixed 30)]).ColumnCount →
      ∀ i, i < (DataChunk.ofIntegers [some (.fixed 10), none, some (.fixed 30)]).size - 1 →
      ∃ x, (DataChunk.ofIntegers [some (.fixed 10), none, some (.fixed 30)]).GetValue c (1 + i)
          = .ok x ∧
        ((DataChunk.ofIntegers [some (.fixed 10), none, some (.fixed 30)]).Copy
          (DataChunk.ofIntegers []) 1).state.2.GetValue c i = .ok x :=
  DataChunk.Copy_rows (DataChunk.ofIntegers [some (.fixed 10), none, some (.fixed 30)])
    (DataChunk.ofIntegers []) 1 (by decide) (by decide)
    (by simp [DataChunk.ofIntegers, Vector.ofValues, Vector.GetVectorType])
    (by simp [DataChunk.ofIntegers, Vector.ofValues, Vector.hasStorage,
      VectorBuffer.hasStorage])
    rfl (by decide)

theorem SelectionVector.get_index_Slice (s sel : SelectionVector) (count i : Nat)
    (h : i < count) :
    (s.Slice sel count).get_index i = s.get_index (sel.get_index i) := by
  simp [SelectionVector.Slice, SelectionVector.get_index, List.getD_eq_getElem?_getD, h]

theorem SelectionVector.get_index_range (n i : Nat) (h : i < n) :
    (⟨List.range n⟩ : SelectionVector).get_index i = i := by
  simp [SelectionVector.get_index, List.getD_eq_getElem?_getD, h]

theorem Vector.Slice_cached (v : Vector) (sel : SelectionVector) (count : Nat)
    (cache : SelCache) (hc : cache.Consistent sel count) :
    (v.Slice sel count cache).1 = v.SliceFresh sel count ∧
    (v.Slice sel count cache).2.Consistent sel count := by
  cases v with
  | flat t b validity data => exact ⟨rfl, hc⟩
  | constant t validity data => exact ⟨rfl, hc⟩
  | sequence t start increment => exact ⟨rfl, hc⟩
  | dictionary t cur child =>
      cases hl : cache.cache.lookup cur with
      | some merged =>
          have hm := hc cur merged hl
          simp [Vector.Slice, Vector.SliceFresh, hl, hm, hc]
      | none =>
          refine ⟨by simp [Vector.Slice, Vector.SliceFresh, hl], ?_⟩
          simp only [Vector.Slice, hl]
          intro k v hkv
          by_cases hk : k = cur
          · subst hk
            simp [List.lookup] at hkv
            exact hkv.symm
          · have hne : (k == cur) = false := by simpa using hk
            simp only [List.lookup, hne] at hkv
            exact hc k v hkv

theorem DataChunk.Slice_loop_eq (sel : SelectionVector) (count : Nat) :
    ∀ (vs : List Vector) (cache : SelCache), cache.Consistent sel count →
      DataChunk.Slice.loop sel count vs cache = vs.map (fun v => v.SliceFresh sel count)
  | [], _, _ => rfl
  | v :: vs, cache, hc => by
      obtain ⟨h1, h2⟩ := v.Slice_cached sel count cache hc
      simp [DataChunk.Slice.loop, h1, DataChunk.Slice_loop_eq sel count vs _ h2]

theorem DataChunk.Slice_eq (d : DataChunk) (sel : SelectionVector) (count : Nat) :
    d.Slice sel count
      = ⟨d.data.map (fun v => v.SliceFresh sel count), count, d.vector_caches⟩ := by
  have hc : (⟨[]⟩ : SelCache).Consistent sel count := by
    intro k v h
    simp [List.lookup] at h
  simp [DataChunk.Slice, DataChunk.Slice_loop_eq sel count d.data _ hc]

theorem Vector.SliceFresh_GetValue (v : Vector) (sel : SelectionVector) (count i : Nat)
    (h : i < count) :
    (v.SliceFresh sel count).GetValue i = v.GetValue (sel.get_index i) := by
  cases v with
  | flat t b validity data => rfl
  | constant t validity data => rfl
  | sequence t start increment => rfl
  | dictionary t cur child =>
      simp [Vector.SliceFresh, Vector.Slice, List.lookup, Vector.GetValue,
        SelectionVector.get_index_Slice _ _ _ _ h]

theorem DataChunk.Slice_column (d : DataChunk) (sel : SelectionVector) (count c : Nat)
    (v : Vector) (hv : d.data[c]? = some v) :
    (d.Slice sel count).data[c]? = some (v.SliceFresh sel count) := by
  simp [DataChunk.Slice_eq, hv]

/-- C8: for every chunk, every selection sel and every n such that
sel[i] < row_count for all i < n, after Slice(sel, n) the row count is n and
for every column c and every i < n GetValue(c, i) returns what
GetValue(c, sel[i]) returned before the slice; slicing with the identity
selection and n = row_count leaves the row count and every GetValue(c, i)
unchanged. -/
theorem DataChunk.Slice_rows (d : DataChunk) (sel : SelectionVector) (n : Nat)
    (hsel : ∀ i, i < n → sel.get_index i < d.size) :
    (d.Slice sel n).size = n ∧
    (∀ c, c < d.ColumnCount → ∀ i, i < n →
      ∃ x, d.GetValue c (sel.get_index i) = .ok x ∧ (d.Slice sel n).GetValue c i = .ok x) ∧
    (d.Slice ⟨List.range d.size⟩ d.size).size = d.size ∧
    (∀ c, c < d.ColumnCount → ∀ i, i < d.size →
      ∃ x, d.GetValue c i = .ok x ∧
        (d.Slice ⟨List.range d.size⟩ d.size).GetValue c i = .ok x) := by
  refine ⟨rfl, ?_, rfl, ?_⟩
  · intro c hc i hi
    obtain ⟨v, hv, _⟩ := d.column_exists c hc
    refine ⟨v.GetValue (sel.get_index i), d.GetValue_ok c _ v hv (hsel i hi), ?_⟩
    rw [DataChunk.GetValue_ok _ c i _ (d.Slice_column sel n c v hv) hi,
      Vector.SliceFresh_GetValue v sel n i hi]
  · intro c hc i hi
    obtain ⟨v, hv, _⟩ := d.column_exists c hc
    refine ⟨v.GetValue i, d.GetValue_ok c _ v hv hi, ?_⟩
    rw [DataChunk.GetValue_ok _ c i _ (d.Slice_column _ d.size c v hv) hi,
      Vector.SliceFresh_GetValue v _ d.size i hi,
      SelectionVector.get_index_range d.size i hi]

/-- C8 (witness): the scenario column sliced with the selection [4, 2, 0]. -/
theorem DataChunk.Slice_rows_witness :
    (DataChunk.scenario.Slice ⟨[4, 2, 0]⟩ 3).size = 3 ∧
    (∀ c, c < DataChunk.scenario.ColumnCount → ∀ i, i < 3 →
      ∃ x, DataChunk.scenario.GetValue c ((⟨[4, 2, 0]⟩ : SelectionVector).get_index i) = .ok x ∧
        (DataChunk.scenario.Slice ⟨[4, 2, 0]⟩ 3).GetValue c i = .ok x) ∧
    (DataChunk.scenario.Slice ⟨List.range DataChunk.scenario.size⟩
      DataChunk.scenario.size).size = DataChunk.scenario.size ∧
    (∀ c, c < DataChunk.scenario.ColumnCount → ∀ i, i < DataChunk.scenario.size →
      ∃ x, DataChunk.scenario.GetValue c i = .ok x ∧
        (DataChunk.scenario.Slice ⟨List.range DataChunk.scenario.size⟩
          DataChunk.scenario.size).GetValue c i = .ok x) :=
  DataChunk.Slice_rows DataChunk.scenario ⟨[4, 2, 0]⟩ 3 (by decide)

/-- C9: slicing composes: for every chunk and selections s1 and s2 (m entries
of s2 used, each < n), Slice(s1, n) followed by Slice(s2, m) gives the same row
count and the same GetValue(c, i) for every column c and i < m as a single
Slice with the composed selection i -> s1[s2[i]]; for the column
[10,20,30,40,50], slicing with [4,2,0] and then with [2,0] yields [10, 50]. -/
theorem DataChunk.Slice_compose (d : DataChunk) (s1 s2 : SelectionVector) (n m : Nat)
    (h2 : ∀ i, i < m → s2.get_index i < n) :
    (∀ i, i < m → (s1.Slice s2 m).get_index i = s1.get_index (s2.get_index i)) ∧
    ((d.Slice s1 n).Slice s2 m).size = (d.Slice (s1.Slice s2 m) m).size ∧
    ((d.Slice s1 n).Slice s2 m).ColumnCount = (d.Slice (s1.Slice s2 m) m).ColumnCount ∧
    (∀ c, c < d.ColumnCount → ∀ i, i < m →
      ∃ x, ((d.Slice s1 n).Slice s2 m).GetValue c i = .ok x ∧
        (d.Slice (s1.Slice s2 m) m).GetValue c i = .ok x) ∧
    ((DataChunk.scenario.Slice ⟨[4, 2, 0]⟩ 3).Slice ⟨[2, 0]⟩ 2).size = 2 ∧
    ((DataChunk.scenario.Slice ⟨[4, 2, 0]⟩ 3).Slice ⟨[2, 0]⟩ 2).GetValue 0 0
      = .ok (some (.fixed 10)) ∧
    ((DataChunk.scenario.Slice ⟨[4, 2, 0]⟩ 3).Slice ⟨[2, 0]⟩ 2).GetValue 0 1
      = .ok (some (.fixed 50)) := by
  refine ⟨fun i hi => SelectionVector.get_index_Slice s1 s2 m i hi, rfl, ?_, ?_, rfl, rfl, rfl⟩
  · simp [DataChunk.Slice_eq, DataChunk.ColumnCount]
  · intro c hc i hi
    obtain ⟨v, hv, _⟩ := d.column_exists c hc
    have h1 := d.Slice_column s1 n c v hv
    have h12 := (d.Slice s1 n).Slice_column s2 m c _ h1
    have hc' := d.Slice_column (s1.Slice s2 m) m c v hv
    refine ⟨v.GetValue (s1.get_index (s2.get_index i)), ?_, ?_⟩
    · rw [DataChunk.GetValue_ok _ c i _ h12 hi, Vector.SliceFresh_GetValue _ s2 m i hi,
        Vector.SliceFresh_GetValue v s1 n _ (h2 i hi)]
    · rw [DataChunk.GetValue_ok _ c i _ hc' hi, Vector.SliceFresh_GetValue v _ m i hi,
        SelectionVector.get_index_Slice s1 s2 m i hi]

/-- C9 (witness): the slice scenario of the spec. -/
theorem DataChunk.Slice_compose_witness :
    (∀ i, i < 2 → ((⟨[4, 2, 0]⟩ : SelectionVector).Slice ⟨[2, 0]⟩ 2).get_index i
        = (⟨[4, 2, 0]⟩ : SelectionVector).get_index
            ((⟨[2, 0]⟩ : SelectionVector).get_index i)) ∧
    ((DataChunk.scenario.Slice ⟨[4, 2, 0]⟩ 3).Slice ⟨[2, 0]⟩ 2).size
      = (DataChunk.scenario.Slice
          ((⟨[4, 2, 0]⟩ : SelectionVector).Slice ⟨[2, 0]⟩ 2) 2).size ∧
    ((DataChunk.scenario.Slice ⟨[4, 2, 0]⟩ 3).Slice ⟨[2, 0]⟩ 2).ColumnCount
      = (DataChunk.scenario.Slice
          ((⟨[4, 2, 0]⟩ : SelectionVector).Slice ⟨[2, 0]⟩ 2) 2).ColumnCount ∧
    (∀ c, c < DataChunk.scenario.ColumnCount → ∀ i, i < 2 →
      ∃ x, ((DataChunk.scenario.Slice ⟨[4, 2, 0]⟩ 3).Slice ⟨[2, 0]⟩ 2).GetValue c i = .ok x ∧
        (DataChunk.scenario.Slice
          ((⟨[4, 2, 0]⟩ : SelectionVector).Slice ⟨[2, 0]⟩ 2) 2).GetValue c i = .ok x) ∧
    ((DataChunk.scenario.Slice ⟨[4, 2, 0]⟩ 3).Slice ⟨[2, 0]⟩ 2).size = 2 ∧
    ((DataChunk.scenario.Slice ⟨[4, 2, 0]⟩ 3).Slice ⟨[2, 0]⟩ 2).GetValue 0 0
      = .ok (some (.fixed 10)) ∧
    ((DataChunk.scenario.Slice ⟨[4, 2, 0]⟩ 3).Slice ⟨[2, 0]⟩ 2).GetValue 0 1
      = .ok (some (.fixed 50)) :=
  DataChunk.Slice_compose DataChunk.scenario ⟨[4, 2, 0]⟩ ⟨[2, 0]⟩ 3 2 (by decide)

/-! Initialize and Reset (claim C10) -/

theorem DataChunk.Initialize_fold (types : List LogicalType) :
    ∀ d : DataChunk,
      types.foldl (fun acc t =>
        let cache : VectorCache := ⟨t⟩
        { acc with data := acc.data ++ [Vector.ofCache cache],
                   vector_caches := acc.vector_caches ++ [cache] }) d
      = ⟨d.data ++ types.map (fun t => Vector.ofCache ⟨t⟩), d.count,
          d.vector_caches ++ types.map (fun t => (⟨t⟩ : VectorCache))⟩ := by
  induction types with
  | nil => intro d; simp
  | cons t ts ih => intro d; simp [List.foldl, ih]

theorem DataChunk.Initialize_new (types : List LogicalType) (hne : types ≠ []) :
    DataChunk.new.Initialize types
      = ⟨⟨types.map (fun t => Vector.ofCache ⟨t⟩), 0,
          types.map (fun t => (⟨t⟩ : VectorCache))⟩, none⟩ := by
  simp [DataChunk.Initialize, DataChunk.new, hne, DataChunk.Initialize_fold]

/-- C10: for every chunk created by Initialize(types), in whatever state its
columns and row count are (the caches are those Initialize made and every
column still has its type), Reset succeeds and afterwards the row count is 0,
the number of columns, their types and the caches are unchanged, and every
column i is flat-encoded and backed by cache i of the chunk. -/
theorem DataChunk.Reset_initialized (types : List LogicalType) (d : DataChunk)
    (hne : types ≠ [])
    (hcaches : d.vector_caches = (DataChunk.new.Initialize types).state.vector_caches)
    (htypes : d.GetTypes = (DataChunk.new.Initialize types).state.GetTypes) :
    d.Reset.error = none ∧
    d.Reset.state.size = 0 ∧
    d.Reset.state.ColumnCount = d.ColumnCount ∧
    d.Reset.state.GetTypes = d.GetTypes ∧
    d.Reset.state.vector_caches = d.vector_caches ∧
    ∀ i, i < d.ColumnCount →
      ∃ cache validity data, d.vector_caches[i]? = some cache ∧
        d.Reset.state.data[i]? = some (.flat cache.type (.cache cache) validity data) := by
  rw [DataChunk.Initialize_new types hne] at hcaches htypes
  simp only [DataChunk.GetTypes, List.map_map] at htypes
  have htypes' : d.data.map Vector.GetType = types := by
    rw [htypes]
    exact List.map_id'' (fun t => rfl) types
  have hlenD : d.data.length = types.length := by
    rw [← htypes', List.length_map]
  have hlenC : d.vector_caches.length = d.data.length := by
    rw [hcaches, List.length_map, hlenD]
  have hdne : d.data.isEmpty = false := by
    cases hd : d.data with
    | nil => rw [hd] at hlenD; cases types with
      | nil => exact absurd rfl hne
      | cons t ts => simp at hlenD
    | cons v vs => rfl
  have hR : d.Reset
      = ⟨⟨List.zipWith Vector.ResetFromCache d.data d.vector_caches, 0, d.vector_caches⟩,
          none⟩ := by
    simp [DataChunk.Reset, hdne, hlenC, DataChunk.SetCardinality]
  rw [hR]
  have hcol : ∀ (i : Nat) (v : Vector) (cache : VectorCache),
      d.data[i]? = some v → d.vector_caches[i]? = some cache →
      v.ResetFromCache cache = Vector.ofCache cache := by
    intro i v cache hv hcache
    have h1 : (d.data.map Vector.GetType)[i]? = some v.GetType := by
      simp [hv]
    have h2 : (d.vector_caches.map VectorCache.type)[i]? = some cache.type := by
      simp [hcache]
    have h3 : d.vector_caches.map VectorCache.type = d.data.map Vector.GetType := by
      rw [hcaches, htypes', List.map_map]
      exact List.map_id'' (fun t => rfl) types
    rw [h3, h1] at h2
    have h4 : v.GetType = cache.type := Option.some.inj h2
    simp [Vector.ResetFromCache, Vector.ofCache, h4]
  refine ⟨rfl, rfl, ?_, ?_, rfl, ?_⟩
  · simp [DataChunk.ColumnCount, hlenC]
  · simp only [DataChunk.GetTypes]
    apply List.ext_getElem?
    intro i
    by_cases hi : i < d.data.length
    · have hv : d.data[i]? = some d.data[i] := List.getElem?_eq_getElem hi
      have hcache : d.vector_caches[i]? = some d.vector_caches[i] :=
        List.getElem?_eq_getElem (hlenC ▸ hi)
      simp [List.getElem?_zipWith, hv, hcache, Vector.ResetFromCache, Vector.GetType]
    · have h1 : d.data[i]? = none := List.getElem?_eq_none (by omega)
      simp [List.getElem?_zipWith, h1]
  · intro i hi
    have hi' : i < d.data.length := hi
    have hv : d.data[i]? = some d.data[i] := List.getElem?_eq_getElem hi'
    have hcache : d.vector_caches[i]? = some d.vector_caches[i] :=
      List.getElem?_eq_getElem (hlenC ▸ hi')
    refine ⟨d.vector_caches[i], fun _ => true, fun _ => Datum.unspecified, hcache, ?_⟩
    rw [List.getElem?_zipWith_some Vector.ResetFromCache _ _ i _ _ hv hcache,
      hcol i _ _ hv hcache]
    rfl

/-- C10 (witness): a chunk made by Initialize([INTEGER, VARCHAR]) whose columns
have been sliced since. -/
theorem DataChunk.Reset_initialized_witness :
    DataChunk.used.Reset.error = none ∧
    DataChunk.used.Reset.state.size = 0 ∧
    DataChunk.used.Reset.state.ColumnCount = DataChunk.used.ColumnCount ∧
    DataChunk.used.Reset.state.GetTypes = DataChunk.used.GetTypes ∧
    DataChunk.used.Reset.state.vector_caches = DataChunk.used.vector_caches ∧
    ∀ i, i < DataChunk.used.ColumnCount →
      ∃ cache validity data, DataChunk.used.vector_caches[i]? = some cache ∧
        DataChunk.used.Reset.state.data[i]?
          = some (.flat cache.type (.cache cache) validity data) :=
  DataChunk.Reset_initialized [.INTEGER, .VARCHAR] DataChunk.used (List.cons_ne_nil _ _)
    rfl rfl

/-! Serialization round trip (claim C1) -/

theorem Deserializer.Read_Write (width : Nat) :
    ∀ (value : Nat) (rest : List Nat),
      Deserializer.Read width (Serializer.Write width value ++ rest)
        = .ok (value % 256 ^ width, rest) := by
  induction width with
  | zero => intro value rest; simp [Deserializer.Read, Serializer.Write, Nat.mod_one]
  | succ w ih =>
      intro value rest
      simp [Deserializer.Read, Serializer.Write, ih, pow_succ', Nat.mod_mul]

theorem Deserializer.Read_Write_lt (width value : Nat) (rest : List Nat)
    (h : value < 256 ^ width) :
    Deserializer.Read width (Serializer.Write width value ++ rest) = .ok (value, rest) := by
  rw [Deserializer.Read_Write, Nat.mod_eq_of_lt h]

theorem Deserializer.ReadData_append (bytes rest : List Nat) :
    Deserializer.ReadData bytes.length (bytes ++ rest) = .ok (bytes, rest) := by
  simp [Deserializer.ReadData]

theorem LogicalType.type_roundtrip (t : LogicalType) (h : t.Serializable = true) :
    ∃ bytes, t.Serialize = .ok bytes ∧
      ∀ rest, LogicalType.Deserialize (bytes ++ rest) = .ok (t, rest) := by
  cases t <;>
    first
    | (simp [LogicalType.Serializable] at h; done)
    | (refine ⟨_, rfl, ?_⟩
       intro rest
       simp [LogicalType.Deserialize, LogicalType.id, Serializer.Write, Deserializer.Read]
       done)
    | (rename_i width scale
       simp only [LogicalType.Serializable, Bool.and_eq_true, decide_eq_true_eq] at h
       refine ⟨_, rfl, ?_⟩
       intro rest
       simp [LogicalType.Deserialize, LogicalType.id, Serializer.Write, Deserializer.Read,
         Nat.mod_eq_of_lt h.1, Nat.mod_eq_of_lt h.2])

theorem packBits_bit (bits : Nat → Bool) :
    ∀ (n k base : Nat), k < n →
      (packBits n bits base / 2 ^ k) % 2 = if bits (base + k) then 1 else 0 := by
  intro n
  induction n with
  | zero => intro k base h; omega
  | succ n ih =>
      intro k base h
      cases k with
      | zero =>
          simp only [packBits, pow_zero, Nat.div_one, Nat.add_zero]
          split <;> omega
      | succ k =>
          have hk := ih k (base + 1) (by omega)
          have hdiv : packBits (n + 1) bits base / 2 ^ (k + 1)
              = packBits n bits (base + 1) / 2 ^ k := by
            rw [pow_succ, Nat.mul_comm, ← Nat.div_div_eq_div_mul]
            congr 1
            simp only [packBits]
            split <;> omega
          rw [hdiv, hk, Nat.add_assoc, Nat.add_comm 1 k]

theorem validityBitmap_length (rows : List Value) :
    (validityBitmap rows).length = (rows.length + 7) / 8 := by
  simp [validityBitmap]

theorem bitmapRowIsValid_validityBitmap (rows : List Value) (i : Nat) (h : i < rows.length) :
    bitmapRowIsValid (validityBitmap rows) i = (rows.getD i none).isSome := by
  have hj : i / 8 < (rows.length + 7) / 8 := by omega
  have hget : (validityBitmap rows).getD (i / 8) 0
      = packBits 8 (fun i => (rows.getD i none).isSome) (8 * (i / 8)) := by
    simp [validityBitmap, List.getD_eq_getElem?_getD, hj]
  have hbit := packBits_bit (fun i => (rows.getD i none).isSome) 8 (i % 8) (8 * (i / 8))
    (Nat.mod_lt _ (by decide))
  rw [Nat.div_add_mod] at hbit
  have key : ∀ b : Bool, ((if b = true then 1 else 0 : Nat) == 1) = b := by decide
  simp only [bitmapRowIsValid, hget, hbit]
  exact key _

theorem readValidity_writeValidity (rows : List Value) (rest : List Nat) :
    ∃ validity, readValidity rows.length (writeValidity rows ++ rest) = .ok (validity, rest) ∧
      ∀ i, i < rows.length → validity i = (rows.getD i none).isSome := by
  by_cases hnull : rows.any Option.isNone = true
  · refine ⟨bitmapRowIsValid (validityBitmap rows), ?_, ?_⟩
    · have hread := Deserializer.ReadData_append (validityBitmap rows) rest
      rw [validityBitmap_length] at hread
      simp [readValidity, writeValidity, hnull, Serializer.Write, Deserializer.Read, hread]
    · intro i hi
      exact bitmapRowIsValid_validityBitmap rows i hi
  · refine ⟨fun _ => true, ?_, ?_⟩
    · simp [readValidity, writeValidity, hnull, Serializer.Write, Deserializer.Read]
    · intro i hi
      have hnot : none ∉ rows := by
        simpa using hnull
      have hmem : rows[i] ∈ rows := List.getElem_mem hi
      have h2 : rows.getD i none = rows[i] := by
        simp [List.getD_eq_getElem?_getD, hi]
      rw [h2]
      cases hr : rows[i] with
      | none => exact absurd (hr ▸ hmem) hnot
      | some x => rfl

theorem readFixed_writeFixed (width : Nat) :
    ∀ (rows : List Value) (rest : List Nat),
      (∀ r ∈ rows, ∀ x, r = some x → ∃ bits, x = .fixed bits ∧ bits < 256 ^ width) →
      ∃ values, readFixed width rows.length (writeFixed width rows ++ rest) = .ok (values, rest) ∧
        ∀ (i : Nat) (x : Datum), rows[i]? = some (some x) → values[i]? = some x := by
  intro rows
  induction rows with
  | nil =>
      intro rest _
      exact ⟨[], rfl, by simp⟩
  | cons r rows ih =>
      intro rest hfit
      obtain ⟨values, hread, hvals⟩ := ih rest (fun r' hr' => hfit r' (by simp [hr']))
      cases r with
      | none =>
          refine ⟨.fixed 0 :: values, ?_, ?_⟩
          · simp [readFixed, writeFixed, List.append_assoc, Deserializer.Read_Write, hread]
          · intro i x hx
            cases i with
            | zero => simp at hx
            | succ i => simpa using hvals i x (by simpa using hx)
      | some x0 =>
          obtain ⟨bits, hx0, hlt⟩ := hfit (some x0) (by simp) x0 rfl
          subst hx0
          refine ⟨.fixed bits :: values, ?_, ?_⟩
          · simp [readFixed, writeFixed, List.append_assoc,
              Deserializer.Read_Write_lt _ _ _ hlt, hread]
          · intro i x hx
            cases i with
            | zero => simpa using hx
            | succ i => simpa using hvals i x (by simpa using hx)

theorem readVarlen_writeVarlen :
    ∀ (rows : List Value) (rest : List Nat),
      (∀ r ∈ rows, ∀ x, r = some x → ∃ bytes, x = .varlen bytes ∧ bytes.length < 2 ^ 32) →
      ∃ values, readVarlen rows.length (writeVarlen rows ++ rest) = .ok (values, rest) ∧
        ∀ (i : Nat) (x : Datum), rows[i]? = some (some x) → values[i]? = some x := by
  intro rows
  induction rows with
  | nil =>
      intro rest _
      exact ⟨[], rfl, by simp⟩
  | cons r rows ih =>
      intro rest hfit
      obtain ⟨values, hread, hvals⟩ := ih rest (fun r' hr' => hfit r' (by simp [hr']))
      cases r with
      | none =>
          refine ⟨.varlen [] :: values, ?_, ?_⟩
          · have h0 := Deserializer.ReadData_append [] (writeVarlen rows ++ rest)
            simp only [List.length_nil, List.nil_append] at h0
            simp [readVarlen, writeVarlen, List.append_assoc, Deserializer.Read_Write, h0, hread]
          · intro i x hx
            cases i with
            | zero => simp at hx
            | succ i => simpa using hvals i x (by simpa using hx)
      | some x0 =>
          obtain ⟨bytes, hx0, hlt⟩ := hfit (some x0) (by simp) x0 rfl
          subst hx0
          refine ⟨.varlen bytes :: values, ?_, ?_⟩
          · have hlt' : bytes.length < 256 ^ 4 := by
              have : (256 : Nat) ^ 4 = 2 ^ 32 := by norm_num
              omega
            have h0 := Deserializer.ReadData_append bytes (writeVarlen rows ++ rest)
            simp [readVarlen, writeVarlen, List.append_assoc,
              Deserializer.Read_Write_lt _ _ _ hlt', h0, hread]
          · intro i x hx
            cases i with
            | zero => simpa using hx
            | succ i => simpa using hvals i x (by simpa using hx)

theorem LogicalType.isVarlen_of_fixedWidth_none (t : LogicalType)
    (h : t.Serializable = true) (hw : t.fixedWidth = none) : t.isVarlen = true := by
  cases t <;> simp_all [LogicalType.Serializable, LogicalType.fixedWidth, LogicalType.isVarlen]

theorem Vector.payload_roundtrip (v : Vector) (count : Nat)
    (hs : v.Serializable count = true)
    (b : VectorBuffer) (validity0 : Nat → Bool) (data0 : Nat → Datum) :
    ∃ bytes, v.Serialize count = .ok bytes ∧
      ∀ rest, ∃ v1,
        (Vector.flat v.GetType b validity0 data0).Deserialize count (bytes ++ rest)
          = .ok (v1, rest) ∧
        v1.GetType = v.GetType ∧ ∀ i, i < count → v1.GetValue i = v.GetValue i := by
  simp only [Vector.Serializable, Bool.and_eq_true, List.all_eq_true, List.mem_range] at hs
  obtain ⟨htype, hfit⟩ := hs
  have hlen : ((List.range count).map v.GetValue).length = count := by simp
  have hrow : ∀ i, i < count → ((List.range count).map v.GetValue)[i]? = some (v.GetValue i) := by
    intro i hi
    simp [hi]
  have hmem : ∀ r ∈ (List.range count).map v.GetValue, v.GetType.fits r = true := by
    intro r hr
    simp only [List.mem_map, List.mem_range] at hr
    obtain ⟨i, hi, rfl⟩ := hr
    exact hfit i hi
  -- the reading of a payload, once the validity and the values are known
  have hfinish : ∀ (validity : Nat → Bool) (values : List Datum),
      (∀ i, i < count → validity i = (v.GetValue i).isSome) →
      (∀ (i : Nat) (x : Datum), ((List.range count).map v.GetValue)[i]? = some (some x) →
        values[i]? = some x) →
      ∀ i, i < count →
        (Vector.flat v.GetType b validity
          (fun i => values.getD i Datum.unspecified)).GetValue i = v.GetValue i := by
    intro validity values hval hvals i hi
    simp only [Vector.GetValue, hval i hi]
    cases hx : v.GetValue i with
    | none => simp
    | some x =>
        have h1 := hvals i x (by rw [hrow i hi, hx])
        simp [List.getD_eq_getElem?_getD, h1]
  cases hw : v.GetType.fixedWidth with
  | some width =>
      have hrows : ∀ r ∈ (List.range count).map v.GetValue, ∀ x, r = some x →
          ∃ bits, x = .fixed bits ∧ bits < 256 ^ width := by
        intro r hr x hx
        have h := hmem r hr
        subst hx
        cases x with
        | fixed bits => exact ⟨bits, rfl, by simpa [LogicalType.fits, hw] using h⟩
        | varlen bytes => simp [LogicalType.fits, hw] at h
      refine ⟨writeValidity ((List.range count).map v.GetValue)
        ++ writeFixed width ((List.range count).map v.GetValue),
        by simp only [Vector.Serialize, hw], ?_⟩
      intro rest
      obtain ⟨values, hread, hvals⟩ := readFixed_writeFixed width _ rest hrows
      obtain ⟨validity, hvread, hval⟩ := readValidity_writeValidity
        ((List.range count).map v.GetValue)
        (writeFixed width ((List.range count).map v.GetValue) ++ rest)
      rw [hlen] at hread hvread hval
      refine ⟨.flat v.GetType b validity (fun i => values.getD i Datum.unspecified), ?_, rfl, ?_⟩
      · simp only [Vector.Deserialize, List.append_assoc, hvread, hw, hread]
      · exact hfinish validity values
          (fun i hi => by rw [hval i hi]; simp [List.getD_eq_getElem?_getD, hi]) hvals
  | none =>
      have hvar := v.GetType.isVarlen_of_fixedWidth_none htype hw
      have hrows : ∀ r ∈ (List.range count).map v.GetValue, ∀ x, r = some x →
          ∃ bytes, x = .varlen bytes ∧ bytes.length < 2 ^ 32 := by
        intro r hr x hx
        have h := hmem r hr
        subst hx
        cases x with
        | fixed bits => simp [LogicalType.fits, hw] at h
        | varlen bytes =>
            refine ⟨bytes, rfl, ?_⟩
            simp only [LogicalType.fits, Bool.and_eq_true, decide_eq_true_eq] at h
            exact h.1.2
      refine ⟨writeValidity ((List.range count).map v.GetValue)
        ++ writeVarlen ((List.range count).map v.GetValue),
        by simp only [Vector.Serialize, hw, hvar, if_true], ?_⟩
      intro rest
      obtain ⟨values, hread, hvals⟩ := readVarlen_writeVarlen _ rest hrows
      obtain ⟨validity, hvread, hval⟩ := readValidity_writeValidity
        ((List.range count).map v.GetValue)
        (writeVarlen ((List.range count).map v.GetValue) ++ rest)
      rw [hlen] at hread hvread hval
      refine ⟨.flat v.GetType b validity (fun i => values.getD i Datum.unspecified), ?_, rfl, ?_⟩
      · simp only [Vector.Deserialize, List.append_assoc, hvread, hw, hvar, if_true, hread]
      · exact hfinish validity values
          (fun i hi => by rw [hval i hi]; simp [List.getD_eq_getElem?_getD, hi]) hvals

theorem DataChunk.Deserialize_types_Serialize :
    ∀ vs : List Vector, (∀ v ∈ vs, v.GetType.Serializable = true) →
      ∃ bytes, DataChunk.Serialize.types vs = .ok bytes ∧
        ∀ rest, DataChunk.Deserialize.types vs.length (bytes ++ rest)
          = .ok (vs.map Vector.GetType, rest) := by
  intro vs
  induction vs with
  | nil => intro _; exact ⟨[], rfl, fun rest => rfl⟩
  | cons v vs ih =>
      intro h
      obtain ⟨tb, hser, hde⟩ := v.GetType.type_roundtrip (h v (by simp))
      obtain ⟨more, hsers, hdes⟩ := ih (fun w hw => h w (by simp [hw]))
      refine ⟨tb ++ more, by simp only [DataChunk.Serialize.types, hser, hsers], ?_⟩
      intro rest
      simp only [List.length_cons, DataChunk.Deserialize.types, List.append_assoc, hde, hdes,
        List.map_cons]

theorem DataChunk.Deserialize_payloads_Serialize (size : Nat) :
    ∀ vs : List Vector, (∀ v ∈ vs, v.Serializable size = true) →
      ∃ bytes, DataChunk.Serialize.payloads size vs = .ok bytes ∧
        ∀ rest, ∃ cols,
          DataChunk.Deserialize.payloads size
              (vs.map (fun v => Vector.ofCache ⟨v.GetType⟩)) (bytes ++ rest) = .ok (cols, rest) ∧
          cols.map Vector.GetType = vs.map Vector.GetType ∧
          ∀ (c : Nat) (v : Vector), vs[c]? = some v →
            ∃ v1, cols[c]? = some v1 ∧ ∀ i, i < size → v1.GetValue i = v.GetValue i := by
  intro vs
  induction vs with
  | nil =>
      intro _
      exact ⟨[], rfl, fun rest => ⟨[], rfl, rfl, by simp⟩⟩
  | cons v vs ih =>
      intro h
      obtain ⟨pb, hser, hde⟩ := v.payload_roundtrip size (h v (by simp))
        (.cache ⟨v.GetType⟩) (fun _ => true) (fun _ => Datum.unspecified)
      obtain ⟨more, hsers, hdes⟩ := ih (fun w hw => h w (by simp [hw]))
      refine ⟨pb ++ more, by simp only [DataChunk.Serialize.payloads, hser, hsers], ?_⟩
      intro rest
      obtain ⟨v1, hv1, ht1, hg1⟩ := hde (more ++ rest)
      obtain ⟨cols, hcols, htypes, hvals⟩ := hdes rest
      refine ⟨v1 :: cols, ?_, by simp [ht1, htypes], ?_⟩
      · have hv1' : (Vector.ofCache ⟨v.GetType⟩).Deserialize size (pb ++ (more ++ rest))
            = .ok (v1, more ++ rest) := hv1
        simp only [List.map_cons, DataChunk.Deserialize.payloads, List.append_assoc, hv1', hcols]
      · intro c w hw
        cases c with
        | zero =>
            simp only [List.getElem?_cons_zero, Option.some.injEq] at hw
            subst hw
            exact ⟨v1, by simp, hg1⟩
        | succ c =>
            obtain ⟨w1, hw1, hg⟩ := hvals c w (by simpa using hw)
            exact ⟨w1, by simpa using hw1, hg⟩

theorem DataChunk.Serializable_column (d : DataChunk) (h : d.Serializable = true) :
    ∀ v ∈ d.data, v.Serializable d.size = true := by
  simpa [DataChunk.Serializable] using h

/-- C1: for every chunk of supported types (at least one column and a column
count within idx_t, at most STANDARD_VECTOR_SIZE rows, every column of a type
the format writes and holding values that fit it), Serialize succeeds and Deserialize applied, on a new
chunk, to the bytes written reads all of them and yields a chunk with the same
row count, the same column count, the same column types in the same order, and
GetValue(col, row) equal to the original for every column and every
row < row_count, nulls included. -/
theorem DataChunk.Deserialize_Serialize (d : DataChunk)
    (hcols : 0 < d.ColumnCount) (hcols64 : d.ColumnCount < 2 ^ 64)
    (hsize : d.size ≤ STANDARD_VECTOR_SIZE) (hsupp : d.Serializable = true) :
    ∃ bytes r, d.Serialize = .ok bytes ∧
      DataChunk.new.Deserialize bytes = .ok (r, []) ∧
      r.size = d.size ∧ r.ColumnCount = d.ColumnCount ∧ r.GetTypes = d.GetTypes ∧
      ∀ c, c < d.ColumnCount → ∀ i, i < d.size →
        ∃ x, d.GetValue c i = .ok x ∧ r.GetValue c i = .ok x := by
  have hcol := d.Serializable_column hsupp
  have htypeok : ∀ v ∈ d.data, v.GetType.Serializable = true := by
    intro v hv
    have h := hcol v hv
    simp only [Vector.Serializable, Bool.and_eq_true] at h
    exact h.1
  obtain ⟨tb, htser, htde⟩ := DataChunk.Deserialize_types_Serialize d.data htypeok
  obtain ⟨pb, hpser, hpde⟩ := DataChunk.Deserialize_payloads_Serialize d.size d.data hcol
  obtain ⟨cols, hpread, hctypes, hcvals⟩ := hpde []
  have hne : d.data.map Vector.GetType ≠ [] := by
    intro h
    have hl : d.data.length = 0 := by
      simpa using congrArg List.length h
    have : 0 < d.data.length := hcols
    omega
  have hsz : d.size < 256 ^ 2 := by
    have : d.size ≤ 1024 := hsize
    omega
  have hcc : d.ColumnCount < 256 ^ 8 := by
    have : (256 : Nat) ^ 8 = 2 ^ 64 := by norm_num
    omega
  have hinit := DataChunk.Initialize_new (d.data.map Vector.GetType) hne
  rw [List.append_nil] at hpread
  refine ⟨Serializer.Write 2 d.size ++ Serializer.Write 8 d.ColumnCount ++ tb ++ pb,
    ⟨cols, d.size, (d.data.map Vector.GetType).map (fun t => (⟨t⟩ : VectorCache))⟩,
    by simp only [DataChunk.Serialize, htser, hpser], ?_, rfl, ?_, ?_, ?_⟩
  · have hverify : (⟨cols, d.size,
        (d.data.map Vector.GetType).map (fun t => (⟨t⟩ : VectorCache))⟩ : DataChunk).Verify
          = none := by
      simp [DataChunk.Verify, DataChunk.size] at hsize ⊢
      exact hsize
    have htde' := htde pb
    simp only [DataChunk.ColumnCount] at hcc ⊢
    simp only [DataChunk.Deserialize, List.append_assoc,
      Deserializer.Read_Write_lt 2 d.size _ hsz,
      Deserializer.Read_Write_lt 8 d.data.length _ hcc, htde', hinit,
      DataChunk.SetCardinality, List.map_map, Function.comp_def]
    simp only [List.map_map, Function.comp_def] at hverify
    simp only [hpread, hverify]
  · have h := congrArg List.length hctypes
    simpa [DataChunk.ColumnCount] using h
  · exact hctypes
  · intro c hc i hi
    obtain ⟨v, hv, _⟩ := d.column_exists c hc
    obtain ⟨v1, hv1, hg⟩ := hcvals c v hv
    refine ⟨v.GetValue i, d.GetValue_ok c i v hv hi, ?_⟩
    exact (DataChunk.GetValue_ok ⟨cols, d.size, _⟩ c i v1 hv1 hi).trans (by rw [hg i hi])

/-- C1 (witness): the round-trip scenario of the spec, columns
[int32, varchar, boolean] and rows (1,"a",true), (2,"bb",false), (NULL,"",true). -/
theorem DataChunk.Deserialize_Serialize_witness :
    ∃ bytes r, DataChunk.mixed.Serialize = .ok bytes ∧
      DataChunk.new.Deserialize bytes = .ok (r, []) ∧
      r.size = DataChunk.mixed.size ∧ r.ColumnCount = DataChunk.mixed.ColumnCount ∧
      r.GetTypes = DataChunk.mixed.GetTypes ∧
      ∀ c, c < DataChunk.mixed.ColumnCount → ∀ i, i < DataChunk.mixed.size →
        ∃ x, DataChunk.mixed.GetValue c i = .ok x ∧ r.GetValue c i = .ok x :=
  DataChunk.Deserialize_Serialize DataChunk.mixed (by decide) (by decide) (by decide)
    (by decide)


/-! Reset, Reference, Move and the lifecycle (claims C11 to C15) -/

/-- C11: Reset raises an internal error exactly when the chunk has at least
one column and its number of caches differs from its number of columns, and it
raises no other error; in that case the chunk (columns, caches, row count) is
left as it was; this is the case of every chunk created by InitializeEmpty on
a new chunk; on a chunk that has no columns Reset returns without error and
changes nothing. -/
theorem DataChunk.Reset_error (d : DataChunk) :
    (d.Reset.error = some .InternalException ↔
      (0 < d.ColumnCount ∧ d.vector_caches.length ≠ d.ColumnCount)) ∧
    (d.Reset.error = none ∨ d.Reset.error = some .InternalException) ∧
    (d.Reset.error = some .InternalException → d.Reset.state = d) ∧
    (d.ColumnCount = 0 → d.Reset.error = none ∧ d.Reset.state = d) ∧
    (∀ types : List LogicalType, types ≠ [] →
      (DataChunk.new.InitializeEmpty types).error = none ∧
      (DataChunk.new.InitializeEmpty types).state.Reset.error = some .InternalException ∧
      (DataChunk.new.InitializeEmpty types).state.Reset.state
        = (DataChunk.new.InitializeEmpty types).state) := by
  have hfold : ∀ (types : List LogicalType) (d0 : DataChunk),
      types.foldl (fun acc t => { acc with data := acc.data ++ [Vector.unbacked t] }) d0
        = ⟨d0.data ++ types.map Vector.unbacked, d0.count, d0.vector_caches⟩ := by
    intro types
    induction types with
    | nil => intro d0; simp
    | cons t ts ih => intro d0; simp [List.foldl, ih]
  refine ⟨?_, ?_, ?_, ?_, ?_⟩
  · cases hd : d.data with
    | nil => simp [DataChunk.Reset, DataChunk.ColumnCount, hd]
    | cons v vs =>
        by_cases hc : d.vector_caches.length = vs.length + 1
        · simp [DataChunk.Reset, DataChunk.ColumnCount, hd, hc]
        · simp [DataChunk.Reset, DataChunk.ColumnCount, hd, hc]
  · unfold DataChunk.Reset
    split_ifs <;> simp
  · unfold DataChunk.Reset
    split_ifs <;> simp
  · intro h0
    have hd : d.data = [] := List.eq_nil_of_length_eq_zero h0
    simp [DataChunk.Reset, hd]
  · intro types hne
    have hlen : 0 < types.length := List.length_pos.mpr hne
    have hne' : ¬ types.length = 0 := by omega
    have hinit : DataChunk.new.InitializeEmpty types
        = ⟨⟨types.map Vector.unbacked, 0, []⟩, none⟩ := by
      simp [DataChunk.InitializeEmpty, DataChunk.new, hlen, hfold]
    rw [hinit]
    cases types with
    | nil => exact absurd rfl hne
    | cons t ts => refine ⟨rfl, ?_, ?_⟩ <;> simp [DataChunk.Reset]

theorem Vector.Reference_GetValue (v other : Vector) (i : Nat) :
    (v.Reference other).GetValue i = other.GetValue i := by
  cases other <;> rfl

theorem DataChunk.Reference_loop_length :
    ∀ (vs cs : List Vector), cs.length ≤ vs.length →
      (DataChunk.Reference.loop vs cs).length = vs.length
  | [], [], _ => rfl
  | [], _ :: _, h => by simp at h
  | _ :: _, [], _ => rfl
  | v :: vs, c :: cs, h => by
      simp [DataChunk.Reference.loop,
        DataChunk.Reference_loop_length vs cs (by simpa using h)]

theorem DataChunk.Reference_loop_referenced :
    ∀ (vs cs : List Vector) (i : Nat) (c : Vector), cs.length ≤ vs.length →
      cs[i]? = some c →
      ∃ v, vs[i]? = some v ∧ (DataChunk.Reference.loop vs cs)[i]? = some (v.Reference c)
  | [], _ :: _, _, _, h, _ => by simp at h
  | _, [], _, _, _, hc => by simp at hc
  | v :: vs, c0 :: cs, 0, c, _, hc => by
      simp only [List.getElem?_cons_zero, Option.some.injEq] at hc
      subst hc
      exact ⟨v, by simp, by simp [DataChunk.Reference.loop]⟩
  | v :: vs, c0 :: cs, i + 1, c, h, hc => by
      obtain ⟨w, hw, hl⟩ := DataChunk.Reference_loop_referenced vs cs i c (by simpa using h)
        (by simpa using hc)
      exact ⟨w, by simpa using hw, by simpa [DataChunk.Reference.loop] using hl⟩

theorem DataChunk.Reference_loop_untouched :
    ∀ (vs cs : List Vector) (i : Nat), cs.length ≤ i →
      (DataChunk.Reference.loop vs cs)[i]? = vs[i]?
  | [], [], _, _ => rfl
  | [], _ :: _, _, _ => rfl
  | _ :: _, [], _, _ => rfl
  | v :: vs, c :: cs, 0, h => by simp at h
  | v :: vs, c :: cs, i + 1, h => by
      simpa [DataChunk.Reference.loop] using
        DataChunk.Reference_loop_untouched vs cs i (by simpa using h)

/-- C12: for every chunk a and chunk b with b.ColumnCount() <= a.ColumnCount(),
a.Reference(b) succeeds and afterwards a's row count equals b's, GetValue(c, i)
of a equals GetValue(c, i) of b for every c < b.ColumnCount() and every row i
(and is a value for i < row count), a's caches are unchanged, a has as many
columns as before and those at index >= b.ColumnCount() are unchanged, and b is
unchanged. -/
theorem DataChunk.Reference_frame (a b : DataChunk) (h : b.ColumnCount ≤ a.ColumnCount) :
    (a.Reference b).error = none ∧
    (a.Reference b).state.1.size = b.size ∧
    (∀ c, c < b.ColumnCount → ∀ i,
      (a.Reference b).state.1.GetValue c i = b.GetValue c i ∧
      (i < b.size → ∃ x, b.GetValue c i = .ok x)) ∧
    (a.Reference b).state.1.vector_caches = a.vector_caches ∧
    (a.Reference b).state.1.ColumnCount = a.ColumnCount ∧
    (∀ c, b.ColumnCount ≤ c → (a.Reference b).state.1.data[c]? = a.data[c]?) ∧
    (a.Reference b).state.2 = b := by
  have hlen : b.data.length ≤ a.data.length := h
  have hR : a.Reference b
      = ⟨(⟨DataChunk.Reference.loop a.data b.data, b.size, a.vector_caches⟩, b), none⟩ := by
    simp [DataChunk.Reference, h, DataChunk.SetCardinality]
  rw [hR]
  refine ⟨rfl, rfl, ?_, rfl, DataChunk.Reference_loop_length _ _ hlen, ?_, rfl⟩
  · intro c hc i
    obtain ⟨cb, hcb, _⟩ := b.column_exists c hc
    obtain ⟨v, _, hl⟩ := DataChunk.Reference_loop_referenced a.data b.data c cb hlen hcb
    constructor
    · simp only [DataChunk.GetValue, DataChunk.size, hl, hcb, Vector.Reference_GetValue]
    · intro hi
      exact ⟨cb.GetValue i, b.GetValue_ok c i cb hcb hi⟩
  · intro c hc
    exact DataChunk.Reference_loop_untouched a.data b.data c hc

/-- C12 (witness): the two-column chunk of C10 references the one-column
scenario chunk. -/
theorem DataChunk.Reference_frame_witness :
    (DataChunk.used.Reference DataChunk.scenario).error = none ∧
    (DataChunk.used.Reference DataChunk.scenario).state.1.size = DataChunk.scenario.size ∧
    (∀ c, c < DataChunk.scenario.ColumnCount → ∀ i,
      (DataChunk.used.Reference DataChunk.scenario).state.1.GetValue c i
        = DataChunk.scenario.GetValue c i ∧
      (i < DataChunk.scenario.size → ∃ x, DataChunk.scenario.GetValue c i = .ok x)) ∧
    (DataChunk.used.Reference DataChunk.scenario).state.1.vector_caches
      = DataChunk.used.vector_caches ∧
    (DataChunk.used.Reference DataChunk.scenario).state.1.ColumnCount
      = DataChunk.used.ColumnCount ∧
    (∀ c, DataChunk.scenario.ColumnCount ≤ c →
      (DataChunk.used.Reference DataChunk.scenario).state.1.data[c]?
        = DataChunk.used.data[c]?) ∧
    (DataChunk.used.Reference DataChunk.scenario).state.2 = DataChunk.scenario :=
  DataChunk.Reference_frame DataChunk.used DataChunk.scenario (by decide)

/-- C13: for every pair of chunks a and b (two chunk objects), after a.Move(b)
the columns, caches and row count of a are exactly those b had before the
call, and b has no columns, no caches and row count 0. -/
theorem DataChunk.Move_transfer (a b : DataChunk) :
    (a.Move b).1.data = b.data ∧
    (a.Move b).1.vector_caches = b.vector_caches ∧
    (a.Move b).1.size = b.size ∧
    (a.Move b).2.data = [] ∧
    (a.Move b).2.vector_caches = [] ∧
    (a.Move b).2.size = 0 ∧
    (a.Move b).2.ColumnCount = 0 :=
  ⟨rfl, rfl, rfl, rfl, rfl, rfl, rfl⟩

/-- C14 (the code at the failing input): a chunk that Initialize has
initialized and Destroy has destroyed accepts Initialize and InitializeEmpty
again, and so does a chunk that has been moved from. -/
theorem DataChunk.Initialize_twice :
    (DataChunk.new.Initialize [.INTEGER]).error = none ∧
    ((DataChunk.new.Initialize [.INTEGER]).state.Destroy.Initialize [.VARCHAR]).error = none ∧
    ((DataChunk.new.Initialize [.INTEGER]).state.Destroy.Initialize [.VARCHAR]).state.ColumnCount
      = 1 ∧
    ((DataChunk.new.Initialize [.INTEGER]).state.Destroy.InitializeEmpty [.VARCHAR]).error
      = none ∧
    ((DataChunk.new.Move (DataChunk.new.Initialize [.INTEGER]).state).2.Initialize
      [.VARCHAR]).error = none ∧
    ((DataChunk.new.Initialize [.INTEGER]).state.Initialize [.VARCHAR]).error
      = some .Assertion := by
  decide

theorem DataChunk.Reset_eq_Initialize (types : List LogicalType) (d : DataChunk)
    (hne : types ≠ [])
    (hcaches : d.vector_caches = (DataChunk.new.Initialize types).state.vector_caches)
    (htypes : d.GetTypes = (DataChunk.new.Initialize types).state.GetTypes) :
    d.Reset = DataChunk.new.Initialize types := by
  rw [DataChunk.Initialize_new types hne] at hcaches htypes ⊢
  simp only [DataChunk.GetTypes, List.map_map] at htypes
  have htypes' : d.data.map Vector.GetType = types := by
    rw [htypes]
    exact List.map_id'' (fun t => rfl) types
  have hlenD : d.data.length = types.length := by
    rw [← htypes', List.length_map]
  have hlenC : d.vector_caches.length = d.data.length := by
    rw [hcaches, List.length_map, hlenD]
  have hdne : d.data.isEmpty = false := by
    cases hd : d.data with
    | nil => rw [hd] at hlenD; cases types with
      | nil => exact absurd rfl hne
      | cons t ts => simp at hlenD
    | cons v vs => rfl
  have hdata : List.zipWith Vector.ResetFromCache d.data d.vector_caches
      = types.map (fun t => Vector.ofCache ⟨t⟩) := by
    apply List.ext_getElem?
    intro i
    by_cases hi : i < types.length
    · have hv : d.data[i]? = some d.data[i] := List.getElem?_eq_getElem (hlenD ▸ hi)
      have hc : d.vector_caches[i]? = some ⟨types[i]⟩ := by
        rw [hcaches]
        simp [hi]
      have ht : (d.data.map Vector.GetType)[i]? = some types[i] := by
        rw [htypes']
        exact List.getElem?_eq_getElem hi
      have ht' : (d.data[i]).GetType = types[i] := by
        simpa [hv] using ht
      rw [List.getElem?_zipWith_some Vector.ResetFromCache _ _ i _ _ hv hc]
      simp [hi, Vector.ResetFromCache, Vector.ofCache, ht']
    · have h1 : d.data[i]? = none := List.getElem?_eq_none (by omega)
      have h2 : types[i]? = none := List.getElem?_eq_none (by omega)
      simp [List.getElem?_zipWith, h1, h2]
  simp only [DataChunk.Reset, hdne, hlenC, DataChunk.SetCardinality, hdata]
  simp [hcaches]

theorem DataChunk.Append_eq_Copy_fresh (x d0 : DataChunk) (h0 : d0.size = 0)
    (hflat : ∀ v ∈ d0.data, v.GetVectorType = .FLAT_VECTOR)
    (hstorage : ∀ v ∈ d0.data, v.hasStorage = true)
    (htypes : x.GetTypes = d0.GetTypes) :
    (d0.Append x).error = none ∧
    (x.Copy d0 0).error = none ∧
    (d0.Append x).state.size = (x.Copy d0 0).state.2.size ∧
    (d0.Append x).state.size = x.size ∧
    (∀ c i, (d0.Append x).state.GetValue c i = (x.Copy d0 0).state.2.GetValue c i) ∧
    (∀ c, c < x.ColumnCount → ∀ i, i < x.size →
      ∃ v, (d0.Append x).state.GetValue c i = .ok v) := by
  have hcols : d0.ColumnCount = x.ColumnCount := by
    have h := congrArg List.length htypes
    simpa [DataChunk.GetTypes] using h.symm
  have hcopy := DataChunk.Copy_eq x d0 0 h0 hflat hstorage htypes
  have hsub : idx_sub x.size 0 = x.size := idx_sub_of_le (Nat.zero_le _)
  have hd0 : d0.count = 0 := h0
  rw [hcopy, hsub]
  by_cases hx0 : x.size = 0
  · have hA : d0.Append x = ⟨d0, none⟩ := by simp [DataChunk.Append, hx0]
    have hxc : x.count = 0 := hx0
    rw [hA]
    refine ⟨rfl, rfl, ?_, ?_, ?_, ?_⟩
    · show d0.count = x.count
      rw [hd0, hxc]
    · show d0.count = x.count
      rw [hd0, hxc]
    · intro c i
      simp [DataChunk.GetValue, DataChunk.size, hd0, hxc]
    · intro c _ i hi
      omega
  · rw [DataChunk.Append_eq d0 x hx0 hflat hstorage htypes, h0, Nat.zero_add]
    refine ⟨rfl, rfl, rfl, rfl, fun c i => rfl, ?_⟩
    intro c hc i hi
    have hlen : x.data.length = d0.data.length := hcols.symm
    have hc' : c < (⟨List.zipWith (fun s v => VectorOperations.Copy.write s v x.size 0 0)
        x.data d0.data, x.size, d0.vector_caches⟩ : DataChunk).ColumnCount := by
      have hc2 : c < x.data.length := hc
      simp only [DataChunk.ColumnCount, List.length_zipWith]
      omega
    obtain ⟨v, hv, _⟩ := DataChunk.column_exists _ c hc'
    exact ⟨v.GetValue i, DataChunk.GetValue_ok _ c i v hv hi⟩

/-- C15: for every non-empty type list, every chunk x with those column types
and every chunk d created by Initialize(types) (in any state), d.Reset()
followed by d.Append(x) succeeds and leaves d with the same row count and the
same GetValue(c, i) for every column c and row i as a new chunk created by
Initialize(types) and filled by x.Copy(it, 0), which succeeds too; the row
count is that of x and GetValue(c, i) is a value for every column c and every
row i of x. -/
theorem DataChunk.Reset_Append_eq_Copy (types : List LogicalType) (x d : DataChunk)
    (hne : types ≠ []) (hx : x.GetTypes = types)
    (hcaches : d.vector_caches = (DataChunk.new.Initialize types).state.vector_caches)
    (htypes : d.GetTypes = (DataChunk.new.Initialize types).state.GetTypes) :
    d.Reset.error = none ∧
    (d.Reset.state.Append x).error = none ∧
    (DataChunk.new.Initialize types).error = none ∧
    (x.Copy (DataChunk.new.Initialize types).state 0).error = none ∧
    (d.Reset.state.Append x).state.size
      = (x.Copy (DataChunk.new.Initialize types).state 0).state.2.size ∧
    (d.Reset.state.Append x).state.size = x.size ∧
    (∀ c i, (d.Reset.state.Append x).state.GetValue c i
      = (x.Copy (DataChunk.new.Initialize types).state 0).state.2.GetValue c i) ∧
    (∀ c, c < types.length → ∀ i, i < x.size →
      ∃ v, (d.Reset.state.Append x).state.GetValue c i = .ok v) := by
  have hI := DataChunk.Initialize_new types hne
  have hxlen : x.data.length = types.length := by
    rw [← hx]
    simp [DataChunk.GetTypes]
  have h0 : (DataChunk.new.Initialize types).state.size = 0 := by rw [hI]; rfl
  have hflat : ∀ v ∈ (DataChunk.new.Initialize types).state.data,
      v.GetVectorType = .FLAT_VECTOR := by
    rw [hI]
    intro v hv
    simp only [List.mem_map] at hv
    obtain ⟨t, _, rfl⟩ := hv
    rfl
  have hcols : (DataChunk.new.Initialize types).state.ColumnCount = x.ColumnCount := by
    rw [hI]
    simp [DataChunk.ColumnCount, hxlen]
  have hstorage : ∀ v ∈ (DataChunk.new.Initialize types).state.data,
      v.hasStorage = true := by
    rw [hI]
    intro v hv
    simp only [List.mem_map] at hv
    obtain ⟨t, _, rfl⟩ := hv
    rfl
  have hxtypes : x.GetTypes = (DataChunk.new.Initialize types).state.GetTypes := by
    rw [hx, hI]
    simp only [DataChunk.GetTypes, List.map_map]
    exact (List.map_id'' (fun t => rfl) types).symm
  obtain ⟨h1, h2, h3, h4, h5, h6⟩ :=
    DataChunk.Append_eq_Copy_fresh x (DataChunk.new.Initialize types).state h0 hflat hstorage
      hxtypes
  rw [DataChunk.Reset_eq_Initialize types d hne hcaches htypes]
  refine ⟨by rw [hI], h1, by rw [hI], h2, h3, h4, h5, ?_⟩
  intro c hc i hi
  exact h6 c (by show c < x.data.length; omega) i hi

/-- C15 (witness): the chunk of C10, created by Initialize([INTEGER, VARCHAR])
and sliced since, is reset and receives a two-row chunk of these types. -/
theorem DataChunk.Reset_Append_eq_Copy_witness :
    DataChunk.used.Reset.error = none ∧
    (DataChunk.used.Reset.state.Append DataChunk.pairs).error = none ∧
    (DataChunk.new.Initialize [.INTEGER, .VARCHAR]).error = none ∧
    (DataChunk.pairs.Copy (DataChunk.new.Initialize [.INTEGER, .VARCHAR]).state 0).error
      = none ∧
    (DataChunk.used.Reset.state.Append DataChunk.pairs).state.size
      = (DataChunk.pairs.Copy
          (DataChunk.new.Initialize [.INTEGER, .VARCHAR]).state 0).state.2.size ∧
    (DataChunk.used.Reset.state.Append DataChunk.pairs).state.size = DataChunk.pairs.size ∧
    (∀ c i, (DataChunk.used.Reset.state.Append DataChunk.pairs).state.GetValue c i
      = (DataChunk.pairs.Copy
          (DataChunk.new.Initialize [.INTEGER, .VARCHAR]).state 0).state.2.GetValue c i) ∧
    (∀ c, c < [LogicalType.INTEGER, LogicalType.VARCHAR].length →
      ∀ i, i < DataChunk.pairs.size →
      ∃ v, (DataChunk.used.Reset.state.Append DataChunk.pairs).state.GetValue c i = .ok v) :=
  DataChunk.Reset_Append_eq_Copy [.INTEGER, .VARCHAR] DataChunk.pairs DataChunk.used
    (List.cons_ne_nil _ _) rfl rfl rfl

/-! Hash (claim C16) -/

theorem DataChunk.Hash_loop_eq_foldl (ops : HashKernels) (size : Nat) :
    ∀ (rest pre : List Vector) (result : Vector),
      DataChunk.Hash.loop ops (pre ++ rest) size rest.length pre.length result
        = rest.foldl (fun r column => ops.CombineHash r column size) result := by
  intro rest
  induction rest with
  | nil => intro pre result; rfl
  | cons c cs ih =>
      intro pre result
      have hget : (pre ++ c :: cs)[pre.length]? = some c := by
        rw [List.getElem?_append_right (le_refl _)]
        simp
      have hih := ih (pre ++ [c]) (ops.CombineHash result c size)
      simp only [List.append_assoc, List.singleton_append, List.length_append,
        List.length_singleton] at hih
      simp only [List.length_cons, DataChunk.Hash.loop, hget, List.foldl_cons, hih]

/-- C16: for every chunk with k >= 1 columns and every result vector of type
HASH, Hash succeeds and the result is
combine(... combine(combine(hash(col_0), col_1), col_2) ..., col_{k-1}) over
row_count rows, the columns taken in increasing index order (a left fold over
the columns 1 .. k-1); for a single-column chunk the result is exactly the
hash of column 0; chunks with equal columns and row counts give equal
results. -/
theorem DataChunk.Hash_fold (ops : HashKernels) (d : DataChunk) (result : Vector)
    (hk : 1 ≤ d.ColumnCount) (hres : result.GetType.isHash = true) :
    ∃ column rest, d.data = column :: rest ∧
      (d.Hash ops result).error = none ∧
      (d.Hash ops result).state
        = rest.foldl (fun r c => ops.CombineHash r c d.size) (ops.Hash column result d.size) ∧
      (rest = [] → (d.Hash ops result).state = ops.Hash column result d.size) ∧
      (∀ d2 : DataChunk, d2.data = d.data → d2.size = d.size →
        d2.Hash ops result = d.Hash ops result) := by
  cases hd : d.data with
  | nil =>
      have : d.ColumnCount = 0 := by simp [DataChunk.ColumnCount, hd]
      omega
  | cons column rest =>
      have hloop := DataChunk.Hash_loop_eq_foldl ops d.size rest [column]
        (ops.Hash column result d.size)
      simp only [List.singleton_append, List.length_singleton] at hloop
      have hH : d.Hash ops result
          = ⟨rest.foldl (fun r c => ops.CombineHash r c d.size)
              (ops.Hash column result d.size), none⟩ := by
        simp [DataChunk.Hash, hres, hd, DataChunk.ColumnCount, hloop]
      refine ⟨column, rest, rfl, by rw [hH], by rw [hH], ?_, ?_⟩
      · intro hrest
        rw [hH, hrest]
        rfl
      · intro d2 h2 hs
        simp only [DataChunk.Hash, DataChunk.ColumnCount, h2, hs, hd]

/-- C16 (witness): the mixed three-column chunk hashed with the sample
kernels. -/
theorem DataChunk.Hash_fold_witness :
    ∃ column rest, DataChunk.mixed.data = column :: rest ∧
      (DataChunk.mixed.Hash HashKernels.sample (Vector.ofValues .HASH [])).error = none ∧
      (DataChunk.mixed.Hash HashKernels.sample (Vector.ofValues .HASH [])).state
        = rest.foldl (fun r c => HashKernels.sample.CombineHash r c DataChunk.mixed.size)
            (HashKernels.sample.Hash column (Vector.ofValues .HASH []) DataChunk.mixed.size) ∧
      (rest = [] → (DataChunk.mixed.Hash HashKernels.sample (Vector.ofValues .HASH [])).state
        = HashKernels.sample.Hash column (Vector.ofValues .HASH []) DataChunk.mixed.size) ∧
      (∀ d2 : DataChunk, d2.data = DataChunk.mixed.data → d2.size = DataChunk.mixed.size →
        d2.Hash HashKernels.sample (Vector.ofValues .HASH [])
          = DataChunk.mixed.Hash HashKernels.sample (Vector.ofValues .HASH [])) :=
  DataChunk.Hash_fold HashKernels.sample DataChunk.mixed (Vector.ofValues .HASH [])
    (by decide) rfl

/-! The order of the fields written and read (claim C17) -/

theorem DataChunk.Serialize_types_iff :
    ∀ (vs : List Vector) (bytes : List Nat),
      DataChunk.Serialize.types vs = .ok bytes ↔
        ∃ segments : List (List Nat),
          List.Forall₂ (fun v tb => v.GetType.Serialize = .ok tb) vs segments ∧
          bytes = segments.flatten
  | [], bytes => by
      simp [DataChunk.Serialize.types, eq_comm]
  | v :: vs, bytes => by
      have ih := DataChunk.Serialize_types_iff vs
      constructor
      · intro h
        simp only [DataChunk.Serialize.types] at h
        cases hv : v.GetType.Serialize with
        | error e => simp [hv] at h
        | ok tb =>
            cases hvs : DataChunk.Serialize.types vs with
            | error e => simp [hv, hvs] at h
            | ok more =>
                simp only [hv, hvs, Except.ok.injEq] at h
                obtain ⟨segments, hseg, hmore⟩ := (ih more).mp hvs
                exact ⟨tb :: segments, List.Forall₂.cons hv hseg, by simp [← h, hmore]⟩
      · rintro ⟨segments, hseg, hbytes⟩
        cases hseg with
        | cons hv hrest =>
            rename_i tb segs
            have hvs := (ih segs.flatten).mpr ⟨segs, hrest, rfl⟩
            simp [DataChunk.Serialize.types, hv, hvs, hbytes]

theorem DataChunk.Serialize_payloads_iff (size : Nat) :
    ∀ (vs : List Vector) (bytes : List Nat),
      DataChunk.Serialize.payloads size vs = .ok bytes ↔
        ∃ segments : List (List Nat),
          List.Forall₂ (fun v pb => v.Serialize size = .ok pb) vs segments ∧
          bytes = segments.flatten
  | [], bytes => by
      simp [DataChunk.Serialize.payloads, eq_comm]
  | v :: vs, bytes => by
      have ih := DataChunk.Serialize_payloads_iff size vs
      constructor
      · intro h
        simp only [DataChunk.Serialize.payloads] at h
        cases hv : v.Serialize size with
        | error e => simp [hv] at h
        | ok pb =>
            cases hvs : DataChunk.Serialize.payloads size vs with
            | error e => simp [hv, hvs] at h
            | ok more =>
                simp only [hv, hvs, Except.ok.injEq] at h
                obtain ⟨segments, hseg, hmore⟩ := (ih more).mp hvs
                exact ⟨pb :: segments, List.Forall₂.cons hv hseg, by simp [← h, hmore]⟩
      · rintro ⟨segments, hseg, hbytes⟩
        cases hseg with
        | cons hv hrest =>
            rename_i pb segs
            have hvs := (ih segs.flatten).mpr ⟨segs, hrest, rfl⟩
            simp [DataChunk.Serialize.payloads, hv, hvs, hbytes]

theorem Serializer.Write_length : ∀ (width value : Nat),
    (Serializer.Write width value).length = width
  | 0, _ => rfl
  | w + 1, v => by simp [Serializer.Write, Serializer.Write_length w]

theorem DataChunk.Deserialize_types_iff :
    ∀ (n : Nat) (source : List Nat) (types : List LogicalType) (rest : List Nat),
      DataChunk.Deserialize.types n source = .ok (types, rest) ↔
        ∃ pos : Nat → List Nat, pos 0 = source ∧ pos n = rest ∧ types.length = n ∧
          ∀ i, i < n → ∃ t, types[i]? = some t ∧
            LogicalType.Deserialize (pos i) = .ok (t, pos (i + 1))
  | 0, source, types, rest => by
      constructor
      · intro h
        simp only [DataChunk.Deserialize.types, Except.ok.injEq, Prod.mk.injEq] at h
        exact ⟨fun _ => source, rfl, h.2, by simp [← h.1], fun i hi => by omega⟩
      · rintro ⟨pos, h0, hn, hlen, _⟩
        have ht : types = [] := List.eq_nil_of_length_eq_zero hlen
        simp [DataChunk.Deserialize.types, ht, ← h0, hn]
  | n + 1, source, types, rest => by
      have ih := DataChunk.Deserialize_types_iff n
      constructor
      · intro h
        simp only [DataChunk.Deserialize.types] at h
        cases ht : LogicalType.Deserialize source with
        | error e => simp [ht] at h
        | ok r1 =>
            obtain ⟨t, s1⟩ := r1
            cases hts : DataChunk.Deserialize.types n s1 with
            | error e => simp [ht, hts] at h
            | ok r2 =>
                obtain ⟨ts, s2⟩ := r2
                simp only [ht, hts, Except.ok.injEq, Prod.mk.injEq] at h
                obtain ⟨pos, h0, hn, hlen, hstep⟩ := (ih s1 ts s2).mp hts
                refine ⟨fun i => match i with | 0 => source | j + 1 => pos j, rfl, ?_, ?_, ?_⟩
                · show pos n = rest
                  rw [hn, h.2]
                · rw [← h.1]
                  simp [hlen]
                · intro i hi
                  cases i with
                  | zero =>
                      refine ⟨t, by rw [← h.1]; simp, ?_⟩
                      show LogicalType.Deserialize source = .ok (t, pos 0)
                      rw [ht, h0]
                  | succ i =>
                      obtain ⟨t', ht', hd⟩ := hstep i (by omega)
                      exact ⟨t', by rw [← h.1]; simpa using ht', hd⟩
      · rintro ⟨pos, h0, hn, hlen, hstep⟩
        obtain ⟨t, ht0, hd0⟩ := hstep 0 (by omega)
        cases types with
        | nil => simp at hlen
        | cons t0 ts =>
            simp only [List.getElem?_cons_zero, Option.some.injEq] at ht0
            subst ht0
            have hts := (ih (pos 1) ts rest).mpr
              ⟨fun i => pos (i + 1), rfl, hn, by simpa using hlen, fun i hi => by
                obtain ⟨t', ht', hd⟩ := hstep (i + 1) (by omega)
                exact ⟨t', by simpa using ht', hd⟩⟩
            rw [h0] at hd0
            simp only [DataChunk.Deserialize.types, hd0]
            simp only [hts]

theorem DataChunk.Deserialize_payloads_iff (rows : Nat) :
    ∀ (vs : List Vector) (source : List Nat) (columns : List Vector) (rest : List Nat),
      DataChunk.Deserialize.payloads rows vs source = .ok (columns, rest) ↔
        ∃ pos : Nat → List Nat, pos 0 = source ∧ pos vs.length = rest ∧
          columns.length = vs.length ∧
          ∀ i, i < vs.length → ∃ v c, vs[i]? = some v ∧ columns[i]? = some c ∧
            v.Deserialize rows (pos i) = .ok (c, pos (i + 1))
  | [], source, columns, rest => by
      constructor
      · intro h
        simp only [DataChunk.Deserialize.payloads, Except.ok.injEq, Prod.mk.injEq] at h
        exact ⟨fun _ => source, rfl, h.2, by simp [← h.1], fun i hi => by simp at hi⟩
      · rintro ⟨pos, h0, hn, hlen, _⟩
        have ht : columns = [] := List.eq_nil_of_length_eq_zero hlen
        simp only [List.length_nil] at hn
        simp [DataChunk.Deserialize.payloads, ht, ← h0, hn]
  | v :: vs, source, columns, rest => by
      have ih := DataChunk.Deserialize_payloads_iff rows vs
      constructor
      · intro h
        simp only [DataChunk.Deserialize.payloads] at h
        cases hv : v.Deserialize rows source with
        | error e => simp [hv] at h
        | ok r1 =>
            obtain ⟨c, s1⟩ := r1
            cases hvs : DataChunk.Deserialize.payloads rows vs s1 with
            | error e => simp [hv, hvs] at h
            | ok r2 =>
                obtain ⟨cs, s2⟩ := r2
                simp only [hv, hvs, Except.ok.injEq, Prod.mk.injEq] at h
                obtain ⟨pos, h0, hn, hlen, hstep⟩ := (ih s1 cs s2).mp hvs
                refine ⟨fun i => match i with | 0 => source | j + 1 => pos j, rfl, ?_, ?_, ?_⟩
                · show pos vs.length = rest
                  rw [hn, h.2]
                · rw [← h.1]
                  simp [hlen]
                · intro i hi
                  cases i with
                  | zero =>
                      refine ⟨v, c, by simp, by rw [← h.1]; simp, ?_⟩
                      show v.Deserialize rows source = .ok (c, pos 0)
                      rw [hv, h0]
                  | succ i =>
                      obtain ⟨v', c', hv', hc', hd⟩ := hstep i (by simpa using hi)
                      exact ⟨v', c', by simpa using hv', by rw [← h.1]; simpa using hc', hd⟩
      · rintro ⟨pos, h0, hn, hlen, hstep⟩
        obtain ⟨v0, c0, hv0, hc0, hd0⟩ := hstep 0 (by simp)
        simp only [List.getElem?_cons_zero, Option.some.injEq] at hv0
        subst hv0
        cases columns with
        | nil => simp at hlen
        | cons c1 cs =>
            simp only [List.getElem?_cons_zero, Option.some.injEq] at hc0
            subst hc0
            have hvs := (ih (pos 1) cs rest).mpr
              ⟨fun i => pos (i + 1), rfl, by simpa using hn, by simpa using hlen, fun i hi => by
                obtain ⟨v', c', hv', hc', hd⟩ := hstep (i + 1) (by simpa using hi)
                exact ⟨v', c', by simpa using hv', by simpa using hc', hd⟩⟩
            rw [h0] at hd0
            simp only [DataChunk.Deserialize.payloads, hd0]
            simp only [hvs]

theorem DataChunk.Initialize_ok_length (d : DataChunk) (types : List LogicalType)
    (h : (d.Initialize types).error = none) :
    (d.Initialize types).state.data.length = types.length := by
  by_cases h1 : d.data.isEmpty = true
  · by_cases h2 : types.isEmpty = true
    · simp [DataChunk.Initialize, h1, h2] at h
    · have hd : d.data = [] := by simpa using h1
      simp [DataChunk.Initialize, h2, DataChunk.Initialize_fold, hd]
  · simp [DataChunk.Initialize, h1] at h

theorem DataChunk.Deserialize_iff (d : DataChunk) (source : List Nat) (r : DataChunk)
    (rest : List Nat) :
    d.Deserialize source = .ok (r, rest) ↔
      ∃ (rows column_count : Nat) (s1 s2 s3 : List Nat) (types : List LogicalType)
        (columns : List Vector),
        Deserializer.Read 2 source = .ok (rows, s1) ∧
        Deserializer.Read 8 s1 = .ok (column_count, s2) ∧
        DataChunk.Deserialize.types column_count s2 = .ok (types, s3) ∧
        (d.Initialize types).error = none ∧
        DataChunk.Deserialize.payloads rows (d.Initialize types).state.data s3
          = .ok (columns, rest) ∧
        rows ≤ STANDARD_VECTOR_SIZE ∧
        r = ⟨columns, rows, (d.Initialize types).state.vector_caches⟩ := by
  constructor
  · intro h
    unfold DataChunk.Deserialize at h
    cases h1 : Deserializer.Read 2 source with
    | error e => simp [h1] at h
    | ok p1 =>
      obtain ⟨rows, s1⟩ := p1
      cases h2 : Deserializer.Read 8 s1 with
      | error e => simp [h1, h2] at h
      | ok p2 =>
        obtain ⟨column_count, s2⟩ := p2
        cases h3 : DataChunk.Deserialize.types column_count s2 with
        | error e => simp [h1, h2, h3] at h
        | ok p3 =>
          obtain ⟨types, s3⟩ := p3
          cases h4 : d.Initialize types with
          | mk d1 err =>
            cases err with
            | some e => simp [h1, h2, h3, h4] at h
            | none =>
              cases h5 : DataChunk.Deserialize.payloads rows d1.data s3 with
              | error e => simp [h1, h2, h3, h4, h5, DataChunk.SetCardinality] at h
              | ok p5 =>
                obtain ⟨columns, s4⟩ := p5
                by_cases hv : rows ≤ STANDARD_VECTOR_SIZE
                · simp [h1, h2, h3, h4, h5, DataChunk.SetCardinality, DataChunk.Verify,
                    DataChunk.size, hv] at h
                  refine ⟨rows, column_count, s1, s2, s3, types, columns, rfl, h2, h3,
                    by rw [h4], ?_, hv, ?_⟩
                  · rw [h4]
                    show DataChunk.Deserialize.payloads rows d1.data s3 = .ok (columns, rest)
                    rw [h5, h.2]
                  · rw [h4, ← h.1]
                · simp [h1, h2, h3, h4, h5, DataChunk.SetCardinality, DataChunk.Verify,
                    DataChunk.size, hv] at h
  · rintro ⟨rows, column_count, s1, s2, s3, types, columns, h1, h2, h3, h4, h5, hv, hr⟩
    unfold DataChunk.Deserialize
    cases hI : d.Initialize types with
    | mk d1 err =>
      rw [hI] at h4 h5 hr
      simp only at h4 h5 hr
      subst h4
      simp [h1, h2, h3, hI, h5, DataChunk.SetCardinality, DataChunk.Verify, DataChunk.size,
        hv, hr]

/-- C17: for every chunk, Serialize succeeds exactly when every column's type
and payload are written, and its output is then, in this order and nothing
else: the row count as a 16-bit value (2 bytes), the column count as a 64-bit
value (8 bytes), the logical type of every column in increasing column index,
then the payload (row_count rows) of every column in increasing column index.
Deserialize, on any input, succeeds exactly when it reads the fields in the
same order: the 16-bit row count, the 64-bit column count, then one type per
column from consecutive positions of the input, then (the chunk initialized
with these types) one payload of that many rows per column from consecutive
positions, the row count being at most STANDARD_VECTOR_SIZE. -/
theorem DataChunk.Serialize_order (d : DataChunk) :
    (∀ bytes, d.Serialize = .ok bytes ↔
      ∃ types payloads : List (List Nat),
        List.Forall₂ (fun v tb => v.GetType.Serialize = .ok tb) d.data types ∧
        List.Forall₂ (fun v pb => v.Serialize d.size = .ok pb) d.data payloads ∧
        bytes = Serializer.Write 2 d.size ++ Serializer.Write 8 d.ColumnCount
          ++ types.flatten ++ payloads.flatten) ∧
    (Serializer.Write 2 d.size).length = 2 ∧
    (Serializer.Write 8 d.ColumnCount).length = 8 ∧
    (∀ rest, Deserializer.Read 2 (Serializer.Write 2 d.size ++ rest)
      = .ok (d.size % 2 ^ 16, rest)) ∧
    (∀ rest, Deserializer.Read 8 (Serializer.Write 8 d.ColumnCount ++ rest)
      = .ok (d.ColumnCount % 2 ^ 64, rest)) ∧
    (∀ (d0 : DataChunk) (source : List Nat) (r : DataChunk) (rest : List Nat),
      d0.Deserialize source = .ok (r, rest) ↔
        ∃ (rows column_count : Nat) (types : List LogicalType) (tpos ppos : Nat → List Nat),
          (∃ s1, Deserializer.Read 2 source = .ok (rows, s1) ∧
            Deserializer.Read 8 s1 = .ok (column_count, tpos 0)) ∧
          types.length = column_count ∧
          (∀ i, i < column_count → ∃ t, types[i]? = some t ∧
            LogicalType.Deserialize (tpos i) = .ok (t, tpos (i + 1))) ∧
          (d0.Initialize types).error = none ∧
          ppos 0 = tpos column_count ∧
          r.data.length = column_count ∧
          (∀ i, i < column_count → ∃ v c, (d0.Initialize types).state.data[i]? = some v ∧
            r.data[i]? = some c ∧ v.Deserialize rows (ppos i) = .ok (c, ppos (i + 1))) ∧
          rest = ppos column_count ∧
          rows ≤ STANDARD_VECTOR_SIZE ∧
          r.size = rows ∧
          r.vector_caches = (d0.Initialize types).state.vector_caches) := by
  refine ⟨?_, Serializer.Write_length 2 _, Serializer.Write_length 8 _, ?_, ?_, ?_⟩
  · intro bytes
    constructor
    · intro h
      unfold DataChunk.Serialize at h
      cases ht : DataChunk.Serialize.types d.data with
      | error e => simp [ht] at h
      | ok tb =>
        cases hp : DataChunk.Serialize.payloads d.size d.data with
        | error e => simp [ht, hp] at h
        | ok pb =>
          simp only [ht, hp, Except.ok.injEq] at h
          obtain ⟨types, htypes, rfl⟩ := (DataChunk.Serialize_types_iff d.data tb).mp ht
          obtain ⟨payloads, hpay, rfl⟩ :=
            (DataChunk.Serialize_payloads_iff d.size d.data pb).mp hp
          exact ⟨types, payloads, htypes, hpay, h.symm⟩
    · rintro ⟨types, payloads, htypes, hpay, rfl⟩
      have ht := (DataChunk.Serialize_types_iff d.data types.flatten).mpr ⟨types, htypes, rfl⟩
      have hp := (DataChunk.Serialize_payloads_iff d.size d.data payloads.flatten).mpr
        ⟨payloads, hpay, rfl⟩
      simp only [DataChunk.Serialize, ht, hp]
  · intro rest
    have h := Deserializer.Read_Write 2 d.size rest
    have e : (256 : Nat) ^ 2 = 2 ^ 16 := by norm_num
    rw [e] at h
    exact h
  · intro rest
    have h := Deserializer.Read_Write 8 d.ColumnCount rest
    have e : (256 : Nat) ^ 8 = 2 ^ 64 := by norm_num
    rw [e] at h
    exact h
  · intro d0 source r rest
    rw [DataChunk.Deserialize_iff]
    constructor
    · rintro ⟨rows, column_count, s1, s2, s3, types, columns, h1, h2, h3, h4, h5, hv, hr⟩
      obtain ⟨tpos, ht0, htn, htlen, htstep⟩ :=
        (DataChunk.Deserialize_types_iff column_count s2 types s3).mp h3
      obtain ⟨ppos, hp0, hpn, hplen, hpstep⟩ :=
        (DataChunk.Deserialize_payloads_iff rows _ s3 columns rest).mp h5
      have hlen : (d0.Initialize types).state.data.length = column_count := by
        rw [DataChunk.Initialize_ok_length d0 types h4, htlen]
      rw [hlen] at hpn hplen hpstep
      subst hr
      exact ⟨rows, column_count, types, tpos, ppos, ⟨s1, h1, by rw [ht0]; exact h2⟩, htlen,
        htstep, h4, by rw [hp0, htn], hplen, hpstep, hpn.symm, hv, rfl, rfl⟩
    · rintro ⟨rows, column_count, types, tpos, ppos, ⟨s1, h1, h2⟩, htlen, htstep, h4, hp0,
        hrlen, hpstep, hrest, hv, hsize, hcaches⟩
      have hlen : (d0.Initialize types).state.data.length = column_count := by
        rw [DataChunk.Initialize_ok_length d0 types h4, htlen]
      have h3 := (DataChunk.Deserialize_types_iff column_count (tpos 0) types
        (tpos column_count)).mpr ⟨tpos, rfl, rfl, htlen, htstep⟩
      have h5 := (DataChunk.Deserialize_payloads_iff rows (d0.Initialize types).state.data
        (tpos column_count) r.data rest).mpr
        ⟨ppos, hp0, by rw [hlen, hrest], by rw [hlen, hrlen], by rw [hlen]; exact hpstep⟩
      refine ⟨rows, column_count, s1, tpos 0, tpos column_count, types, r.data, h1, h2, h3,
        h4, h5, hv, ?_⟩
      cases r with
      | mk data count caches =>
        simp only [DataChunk.size] at hsize
        simp only at hcaches
        rw [hsize, hcaches]

/-! Interchange export: the number of buffers per type -/

/-- The LIST case of SetArrowChild on a list vector (SetList, lines 287-324). -/
theorem SetArrowChild_list_eq (uninit : Nat → Nat) (child : ArrowArray)
    (v : Option FlatVector) (o d : Option (List Nat)) (ch : List DuckDBArrowArrayChildHolder)
    (t : LogicalType) (m : ValidityMask) (ld : Nat → list_entry_t) (cv : FlatVector)
    (ls size : Nat) (pm : Option ValidityMask) :
    SetArrowChild uninit (.mk child v o d ch) (.LIST t) (.list m ld cv ls) size pm =
      match SetArrowChild uninit (InitializeChild .new ls) t cv ls (some m) with
      | .error e => .error e
      | .ok c =>
          .ok (.mk { child with n_buffers := 2, buffers := child.buffers.set 1 .offsets,
                                n_children := 1 }
            (some (.list m ld cv ls)) (some (SetList.offsetArray uninit ld pm size)) d
            [c.setArray (SetChildValidityMask cv c.array)]) := rfl

/-- The STRUCT case of SetArrowChild on a struct vector (SetStruct, lines 326-347). -/
theorem SetArrowChild_struct_eq (uninit : Nat → Nat) (child : ArrowArray)
    (v : Option FlatVector) (o d : Option (List Nat)) (ch : List DuckDBArrowArrayChildHolder)
    (ts : ChildTypes) (m : ValidityMask) (children : FlatVectorList)
    (size : Nat) (pm : Option ValidityMask) :
    SetArrowChild uninit (.mk child v o d ch) (.STRUCT ts) (.struct m children) size pm =
      match SetStruct.loop uninit ts size m children 0 with
      | .error e => .error e
      | .ok holders =>
          .ok (.mk { child with n_buffers := 1, n_children := children.size }
            (some (.struct m children)) o d holders) := rfl

/-- The MAP case of SetArrowChild on a struct vector with a first child (lines
559-581 and SetStructMap). -/
theorem SetArrowChild_map_eq (uninit : Nat → Nat) (child : ArrowArray)
    (v : Option FlatVector) (o d : Option (List Nat)) (ch : List DuckDBArrowArrayChildHolder)
    (ts : ChildTypes) (m : ValidityMask) (keys : FlatVector) (rest : FlatVectorList)
    (size : Nat) (pm : Option ValidityMask) :
    SetArrowChild uninit (.mk child v o d ch) (.MAP ts) (.struct m (.cons keys rest)) size pm =
      match ListVector.GetListSize keys with
      | none => .error .Assertion
      | some list_size =>
          match SetStructMap.loop uninit ts size list_size m (.cons keys rest) 0 with
          | .error e => .error e
          | .ok holders =>
              .ok (.mk { child with n_buffers := 2, n_children := 1,
                                    buffers := child.buffers.set 1 .offsets }
                (some (.struct m (.cons keys rest)))
                (some (SetList.offsetArray uninit keys.GetListData (some m) size)) d
                [.mk { (InitializeChild .new size).array with
                        n_buffers := 1, n_children := (FlatVectorList.cons keys rest).size,
                        length := list_size }
                  (some (.struct m (.cons keys rest))) none none holders]) := rfl

/-- The DECIMAL case of SetArrowChild (lines 462-504). -/
theorem SetArrowChild_decimal_eq (uninit : Nat → Nat) (child : ArrowArray)
    (v : Option FlatVector) (o d : Option (List Nat)) (ch : List DuckDBArrowArrayChildHolder)
    (width scale : Nat) (data : FlatVector) (size : Nat) (pm : Option ValidityMask) :
    SetArrowChild uninit (.mk child v o d ch) (.DECIMAL width scale) data size pm =
      match (LogicalType.DECIMAL width scale).InternalType with
      | .INT16 =>
          .ok (.mk { child with n_buffers := 2, buffers := child.buffers.set 1 .data }
            (some data) o (some (SetArrowChild.decimals 16 data.GetData size)) ch)
      | .INT32 =>
          .ok (.mk { child with n_buffers := 2, buffers := child.buffers.set 1 .data }
            (some data) o (some (SetArrowChild.decimals 32 data.GetData size)) ch)
      | .INT64 =>
          .ok (.mk { child with n_buffers := 2, buffers := child.buffers.set 1 .data }
            (some data) o (some (SetArrowChild.decimals 64 data.GetData size)) ch)
      | .INT128 =>
          .ok (.mk { child with n_buffers := 2,
                                buffers := child.buffers.set 1 (.vector_data data.GetData) }
            (some data) o d ch)
      | _ => .error .UnsupportedDecimalType := by
  cases data <;> rfl

/-- The VARCHAR case of SetArrowChild (lines 506-542): three buffers, the
offsets and the heap of the strings of the vector. -/
theorem SetArrowChild_varchar_data_eq (uninit : Nat → Nat) (child : ArrowArray)
    (v : Option FlatVector) (o d : Option (List Nat)) (ch : List DuckDBArrowArrayChildHolder)
    (data : FlatVector) (size : Nat) (pm : Option ValidityMask) :
    SetArrowChild uninit (.mk child v o d ch) .VARCHAR data size pm =
      match SetArrowChild.varchar uninit data.GetStrings data.Validity size with
      | none => .error .IndexOutOfBounds
      | some r =>
          .ok (.mk { child with n_buffers := 3,
                                buffers := (child.buffers.set 1 .offsets).set 2 .data }
            (some data) (some r.1) (some r.2) ch) := by
  cases data <;> rfl

/-- Every successful call of SetArrowChild leaves in the array the number of
buffers the layout table gives for the type. -/
theorem SetArrowChild_n_buffers (uninit : Nat → Nat) (h : DuckDBArrowArrayChildHolder)
    (type : LogicalType) (data : FlatVector) (size : Nat) (pm : Option ValidityMask)
    (c : DuckDBArrowArrayChildHolder)
    (hc : SetArrowChild uninit h type data size pm = .ok c) :
    some c.array.n_buffers = type.tableBuffers := by
  cases h with
  | mk child v o d ch =>
    cases type with
    | LIST t =>
      cases data with
      | list m ld cv ls =>
        rw [SetArrowChild_list_eq] at hc
        split at hc
        · cases hc
        · cases hc; rfl
      | _ => cases hc
    | STRUCT ts =>
      cases data with
      | struct m children =>
        rw [SetArrowChild_struct_eq] at hc
        split at hc
        · cases hc
        · cases hc; rfl
      | _ => cases hc
    | MAP ts =>
      cases data with
      | struct m children =>
        cases children with
        | nil => cases hc
        | cons keys rest =>
          rw [SetArrowChild_map_eq] at hc
          split at hc
          · cases hc
          · split at hc
            · cases hc
            · cases hc; rfl
      | _ => cases hc
    | DECIMAL width scale =>
      rw [SetArrowChild_decimal_eq] at hc
      generalize (LogicalType.DECIMAL width scale).InternalType = p at hc
      cases p <;> first | (cases hc; rfl) | cases hc
    | VARCHAR =>
      rw [SetArrowChild_varchar_data_eq] at hc
      split at hc
      · cases hc
      · cases hc; rfl
    | _ => cases data <;> first | (cases hc; rfl) | cases hc

/-- The holders a successful column loop of ToArrowArray returns: one per
column, the result of SetArrowChild on the column followed by
SetChildValidityMask on the vector the holder retained. -/
theorem DataChunk.ToArrowArray_columns_get (uninit : Nat → Nat) (size : Nat) :
    ∀ (cols : List (LogicalType × FlatVector)) (hs : List DuckDBArrowArrayChildHolder),
      DataChunk.ToArrowArray.columns uninit size cols = .ok hs →
      hs.length = cols.length ∧
      ∀ (i : Nat) (type : LogicalType) (data : FlatVector), cols[i]? = some (type, data) →
        ∃ (c : DuckDBArrowArrayChildHolder) (v : FlatVector), SetArrowChild uninit (InitializeChild .new size) type data size none = .ok c ∧
          c.vector = some v ∧
          hs[i]? = some (c.setArray (SetChildValidityMask v c.array)) := by
  intro cols
  induction cols with
  | nil =>
    intro hs h
    simp only [DataChunk.ToArrowArray.columns] at h
    cases h
    exact ⟨rfl, fun i type data hi => by simp at hi⟩
  | cons col rest ih =>
    intro hs h
    obtain ⟨type0, data0⟩ := col
    simp only [DataChunk.ToArrowArray.columns] at h
    cases hc : SetArrowChild uninit (InitializeChild .new size) type0 data0 size none with
    | error e => rw [hc] at h; cases h
    | ok c =>
      rw [hc] at h
      simp only at h
      cases hv : c.vector with
      | none => rw [hv] at h; cases h
      | some v =>
        rw [hv] at h
        simp only at h
        cases hr : DataChunk.ToArrowArray.columns uninit size rest with
        | error e => rw [hr] at h; cases h
        | ok holders =>
          rw [hr] at h
          simp only at h
          cases h
          obtain ⟨hlen, hget⟩ := ih holders hr
          refine ⟨by simp [hlen], ?_⟩
          intro i type data hi
          cases i with
          | zero =>
            simp only [List.getElem?_cons_zero, Option.some.injEq, Prod.mk.injEq] at hi
            obtain ⟨rfl, rfl⟩ := hi
            exact ⟨c, v, hc, hv, by simp⟩
          | succ i =>
            simp only [List.getElem?_cons_succ] at hi
            obtain ⟨c1, v1, h1, h2, h3⟩ := hget i type data hi
            exact ⟨c1, v1, h1, h2, by simpa using h3⟩

/-! Interchange export: string columns and list offsets -/

/-- The total of the first n + 1 rows is the total of the first n plus the
contribution of row n. -/
theorem validTotal_succ (strs : Nat → List Nat) (mask : ValidityMask) (n : Nat) :
    validTotal strs mask (n + 1) = validTotal strs mask n + validLength strs mask n := by
  simp [validTotal, List.range_succ]

/-- The total byte length grows with the number of rows. -/
theorem validTotal_mono (strs : Nat → List Nat) (mask : ValidityMask) {a b : Nat}
    (h : a ≤ b) : validTotal strs mask a ≤ validTotal strs mask b := by
  induction h with
  | refl => exact le_refl _
  | step _ ih => rw [validTotal_succ]; omega

/-- A memcpy inside the target succeeds. -/
theorem memcpy_isSome (target : List Nat) (pos : Nat) (source : List Nat)
    (h : pos + source.length ≤ target.length) :
    ∃ r, memcpy target pos source = some r := by
  simp [memcpy, h]

/-- A memcpy that reaches past the end of the target fails. -/
theorem memcpy_none (target : List Nat) (pos : Nat) (source : List Nat)
    (h : target.length < pos + source.length) :
    memcpy target pos source = none := by
  simp [memcpy, h]

/-- A memcpy does not change the length of the target. -/
theorem memcpy_length (target : List Nat) (pos : Nat) (source r : List Nat)
    (hr : memcpy target pos source = some r) :
    r.length = target.length := by
  simp only [memcpy] at hr
  split_ifs at hr with h
  cases hr
  simp only [List.length_append, List.length_take, List.length_drop]
  omega

/-- The bytes after a memcpy: the source in [pos, pos + length), the target
elsewhere. -/
theorem memcpy_getElem? (target : List Nat) (pos : Nat) (source r : List Nat)
    (hr : memcpy target pos source = some r) (j : Nat) :
    r[j]? =
      if j < pos then target[j]?
      else if j < pos + source.length then source[j - pos]? else target[j]? := by
  simp only [memcpy] at hr
  split_ifs at hr with h
  cases hr
  have hp : (List.take pos target).length = pos := by
    rw [List.length_take]; omega
  by_cases h1 : j < pos
  · rw [if_pos h1, List.append_assoc, List.getElem?_append_left (by omega),
      List.getElem?_take_of_lt h1]
  · rw [if_neg h1, List.append_assoc, List.getElem?_append_right (by omega), hp]
    by_cases h2 : j < pos + source.length
    · rw [if_pos h2, List.getElem?_append_left (by omega)]
    · rw [if_neg h2, List.getElem?_append_right (by omega), List.getElem?_drop]
      congr 1
      omega

/-- Step 1 of the VARCHAR case computes the total byte length of the valid
strings. -/
theorem SetArrowChild.stringLength_eq (strs : Nat → List Nat) (mask : ValidityMask) :
    ∀ (n k : Nat),
      SetArrowChild.stringLength strs mask n k (validTotal strs mask k) =
        validTotal strs mask (k + n) := by
  intro n
  induction n with
  | zero => intro k; rfl
  | succ n ih =>
    intro k
    have hk := validTotal_succ strs mask k
    have e : k + (n + 1) = k + 1 + n := by omega
    rw [e, ← ih (k + 1), hk]
    simp only [SetArrowChild.stringLength, validLength]
    cases hv : mask.RowIsValid k <;> simp

/-- Step 3 of the VARCHAR case, started at row k with the heap offset at the
total of the rows before k, on a heap that holds the total of all rows: no
memcpy leaves the heap; the final heap offset, the offsets written for the
rows from k on, and the bytes of the heap. -/
theorem SetArrowChild.strings_spec (strs : Nat → List Nat) (mask : ValidityMask) :
    ∀ (n k : Nat) (target heap : List Nat),
      validTotal strs mask (k + n) ≤ heap.length → k + n < target.length →
      ∃ r : List Nat × List Nat × Nat,
      SetArrowChild.strings strs mask n k target heap (validTotal strs mask k) = some r ∧
      r.2.2 = validTotal strs mask (k + n) ∧
      r.1.length = target.length ∧
      r.2.1.length = heap.length ∧
      (∀ j : Nat,
        r.1[j]? =
          if k ≤ j ∧ j < k + n then some (validTotal strs mask j % 2 ^ 32) else target[j]?) ∧
      (∀ j : Nat, j < validTotal strs mask k → r.2.1[j]? = heap[j]?) ∧
      (∀ i : Nat, k ≤ i → i < k + n → mask.RowIsValid i = true →
        ∀ m : Nat, m < (strs i).length →
          r.2.1[validTotal strs mask i + m]? = (strs i)[m]?) := by
  intro n
  induction n with
  | zero =>
    intro k target heap _ _
    refine ⟨_, rfl, rfl, rfl, rfl, ?_, fun _ _ => rfl, ?_⟩
    · intro j
      have : ¬ (k ≤ j ∧ j < k + 0) := by omega
      rw [if_neg this]
    · intro i h1 h2; omega
  | succ n ih =>
    intro k target heap hheap htarget
    have hk := validTotal_succ strs mask k
    have e : k + (n + 1) = k + 1 + n := by omega
    have hmono := validTotal_mono strs mask (show k + 1 ≤ k + (n + 1) by omega)
    have hset : (target.set k (validTotal strs mask k % 2 ^ 32)).length = target.length :=
      List.length_set ..
    cases hv : mask.RowIsValid k with
    | false =>
      have hlen : validLength strs mask k = 0 := by simp [validLength, hv]
      have hk1 : validTotal strs mask (k + 1) = validTotal strs mask k := by omega
      have hstep : SetArrowChild.strings strs mask (n + 1) k target heap
            (validTotal strs mask k) =
          SetArrowChild.strings strs mask n (k + 1)
            (target.set k (validTotal strs mask k % 2 ^ 32)) heap
            (validTotal strs mask (k + 1)) := by
        rw [hk1]; simp [SetArrowChild.strings, hv]
      rw [hstep]
      obtain ⟨r, hr, a1, a2, a3, a4, a5, a6⟩ :=
        ih (k + 1) (target.set k (validTotal strs mask k % 2 ^ 32)) heap
          (by rw [← e]; exact hheap) (by rw [hset]; omega)
      refine ⟨r, hr, by rw [a1, e], by rw [a2, hset], a3, ?_, ?_, ?_⟩
      · intro j
        rw [a4 j]
        by_cases hj : k + 1 ≤ j ∧ j < k + 1 + n
        · rw [if_pos hj, if_pos (by omega)]
        · rw [if_neg hj]
          by_cases hjk : j = k
          · subst hjk
            rw [if_pos (by omega), List.getElem?_set_self (by omega)]
          · rw [if_neg (by omega), List.getElem?_set_ne (by omega)]
      · intro j hj
        exact a5 j (by omega)
      · intro i h1 h2 hvi m hm
        have : i ≠ k := by
          intro hik; subst hik; rw [hv] at hvi; cases hvi
        exact a6 i (by omega) (by omega) hvi m hm
    | true =>
      have hlen : validLength strs mask k = (strs k).length := by simp [validLength, hv]
      have hk1 : validTotal strs mask (k + 1) =
          validTotal strs mask k + (strs k).length := by omega
      have hfit : validTotal strs mask k + (strs k).length ≤ heap.length := by omega
      obtain ⟨heap1, hheap1⟩ := memcpy_isSome heap (validTotal strs mask k) (strs k) hfit
      have hstep : SetArrowChild.strings strs mask (n + 1) k target heap
            (validTotal strs mask k) =
          SetArrowChild.strings strs mask n (k + 1)
            (target.set k (validTotal strs mask k % 2 ^ 32)) heap1
            (validTotal strs mask (k + 1)) := by
        rw [hk1]; simp [SetArrowChild.strings, hv, hheap1]
      have hml := memcpy_length heap (validTotal strs mask k) (strs k) heap1 hheap1
      rw [hstep]
      obtain ⟨r, hr, a1, a2, a3, a4, a5, a6⟩ :=
        ih (k + 1) (target.set k (validTotal strs mask k % 2 ^ 32)) heap1
          (by rw [← e, hml]; exact hheap) (by rw [hset]; omega)
      refine ⟨r, hr, by rw [a1, e], by rw [a2, hset], by rw [a3, hml], ?_, ?_, ?_⟩
      · intro j
        rw [a4 j]
        by_cases hj : k + 1 ≤ j ∧ j < k + 1 + n
        · rw [if_pos hj, if_pos (by omega)]
        · rw [if_neg hj]
          by_cases hjk : j = k
          · subst hjk
            rw [if_pos (by omega), List.getElem?_set_self (by omega)]
          · rw [if_neg (by omega), List.getElem?_set_ne (by omega)]
      · intro j hj
        rw [a5 j (by omega), memcpy_getElem? _ _ _ _ hheap1, if_pos hj]
      · intro i h1 h2 hvi m hm
        by_cases hik : i = k
        · subst hik
          rw [a5 _ (by omega), memcpy_getElem? _ _ _ _ hheap1, if_neg (by omega),
            if_pos (by omega)]
          congr 1
          omega
        · exact a6 i (by omega) (by omega) hvi m hm

/-- The VARCHAR case never writes past its heap: it returns the offsets (as
uint32) and a heap of exactly the total byte length of the valid strings that
holds their bytes. -/
theorem SetArrowChild.varchar_spec (uninit : Nat → Nat) (strs : Nat → List Nat)
    (mask : ValidityMask) (size : Nat) :
    ∃ r : List Nat × List Nat,
    SetArrowChild.varchar uninit strs mask size = some r ∧
    r.1.length = size + 1 ∧
    (∀ j : Nat, j ≤ size → r.1[j]? = some (validTotal strs mask j % 2 ^ 32)) ∧
    r.2.length = validTotal strs mask size ∧
    (∀ i : Nat, i < size → mask.RowIsValid i = true → ∀ m : Nat, m < (strs i).length →
      r.2[validTotal strs mask i + m]? = (strs i)[m]?) := by
  have h0 : validTotal strs mask 0 = 0 := rfl
  have htot : SetArrowChild.stringLength strs mask size 0 0 = validTotal strs mask size := by
    have := SetArrowChild.stringLength_eq strs mask size 0
    rw [h0, Nat.zero_add] at this
    exact this
  have hal : ∀ n, (allocate uninit n).length = n := by
    intro n; simp [allocate]
  obtain ⟨r, hr, a1, a2, a3, a4, -, a6⟩ :=
    SetArrowChild.strings_spec strs mask size 0 (allocate uninit (size + 1))
      (allocate uninit (validTotal strs mask size))
      (by rw [hal, Nat.zero_add]) (by rw [hal]; omega)
  rw [h0] at hr
  rw [Nat.zero_add] at a1
  refine ⟨(r.1.set size (r.2.2 % 2 ^ 32), r.2.1), ?_, ?_, ?_, ?_, ?_⟩
  · simp only [SetArrowChild.varchar, htot, hr]
  · rw [List.length_set, a2, hal]
  · intro j hj
    by_cases hjs : j = size
    · subst hjs
      show (r.1.set j (r.2.2 % 2 ^ 32))[j]? = _
      rw [List.getElem?_set_self (by rw [a2, hal]; omega), a1]
    · show (r.1.set size (r.2.2 % 2 ^ 32))[j]? = _
      rw [List.getElem?_set_ne (by omega), a4 j, if_pos (by omega)]
  · show r.2.1.length = _
    rw [a3, hal]
  · intro i hi hv m hm
    exact a6 i (by omega) (by omega) hv m hm

/-- The VARCHAR case of SetArrowChild on a string vector (lines 506-542). -/
theorem SetArrowChild_varchar_eq (uninit : Nat → Nat) (child : ArrowArray)
    (v : Option FlatVector) (o d : Option (List Nat)) (ch : List DuckDBArrowArrayChildHolder)
    (mask : ValidityMask) (strs : Nat → List Nat) (size : Nat) (pm : Option ValidityMask) :
    SetArrowChild uninit (.mk child v o d ch) .VARCHAR (.strings mask strs) size pm =
      match SetArrowChild.varchar uninit strs mask size with
      | none => .error .IndexOutOfBounds
      | some r =>
          .ok (.mk { child with n_buffers := 3,
                                buffers := (child.buffers.set 1 .offsets).set 2 .data }
            (some (.strings mask strs)) (some r.1) (some r.2) ch) := rfl

/-- C19: a chunk of one string column always exports: the heap is allocated
with the total byte length of the valid strings and no string is copied past
its end.  When ToArrowArray succeeds on a chunk of n rows whose column col_idx
is a string column whose valid strings total fewer than 2^32 bytes, the holder
of the column has n + 1 offsets with offsets[0] = 0 and offsets[i + 1] =
offsets[i] + (the byte length of string i if row i is valid, else 0), and a
heap of exactly offsets[n] bytes, the length step 1 computes, in which the
bytes from offsets[i] on are the bytes of string i for every valid row i; for
the column ["", "hi", NULL, "world"] the offsets are [0,0,2,2,7] and the heap
is "hiworld", whatever the slot of the null row holds. -/
theorem DataChunk.ToArrowArray_strings (uninit : Nat → Nat)
    (columns : List (LogicalType × FlatVector)) (size : Nat) (out_array : ArrowArray)
    (root_holder : DuckDBArrowArrayHolder) (col_idx : Nat) (mask : ValidityMask)
    (strs : Nat → List Nat)
    (h : DataChunk.ToArrowArray uninit columns size = .ok (out_array, root_holder))
    (hcol : columns[col_idx]? = some (.VARCHAR, .strings mask strs))
    (hlt : validTotal strs mask size < 2 ^ 32) :
    (∃ (child_holder : DuckDBArrowArrayChildHolder) (offsets heap : List Nat),
      root_holder.children[col_idx]? = some child_holder ∧
      child_holder.offsets = some offsets ∧ child_holder.data = some heap ∧
      offsets.length = size + 1 ∧ offsets[0]? = some 0 ∧
      (∀ i : Nat, i < size → ∃ a : Nat, offsets[i]? = some a ∧
        offsets[i + 1]? = some (a + if mask.RowIsValid i then (strs i).length else 0) ∧
        (mask.RowIsValid i = true → (heap.drop a).take (strs i).length = strs i)) ∧
      offsets[size]? = some heap.length ∧
      heap.length = SetArrowChild.stringLength strs mask size 0 0) ∧
    (∀ (u : Nat → Nat) (m : ValidityMask) (s : Nat → List Nat) (n : Nat),
      ∃ (out : ArrowArray) (root : DuckDBArrowArrayHolder),
        DataChunk.ToArrowArray u [(.VARCHAR, .strings m s)] n = .ok (out, root)) ∧
    ∀ slot : List Nat, ∃ (out_array : ArrowArray) (root_holder : DuckDBArrowArrayHolder)
        (child_holder : DuckDBArrowArrayChildHolder),
      DataChunk.ToArrowArray uninit [(.VARCHAR, FlatVector.scenarioStrings slot)] 4 =
        .ok (out_array, root_holder) ∧
      root_holder.children[0]? = some child_holder ∧
      child_holder.offsets = some [0, 0, 2, 2, 7] ∧
      child_holder.data = some [104, 105, 119, 111, 114, 108, 100] := by
  refine ⟨?_, ?_, fun slot => ⟨_, _, _, rfl, rfl, rfl, rfl⟩⟩
  · simp only [DataChunk.ToArrowArray] at h
    cases hr : DataChunk.ToArrowArray.columns uninit size columns with
    | error e => rw [hr] at h; cases h
    | ok holders =>
      rw [hr] at h
      simp only at h
      cases h
      obtain ⟨-, hget⟩ := DataChunk.ToArrowArray_columns_get uninit size columns holders hr
      obtain ⟨c, v, h1, -, h3⟩ := hget col_idx _ _ hcol
      obtain ⟨r, hv, b1, b2, b3, b4⟩ := SetArrowChild.varchar_spec uninit strs mask size
      rw [show InitializeChild .new size = .mk (InitializeChild .new size).array none none none []
        from rfl, SetArrowChild_varchar_eq, hv] at h1
      cases h1
      have hmod : ∀ j : Nat, j ≤ size → r.1[j]? = some (validTotal strs mask j) := by
        intro j hj
        rw [b2 j hj,
          Nat.mod_eq_of_lt (lt_of_le_of_lt (validTotal_mono strs mask hj) hlt)]
      have htot : SetArrowChild.stringLength strs mask size 0 0 = validTotal strs mask size := by
        have := SetArrowChild.stringLength_eq strs mask size 0
        rw [show validTotal strs mask 0 = 0 from rfl, Nat.zero_add] at this
        exact this
      refine ⟨_, _, _, h3, rfl, rfl, b1, ?_, ?_, ?_, ?_⟩
      · rw [hmod 0 (Nat.zero_le _)]; rfl
      · intro i hi
        refine ⟨validTotal strs mask i, hmod i (by omega), ?_, ?_⟩
        · rw [hmod (i + 1) (by omega), validTotal_succ]; rfl
        · intro hv
          apply List.ext_getElem?
          intro m
          rw [List.getElem?_take, List.getElem?_drop]
          by_cases hm : m < (strs i).length
          · rw [if_pos hm, b4 i hi hv m hm]
          · rw [if_neg hm, List.getElem?_eq_none (by omega)]
      · rw [hmod size (le_refl _), b3]
      · rw [b3, htot]
  · intro u m s n
    obtain ⟨r, hv, -⟩ := SetArrowChild.varchar_spec u s m n
    have hset : SetArrowChild u (InitializeChild .new n) .VARCHAR (.strings m s) n none =
        .ok (.mk { (InitializeChild .new n).array with
                     n_buffers := 3,
                     buffers := (((InitializeChild .new n).array).buffers.set 1 .offsets).set 2
                       .data }
          (some (.strings m s)) (some r.1) (some r.2) []) := by
      rw [show InitializeChild .new n = .mk (InitializeChild .new n).array none none none []
        from rfl, SetArrowChild_varchar_eq, hv]
      rfl
    simp only [DataChunk.ToArrowArray, DataChunk.ToArrowArray.columns, hset,
      DuckDBArrowArrayChildHolder.vector]
    exact ⟨_, _, rfl⟩

/-- The export of the column ["", "hi", NULL, "world"], whose null row holds
"x", meets the conditions of the theorem on string columns. -/
theorem DataChunk.ToArrowArray_strings_witness :
    ∃ (out_array : ArrowArray) (root_holder : DuckDBArrowArrayHolder),
      DataChunk.ToArrowArray (fun _ => 0) [(.VARCHAR, FlatVector.scenarioStrings [120])] 4 =
        .ok (out_array, root_holder) ∧
      [(LogicalType.VARCHAR, FlatVector.scenarioStrings [120])][0]? =
        some (.VARCHAR, .strings ⟨some (fun i => i != 2)⟩
          (fun i => [[], [104, 105], [120], [119, 111, 114, 108, 100]].getD i [])) ∧
      validTotal (fun i => [[], [104, 105], [120], [119, 111, 114, 108, 100]].getD i [])
        ⟨some (fun i => i != 2)⟩ 4 < 2 ^ 32 ∧
      ∃ (child_holder : DuckDBArrowArrayChildHolder) (offsets heap : List Nat),
        root_holder.children[0]? = some child_holder ∧
        child_holder.offsets = some offsets ∧ child_holder.data = some heap ∧
        offsets.length = 4 + 1 ∧ offsets[0]? = some 0 ∧
        (∀ i : Nat, i < 4 → ∃ a : Nat, offsets[i]? = some a ∧
          offsets[i + 1]? = some (a +
            if (ValidityMask.mk (some (fun i => i != 2))).RowIsValid i then
              ([[], [104, 105], [120], [119, 111, 114, 108, 100]].getD i []).length
            else 0) ∧
          ((ValidityMask.mk (some (fun i => i != 2))).RowIsValid i = true →
            (heap.drop a).take
                ([[], [104, 105], [120], [119, 111, 114, 108, 100]].getD i []).length =
              [[], [104, 105], [120], [119, 111, 114, 108, 100]].getD i [])) ∧
        offsets[4]? = some heap.length ∧
        heap.length = SetArrowChild.stringLength
          (fun i => [[], [104, 105], [120], [119, 111, 114, 108, 100]].getD i [])
          ⟨some (fun i => i != 2)⟩ 4 0 0 :=
  ⟨_, _, rfl, rfl, by decide,
    (DataChunk.ToArrowArray_strings (fun _ => 0)
      [(.VARCHAR, FlatVector.scenarioStrings [120])] 4 _ _ 0 ⟨some (fun i => i != 2)⟩
      (fun i => [[], [104, 105], [120], [119, 111, 114, 108, 100]].getD i [])
      rfl rfl (by decide)).1⟩

/-- C20: the export of the list column [[1,2],[],NULL,[3]], whose row 2 is
null: the offsets are [0, 2, 2, 2 + length, 2 + length + 1] (as uint32) for
the length the slot of the null row holds, so the offset advances at the null
row by that length: with the slot (offset 0, length 2) the offsets are
[0,2,2,4,5]; they are [0,2,2,2,3] when the slot holds length 0. -/
theorem DataChunk.ToArrowArray_list_null_row (uninit : Nat → Nat) :
    (∀ slot : list_entry_t, (FlatVector.scenarioList slot).Validity.RowIsValid 2 = false) ∧
    (∀ slot : list_entry_t,
      ∃ (out_array : ArrowArray) (root_holder : DuckDBArrowArrayHolder)
        (child_holder : DuckDBArrowArrayChildHolder),
        DataChunk.ToArrowArray uninit [(.LIST .INTEGER, FlatVector.scenarioList slot)] 4 =
          .ok (out_array, root_holder) ∧
        root_holder.children[0]? = some child_holder ∧
        child_holder.offsets =
          some [0, 2, 2, (2 + slot.length) % 2 ^ 32, (2 + slot.length + 1) % 2 ^ 32]) ∧
    (∃ (out_array : ArrowArray) (root_holder : DuckDBArrowArrayHolder)
        (child_holder : DuckDBArrowArrayChildHolder),
      DataChunk.ToArrowArray uninit [(.LIST .INTEGER, FlatVector.scenarioList ⟨0, 2⟩)] 4 =
        .ok (out_array, root_holder) ∧
      root_holder.children[0]? = some child_holder ∧
      child_holder.offsets = some [0, 2, 2, 4, 5]) ∧
    (∃ (out_array : ArrowArray) (root_holder : DuckDBArrowArrayHolder)
        (child_holder : DuckDBArrowArrayChildHolder),
      DataChunk.ToArrowArray uninit [(.LIST .INTEGER, FlatVector.scenarioList ⟨2, 0⟩)] 4 =
        .ok (out_array, root_holder) ∧
      root_holder.children[0]? = some child_holder ∧
      child_holder.offsets = some [0, 2, 2, 2, 3]) :=
  ⟨fun _ => rfl, fun _ => ⟨_, _, _, rfl, rfl, rfl⟩, ⟨_, _, _, rfl, rfl, rfl⟩,
    ⟨_, _, _, rfl, rfl, rfl⟩⟩

/-! Interchange export: the offsets of a list column -/

/-- The total of the first n + 1 rows is the total of the first n plus the
length row n contributes. -/
theorem entryTotal_succ (list_data : Nat → list_entry_t) (pm : Option ValidityMask)
    (n : Nat) :
    entryTotal list_data pm (n + 1) = entryTotal list_data pm n + entryLength list_data pm n := by
  simp [entryTotal, List.range_succ]

/-- The total of the entry lengths grows with the number of rows. -/
theorem entryTotal_mono (list_data : Nat → list_entry_t) (pm : Option ValidityMask)
    {a b : Nat} (h : a ≤ b) : entryTotal list_data pm a ≤ entryTotal list_data pm b := by
  induction h with
  | refl => exact le_refl _
  | step _ ih => rw [entryTotal_succ]; omega

/-- The offset loop started at row k with the offset at the total of the rows
before k: it writes the totals (as uint32) at the positions k + 1 .. k + n and
leaves the other positions as they were. -/
theorem SetList.offsets_spec (list_data : Nat → list_entry_t) (pm : Option ValidityMask) :
    ∀ (n k : Nat) (offset_ptr : List Nat), k + n < offset_ptr.length →
      (SetList.offsets list_data pm n k offset_ptr (entryTotal list_data pm k)).length =
          offset_ptr.length ∧
      ∀ j : Nat,
        (SetList.offsets list_data pm n k offset_ptr (entryTotal list_data pm k))[j]? =
          if k < j ∧ j ≤ k + n then some (entryTotal list_data pm j % 2 ^ 32)
          else offset_ptr[j]? := by
  intro n
  induction n with
  | zero =>
    intro k offset_ptr _
    refine ⟨rfl, fun j => ?_⟩
    have : ¬ (k < j ∧ j ≤ k + 0) := by omega
    rw [if_neg this]; rfl
  | succ n ih =>
    intro k offset_ptr hlen
    have hstep : SetList.offsets list_data pm (n + 1) k offset_ptr (entryTotal list_data pm k)
        = SetList.offsets list_data pm n (k + 1)
            (offset_ptr.set (k + 1) (entryTotal list_data pm (k + 1) % 2 ^ 32))
            (entryTotal list_data pm (k + 1)) := by
      rw [entryTotal_succ]
      cases pm with
      | none => rfl
      | some mask =>
        simp only [SetList.offsets, entryLength]
        cases mask.RowIsValid k <;> rfl
    rw [hstep]
    have hset : (offset_ptr.set (k + 1) (entryTotal list_data pm (k + 1) % 2 ^ 32)).length
        = offset_ptr.length := List.length_set ..
    obtain ⟨a1, a2⟩ := ih (k + 1) _ (by rw [hset]; omega)
    refine ⟨by rw [a1, hset], fun j => ?_⟩
    rw [a2 j]
    by_cases hj : k + 1 < j ∧ j ≤ k + 1 + n
    · rw [if_pos hj, if_pos (by omega)]
    · rw [if_neg hj]
      by_cases hjk : j = k + 1
      · subst hjk
        rw [if_pos (by omega), List.getElem?_set_self (by omega)]
      · rw [if_neg (by omega), List.getElem?_set_ne (by omega)]

/-- The offset array of a list or map of size rows: size + 1 entries, entry j
the total of the first j rows (as uint32). -/
theorem SetList.offsetArray_spec (uninit : Nat → Nat) (list_data : Nat → list_entry_t)
    (pm : Option ValidityMask) (size : Nat) :
    (SetList.offsetArray uninit list_data pm size).length = size + 1 ∧
    ∀ j : Nat, j ≤ size →
      (SetList.offsetArray uninit list_data pm size)[j]? =
        some (entryTotal list_data pm j % 2 ^ 32) := by
  have hal : ((allocate uninit (size + 1)).set 0 0).length = size + 1 := by
    simp [allocate]
  have h0 : entryTotal list_data pm 0 = 0 := rfl
  obtain ⟨a1, a2⟩ := SetList.offsets_spec list_data pm size 0
    ((allocate uninit (size + 1)).set 0 0) (by rw [hal]; omega)
  rw [h0] at a1 a2
  refine ⟨by rw [SetList.offsetArray, a1, hal], fun j hj => ?_⟩
  rw [SetList.offsetArray, a2 j]
  by_cases hj0 : j = 0
  · subst hj0
    rw [if_neg (by omega), List.getElem?_set_self (by simp [allocate]), h0]
    rfl
  · rw [if_pos (by omega)]

/-- SetArrowChild does not change the length of the array. -/
theorem SetArrowChild_length (uninit : Nat → Nat) (h : DuckDBArrowArrayChildHolder)
    (type : LogicalType) (data : FlatVector) (size : Nat) (pm : Option ValidityMask)
    (c : DuckDBArrowArrayChildHolder)
    (hc : SetArrowChild uninit h type data size pm = .ok c) :
    c.array.length = h.array.length := by
  cases h with
  | mk child v o d ch =>
    cases type with
    | LIST t =>
      cases data with
      | list m ld cv ls =>
        rw [SetArrowChild_list_eq] at hc
        split at hc
        · cases hc
        · cases hc; rfl
      | _ => cases hc
    | STRUCT ts =>
      cases data with
      | struct m children =>
        rw [SetArrowChild_struct_eq] at hc
        split at hc
        · cases hc
        · cases hc; rfl
      | _ => cases hc
    | MAP ts =>
      cases data with
      | struct m children =>
        cases children with
        | nil => cases hc
        | cons keys rest =>
          rw [SetArrowChild_map_eq] at hc
          split at hc
          · cases hc
          · split at hc
            · cases hc
            · cases hc; rfl
      | _ => cases hc
    | DECIMAL width scale =>
      rw [SetArrowChild_decimal_eq] at hc
      generalize (LogicalType.DECIMAL width scale).InternalType = p at hc
      cases p <;> first | (cases hc; rfl) | cases hc
    | VARCHAR =>
      rw [SetArrowChild_varchar_data_eq] at hc
      split at hc
      · cases hc
      · cases hc; rfl
    | _ => cases data <;> first | (cases hc; rfl) | cases hc

/-- One step of the bit-packing loop on one byte: bit cb becomes the truth value
of the source byte, the other bits below 8 stay. -/
theorem SetArrowChild.boolean_bit (byte v cb j : Nat) (hj : j < 8) :
    (if v % 256 = 0 then byte &&& (255 ^^^ (1 <<< cb)) else byte ||| (1 <<< cb)).testBit j =
      if j = cb then decide (v % 256 ≠ 0) else byte.testBit j := by
  have h255 : Nat.testBit 255 j = true := by
    interval_cases j <;> decide
  have h1 : (1 <<< cb).testBit j = decide (j = cb) := by
    rw [Nat.one_shiftLeft, Nat.testBit_two_pow]
    by_cases h : j = cb
    · simp [h]
    · simp [h, Ne.symm h]
  by_cases hv : v % 256 = 0
  · rw [if_pos hv, Nat.testBit_and, Nat.testBit_xor, h255, h1]
    by_cases h : j = cb <;> simp [h, hv]
  · rw [if_neg hv, Nat.testBit_or, h1]
    by_cases h : j = cb <;> simp [h, hv]

/-- The bit-packing loop started at row r with the position (target_pos,
cur_bit) of row r: it keeps the length of the buffer, writes the bit of every
row from r on, and leaves the bits of the rows before r. -/
theorem SetArrowChild.booleans_spec (source_ptr : Nat → Nat) :
    ∀ (n r : Nat) (target_ptr : List Nat) (target_pos cur_bit : Nat),
      target_pos * 8 + cur_bit = r → cur_bit ≤ 8 → (r + n + 7) / 8 ≤ target_ptr.length →
      (SetArrowChild.booleans source_ptr n r target_ptr target_pos cur_bit).length =
          target_ptr.length ∧
      ∀ i : Nat, i < r + n →
        ((SetArrowChild.booleans source_ptr n r target_ptr target_pos cur_bit).getD
            (i / 8) 0).testBit (i % 8) =
          if r ≤ i then decide (source_ptr i % 256 ≠ 0)
          else (target_ptr.getD (i / 8) 0).testBit (i % 8) := by
  intro n
  induction n with
  | zero =>
    intro r target_ptr target_pos cur_bit _ _ _
    refine ⟨rfl, fun i hi => ?_⟩
    rw [if_neg (by omega)]; rfl
  | succ n ih =>
    intro r target_ptr target_pos cur_bit hpos hcb hlen
    have hp : (if cur_bit = 8 then target_pos + 1 else target_pos) = r / 8 := by
      split_ifs <;> omega
    have hb : (if cur_bit = 8 then 0 else cur_bit) = r % 8 := by
      split_ifs <;> omega
    have hstep : SetArrowChild.booleans source_ptr (n + 1) r target_ptr target_pos cur_bit =
        SetArrowChild.booleans source_ptr n (r + 1)
          (target_ptr.set (r / 8)
            (if source_ptr r % 256 = 0 then
              target_ptr.getD (r / 8) 0 &&& (255 ^^^ (1 <<< (r % 8)))
            else target_ptr.getD (r / 8) 0 ||| (1 <<< (r % 8))))
          (r / 8) (r % 8 + 1) := by
      simp only [SetArrowChild.booleans, hp, hb]
    rw [hstep]
    obtain ⟨byte, hbyte⟩ : ∃ b : Nat, b =
        (if source_ptr r % 256 = 0 then
          target_ptr.getD (r / 8) 0 &&& (255 ^^^ (1 <<< (r % 8)))
        else target_ptr.getD (r / 8) 0 ||| (1 <<< (r % 8))) := ⟨_, rfl⟩
    rw [← hbyte]
    have hl : (target_ptr.set (r / 8) byte).length = target_ptr.length := List.length_set ..
    obtain ⟨a1, a2⟩ := ih (r + 1) (target_ptr.set (r / 8) byte) (r / 8) (r % 8 + 1)
      (by omega) (by omega) (by rw [hl]; omega)
    refine ⟨by rw [a1, hl], fun i hi => ?_⟩
    rw [a2 i (by omega)]
    by_cases hri : r + 1 ≤ i
    · rw [if_pos hri, if_pos (by omega)]
    · rw [if_neg hri, List.getD_eq_getElem?_getD, List.getElem?_set]
      by_cases hir : i = r
      · subst hir
        rw [if_pos rfl, if_pos (by omega), if_pos (le_refl _), Option.getD_some, hbyte,
          SetArrowChild.boolean_bit _ _ _ _ (Nat.mod_lt _ (by omega)), if_pos rfl]
      · have hlt : ¬ r ≤ i := by omega
        by_cases h8 : r / 8 = i / 8
        · rw [if_pos h8, if_pos (by omega), Option.getD_some, hbyte,
            SetArrowChild.boolean_bit _ _ _ _ (Nat.mod_lt _ (by omega)),
            if_neg (show ¬ i % 8 = r % 8 by omega), if_neg hlt, h8]
        · rw [if_neg h8, if_neg hlt, ← List.getD_eq_getElem?_getD]

/-- The BOOLEAN case of SetArrowChild (lines 395-421). -/
theorem SetArrowChild_boolean_eq (uninit : Nat → Nat) (child : ArrowArray)
    (v : Option FlatVector) (o d : Option (List Nat)) (ch : List DuckDBArrowArrayChildHolder)
    (data : FlatVector) (size : Nat) (pm : Option ValidityMask) :
    SetArrowChild uninit (.mk child v o d ch) .BOOLEAN data size pm =
      .ok (.mk { child with n_buffers := 2, buffers := child.buffers.set 1 .data }
        (some data) o
        (some (SetArrowChild.booleans data.GetData size 0
          (allocate uninit ((size + 8 - 1) / 8)) 0 0)) ch) := by
  cases data <;> rfl

/-- C22: when ToArrowArray succeeds on a chunk of n rows whose column col_idx is
a boolean column, then whatever the freshly allocated buffer held (uninit), the
value buffer of the holder of the column has ceil(n / 8) bytes, and for every
i < n bit i mod 8 (from the least significant bit) of byte floor(i / 8) is 1 if
and only if the source byte of row i is non-zero. -/
theorem DataChunk.ToArrowArray_booleans (uninit : Nat → Nat)
    (columns : List (LogicalType × FlatVector)) (size : Nat) (out_array : ArrowArray)
    (root_holder : DuckDBArrowArrayHolder) (col_idx : Nat) (mask : ValidityMask)
    (source : Nat → Nat)
    (h : DataChunk.ToArrowArray uninit columns size = .ok (out_array, root_holder))
    (hcol : columns[col_idx]? = some (.BOOLEAN, .fixed mask source)) :
    ∃ (child_holder : DuckDBArrowArrayChildHolder) (target : List Nat),
      root_holder.children[col_idx]? = some child_holder ∧
      child_holder.data = some target ∧
      target.length = (size + 7) / 8 ∧
      ∀ i : Nat, i < size →
        ((target.getD (i / 8) 0).testBit (i % 8) = true ↔ source i % 256 ≠ 0) := by
  simp only [DataChunk.ToArrowArray] at h
  cases hr : DataChunk.ToArrowArray.columns uninit size columns with
  | error e => rw [hr] at h; cases h
  | ok holders =>
    rw [hr] at h
    simp only at h
    cases h
    obtain ⟨-, hget⟩ := DataChunk.ToArrowArray_columns_get uninit size columns holders hr
    obtain ⟨c, v, h1, -, h3⟩ := hget col_idx _ _ hcol
    rw [show InitializeChild .new size = .mk (InitializeChild .new size).array none none none []
      from rfl, SetArrowChild_boolean_eq] at h1
    cases h1
    have hal : (allocate uninit ((size + 8 - 1) / 8)).length = (size + 7) / 8 := by
      simp [allocate]
    obtain ⟨b1, b2⟩ := SetArrowChild.booleans_spec source size 0
      (allocate uninit ((size + 8 - 1) / 8)) 0 0 rfl (by omega) (by rw [hal]; omega)
    refine ⟨_, _, h3, rfl, ?_, ?_⟩
    · exact b1.trans hal
    · intro i hi
      have := b2 i (by omega)
      rw [if_pos (Nat.zero_le _)] at this
      show ((SetArrowChild.booleans source size 0 (allocate uninit ((size + 8 - 1) / 8))
        0 0).getD (i / 8) 0).testBit (i % 8) = true ↔ _
      rw [this]
      simp

/-- C22 (witness): ten booleans (row i is true when i mod 3 is not 0) exported
into memory that held the byte 170 everywhere. -/
theorem DataChunk.ToArrowArray_booleans_witness :
    ∃ (out_array : ArrowArray) (root_holder : DuckDBArrowArrayHolder),
      DataChunk.ToArrowArray (fun _ => 170) [(.BOOLEAN, .fixed ⟨none⟩ (fun i => i % 3))] 10 =
        .ok (out_array, root_holder) ∧
      ∃ (child_holder : DuckDBArrowArrayChildHolder) (target : List Nat),
        root_holder.children[0]? = some child_holder ∧
        child_holder.data = some target ∧
        target.length = (10 + 7) / 8 ∧
        ∀ i : Nat, i < 10 →
          ((target.getD (i / 8) 0).testBit (i % 8) = true ↔ (i % 3) % 256 ≠ 0) :=
  ⟨_, _, rfl,
    DataChunk.ToArrowArray_booleans (fun _ => 170)
      [(.BOOLEAN, .fixed ⟨none⟩ (fun i => i % 3))] 10 _ _ 0 ⟨none⟩ (fun i => i % 3) rfl rfl⟩

/-! Interchange export: decimals -/

/-- A signed 16-, 32- or 64-bit number stored in 128 bits reads back as the same
signed number. -/
theorem signedOfBits_bitsOfInt (width bits : Nat)
    (hw : width = 16 ∨ width = 32 ∨ width = 64) :
    bitsOfInt 128 (signedOfBits width bits) < 2 ^ 128 ∧
    signedOfBits 128 (bitsOfInt 128 (signedOfBits width bits)) = signedOfBits width bits := by
  rcases hw with rfl | rfl | rfl <;>
    · simp only [signedOfBits, bitsOfInt]
      norm_num
      split_ifs <;> omega

/-- The holder of a column of a successful ToArrowArray: the result of
SetArrowChild on the column followed by SetChildValidityMask on the vector the
holder retained. -/
theorem DataChunk.ToArrowArray_ok_column (uninit : Nat → Nat)
    (columns : List (LogicalType × FlatVector)) (size : Nat) (out_array : ArrowArray)
    (root_holder : DuckDBArrowArrayHolder)
    (h : DataChunk.ToArrowArray uninit columns size = .ok (out_array, root_holder))
    (col_idx : Nat) (type : LogicalType) (data : FlatVector)
    (hcol : columns[col_idx]? = some (type, data)) :
    ∃ (c : DuckDBArrowArrayChildHolder) (v : FlatVector),
      SetArrowChild uninit (InitializeChild .new size) type data size none = .ok c ∧
      c.vector = some v ∧
      root_holder.children[col_idx]? =
        some (c.setArray (SetChildValidityMask v c.array)) := by
  simp only [DataChunk.ToArrowArray] at h
  cases hr : DataChunk.ToArrowArray.columns uninit size columns with
  | error e => rw [hr] at h; cases h
  | ok holders =>
    rw [hr] at h
    simp only at h
    cases h
    exact (DataChunk.ToArrowArray_columns_get uninit size columns holders hr).2 col_idx _ _ hcol

/-- The widening loop of the DECIMAL case: one 128-bit value per row, the
source slot as a signed number. -/
theorem SetArrowChild.decimals_spec (width : Nat) (source : Nat → Nat) (size : Nat)
    (hw : width = 16 ∨ width = 32 ∨ width = 64) :
    (SetArrowChild.decimals width source size).length = size ∧
    ∀ i : Nat, i < size → ∃ e : Nat,
      (SetArrowChild.decimals width source size)[i]? = some e ∧ e < 2 ^ 128 ∧
      signedOfBits 128 e = signedOfBits width (source i) := by
  refine ⟨by simp [SetArrowChild.decimals], fun i hi => ?_⟩
  refine ⟨bitsOfInt 128 (signedOfBits width (source i)), ?_,
    (signedOfBits_bitsOfInt width (source i) hw).1,
    (signedOfBits_bitsOfInt width (source i) hw).2⟩
  simp [SetArrowChild.decimals, List.getElem?_map, List.getElem?_range hi]

/-- C23: for a chunk whose column col_idx is a decimal column: when ToArrowArray
succeeds and the decimal is stored in 16-, 32- or 64-bit integers, the holder
of the column has a freshly allocated buffer of n 128-bit values, and for every
row i < n the value at row i, read as a signed 128-bit number, is the source
integer at row i read as a signed number of its width (so negative values stay
negative); when the storage is 128-bit, buffer 1 is the value buffer of the
source vector itself (the values unchanged, nothing allocated); and a decimal
of any other physical type makes ToArrowArray fail. -/
theorem DataChunk.ToArrowArray_decimals (uninit : Nat → Nat)
    (columns : List (LogicalType × FlatVector)) (size : Nat) (col_idx width scale : Nat)
    (mask : ValidityMask) (source : Nat → Nat)
    (hcol : columns[col_idx]? = some (.DECIMAL width scale, .fixed mask source)) :
    (∀ (out_array : ArrowArray) (root_holder : DuckDBArrowArrayHolder),
      DataChunk.ToArrowArray uninit columns size = .ok (out_array, root_holder) →
      ∃ child_holder : DuckDBArrowArrayChildHolder,
        root_holder.children[col_idx]? = some child_holder ∧
        (∀ bits : Nat,
          ((LogicalType.DECIMAL width scale).InternalType = .INT16 ∧ bits = 16) ∨
          ((LogicalType.DECIMAL width scale).InternalType = .INT32 ∧ bits = 32) ∨
          ((LogicalType.DECIMAL width scale).InternalType = .INT64 ∧ bits = 64) →
          ∃ target : List Nat, child_holder.data = some target ∧
            child_holder.array.buffers[1]? = some .data ∧ target.length = size ∧
            ∀ i : Nat, i < size → ∃ e : Nat, target[i]? = some e ∧ e < 2 ^ 128 ∧
              signedOfBits 128 e = signedOfBits bits (source i)) ∧
        ((LogicalType.DECIMAL width scale).InternalType = .INT128 →
          child_holder.array.buffers[1]? = some (.vector_data source) ∧
          child_holder.data = none)) ∧
    ((LogicalType.DECIMAL width scale).InternalType ≠ .INT16 →
      (LogicalType.DECIMAL width scale).InternalType ≠ .INT32 →
      (LogicalType.DECIMAL width scale).InternalType ≠ .INT64 →
      (LogicalType.DECIMAL width scale).InternalType ≠ .INT128 →
      ∃ e : Exception, DataChunk.ToArrowArray uninit columns size = .error e) := by
  constructor
  · intro out_array root_holder h
    obtain ⟨c, v, h1, -, h3⟩ :=
      DataChunk.ToArrowArray_ok_column uninit columns size _ _ h col_idx _ _ hcol
    rw [show InitializeChild .new size = .mk (InitializeChild .new size).array none none none []
      from rfl, SetArrowChild_decimal_eq] at h1
    refine ⟨_, h3, ?_, ?_⟩
    · intro bits hb
      rcases hb with ⟨hp, rfl⟩ | ⟨hp, rfl⟩ | ⟨hp, rfl⟩
      · rw [hp] at h1
        cases h1
        obtain ⟨b1, b2⟩ := SetArrowChild.decimals_spec 16 source size (Or.inl rfl)
        exact ⟨_, rfl, rfl, b1, b2⟩
      · rw [hp] at h1
        cases h1
        obtain ⟨b1, b2⟩ := SetArrowChild.decimals_spec 32 source size (Or.inr (Or.inl rfl))
        exact ⟨_, rfl, rfl, b1, b2⟩
      · rw [hp] at h1
        cases h1
        obtain ⟨b1, b2⟩ := SetArrowChild.decimals_spec 64 source size (Or.inr (Or.inr rfl))
        exact ⟨_, rfl, rfl, b1, b2⟩
    · intro hp
      rw [hp] at h1
      cases h1
      exact ⟨rfl, rfl⟩
  · intro n16 n32 n64 n128
    cases hres : DataChunk.ToArrowArray uninit columns size with
    | error e => exact ⟨e, rfl⟩
    | ok r =>
      obtain ⟨out_array, root_holder⟩ := r
      obtain ⟨c, v, h1, -, -⟩ :=
        DataChunk.ToArrowArray_ok_column uninit columns size _ _ hres col_idx _ _ hcol
      rw [show InitializeChild .new size = .mk (InitializeChild .new size).array none none none
        [] from rfl, SetArrowChild_decimal_eq] at h1
      revert h1
      cases hp : (LogicalType.DECIMAL width scale).InternalType <;> intro h1 <;>
        first
          | exact absurd hp n16
          | exact absurd hp n32
          | exact absurd hp n64
          | exact absurd hp n128
          | cases h1

/-- C23 (witness): the decimal(4,1) column with the 16-bit slots 65535 and 65534
(the numbers -1 and -2) exports the 128-bit values 2^128 - 1 and 2^128 - 2
(again -1 and -2); a decimal of width 39 has no integer storage and fails. -/
theorem DataChunk.ToArrowArray_decimals_witness :
    [(LogicalType.DECIMAL 4 1, FlatVector.fixed ⟨none⟩ (fun i => 65535 - i))][0]? =
      some (.DECIMAL 4 1, .fixed ⟨none⟩ (fun i => 65535 - i)) ∧
    (∃ (out_array : ArrowArray) (root_holder : DuckDBArrowArrayHolder)
        (child_holder : DuckDBArrowArrayChildHolder),
      DataChunk.ToArrowArray (fun _ => 0)
        [(.DECIMAL 4 1, .fixed ⟨none⟩ (fun i => 65535 - i))] 2 = .ok (out_array, root_holder) ∧
      root_holder.children[0]? = some child_holder ∧
      child_holder.data = some [2 ^ 128 - 1, 2 ^ 128 - 2] ∧
      signedOfBits 128 (2 ^ 128 - 2) = -2) ∧
    ((∀ (out_array : ArrowArray) (root_holder : DuckDBArrowArrayHolder),
      DataChunk.ToArrowArray (fun _ => 0)
        [(.DECIMAL 4 1, .fixed ⟨none⟩ (fun i => 65535 - i))] 2 = .ok (out_array, root_holder) →
      ∃ child_holder : DuckDBArrowArrayChildHolder,
        root_holder.children[0]? = some child_holder ∧
        (∀ bits : Nat,
          ((LogicalType.DECIMAL 4 1).InternalType = .INT16 ∧ bits = 16) ∨
          ((LogicalType.DECIMAL 4 1).InternalType = .INT32 ∧ bits = 32) ∨
          ((LogicalType.DECIMAL 4 1).InternalType = .INT64 ∧ bits = 64) →
          ∃ target : List Nat, child_holder.data = some target ∧
            child_holder.array.buffers[1]? = some .data ∧ target.length = 2 ∧
            ∀ i : Nat, i < 2 → ∃ e : Nat, target[i]? = some e ∧ e < 2 ^ 128 ∧
              signedOfBits 128 e = signedOfBits bits (65535 - i)) ∧
        ((LogicalType.DECIMAL 4 1).InternalType = .INT128 →
          child_holder.array.buffers[1]? = some (.vector_data (fun i => 65535 - i)) ∧
          child_holder.data = none)) ∧
    ((LogicalType.DECIMAL 4 1).InternalType ≠ .INT16 →
      (LogicalType.DECIMAL 4 1).InternalType ≠ .INT32 →
      (LogicalType.DECIMAL 4 1).InternalType ≠ .INT64 →
      (LogicalType.DECIMAL 4 1).InternalType ≠ .INT128 →
      ∃ e : Exception, DataChunk.ToArrowArray (fun _ => 0)
        [(.DECIMAL 4 1, .fixed ⟨none⟩ (fun i => 65535 - i))] 2 = .error e)) ∧
    (∃ e : Exception, DataChunk.ToArrowArray (fun _ => 0)
      [(.DECIMAL 39 0, .fixed ⟨none⟩ (fun i => i))] 2 = .error e) :=
  ⟨rfl, ⟨_, _, _, rfl, rfl, rfl, by decide⟩,
    DataChunk.ToArrowArray_decimals (fun _ => 0)
      [(.DECIMAL 4 1, .fixed ⟨none⟩ (fun i => 65535 - i))] 2 0 4 1 ⟨none⟩
      (fun i => 65535 - i) rfl,
    (DataChunk.ToArrowArray_decimals (fun _ => 0)
      [(.DECIMAL 39 0, .fixed ⟨none⟩ (fun i => i))] 2 0 39 0 ⟨none⟩ (fun i => i) rfl).2
      (by decide) (by decide) (by decide) (by decide)⟩

/-! Interchange export: times -/

/-- The conversion of one time value: the truncated quotient by 1000 stored as
uint32; within one day the store is exact and the value is the number of whole
milliseconds. -/
theorem SetArrowChild.time_value (micros : Int) :
    bitsOfInt 32 (micros.tdiv 1000) < 2 ^ 32 ∧
    ((bitsOfInt 32 (micros.tdiv 1000) : Nat) : Int) = micros.tdiv 1000 % 2 ^ 32 ∧
    (0 ≤ micros → micros < 86400000000 →
      ((bitsOfInt 32 (micros.tdiv 1000) : Nat) : Int) = micros.tdiv 1000 ∧
      1000 * ((bitsOfInt 32 (micros.tdiv 1000) : Nat) : Int) ≤ micros ∧
      micros < 1000 * ((bitsOfInt 32 (micros.tdiv 1000) : Nat) : Int) + 1000) := by
  have hcast : ((bitsOfInt 32 (micros.tdiv 1000) : Nat) : Int) = micros.tdiv 1000 % 2 ^ 32 := by
    simp only [bitsOfInt]
    rw [Int.toNat_of_nonneg (Int.emod_nonneg _ (by norm_num))]
    norm_num
  refine ⟨?_, hcast, ?_⟩
  · have : micros.tdiv 1000 % 2 ^ 32 < 2 ^ 32 := Int.emod_lt_of_pos _ (by norm_num)
    omega
  · intro h0 h1
    rw [hcast, Int.tdiv_eq_ediv h0 (by norm_num)]
    omega

/-- The TIME case of SetArrowChild (lines 445-458). -/
theorem SetArrowChild_time_eq (uninit : Nat → Nat) (child : ArrowArray)
    (v : Option FlatVector) (o d : Option (List Nat)) (ch : List DuckDBArrowArrayChildHolder)
    (data : FlatVector) (size : Nat) (pm : Option ValidityMask) :
    SetArrowChild uninit (.mk child v o d ch) .TIME data size pm =
      .ok (.mk { child with n_buffers := 2, buffers := child.buffers.set 1 .data }
        (some data) o (some (SetArrowChild.times data.GetData size ++ [uninit size])) ch) := by
  cases data <;> rfl

/-- C24: when ToArrowArray succeeds on a chunk of n rows whose column col_idx is
a time column, then for every row i < n the 32-bit value at row i of the value
buffer is the source microseconds (a signed 64-bit number) divided by 1000 with
truncation, reduced modulo 2^32; and for a source value m with
0 <= m < 86,400,000,000 the exported value e is that quotient itself (no
wrap-around) and 1000 * e <= m < 1000 * e + 1000. -/
theorem DataChunk.ToArrowArray_times (uninit : Nat → Nat)
    (columns : List (LogicalType × FlatVector)) (size : Nat) (out_array : ArrowArray)
    (root_holder : DuckDBArrowArrayHolder) (col_idx : Nat) (mask : ValidityMask)
    (source : Nat → Nat)
    (h : DataChunk.ToArrowArray uninit columns size = .ok (out_array, root_holder))
    (hcol : columns[col_idx]? = some (.TIME, .fixed mask source)) :
    ∃ (child_holder : DuckDBArrowArrayChildHolder) (target : List Nat),
      root_holder.children[col_idx]? = some child_holder ∧
      child_holder.data = some target ∧
      ∀ i : Nat, i < size → ∃ e : Nat, target[i]? = some e ∧ e < 2 ^ 32 ∧
        (e : Int) = (signedOfBits 64 (source i)).tdiv 1000 % 2 ^ 32 ∧
        (0 ≤ signedOfBits 64 (source i) → signedOfBits 64 (source i) < 86400000000 →
          (e : Int) = (signedOfBits 64 (source i)).tdiv 1000 ∧
          1000 * (e : Int) ≤ signedOfBits 64 (source i) ∧
          signedOfBits 64 (source i) < 1000 * (e : Int) + 1000) := by
  obtain ⟨c, v, h1, -, h3⟩ :=
    DataChunk.ToArrowArray_ok_column uninit columns size _ _ h col_idx _ _ hcol
  rw [show InitializeChild .new size = .mk (InitializeChild .new size).array none none none []
    from rfl, SetArrowChild_time_eq] at h1
  cases h1
  refine ⟨_, _, h3, rfl, fun i hi => ?_⟩
  obtain ⟨t1, t2, t3⟩ := SetArrowChild.time_value (signedOfBits 64 (source i))
  refine ⟨_, ?_, t1, t2, t3⟩
  show (SetArrowChild.times source size ++ [uninit size])[i]? = _
  rw [List.getElem?_append_left (by simp [SetArrowChild.times, hi])]
  simp [SetArrowChild.times, List.getElem?_map, List.getElem?_range hi]

/-- C24 (witness): the times 1999 and 86,399,999,999 microseconds export as 1
and 86,399,999 milliseconds (the buffer has one more, unwritten, element). -/
theorem DataChunk.ToArrowArray_times_witness :
    ∃ (out_array : ArrowArray) (root_holder : DuckDBArrowArrayHolder),
      DataChunk.ToArrowArray (fun _ => 0)
        [(.TIME, .fixed ⟨none⟩ (fun i => [1999, 86399999999].getD i 0))] 2 =
        .ok (out_array, root_holder) ∧
      (∃ child_holder : DuckDBArrowArrayChildHolder,
        root_holder.children[0]? = some child_holder ∧
        child_holder.data = some [1, 86399999, 0]) ∧
      ∃ (child_holder : DuckDBArrowArrayChildHolder) (target : List Nat),
        root_holder.children[0]? = some child_holder ∧
        child_holder.data = some target ∧
        ∀ i : Nat, i < 2 → ∃ e : Nat, target[i]? = some e ∧ e < 2 ^ 32 ∧
          (e : Int) = (signedOfBits 64 ([1999, 86399999999].getD i 0)).tdiv 1000 % 2 ^ 32 ∧
          (0 ≤ signedOfBits 64 ([1999, 86399999999].getD i 0) →
            signedOfBits 64 ([1999, 86399999999].getD i 0) < 86400000000 →
            (e : Int) = (signedOfBits 64 ([1999, 86399999999].getD i 0)).tdiv 1000 ∧
            1000 * (e : Int) ≤ signedOfBits 64 ([1999, 86399999999].getD i 0) ∧
            signedOfBits 64 ([1999, 86399999999].getD i 0) < 1000 * (e : Int) + 1000) :=
  ⟨_, _, rfl, ⟨_, rfl, rfl⟩,
    DataChunk.ToArrowArray_times (fun _ => 0)
      [(.TIME, .fixed ⟨none⟩ (fun i => [1999, 86399999999].getD i 0))] 2 _ _ 0 ⟨none⟩
      (fun i => [1999, 86399999999].getD i 0) rfl rfl⟩

/-! Interchange export: maps -/

/-- The child loop of SetStructMap at a child that is a list vector. -/
theorem SetStructMap.loop_cons_eq (uninit : Nat → Nat) (child_types : ChildTypes)
    (size list_size : Nat) (map_mask m : ValidityMask) (list_offsets : Nat → list_entry_t)
    (list_vector_child : FlatVector) (n : Nat) (rest : FlatVectorList) (child_idx : Nat) :
    SetStructMap.loop uninit child_types size list_size map_mask
        (.cons (.list m list_offsets list_vector_child n) rest) child_idx =
      if child_idx = 0 ∧
          SetStructMap.hasNullKey list_vector_child.Validity list_offsets size then
        .error .NullKeyInMap
      else
        match (child_types.get? child_idx).bind ListType.GetChildType with
        | none => .error .Assertion
        | some child_type =>
            match SetArrowChild uninit
                (if child_idx = 0 then InitializeChild .new list_size
                 else (InitializeChild .new list_size).setArray
                   (SetChildValidityMask list_vector_child
                     (InitializeChild .new list_size).array))
                child_type list_vector_child list_size (some map_mask) with
            | .error e => .error e
            | .ok c =>
                match SetStructMap.loop uninit child_types size list_size map_mask rest
                    (child_idx + 1) with
                | .error e => .error e
                | .ok holders => .ok (c :: holders) := rfl

/-- The child loop of SetStructMap after the last child. -/
theorem SetStructMap.loop_nil_eq (uninit : Nat → Nat) (child_types : ChildTypes)
    (size list_size : Nat) (map_mask : ValidityMask) (child_idx : Nat) :
    SetStructMap.loop uninit child_types size list_size map_mask .nil child_idx = .ok [] := rfl

/-- The MAP case of SetArrowChild on a map vector with its two children, the
list of the keys and the list of the values: the check of the keys, then the
export of the key child and of the value child. -/
theorem SetArrowChild_map_two_eq (uninit : Nat → Nat) (child : ArrowArray)
    (v : Option FlatVector) (o d : Option (List Nat)) (ch : List DuckDBArrowArrayChildHolder)
    (kn vn : String) (kt vt : LogicalType) (mm km vm : ValidityMask)
    (kd vd : Nat → list_entry_t) (kc vc : FlatVector) (ks vs size : Nat)
    (pm : Option ValidityMask) :
    SetArrowChild uninit (.mk child v o d ch)
        (.MAP (.cons kn (.LIST kt) (.cons vn (.LIST vt) .nil)))
        (.struct mm (.cons (.list km kd kc ks) (.cons (.list vm vd vc vs) .nil))) size pm =
      if SetStructMap.hasNullKey kc.Validity kd size then .error .NullKeyInMap
      else
        match SetArrowChild uninit (InitializeChild .new ks) kt kc ks (some mm) with
        | .error e => .error e
        | .ok key =>
            match SetArrowChild uninit
                ((InitializeChild .new ks).setArray
                  (SetChildValidityMask vc (InitializeChild .new ks).array))
                vt vc ks (some mm) with
            | .error e => .error e
            | .ok value =>
                .ok (.mk { child with n_buffers := 2, n_children := 1,
                                      buffers := child.buffers.set 1 .offsets }
                  (some (.struct mm (.cons (.list km kd kc ks) (.cons (.list vm vd vc vs) .nil))))
                  (some (SetList.offsetArray uninit kd (some mm) size)) d
                  [.mk { (InitializeChild .new size).array with
                          n_buffers := 1, n_children := 2, length := ks }
                    (some (.struct mm
                      (.cons (.list km kd kc ks) (.cons (.list vm vd vc vs) .nil))))
                    none none [key, value]]) := by
  rw [SetArrowChild_map_eq]
  simp only [ListVector.GetListSize]
  rw [SetStructMap.loop_cons_eq, SetStructMap.loop_cons_eq, SetStructMap.loop_nil_eq]
  cases hn : SetStructMap.hasNullKey kc.Validity kd size
  · simp only [FlatVector.GetListData, ChildTypes.get?, Option.bind, ListType.GetChildType]
    simp only [Bool.false_eq_true, and_false, if_false, Nat.succ_ne_zero, false_and,
      Nat.zero_add, if_true]
    cases SetArrowChild uninit (InitializeChild .new ks) kt kc ks (some mm) with
    | error e => rfl
    | ok key =>
      cases SetArrowChild uninit
          ((InitializeChild .new ks).setArray
            (SetChildValidityMask vc (InitializeChild .new ks).array))
          vt vc ks (some mm) with
      | error e => rfl
      | ok value => rfl
  · simp

/-- C25 (counterexample): a map of one valid row whose key list has 2^32
elements exports the offsets [0, 0]: offsets[1] is not offsets[0] + 2^32, the
uint32 store wraps. -/
theorem DataChunk.ToArrowArray_map_counterexample :
    ∃ (out_array : ArrowArray) (root_holder : DuckDBArrowArrayHolder)
      (child_holder : DuckDBArrowArrayChildHolder),
      DataChunk.ToArrowArray (fun _ => 0) [(LogicalType.sampleMapType, FlatVector.hugeMap)] 1 =
        .ok (out_array, root_holder) ∧
      root_holder.children[0]? = some child_holder ∧
      child_holder.offsets = some [0, 0] ∧
      FlatVector.hugeMap.Validity.RowIsValid 0 = true ∧
      (∃ (kd : Nat → list_entry_t) (km : ValidityMask) (kc : FlatVector) (ks : Nat)
          (rest : FlatVectorList),
        FlatVector.hugeMap = .struct ⟨none⟩ (.cons (.list km kd kc ks) rest) ∧
        (kd 0).length = 2 ^ 32) :=
  ⟨_, _, _, rfl, rfl, rfl, rfl, _, _, _, _, _, rfl, rfl⟩

/-- C25 (amended): when ToArrowArray succeeds on a chunk of n rows whose column
col_idx is a map column (a key list and a value list) whose key list lengths
over the valid map rows total fewer than 2^32, the array of the column has 2
buffers and exactly one child; that child is a struct array (1 buffer) with two
children (key, value), and its length and the lengths of both children equal
the logical length of the child vector of the key list; the offsets are n + 1
with offsets[0] = 0 and offsets[i + 1] = offsets[i] + (length of the key list
of row i if map row i is valid, else 0). -/
theorem DataChunk.ToArrowArray_map (uninit : Nat → Nat)
    (columns : List (LogicalType × FlatVector)) (size : Nat) (out_array : ArrowArray)
    (root_holder : DuckDBArrowArrayHolder) (col_idx : Nat) (kn vn : String)
    (kt vt : LogicalType) (map_mask km vm : ValidityMask) (kd vd : Nat → list_entry_t)
    (kc vc : FlatVector) (ks vs : Nat)
    (h : DataChunk.ToArrowArray uninit columns size = .ok (out_array, root_holder))
    (hcol : columns[col_idx]? =
      some (.MAP (.cons kn (.LIST kt) (.cons vn (.LIST vt) .nil)),
        .struct map_mask (.cons (.list km kd kc ks) (.cons (.list vm vd vc vs) .nil))))
    (hlt : entryTotal kd (some map_mask) size < 2 ^ 32) :
    ∃ (child_holder struct_child key value : DuckDBArrowArrayChildHolder)
      (offsets : List Nat),
      root_holder.children[col_idx]? = some child_holder ∧
      child_holder.array.n_buffers = 2 ∧ child_holder.array.n_children = 1 ∧
      child_holder.children = [struct_child] ∧
      struct_child.array.n_buffers = 1 ∧ struct_child.array.n_children = 2 ∧
      struct_child.children = [key, value] ∧
      struct_child.array.length = (ks : Int) ∧
      key.array.length = (ks : Int) ∧ value.array.length = (ks : Int) ∧
      child_holder.offsets = some offsets ∧
      offsets.length = size + 1 ∧ offsets[0]? = some 0 ∧
      ∀ i : Nat, i < size → ∃ a : Nat, offsets[i]? = some a ∧
        offsets[i + 1]? = some (a + if map_mask.RowIsValid i then (kd i).length else 0) := by
  obtain ⟨c, v, h1, -, h3⟩ :=
    DataChunk.ToArrowArray_ok_column uninit columns size _ _ h col_idx _ _ hcol
  rw [show InitializeChild .new size = .mk (InitializeChild .new size).array none none none []
    from rfl, SetArrowChild_map_two_eq] at h1
  split at h1
  · cases h1
  · split at h1
    · cases h1
    · rename_i key hkey
      split at h1
      · cases h1
      · rename_i value hvalue
        cases h1
        obtain ⟨b1, b2⟩ := SetList.offsetArray_spec uninit kd (some map_mask) size
        have hmod : ∀ j, j ≤ size → entryTotal kd (some map_mask) j % 2 ^ 32
            = entryTotal kd (some map_mask) j := fun j hj =>
          Nat.mod_eq_of_lt (lt_of_le_of_lt (entryTotal_mono kd (some map_mask) hj) hlt)
        refine ⟨_, _, key, value, _, h3, rfl, rfl, rfl, rfl, rfl, rfl, rfl,
          SetArrowChild_length uninit _ kt kc ks _ key hkey,
          SetArrowChild_length uninit _ vt vc ks _ value hvalue, rfl, b1, ?_, ?_⟩
        · rw [b2 0 (Nat.zero_le _)]; rfl
        · intro i hi
          refine ⟨entryTotal kd (some map_mask) i, ?_, ?_⟩
          · rw [b2 i (by omega), hmod i (by omega)]
          · rw [b2 (i + 1) (by omega), hmod (i + 1) (by omega), entryTotal_succ]; rfl

/-- C25 (witness): the export of the map column {1: 10, 2: 20}, {3: 30}. -/
theorem DataChunk.ToArrowArray_map_witness :
    ∃ (out_array : ArrowArray) (root_holder : DuckDBArrowArrayHolder),
      DataChunk.ToArrowArray (fun _ => 0) [(LogicalType.sampleMapType, FlatVector.sampleMap)] 2 =
        .ok (out_array, root_holder) ∧
      entryTotal (fun i => ([⟨0, 2⟩, ⟨2, 1⟩] : List list_entry_t).getD i ⟨0, 0⟩)
        (some ⟨none⟩) 2 < 2 ^ 32 ∧
      ∃ (child_holder struct_child key value : DuckDBArrowArrayChildHolder)
        (offsets : List Nat),
        root_holder.children[0]? = some child_holder ∧
        child_holder.array.n_buffers = 2 ∧ child_holder.array.n_children = 1 ∧
        child_holder.children = [struct_child] ∧
        struct_child.array.n_buffers = 1 ∧ struct_child.array.n_children = 2 ∧
        struct_child.children = [key, value] ∧
        struct_child.array.length = ((3 : Nat) : Int) ∧
        key.array.length = ((3 : Nat) : Int) ∧ value.array.length = ((3 : Nat) : Int) ∧
        child_holder.offsets = some offsets ∧
        offsets.length = 2 + 1 ∧ offsets[0]? = some 0 ∧
        ∀ i : Nat, i < 2 → ∃ a : Nat, offsets[i]? = some a ∧
          offsets[i + 1]? = some (a +
            if (ValidityMask.mk none).RowIsValid i then
              (([⟨0, 2⟩, ⟨2, 1⟩] : List list_entry_t).getD i ⟨0, 0⟩).length
            else 0) :=
  ⟨_, _, rfl, by decide,
    DataChunk.ToArrowArray_map (fun _ => 0)
      [(LogicalType.sampleMapType, FlatVector.sampleMap)] 2 _ _ 0 "key" "value" .INTEGER
      .INTEGER ⟨none⟩ ⟨none⟩ ⟨none⟩
      (fun i => ([⟨0, 2⟩, ⟨2, 1⟩] : List list_entry_t).getD i ⟨0, 0⟩)
      (fun i => ([⟨0, 2⟩, ⟨2, 1⟩] : List list_entry_t).getD i ⟨0, 0⟩)
      (.fixed ⟨none⟩ (fun i => [1, 2, 3].getD i 0))
      (.fixed ⟨none⟩ (fun i => [10, 20, 30].getD i 0)) 3 3 rfl rfl (by decide)⟩

/-! Interchange export: null keys of a map -/

/-- The check of the keys finds a null exactly when, for some row i < size, the
child of the key list is null at a position of the range of the entry of row
i. -/
theorem SetStructMap.hasNullKey_iff (mask : ValidityMask) (list_offsets : Nat → list_entry_t)
    (size : Nat) :
    SetStructMap.hasNullKey mask list_offsets size = true ↔
      ∃ i p : Nat, i < size ∧ (list_offsets i).offset ≤ p ∧
        p < (list_offsets i).offset + (list_offsets i).length ∧
        mask.RowIsValid p = false := by
  cases mask with
  | mk bitmap =>
    cases bitmap with
    | none =>
      simp [SetStructMap.hasNullKey, ValidityMask.AllValid, ValidityMask.RowIsValid]
    | some bits =>
      simp only [SetStructMap.hasNullKey, ValidityMask.AllValid, ValidityMask.RowIsValid,
        ValidityMask.CheckAllValid, Option.isNone_some, Bool.not_false, Bool.true_and,
        List.any_eq_true, List.mem_range, Bool.not_eq_true', List.all_eq_false,
        Bool.not_eq_true]
      constructor
      · rintro ⟨i, hi, k, hk, hb⟩
        exact ⟨i, (list_offsets i).offset + k, hi, by omega, by omega, hb⟩
      · rintro ⟨i, p, hi, h1, h2, hb⟩
        refine ⟨i, hi, p - (list_offsets i).offset, by omega, ?_⟩
        rw [show (list_offsets i).offset + (p - (list_offsets i).offset) = p by omega]
        exact hb

/-- An error of the column loop of ToArrowArray is the error of SetArrowChild on
one of the columns, or the dereference of the vector a holder did not
retain. -/
theorem DataChunk.ToArrowArray_columns_error (uninit : Nat → Nat) (size : Nat) :
    ∀ (cols : List (LogicalType × FlatVector)) (e : Exception),
      DataChunk.ToArrowArray.columns uninit size cols = .error e →
      ∃ (i : Nat) (type : LogicalType) (data : FlatVector), cols[i]? = some (type, data) ∧
        (SetArrowChild uninit (InitializeChild .new size) type data size none = .error e ∨
          ∃ c : DuckDBArrowArrayChildHolder,
            SetArrowChild uninit (InitializeChild .new size) type data size none = .ok c ∧
            c.vector = none ∧ e = .NullPointer) := by
  intro cols
  induction cols with
  | nil =>
    intro e h
    simp only [DataChunk.ToArrowArray.columns] at h
    cases h
  | cons col rest ih =>
    intro e h
    obtain ⟨type0, data0⟩ := col
    simp only [DataChunk.ToArrowArray.columns] at h
    cases hc : SetArrowChild uninit (InitializeChild .new size) type0 data0 size none with
    | error e0 =>
      rw [hc] at h
      cases h
      exact ⟨0, type0, data0, by simp, Or.inl hc⟩
    | ok c =>
      rw [hc] at h
      simp only at h
      cases hv : c.vector with
      | none =>
        rw [hv] at h
        cases h
        exact ⟨0, type0, data0, by simp, Or.inr ⟨c, hc, hv, rfl⟩⟩
      | some v =>
        rw [hv] at h
        simp only at h
        cases hr : DataChunk.ToArrowArray.columns uninit size rest with
        | error e1 =>
          rw [hr] at h
          cases h
          obtain ⟨i, type, data, h1, h2⟩ := ih e hr
          exact ⟨i + 1, type, data, by simpa using h1, h2⟩
        | ok holders =>
          rw [hr] at h
          cases h

/-- An error of ToArrowArray is the error of SetArrowChild on one of the columns,
or the dereference of the vector a holder did not retain. -/
theorem DataChunk.ToArrowArray_error_column (uninit : Nat → Nat)
    (columns : List (LogicalType × FlatVector)) (size : Nat) (e : Exception)
    (h : DataChunk.ToArrowArray uninit columns size = .error e) :
    ∃ (i : Nat) (type : LogicalType) (data : FlatVector), columns[i]? = some (type, data) ∧
      (SetArrowChild uninit (InitializeChild .new size) type data size none = .error e ∨
        ∃ c : DuckDBArrowArrayChildHolder,
          SetArrowChild uninit (InitializeChild .new size) type data size none = .ok c ∧
          c.vector = none ∧ e = .NullPointer) := by
  simp only [DataChunk.ToArrowArray] at h
  cases hr : DataChunk.ToArrowArray.columns uninit size columns with
  | error e0 =>
    rw [hr] at h
    cases h
    exact DataChunk.ToArrowArray_columns_error uninit size columns e hr
  | ok holders =>
    rw [hr] at h
    cases h

/-- ToArrowArray fails when SetArrowChild fails on one of the columns. -/
theorem DataChunk.ToArrowArray_fails_of_column (uninit : Nat → Nat)
    (columns : List (LogicalType × FlatVector)) (size : Nat)
    (col_idx : Nat) (type : LogicalType) (data : FlatVector) (e : Exception)
    (hcol : columns[col_idx]? = some (type, data))
    (herr : SetArrowChild uninit (InitializeChild .new size) type data size none = .error e) :
    ∃ e0 : Exception, DataChunk.ToArrowArray uninit columns size = .error e0 := by
  cases hres : DataChunk.ToArrowArray uninit columns size with
  | error e0 => exact ⟨e0, rfl⟩
  | ok r =>
    obtain ⟨out_array, root_holder⟩ := r
    obtain ⟨c, v, h1, -, -⟩ :=
      DataChunk.ToArrowArray_ok_column uninit columns size _ _ hres col_idx _ _ hcol
    rw [herr] at h1
    cases h1

/-- C26: for a chunk whose column col_idx is a map column (a key list and a
value list) whose key child and value child export and whose other columns
export, ToArrowArray fails if and only if for some row i < row_count the child
vector of the key list holds a null at a position p with
offset_i <= p < offset_i + length_i, (offset_i, length_i) being the entry of
row i of the key list; the error is then the one of the null key check; in
particular a map whose first entry's key list contains a null is rejected. -/
theorem DataChunk.ToArrowArray_map_null_key (uninit : Nat → Nat)
    (columns : List (LogicalType × FlatVector)) (size : Nat) (col_idx : Nat) (kn vn : String)
    (kt vt : LogicalType) (map_mask km vm : ValidityMask) (kd vd : Nat → list_entry_t)
    (kc vc : FlatVector) (ks vs : Nat)
    (hcol : columns[col_idx]? =
      some (.MAP (.cons kn (.LIST kt) (.cons vn (.LIST vt) .nil)),
        .struct map_mask (.cons (.list km kd kc ks) (.cons (.list vm vd vc vs) .nil))))
    (hkey : ∀ holder : DuckDBArrowArrayChildHolder, ∃ c : DuckDBArrowArrayChildHolder,
      SetArrowChild uninit holder kt kc ks (some map_mask) = .ok c)
    (hvalue : ∀ holder : DuckDBArrowArrayChildHolder, ∃ c : DuckDBArrowArrayChildHolder,
      SetArrowChild uninit holder vt vc ks (some map_mask) = .ok c)
    (hrest : ∀ (j : Nat) (type : LogicalType) (data : FlatVector), j ≠ col_idx →
      columns[j]? = some (type, data) →
      ∃ (c : DuckDBArrowArrayChildHolder) (v : FlatVector),
        SetArrowChild uninit (InitializeChild .new size) type data size none = .ok c ∧
        c.vector = some v) :
    ((∃ e : Exception, DataChunk.ToArrowArray uninit columns size = .error e) ↔
      ∃ i p : Nat, i < size ∧ (kd i).offset ≤ p ∧ p < (kd i).offset + (kd i).length ∧
        kc.Validity.RowIsValid p = false) ∧
    ((∃ i p : Nat, i < size ∧ (kd i).offset ≤ p ∧ p < (kd i).offset + (kd i).length ∧
        kc.Validity.RowIsValid p = false) →
      DataChunk.ToArrowArray uninit columns size = .error .NullKeyInMap) ∧
    (0 < size →
      (∃ p : Nat, (kd 0).offset ≤ p ∧ p < (kd 0).offset + (kd 0).length ∧
        kc.Validity.RowIsValid p = false) →
      DataChunk.ToArrowArray uninit columns size = .error .NullKeyInMap) := by
  have hinit : InitializeChild .new size
      = .mk (InitializeChild .new size).array none none none [] := rfl
  -- the call of SetArrowChild on the map column
  have hmap : ∀ e : Exception,
      SetArrowChild uninit (InitializeChild .new size)
        (.MAP (.cons kn (.LIST kt) (.cons vn (.LIST vt) .nil)))
        (.struct map_mask (.cons (.list km kd kc ks) (.cons (.list vm vd vc vs) .nil)))
        size none = .error e →
      SetStructMap.hasNullKey kc.Validity kd size = true ∧ e = .NullKeyInMap := by
    intro e he
    rw [hinit, SetArrowChild_map_two_eq] at he
    split at he
    · rename_i hn
      cases he
      exact ⟨hn, rfl⟩
    · obtain ⟨key, hk⟩ := hkey (InitializeChild .new ks)
      obtain ⟨value, hv⟩ := hvalue ((InitializeChild .new ks).setArray
        (SetChildValidityMask vc (InitializeChild .new ks).array))
      rw [hk, hv] at he
      cases he
  have hvec : ∀ c : DuckDBArrowArrayChildHolder,
      SetArrowChild uninit (InitializeChild .new size)
        (.MAP (.cons kn (.LIST kt) (.cons vn (.LIST vt) .nil)))
        (.struct map_mask (.cons (.list km kd kc ks) (.cons (.list vm vd vc vs) .nil)))
        size none = .ok c → c.vector ≠ none := by
    intro c hc
    rw [hinit, SetArrowChild_map_two_eq] at hc
    split at hc
    · cases hc
    · split at hc
      · cases hc
      · split at hc
        · cases hc
        · cases hc
          simp [DuckDBArrowArrayChildHolder.vector]
  have hnull : SetStructMap.hasNullKey kc.Validity kd size = true →
      SetArrowChild uninit (InitializeChild .new size)
        (.MAP (.cons kn (.LIST kt) (.cons vn (.LIST vt) .nil)))
        (.struct map_mask (.cons (.list km kd kc ks) (.cons (.list vm vd vc vs) .nil)))
        size none = .error .NullKeyInMap := by
    intro hn
    rw [hinit, SetArrowChild_map_two_eq, if_pos hn]
  -- an error of the export is the error of the map column
  have hsource : ∀ e : Exception, DataChunk.ToArrowArray uninit columns size = .error e →
      SetStructMap.hasNullKey kc.Validity kd size = true ∧ e = .NullKeyInMap := by
    intro e he
    obtain ⟨i, type, data, hi, hfail⟩ :=
      DataChunk.ToArrowArray_error_column uninit columns size e he
    by_cases hic : i = col_idx
    · subst hic
      rw [hcol] at hi
      cases hi
      rcases hfail with herr | ⟨c, hc, hv, -⟩
      · exact hmap e herr
      · exact absurd hv (hvec c hc)
    · obtain ⟨c, v, hc, hv⟩ := hrest i type data hic hi
      rcases hfail with herr | ⟨c1, hc1, hv1, -⟩
      · rw [hc] at herr; cases herr
      · rw [hc] at hc1
        cases hc1
        rw [hv] at hv1
        cases hv1
  have hreject : SetStructMap.hasNullKey kc.Validity kd size = true →
      DataChunk.ToArrowArray uninit columns size = .error .NullKeyInMap := by
    intro hn
    obtain ⟨e, he⟩ := DataChunk.ToArrowArray_fails_of_column uninit columns size col_idx _ _ _
      hcol (hnull hn)
    rw [he, (hsource e he).2]
  refine ⟨⟨?_, ?_⟩, ?_, ?_⟩
  · rintro ⟨e, he⟩
    exact (SetStructMap.hasNullKey_iff _ _ _).mp (hsource e he).1
  · intro hN
    exact ⟨_, hreject ((SetStructMap.hasNullKey_iff _ _ _).mpr hN)⟩
  · intro hN
    exact hreject ((SetStructMap.hasNullKey_iff _ _ _).mpr hN)
  · rintro h0 ⟨p, h1, h2, h3⟩
    exact hreject ((SetStructMap.hasNullKey_iff _ _ _).mpr ⟨0, p, h0, h1, h2, h3⟩)

/-- C26 (witness): the map column {1: 10, NULL: 20}, {3: 30} alone in a chunk:
its first entry's key list holds a null at position 1, and ToArrowArray
fails with the error of the null key check. -/
theorem DataChunk.ToArrowArray_map_null_key_witness :
    [(LogicalType.sampleMapType, FlatVector.nullKeyMap)][0]? =
      some (.MAP (.cons "key" (.LIST .INTEGER) (.cons "value" (.LIST .INTEGER) .nil)),
        .struct ⟨none⟩
          (.cons (.list ⟨none⟩ (fun i => ([⟨0, 2⟩, ⟨2, 1⟩] : List list_entry_t).getD i ⟨0, 0⟩)
              (FlatVector.fixed ⟨some (fun i => i != 1)⟩ (fun i => [1, 0, 3].getD i 0)) 3)
            (.cons (.list ⟨none⟩ (fun i => ([⟨0, 2⟩, ⟨2, 1⟩] : List list_entry_t).getD i ⟨0, 0⟩)
                (FlatVector.fixed ⟨none⟩ (fun i => [10, 20, 30].getD i 0)) 3) .nil))) ∧
    (∀ holder : DuckDBArrowArrayChildHolder, ∃ c : DuckDBArrowArrayChildHolder,
      SetArrowChild (fun _ => 0) holder .INTEGER
        (FlatVector.fixed ⟨some (fun i => i != 1)⟩ (fun i => [1, 0, 3].getD i 0)) 3 (some ⟨none⟩) = .ok c) ∧
    (∀ holder : DuckDBArrowArrayChildHolder, ∃ c : DuckDBArrowArrayChildHolder,
      SetArrowChild (fun _ => 0) holder .INTEGER
        (FlatVector.fixed ⟨none⟩ (fun i => [10, 20, 30].getD i 0)) 3 (some ⟨none⟩) = .ok c) ∧
    (∀ (j : Nat) (type : LogicalType) (data : FlatVector), j ≠ 0 →
      [(LogicalType.sampleMapType, FlatVector.nullKeyMap)][j]? = some (type, data) →
      ∃ (c : DuckDBArrowArrayChildHolder) (v : FlatVector),
        SetArrowChild (fun _ => 0) (InitializeChild .new 2) type data 2 none = .ok c ∧
        c.vector = some v) ∧
    (∃ i p : Nat, i < 2 ∧ ((fun i => ([⟨0, 2⟩, ⟨2, 1⟩] : List list_entry_t).getD i ⟨0, 0⟩) i).offset ≤ p ∧
        p < ((fun i => ([⟨0, 2⟩, ⟨2, 1⟩] : List list_entry_t).getD i ⟨0, 0⟩) i).offset +
          ((fun i => ([⟨0, 2⟩, ⟨2, 1⟩] : List list_entry_t).getD i ⟨0, 0⟩) i).length ∧
        (FlatVector.fixed ⟨some (fun i => i != 1)⟩ (fun i => [1, 0, 3].getD i 0)).Validity.RowIsValid p = false) ∧
    ((∃ e : Exception, DataChunk.ToArrowArray (fun _ => 0)
        [(LogicalType.sampleMapType, FlatVector.nullKeyMap)] 2 = .error e) ↔
      ∃ i p : Nat, i < 2 ∧ ((fun i => ([⟨0, 2⟩, ⟨2, 1⟩] : List list_entry_t).getD i ⟨0, 0⟩) i).offset ≤ p ∧
        p < ((fun i => ([⟨0, 2⟩, ⟨2, 1⟩] : List list_entry_t).getD i ⟨0, 0⟩) i).offset +
          ((fun i => ([⟨0, 2⟩, ⟨2, 1⟩] : List list_entry_t).getD i ⟨0, 0⟩) i).length ∧
        (FlatVector.fixed ⟨some (fun i => i != 1)⟩ (fun i => [1, 0, 3].getD i 0)).Validity.RowIsValid p = false) ∧
    ((∃ i p : Nat, i < 2 ∧ ((fun i => ([⟨0, 2⟩, ⟨2, 1⟩] : List list_entry_t).getD i ⟨0, 0⟩) i).offset ≤ p ∧
        p < ((fun i => ([⟨0, 2⟩, ⟨2, 1⟩] : List list_entry_t).getD i ⟨0, 0⟩) i).offset +
          ((fun i => ([⟨0, 2⟩, ⟨2, 1⟩] : List list_entry_t).getD i ⟨0, 0⟩) i).length ∧
        (FlatVector.fixed ⟨some (fun i => i != 1)⟩ (fun i => [1, 0, 3].getD i 0)).Validity.RowIsValid p = false) →
      DataChunk.ToArrowArray (fun _ => 0) [(LogicalType.sampleMapType, FlatVector.nullKeyMap)] 2 = .error .NullKeyInMap) ∧
    (0 < 2 →
      (∃ p : Nat, ((fun i => ([⟨0, 2⟩, ⟨2, 1⟩] : List list_entry_t).getD i ⟨0, 0⟩) 0).offset ≤ p ∧
        p < ((fun i => ([⟨0, 2⟩, ⟨2, 1⟩] : List list_entry_t).getD i ⟨0, 0⟩) 0).offset +
          ((fun i => ([⟨0, 2⟩, ⟨2, 1⟩] : List list_entry_t).getD i ⟨0, 0⟩) 0).length ∧
        (FlatVector.fixed ⟨some (fun i => i != 1)⟩ (fun i => [1, 0, 3].getD i 0)).Validity.RowIsValid p = false) →
      DataChunk.ToArrowArray (fun _ => 0) [(LogicalType.sampleMapType, FlatVector.nullKeyMap)] 2 = .error .NullKeyInMap) :=
  ⟨rfl, fun holder => by cases holder; exact ⟨_, rfl⟩,
    fun holder => by cases holder; exact ⟨_, rfl⟩,
    fun j type data hj hc => by
      cases j with
      | zero => exact absurd rfl hj
      | succ j => simp at hc,
    ⟨0, 1, by decide, by decide, by decide, rfl⟩,
    DataChunk.ToArrowArray_map_null_key (fun _ => 0) [(LogicalType.sampleMapType, FlatVector.nullKeyMap)] 2 0 "key" "value" .INTEGER
      .INTEGER ⟨none⟩ ⟨none⟩ ⟨none⟩ (fun i => ([⟨0, 2⟩, ⟨2, 1⟩] : List list_entry_t).getD i ⟨0, 0⟩)
      (fun i => ([⟨0, 2⟩, ⟨2, 1⟩] : List list_entry_t).getD i ⟨0, 0⟩)
      (FlatVector.fixed ⟨some (fun i => i != 1)⟩ (fun i => [1, 0, 3].getD i 0))
      (FlatVector.fixed ⟨none⟩ (fun i => [10, 20, 30].getD i 0)) 3 3 rfl
      (fun holder => by cases holder; exact ⟨_, rfl⟩)
      (fun holder => by cases holder; exact ⟨_, rfl⟩)
      (fun j type data hj hc => by
        cases j with
        | zero => exact absurd rfl hj
        | succ j => simp at hc)⟩

/-! Interchange export: null_count -/

/-- The vector a holder retains after SetArrowChild: the exported vector, except
in the case of the null type, which leaves the member as it was. -/
theorem SetArrowChild_vector (uninit : Nat → Nat) (h : DuckDBArrowArrayChildHolder)
    (type : LogicalType) (data : FlatVector) (size : Nat) (pm : Option ValidityMask)
    (c : DuckDBArrowArrayChildHolder)
    (hc : SetArrowChild uninit h type data size pm = .ok c) :
    c.vector = some data ∨ (type = .SQLNULL ∧ c.vector = h.vector) := by
  cases h with
  | mk child v o d ch =>
    cases type with
    | LIST t =>
      cases data with
      | list m ld cv ls =>
        rw [SetArrowChild_list_eq] at hc
        split at hc
        · cases hc
        · cases hc; exact Or.inl rfl
      | _ => cases hc
    | STRUCT ts =>
      cases data with
      | struct m children =>
        rw [SetArrowChild_struct_eq] at hc
        split at hc
        · cases hc
        · cases hc; exact Or.inl rfl
      | _ => cases hc
    | MAP ts =>
      cases data with
      | struct m children =>
        cases children with
        | nil => cases hc
        | cons keys rest =>
          rw [SetArrowChild_map_eq] at hc
          split at hc
          · cases hc
          · split at hc
            · cases hc
            · cases hc; exact Or.inl rfl
      | _ => cases hc
    | DECIMAL width scale =>
      rw [SetArrowChild_decimal_eq] at hc
      generalize (LogicalType.DECIMAL width scale).InternalType = p at hc
      cases p <;> first | (cases hc; exact Or.inl rfl) | cases hc
    | VARCHAR =>
      rw [SetArrowChild_varchar_data_eq] at hc
      split at hc
      · cases hc
      · cases hc; exact Or.inl rfl
    | SQLNULL => cases data <;> (cases hc; exact Or.inr ⟨rfl, rfl⟩)
    | _ => cases data <;> first | (cases hc; exact Or.inl rfl) | cases hc

/-- C27 (counterexample): an integer column of two rows whose validity mask has
a bitmap with every bit set, so every row is valid: the null_count of its
array is -1, not 0. -/
theorem DataChunk.ToArrowArray_null_count_counterexample :
    ∃ (out_array : ArrowArray) (root_holder : DuckDBArrowArrayHolder)
      (child_holder : DuckDBArrowArrayChildHolder),
      DataChunk.ToArrowArray (fun _ => 0)
        [(.INTEGER, .fixed ⟨some (fun _ => true)⟩ (fun i => i))] 2 =
        .ok (out_array, root_holder) ∧
      root_holder.children[0]? = some child_holder ∧
      (∀ i : Nat, i < 2 →
        (FlatVector.fixed ⟨some (fun _ => true)⟩ (fun i => i)).Validity.RowIsValid i = true) ∧
      child_holder.array.null_count = -1 :=
  ⟨_, _, _, rfl, rfl, fun _ _ => rfl, rfl⟩

/-- C27 (amended): for every top-level column array produced by ToArrowArray
over n rows, null_count is 0 or -1; it is 0 exactly when the validity mask of
the column has no bitmap (every row is then valid) and -1 exactly when the mask
has a bitmap, whatever its bits; so it is -1 when at least one row in [0, n) is
null, and it is 0 only if every row is valid. -/
theorem DataChunk.ToArrowArray_null_count (uninit : Nat → Nat)
    (columns : List (LogicalType × FlatVector)) (size : Nat) (out_array : ArrowArray)
    (root_holder : DuckDBArrowArrayHolder) (col_idx : Nat) (type : LogicalType)
    (data : FlatVector)
    (h : DataChunk.ToArrowArray uninit columns size = .ok (out_array, root_holder))
    (hcol : columns[col_idx]? = some (type, data)) :
    ∃ child_holder : DuckDBArrowArrayChildHolder,
      root_holder.children[col_idx]? = some child_holder ∧
      (child_holder.array.null_count = 0 ∨ child_holder.array.null_count = -1) ∧
      (child_holder.array.null_count = 0 ↔ data.Validity.validity_mask = none) ∧
      (child_holder.array.null_count = -1 ↔ data.Validity.validity_mask ≠ none) ∧
      (child_holder.array.null_count = 0 → ∀ i : Nat, data.Validity.RowIsValid i = true) ∧
      ((∃ i : Nat, i < size ∧ data.Validity.RowIsValid i = false) →
        child_holder.array.null_count = -1) := by
  obtain ⟨c, v, h1, h2, h3⟩ :=
    DataChunk.ToArrowArray_ok_column uninit columns size _ _ h col_idx _ _ hcol
  have hv : v = data := by
    rcases SetArrowChild_vector uninit _ type data size none c h1 with hd | ⟨-, hn⟩
    · rw [h2] at hd; cases hd; rfl
    · rw [h2] at hn; cases hn
  subst hv
  refine ⟨_, h3, ?_⟩
  have hnc : (c.setArray (SetChildValidityMask v c.array)).array.null_count
      = if !v.Validity.AllValid then (-1 : Int) else 0 := rfl
  rw [hnc]
  cases hm : v.Validity.validity_mask with
  | none =>
    simp [ValidityMask.AllValid, ValidityMask.RowIsValid, hm]
  | some bits =>
    simp [ValidityMask.AllValid, ValidityMask.RowIsValid, hm]

/-- C27 (witness): a chunk of an integer column with a null row (null_count -1)
and an integer column without a bitmap (null_count 0). -/
theorem DataChunk.ToArrowArray_null_count_witness :
    ∃ (out_array : ArrowArray) (root_holder : DuckDBArrowArrayHolder),
      DataChunk.ToArrowArray (fun _ => 0)
        [(.INTEGER, .fixed ⟨some (fun i => i != 1)⟩ (fun i => i + 5)),
         (.INTEGER, .fixed ⟨none⟩ (fun i => i))] 2 = .ok (out_array, root_holder) ∧
      (∃ child_holder : DuckDBArrowArrayChildHolder,
        root_holder.children[1]? = some child_holder ∧ child_holder.array.null_count = 0) ∧
      ∃ child_holder : DuckDBArrowArrayChildHolder,
        root_holder.children[0]? = some child_holder ∧
        (child_holder.array.null_count = 0 ∨ child_holder.array.null_count = -1) ∧
        (child_holder.array.null_count = 0 ↔
          (FlatVector.fixed ⟨some (fun i => i != 1)⟩ (fun i => i + 5)).Validity.validity_mask
            = none) ∧
        (child_holder.array.null_count = -1 ↔
          (FlatVector.fixed ⟨some (fun i => i != 1)⟩ (fun i => i + 5)).Validity.validity_mask
            ≠ none) ∧
        (child_holder.array.null_count = 0 → ∀ i : Nat,
          (FlatVector.fixed ⟨some (fun i => i != 1)⟩ (fun i => i + 5)).Validity.RowIsValid i
            = true) ∧
        ((∃ i : Nat, i < 2 ∧
            (FlatVector.fixed ⟨some (fun i => i != 1)⟩ (fun i => i + 5)).Validity.RowIsValid i
              = false) →
          child_holder.array.null_count = -1) :=
  ⟨_, _, rfl, ⟨_, rfl, rfl⟩,
    DataChunk.ToArrowArray_null_count (fun _ => 0)
      [(.INTEGER, .fixed ⟨some (fun i => i != 1)⟩ (fun i => i + 5)),
       (.INTEGER, .fixed ⟨none⟩ (fun i => i))] 2 _ _ 0 .INTEGER
      (.fixed ⟨some (fun i => i != 1)⟩ (fun i => i + 5)) rfl rfl⟩

/-! Interchange export: release, and columns of the null type -/

/-- C28: for every array exported by ToArrowArray (its release and private_data
are set), the first call of the release callback sets the release field of the
array to null and deletes the root holder; after any number of further calls
the array and the memory are as the first call left them, the holder deleted
exactly once; and a call on a null array changes nothing. -/
theorem DataChunk.ToArrowArray_release (uninit : Nat → Nat)
    (columns : List (LogicalType × FlatVector)) (size : Nat) (out_array : ArrowArray)
    (root_holder : DuckDBArrowArrayHolder)
    (h : DataChunk.ToArrowArray uninit columns size = .ok (out_array, root_holder)) :
    out_array.release = true ∧ out_array.private_data = true ∧
    ReleaseDuckDBArrowArray (some out_array) ⟨some root_holder, 0⟩ =
      (some { out_array with release := false }, ⟨none, 1⟩) ∧
    (∀ n : Nat,
      (fun s : Option ArrowArray × ExportHeap => ReleaseDuckDBArrowArray s.1 s.2)^[n]
          (ReleaseDuckDBArrowArray (some out_array) ⟨some root_holder, 0⟩) =
        (some { out_array with release := false }, ⟨none, 1⟩)) ∧
    (∀ heap : ExportHeap, ReleaseDuckDBArrowArray none heap = (none, heap)) := by
  simp only [DataChunk.ToArrowArray] at h
  cases hr : DataChunk.ToArrowArray.columns uninit size columns with
  | error e => rw [hr] at h; cases h
  | ok holders =>
    rw [hr] at h
    simp only at h
    cases h
    refine ⟨rfl, rfl, rfl, ?_, fun _ => rfl⟩
    intro n
    induction n with
    | zero => rfl
    | succ n ih =>
      rw [Function.iterate_succ_apply', ih]
      rfl

/-- C28 (witness): the release of the export of the chunk with one column per
row of the layout table. -/
theorem DataChunk.ToArrowArray_release_witness :
    ∃ (out_array : ArrowArray) (root_holder : DuckDBArrowArrayHolder),
      DataChunk.ToArrowArray (fun _ => 0) DataChunk.exported 2 = .ok (out_array, root_holder) ∧
      out_array.release = true ∧ out_array.private_data = true ∧
      ReleaseDuckDBArrowArray (some out_array) ⟨some root_holder, 0⟩ =
        (some { out_array with release := false }, ⟨none, 1⟩) ∧
      (∀ n : Nat,
        (fun s : Option ArrowArray × ExportHeap => ReleaseDuckDBArrowArray s.1 s.2)^[n]
            (ReleaseDuckDBArrowArray (some out_array) ⟨some root_holder, 0⟩) =
          (some { out_array with release := false }, ⟨none, 1⟩)) ∧
      (∀ heap : ExportHeap, ReleaseDuckDBArrowArray none heap = (none, heap)) :=
  ⟨_, _, rfl, DataChunk.ToArrowArray_release (fun _ => 0) DataChunk.exported 2 _ _ rfl⟩

/-- C29 (the code at the failing input): on a chunk whose only column has the
null type ToArrowArray does not complete: SetArrowChild leaves the array with 1
buffer and length row_count but leaves the vector of the holder empty, and
ToArrowArray dereferences it.  The same vector as the field of a struct column
exports, with 1 buffer, length row_count and its validity bitmap as
buffer 0. -/
theorem DataChunk.ToArrowArray_null_column (uninit : Nat → Nat) (data : FlatVector)
    (size : Nat) :
    DataChunk.ToArrowArray uninit [(.SQLNULL, data)] size = .error .NullPointer ∧
    (∃ c : DuckDBArrowArrayChildHolder,
      SetArrowChild uninit (InitializeChild .new size) .SQLNULL data size none = .ok c ∧
      c.vector = none ∧ c.array.n_buffers = 1 ∧ c.array.length = (size : Int)) ∧
    (∃ (out_array : ArrowArray) (root_holder : DuckDBArrowArrayHolder)
        (child_holder field : DuckDBArrowArrayChildHolder),
      DataChunk.ToArrowArray uninit
        [(.STRUCT (.cons "a" .SQLNULL .nil), .struct ⟨none⟩ (.cons data .nil))] size =
        .ok (out_array, root_holder) ∧
      root_holder.children[0]? = some child_holder ∧
      child_holder.children = [field] ∧
      field.array.n_buffers = 1 ∧ field.array.length = (size : Int) ∧
      field.array.buffers[0]? = some data.Validity.GetData) := by
  cases data <;>
    exact ⟨rfl, ⟨_, rfl, rfl, rfl, rfl⟩, ⟨_, _, _, _, rfl, rfl, rfl, rfl, rfl, rfl⟩⟩

/-! Interchange export: unsupported types -/

/-- The child loop of SetStruct at a child. -/
theorem SetStruct.struct_loop_cons (uninit : Nat → Nat) (child_types : ChildTypes) (size : Nat)
    (struct_mask : ValidityMask) (child : FlatVector) (rest : FlatVectorList)
    (child_idx : Nat) :
    SetStruct.loop uninit child_types size struct_mask (.cons child rest) child_idx =
      match child_types.get? child_idx with
      | none => .error .Assertion
      | some child_type =>
          match SetArrowChild uninit (InitializeChild .new size) child_type child size
              (some struct_mask) with
          | .error e => .error e
          | .ok c =>
              match SetStruct.loop uninit child_types size struct_mask rest (child_idx + 1) with
              | .error e => .error e
              | .ok holders =>
                  .ok (c.setArray (SetChildValidityMask child c.array) :: holders) := rfl

/-- SetArrowChild fails on a vector whose type, or the type of a nested child of
a list or struct, is not in the layout table. -/
theorem SetArrowChild_unsupported (uninit : Nat → Nat) (data : FlatVector) :
    ∀ (type : LogicalType) (h : DuckDBArrowArrayChildHolder) (size : Nat)
      (pm : Option ValidityMask), data.unsupported type = true →
      ∃ e : Exception, SetArrowChild uninit h type data size pm = .error e := by
  refine @FlatVector.rec
    (fun data => ∀ (type : LogicalType) (h : DuckDBArrowArrayChildHolder) (size : Nat)
      (pm : Option ValidityMask), data.unsupported type = true →
      ∃ e : Exception, SetArrowChild uninit h type data size pm = .error e)
    (fun children => ∀ (child_types : ChildTypes) (size : Nat) (mask : ValidityMask)
      (child_idx : Nat), children.unsupported child_types child_idx = true →
      ∃ e : Exception, SetStruct.loop uninit child_types size mask children child_idx = .error e)
    ?_ ?_ ?_ ?_ ?_ ?_ data
  · intro validity values type h size pm hu
    cases h
    cases type <;> first | exact ⟨_, rfl⟩ | cases hu
  · intro validity values type h size pm hu
    cases h
    cases type <;> first | exact ⟨_, rfl⟩ | cases hu
  · intro validity entries child list_size ih type h size pm hu
    cases h
    cases type with
    | LIST child_type =>
      obtain ⟨e, he⟩ := ih child_type (InitializeChild .new list_size) list_size
        (some validity) hu
      rw [SetArrowChild_list_eq, he]
      exact ⟨e, rfl⟩
    | _ => first | exact ⟨_, rfl⟩ | cases hu
  · intro validity children ih type h size pm hu
    cases h
    cases type with
    | STRUCT child_types =>
      obtain ⟨e, he⟩ := ih child_types size validity 0 hu
      rw [SetArrowChild_struct_eq, he]
      exact ⟨e, rfl⟩
    | _ => first | exact ⟨_, rfl⟩ | cases hu
  · intro child_types size mask child_idx hu
    cases hu
  · intro child rest ih1 ih2 child_types size mask child_idx hu
    have hu2 : ((match child_types.get? child_idx with
        | some child_type => child.unsupported child_type
        | none => false) || rest.unsupported child_types (child_idx + 1)) = true := hu
    rw [SetStruct.struct_loop_cons]
    cases hg : child_types.get? child_idx with
    | none => exact ⟨_, rfl⟩
    | some child_type =>
      rw [hg] at hu2
      simp only [Bool.or_eq_true] at hu2
      dsimp only
      cases hs : SetArrowChild uninit (InitializeChild .new size) child_type child size
          (some mask) with
      | error e => exact ⟨e, rfl⟩
      | ok c =>
        rcases hu2 with hc | hr
        · obtain ⟨e, he⟩ := ih1 child_type (InitializeChild .new size) size (some mask) hc
          rw [hs] at he
          cases he
        · obtain ⟨e, he⟩ := ih2 child_types size mask (child_idx + 1) hr
          rw [he]
          exact ⟨e, rfl⟩

/-- Every field type of fields that are in the layout table is in the table. -/
theorem ChildTypes.inTable_get : ∀ (child_types : ChildTypes) (i : Nat) (type : LogicalType),
    child_types.inTable = true → child_types.get? i = some type → type.inTable = true
  | .nil, _, _, _, hg => by cases hg
  | .cons _ type0 rest, 0, type, hin, hg => by
    have h2 : (type0.inTable && rest.inTable) = true := hin
    have h3 : some type0 = some type := hg
    cases h3
    simp only [Bool.and_eq_true] at h2
    exact h2.1
  | .cons _ type0 rest, i + 1, type, hin, hg => by
    have h2 : (type0.inTable && rest.inTable) = true := hin
    have h3 : rest.get? i = some type := hg
    simp only [Bool.and_eq_true] at h2
    exact ChildTypes.inTable_get rest i type h2.2 h3

/-- The element type of a list field of fields that are in the layout table is
in the table. -/
theorem ChildTypes.inTable_get_list (child_types : ChildTypes) (i : Nat)
    (child_type : LogicalType) (hin : child_types.inTable = true)
    (hg : (child_types.get? i).bind ListType.GetChildType = some child_type) :
    child_type.inTable = true := by
  cases hq : child_types.get? i with
  | none => rw [hq] at hg; cases hg
  | some type =>
    rw [hq] at hg
    cases type with
    | LIST child =>
      have h1 : some child = some child_type := hg
      cases h1
      exact ChildTypes.inTable_get child_types i (.LIST child_type) hin hq
    | _ => cases hg

/-- SetArrowChild never throws the error of an unsupported type on a type of the
layout table, whatever the vector is. -/
theorem SetArrowChild_inTable (uninit : Nat → Nat) (data : FlatVector) :
    ∀ (type : LogicalType) (h : DuckDBArrowArrayChildHolder) (size : Nat)
      (pm : Option ValidityMask), type.inTable = true →
      SetArrowChild uninit h type data size pm ≠ .error .UnsupportedType := by
  refine (@FlatVector.rec
    (fun data =>
      (∀ (type : LogicalType) (h : DuckDBArrowArrayChildHolder) (size : Nat)
        (pm : Option ValidityMask), type.inTable = true →
        SetArrowChild uninit h type data size pm ≠ .error .UnsupportedType) ∧
      (∀ (m : ValidityMask) (lo : Nat → list_entry_t) (lc : FlatVector) (n : Nat),
        data = .list m lo lc n →
        ∀ (type : LogicalType) (h : DuckDBArrowArrayChildHolder) (size : Nat)
          (pm : Option ValidityMask), type.inTable = true →
          SetArrowChild uninit h type lc size pm ≠ .error .UnsupportedType))
    (fun children =>
      (∀ (child_types : ChildTypes) (size : Nat) (mask : ValidityMask) (child_idx : Nat),
        child_types.inTable = true →
        SetStruct.loop uninit child_types size mask children child_idx
          ≠ .error .UnsupportedType) ∧
      (∀ (child_types : ChildTypes) (size list_size : Nat) (mask : ValidityMask)
        (child_idx : Nat), child_types.inTable = true →
        SetStructMap.loop uninit child_types size list_size mask children child_idx
          ≠ .error .UnsupportedType))
    ?_ ?_ ?_ ?_ ?_ ?_ data).1
  · intro validity values
    refine ⟨?_, fun _ _ _ _ hd => by cases hd⟩
    intro type h size pm hin
    cases h
    cases type <;>
      first
        | (intro heq; cases heq; done)
        | (rw [SetArrowChild_decimal_eq]
           generalize (LogicalType.DECIMAL _ _).InternalType = p
           cases p <;> (intro heq; cases heq))
        | (rw [SetArrowChild_varchar_data_eq]
           generalize SetArrowChild.varchar _ _ _ _ = r
           cases r <;> (intro heq; cases heq))
        | cases hin
  · intro validity values
    refine ⟨?_, fun _ _ _ _ hd => by cases hd⟩
    intro type h size pm hin
    cases h
    cases type <;>
      first
        | (intro heq; cases heq; done)
        | (rw [SetArrowChild_decimal_eq]
           generalize (LogicalType.DECIMAL _ _).InternalType = p
           cases p <;> (intro heq; cases heq))
        | (rw [SetArrowChild_varchar_data_eq]
           generalize SetArrowChild.varchar _ _ _ _ = r
           cases r <;> (intro heq; cases heq))
        | cases hin
  · intro validity entries child list_size ih
    refine ⟨?_, ?_⟩
    · intro type h size pm hin
      cases h
      cases type with
      | LIST child_type =>
        rw [SetArrowChild_list_eq]
        intro heq
        cases hs : SetArrowChild uninit (InitializeChild .new list_size) child_type child
            list_size (some validity) with
        | error e =>
          rw [hs] at heq
          cases heq
          exact ih.1 child_type _ _ _ hin hs
        | ok c =>
          rw [hs] at heq
          cases heq
      | _ =>
        first
          | (intro heq; cases heq; done)
          | (rw [SetArrowChild_decimal_eq]
             generalize (LogicalType.DECIMAL _ _).InternalType = p
             cases p <;> (intro heq; cases heq))
          | (rw [SetArrowChild_varchar_data_eq]
             generalize SetArrowChild.varchar _ _ _ _ = r
             cases r <;> (intro heq; cases heq))
          | cases hin
    · intro m lo lc n hd
      cases hd
      exact ih.1
  · intro validity children ih
    refine ⟨?_, fun _ _ _ _ hd => by cases hd⟩
    intro type h size pm hin
    cases h
    cases type with
    | STRUCT child_types =>
      rw [SetArrowChild_struct_eq]
      intro heq
      cases hs : SetStruct.loop uninit child_types size validity children 0 with
      | error e =>
        rw [hs] at heq
        cases heq
        exact ih.1 child_types _ _ _ hin hs
      | ok holders =>
        rw [hs] at heq
        cases heq
    | MAP child_types =>
      revert ih
      cases children with
      | nil => intro _ heq; cases heq
      | cons keys rest =>
        intro ih
        rw [SetArrowChild_map_eq]
        intro heq
        cases hl : ListVector.GetListSize keys with
        | none => rw [hl] at heq; cases heq
        | some list_size =>
          rw [hl] at heq
          dsimp only at heq
          cases hs : SetStructMap.loop uninit child_types size list_size validity
              (.cons keys rest) 0 with
          | error e =>
            rw [hs] at heq
            cases heq
            exact ih.2 child_types _ _ _ _ hin hs
          | ok holders =>
            rw [hs] at heq
            cases heq
    | _ =>
      first
        | (intro heq; cases heq; done)
        | (rw [SetArrowChild_decimal_eq]
           generalize (LogicalType.DECIMAL _ _).InternalType = p
           cases p <;> (intro heq; cases heq))
        | (rw [SetArrowChild_varchar_data_eq]
           generalize SetArrowChild.varchar _ _ _ _ = r
           cases r <;> (intro heq; cases heq))
        | cases hin
  · exact ⟨fun _ _ _ _ _ heq => (by cases heq), fun _ _ _ _ _ _ heq => (by cases heq)⟩
  · intro child rest ih1 ih2
    refine ⟨?_, ?_⟩
    · intro child_types size mask child_idx hin
      rw [SetStruct.struct_loop_cons]
      cases hg : child_types.get? child_idx with
      | none => intro heq; cases heq
      | some child_type =>
        dsimp only
        cases hs : SetArrowChild uninit (InitializeChild .new size) child_type child size
            (some mask) with
        | error e =>
          intro heq
          cases heq
          exact ih1.1 child_type _ _ _ (ChildTypes.inTable_get _ _ _ hin hg) hs
        | ok c =>
          dsimp only
          cases hl : SetStruct.loop uninit child_types size mask rest (child_idx + 1) with
          | error e =>
            intro heq
            cases heq
            exact ih2.1 child_types _ _ _ hin hl
          | ok holders => intro heq; cases heq
    · intro child_types size list_size mask child_idx hin
      revert ih1
      cases child with
      | list m lo lc n =>
        intro ih1
        rw [SetStructMap.loop_cons_eq]
        split
        · intro heq; cases heq
        · cases hg : (child_types.get? child_idx).bind ListType.GetChildType with
          | none => intro heq; cases heq
          | some child_type =>
            dsimp only
            cases hs : SetArrowChild uninit
                (if child_idx = 0 then InitializeChild .new list_size
                 else (InitializeChild .new list_size).setArray
                   (SetChildValidityMask lc (InitializeChild .new list_size).array))
                child_type lc list_size (some mask) with
            | error e =>
              intro heq
              cases heq
              exact ih1.2 m lo lc n rfl child_type _ _ _
                (ChildTypes.inTable_get_list _ _ _ hin hg) hs
            | ok c =>
              dsimp only
              cases hl : SetStructMap.loop uninit child_types size list_size mask rest
                  (child_idx + 1) with
              | error e =>
                intro heq
                cases heq
                exact ih2.2 child_types _ _ _ _ hin hl
              | ok holders => intro heq; cases heq
      | _ => intro _ heq; cases heq

/-- C30: ToArrowArray reports an error for every chunk that contains a column,
or a nested child of a list or struct column, whose logical type is not one of
the types of the layout table; and when the types of all columns are types of
the table (at every level of nesting) it never reports the error of an
unsupported type.  A blob column, a list of intervals after an integer column,
and a struct with a blob field are reported with that error. -/
theorem DataChunk.ToArrowArray_unsupported (uninit : Nat → Nat)
    (columns : List (LogicalType × FlatVector)) (size : Nat) :
    (∀ (col_idx : Nat) (type : LogicalType) (data : FlatVector),
      columns[col_idx]? = some (type, data) → data.unsupported type = true →
      ∃ e : Exception, DataChunk.ToArrowArray uninit columns size = .error e) ∧
    ((∀ (col_idx : Nat) (type : LogicalType) (data : FlatVector),
        columns[col_idx]? = some (type, data) → type.inTable = true) →
      DataChunk.ToArrowArray uninit columns size ≠ .error .UnsupportedType) ∧
    DataChunk.ToArrowArray uninit [(.BLOB, .strings ⟨none⟩ (fun _ => [1]))] size =
      .error .UnsupportedType ∧
    DataChunk.ToArrowArray uninit
      [(.INTEGER, .fixed ⟨none⟩ (fun i => i)),
       (.LIST .INTERVAL, .list ⟨none⟩ (fun _ => ⟨0, 0⟩) (.fixed ⟨none⟩ (fun _ => 0)) 0)] size =
      .error .UnsupportedType ∧
    DataChunk.ToArrowArray uninit
      [(.STRUCT (.cons "a" .INTEGER (.cons "b" .BLOB .nil)),
        .struct ⟨none⟩ (.cons (.fixed ⟨none⟩ (fun i => i))
          (.cons (.strings ⟨none⟩ (fun _ => [1])) .nil)))] size =
      .error .UnsupportedType := by
  refine ⟨?_, ?_, rfl, rfl, rfl⟩
  · intro col_idx type data hcol hu
    obtain ⟨e, he⟩ := SetArrowChild_unsupported uninit data type (InitializeChild .new size)
      size none hu
    exact DataChunk.ToArrowArray_fails_of_column uninit columns size col_idx type data e hcol he
  · intro hin heq
    obtain ⟨i, type, data, hi, hfail⟩ :=
      DataChunk.ToArrowArray_error_column uninit columns size _ heq
    rcases hfail with herr | ⟨c, -, -, hne⟩
    · exact SetArrowChild_inTable uninit data type _ size none (hin i type data hi) herr
    · cases hne

/-! Nested lists, Slice with a column offset, Copy with a selection -/

/-- C31 (the code at the failing input): the export of the list-of-lists column
[[[1], [2, 3]], NULL] of two rows, whatever the slot of the null outer row
holds: the inner list array (2 inner lists, both of the valid outer row 0) has
the offsets [0, 1, 1], not [0, 1, 3]: the offset does not advance by the
length 2 of inner list 1, and offsets[2] is not the length 3 of the innermost
child array. -/
theorem DataChunk.ToArrowArray_nested_list (uninit : Nat → Nat) (slot : list_entry_t) :
    ∃ (out_array : ArrowArray) (root_holder : DuckDBArrowArrayHolder)
      (outer inner innermost : DuckDBArrowArrayChildHolder),
      DataChunk.ToArrowArray uninit
        [(.LIST (.LIST .INTEGER), FlatVector.nestedList slot)] 2 =
        .ok (out_array, root_holder) ∧
      root_holder.children[0]? = some outer ∧
      outer.children = [inner] ∧ inner.children = [innermost] ∧
      (FlatVector.nestedList slot).Validity.RowIsValid 0 = true ∧
      inner.array.length = 2 ∧
      inner.offsets = some [0, 1, 1] ∧
      innermost.array.length = 3 :=
  ⟨_, _, _, _, _, rfl, rfl, rfl, rfl, rfl, rfl, rfl, rfl⟩

/-- C32 (the code at the failing input): a one-column chunk sliced from a
one-column chunk at column offset 1: the asserted precondition holds
(1 <= 1 + 1), the column index 1 + 0 is past the columns of the destination,
and the loop indexes it; at column offset 0 the same call succeeds.  The same
happens whenever the precondition holds, the other chunk has a column and the
column offset is at least the column count of the destination. -/
theorem DataChunk.SliceOther_index :
    DataChunk.scenario.ColumnCount ≤ 1 + DataChunk.scenario.ColumnCount ∧
    ¬ (1 + 0 < DataChunk.scenario.ColumnCount) ∧
    (DataChunk.scenario.SliceOther DataChunk.scenario ⟨[4, 2, 0]⟩ 3 1).error
      = some .IndexOutOfBounds ∧
    (DataChunk.scenario.SliceOther DataChunk.scenario ⟨[4, 2, 0]⟩ 3 0).error = none ∧
    ∀ (d other : DataChunk) (sel : SelectionVector) (count_p col_offset : Nat),
      other.ColumnCount ≤ col_offset + d.ColumnCount → 0 < other.ColumnCount →
      d.ColumnCount ≤ col_offset →
      (d.SliceOther other sel count_p col_offset).error = some .IndexOutOfBounds := by
  refine ⟨by decide, by decide, by decide, by decide, ?_⟩
  intro d other sel count_p col_offset hassert hother hd
  cases ho : other.data with
  | nil => simp [DataChunk.ColumnCount, ho] at hother
  | cons o os =>
    have hnone : d.data[col_offset]? = none :=
      List.getElem?_eq_none (by simpa [DataChunk.ColumnCount] using hd)
    simp [DataChunk.SliceOther, hassert, ho, DataChunk.SliceOther.loop, hnone]

/-- C33 (the code at the failing input): a source of three rows copied through
the identity selection with source_count = 1 and offset = 2 into an empty flat
destination: the asserted preconditions hold (2 + 1 <= 3), Copy succeeds and
gives the destination the row count 2^64 - 1, above source_count and above the
row count of the source. -/
theorem DataChunk.CopySel_wrap :
    (DataChunk.ofIntegers [some (.fixed 10), some (.fixed 20), some (.fixed 30)]).ColumnCount
      = (DataChunk.ofIntegers []).ColumnCount ∧
    (DataChunk.ofIntegers []).size = 0 ∧
    2 + 1 ≤ (DataChunk.ofIntegers [some (.fixed 10), some (.fixed 20), some (.fixed 30)]).size ∧
    ((DataChunk.ofIntegers [some (.fixed 10), some (.fixed 20), some (.fixed 30)]).CopySel
        (DataChunk.ofIntegers []) ⟨[0, 1, 2]⟩ 1 2).error = none ∧
    ((DataChunk.ofIntegers [some (.fixed 10), some (.fixed 20), some (.fixed 30)]).CopySel
        (DataChunk.ofIntegers []) ⟨[0, 1, 2]⟩ 1 2).state.2.size = 2 ^ 64 - 1 ∧
    ¬ ((DataChunk.ofIntegers [some (.fixed 10), some (.fixed 20), some (.fixed 30)]).CopySel
        (DataChunk.ofIntegers []) ⟨[0, 1, 2]⟩ 1 2).state.2.size ≤ 1 ∧
    ¬ ((DataChunk.ofIntegers [some (.fixed 10), some (.fixed 20), some (.fixed 30)]).CopySel
        (DataChunk.ofIntegers []) ⟨[0, 1, 2]⟩ 1 2).state.2.size ≤
      (DataChunk.ofIntegers [some (.fixed 10), some (.fixed 20), some (.fixed 30)]).size := by
  refine ⟨by decide, by decide, by decide, by decide, by decide, by decide, by decide⟩

/-! ODBC: SQLBindCol and SQLBindParameter -/

/-- A vector resized to n has n elements. -/
theorem resize_length (bound_cols : List OdbcBoundCol) (n : Nat) :
    (resize bound_cols n).length = n := by
  simp only [resize, List.length_append, List.length_take, List.length_replicate]
  omega

/-- C34 (the code at the failing input): SQLBindCol with column_number 1 on a
statement without bound columns resizes bound_cols to 0 elements and then
writes the element of index 0, past the end.  The same happens for every
column_number >= 1 above the number of bound columns: the resize makes
column_number - 1 elements and the index written is column_number - 1.  Only
for a column_number within the bound columns the binding is stored, at index
column_number - 1, the others unchanged. -/
theorem SQLBindCol_index :
    SQLBindCol ⟨0, [], []⟩ 1 4 1000 8 2000 = .error .IndexOutOfBounds ∧
    (∀ (stmt : OdbcHandleStmt) (column_number : Nat) (target_type : Int)
        (target_value_ptr : Nat) (buffer_length : Int) (str_len_or_ind_ptr : Nat),
      1 ≤ column_number → stmt.bound_cols.length < column_number →
      SQLBindCol stmt column_number target_type target_value_ptr buffer_length
        str_len_or_ind_ptr = .error .IndexOutOfBounds) ∧
    (∀ (stmt : OdbcHandleStmt) (column_number : Nat) (target_type : Int)
        (target_value_ptr : Nat) (buffer_length : Int) (str_len_or_ind_ptr : Nat),
      1 ≤ column_number → column_number ≤ stmt.bound_cols.length →
      SQLBindCol stmt column_number target_type target_value_ptr buffer_length
        str_len_or_ind_ptr =
        .ok (.SQL_SUCCESS,
          { stmt with
              bound_cols := stmt.bound_cols.set (column_number - 1)
                ⟨target_type, target_value_ptr, buffer_length, str_len_or_ind_ptr⟩ })) := by
  refine ⟨rfl, ?_, ?_⟩
  · intro stmt column_number target_type target_value_ptr buffer_length str_len_or_ind_ptr
      h1 hlt
    have hsub : idx_sub column_number 1 = column_number - 1 := idx_sub_of_le h1
    have hge : column_number - 1 ≥ stmt.bound_cols.length := by omega
    simp only [SQLBindCol, hsub, if_pos hge, resize_length, lt_irrefl, if_false]
  · intro stmt column_number target_type target_value_ptr buffer_length str_len_or_ind_ptr
      h1 hle
    have hsub : idx_sub column_number 1 = column_number - 1 := idx_sub_of_le h1
    have hge : ¬ column_number - 1 ≥ stmt.bound_cols.length := by omega
    have hlt : column_number - 1 < stmt.bound_cols.length := by omega
    simp only [SQLBindCol, hsub, if_neg hge, if_pos hlt]

/-- C35 (the code at the failing input): SQLBindParameter with parameter_number
0 on a statement with one parameter, SQL_PARAM_INPUT and SQL_C_LONG: the
function does not return SQL_ERROR, it writes params[-1], past the end (with
parameter_number 1 it succeeds and stores the value, with 2 it returns
SQL_ERROR).  The same happens with parameter_number 0 for every statement and
every handled value_type. -/
theorem SQLBindParameter_zero :
    SQLBindParameter ⟨1, [.null], []⟩ 0 .SQL_PARAM_INPUT .SQL_C_LONG [7, 0, 0, 0] 4
      = .error .IndexOutOfBounds ∧
    SQLBindParameter ⟨1, [.null], []⟩ 0 .SQL_PARAM_INPUT .SQL_C_LONG [7, 0, 0, 0] 4
      ≠ .ok (.SQL_ERROR, ⟨1, [.null], []⟩) ∧
    SQLBindParameter ⟨1, [.null], []⟩ 1 .SQL_PARAM_INPUT .SQL_C_LONG [7, 0, 0, 0] 4
      = .ok (.SQL_SUCCESS, ⟨1, [.INTEGER 7], []⟩) ∧
    SQLBindParameter ⟨1, [.null], []⟩ 2 .SQL_PARAM_INPUT .SQL_C_LONG [7, 0, 0, 0] 4
      = .ok (.SQL_ERROR, ⟨1, [.null], []⟩) ∧
    (∀ (stmt : OdbcHandleStmt) (value_type : SQL_C_TYPE) (parameter_value_ptr : List Nat)
        (buffer_length : Int),
      value_type ≠ .other → stmt.params.length < 2 ^ 64 →
      SQLBindParameter stmt 0 .SQL_PARAM_INPUT value_type parameter_value_ptr buffer_length
        = .error .IndexOutOfBounds) := by
  refine ⟨rfl, (by intro h; cases h), rfl, rfl, ?_⟩
  intro stmt value_type parameter_value_ptr buffer_length hvt hlen
  have h0 : ¬ 0 > stmt.n_param := by omega
  have hidx : ¬ idx_sub 0 1 < stmt.params.length := by
    simp only [idx_sub]
    norm_num
    omega
  cases value_type <;>
    first
      | exact absurd rfl hvt
      | simp only [SQLBindParameter, if_neg h0, ne_eq, not_true_eq_false, if_false,
          SQLBindParameter.res, if_neg hidx]

/-- The value Value::TINYINT makes of an unsigned byte b: b below 128,
b - 256 from 128 on. -/
theorem Value.TINYINT_byte (b : Nat) (hb : b < 256) :
    Value.TINYINT ((Load 1 [b] : Nat) : Int) =
      .TINYINT (if b < 128 then (b : Int) else (b : Int) - 256) := by
  have hload : Load 1 [b] = b := by
    simp [Load, List.range_succ, Nat.mod_eq_of_lt hb]
  rw [hload]
  simp only [Value.TINYINT, signedOfBits, bitsOfInt]
  have h1 : ((b : Int) % ((2 ^ 8 : Nat) : Int)).toNat = b := by
    norm_num
    omega
  rw [h1]
  norm_num
  split_ifs <;> omega

/-- C36 (the code at the failing input): for SQL_C_UTINYINT and the byte 200 in
the parameter buffer SQLBindParameter stores the TINYINT value -56, which is
not 200 (for SQL_C_USHORT the 16-bit input 200 is stored as the USMALLINT
200).  In general the byte b is stored as a TINYINT that holds b for b < 128
and b - 256 for b >= 128, so it is numerically equal to b exactly when
b < 128. -/
theorem SQLBindParameter_utinyint :
    SQLBindParameter ⟨1, [.null], []⟩ 1 .SQL_PARAM_INPUT .SQL_C_UTINYINT [200] 1
      = .ok (.SQL_SUCCESS, ⟨1, [.TINYINT (-56)], []⟩) ∧
    (TypedValue.TINYINT (-56)).numeric ≠ some 200 ∧
    SQLBindParameter ⟨1, [.null], []⟩ 1 .SQL_PARAM_INPUT .SQL_C_USHORT [200, 0] 2
      = .ok (.SQL_SUCCESS, ⟨1, [.USMALLINT 200], []⟩) ∧
    (∀ (stmt : OdbcHandleStmt) (parameter_number b : Nat) (buffer_length : Int),
      1 ≤ parameter_number → parameter_number ≤ stmt.n_param →
      parameter_number ≤ stmt.params.length → b < 256 →
      ∃ res : TypedValue,
        SQLBindParameter stmt parameter_number .SQL_PARAM_INPUT .SQL_C_UTINYINT [b]
            buffer_length =
          .ok (.SQL_SUCCESS,
            { stmt with params := stmt.params.set (parameter_number - 1) res }) ∧
        res = .TINYINT (if b < 128 then (b : Int) else (b : Int) - 256) ∧
        (res.numeric = some (b : Int) ↔ b < 128)) := by
  refine ⟨rfl, by decide, rfl, ?_⟩
  intro stmt parameter_number b buffer_length h1 hn hp hb
  have hsub : idx_sub parameter_number 1 = parameter_number - 1 := idx_sub_of_le h1
  have hgt : ¬ parameter_number > stmt.n_param := by omega
  have hlt : parameter_number - 1 < stmt.params.length := by omega
  refine ⟨.TINYINT (if b < 128 then (b : Int) else (b : Int) - 256), ?_, rfl, ?_⟩
  · simp only [SQLBindParameter, if_neg hgt, ne_eq, not_true_eq_false, if_false,
      SQLBindParameter.res, Value.TINYINT_byte b hb, hsub, if_pos hlt]
  · simp only [TypedValue.numeric, Option.some.injEq]
    split_ifs <;> omega

/-! NumPy result conversion: count and capacity -/

/-- The loop of Resize over initialized wrappers gives every array the new
capacity and keeps types and counts. -/
theorem NumpyResultConversion.Resize_loop_spec (new_capacity : Nat) :
    ∀ (wrappers initialized : List ArrayWrapper),
      NumpyResultConversion.Resize.loop new_capacity wrappers = .ok initialized →
      initialized.map (fun data => data.data.type) = wrappers.map (fun data => data.data.type) ∧
      ∀ data ∈ initialized, ∃ w ∈ wrappers,
        data.data.array = new_capacity ∧ data.mask.array = new_capacity ∧
        data.data.count = w.data.count ∧ data.mask.count = w.mask.count ∧
        data.data.data = true ∧ data.mask.data = true := by
  intro wrappers
  induction wrappers with
  | nil =>
    intro initialized h
    cases h
    exact ⟨rfl, fun _ hd => by cases hd⟩
  | cons w ws ih =>
    intro initialized h
    simp only [NumpyResultConversion.Resize.loop, ArrayWrapper.Initialize,
      RawArrayWrapper.Initialize] at h
    cases hd : RawArrayWrapper.dtype w.data.type with
    | none => rw [hd] at h; cases h
    | some d =>
      rw [hd] at h
      dsimp only at h
      cases hm : RawArrayWrapper.dtype w.mask.type with
      | none => rw [hm] at h; cases h
      | some m =>
        rw [hm] at h
        dsimp only at h
        cases hr : NumpyResultConversion.Resize.loop new_capacity ws with
        | error e => rw [hr] at h; cases h
        | ok rest =>
          rw [hr] at h
          cases h
          obtain ⟨i1, i2⟩ := ih rest hr
          refine ⟨by simp [i1], ?_⟩
          intro data hdata
          rcases List.mem_cons.mp hdata with rfl | hrest
          · exact ⟨w, List.mem_cons_self _ _, rfl, rfl, rfl, rfl, rfl, rfl⟩
          · obtain ⟨w1, hw1, hp⟩ := i2 data hrest
            exact ⟨w1, List.mem_cons_of_mem _ hw1, hp⟩

/-- The loop of the constructor makes one wrapper per type, with count 0. -/
theorem NumpyResultConversion.new_loop_spec :
    ∀ (types : List LogicalType) (wrappers : List ArrayWrapper),
      NumpyResultConversion.new.loop types = .ok wrappers →
      wrappers.map (fun data => data.data.type) = types ∧
      ∀ data ∈ wrappers, data.data.count = 0 ∧ data.mask.count = 0 := by
  intro types
  induction types with
  | nil =>
    intro wrappers h
    cases h
    exact ⟨rfl, fun _ hd => by cases hd⟩
  | cons t ts ih =>
    intro wrappers h
    simp only [NumpyResultConversion.new.loop, ArrayWrapper.new, RawArrayWrapper.new] at h
    cases ht : RawArrayWrapper.type_width t with
    | none => rw [ht] at h; cases h
    | some width =>
      rw [ht] at h
      have hb : RawArrayWrapper.type_width .BOOLEAN = some 1 := rfl
      rw [hb] at h
      dsimp only at h
      cases hr : NumpyResultConversion.new.loop ts with
      | error e => rw [hr] at h; cases h
      | ok rest =>
        rw [hr] at h
        cases h
        obtain ⟨i1, i2⟩ := ih rest hr
        refine ⟨by simp [i1], ?_⟩
        intro data hdata
        rcases List.mem_cons.mp hdata with rfl | hrest
        · exact ⟨rfl, rfl⟩
        · exact i2 data hrest

/-- A conversion the constructor returns is valid, with count 0, the initial
capacity and the types given. -/
theorem NumpyResultConversion.new_valid (types : List LogicalType) (initial_capacity : Nat)
    (c : NumpyResultConversion)
    (h : NumpyResultConversion.new types initial_capacity = .ok c) :
    c.Valid ∧ c.count = 0 ∧ c.capacity = initial_capacity ∧ c.types = types := by
  simp only [NumpyResultConversion.new] at h
  cases hl : NumpyResultConversion.new.loop types with
  | error e => rw [hl] at h; cases h
  | ok wrappers =>
    rw [hl] at h
    obtain ⟨l1, l2⟩ := NumpyResultConversion.new_loop_spec types wrappers hl
    simp only [NumpyResultConversion.Resize, if_true] at h
    cases hi : NumpyResultConversion.Resize.loop initial_capacity wrappers with
    | error e => rw [hi] at h; cases h
    | ok initialized =>
      rw [hi] at h
      cases h
      obtain ⟨i1, i2⟩ :=
        NumpyResultConversion.Resize_loop_spec initial_capacity wrappers initialized hi
      refine ⟨?_, rfl, rfl, ?_⟩
      · intro data hdata
        obtain ⟨w, hw, a1, a2, a3, a4, a5, a6⟩ := i2 data hdata
        obtain ⟨z1, z2⟩ := l2 w hw
        exact ⟨a1, a2, by rw [a3, z1], by rw [a4, z2], a5, a6⟩
      · show initialized.map (fun data => data.data.type) = types
        rw [i1, l1]

/-- The column loop of Append succeeds when the wrappers are allocated, the
rows fit into the arrays and the columns of the chunk have the types of the
wrappers, each a type the switch converts: every wrapper holds chunk_size more
rows and keeps its arrays and its type. -/
theorem NumpyResultConversion.Append_loop_ok (count chunk_size capacity : Nat) :
    ∀ (wrappers : List ArrayWrapper) (columns : List Vector),
      (∀ data ∈ wrappers, data.data.array = capacity ∧ data.mask.array = capacity ∧
        data.data.count = count ∧ data.mask.count = count ∧
        data.data.data = true ∧ data.mask.data = true) →
      count + chunk_size ≤ capacity →
      columns.map Vector.GetType = wrappers.map (fun data => data.data.type) →
      (∀ column ∈ columns, ArrayWrapper.Append.throws column.GetType = none) →
      ∃ appended : List ArrayWrapper,
        NumpyResultConversion.Append.loop count chunk_size wrappers columns = .ok appended ∧
        appended.length = wrappers.length ∧
        appended.map (fun data => data.data.type)
          = wrappers.map (fun data => data.data.type) ∧
        ∀ data ∈ appended, data.data.array = capacity ∧ data.mask.array = capacity ∧
          data.data.count = count + chunk_size ∧ data.mask.count = count + chunk_size ∧
          data.data.data = true ∧ data.mask.data = true := by
  intro wrappers
  induction wrappers with
  | nil =>
    intro columns _ _ _ _
    exact ⟨[], rfl, rfl, rfl, fun _ h => by cases h⟩
  | cons w ws ih =>
    intro columns hw hle htypes hconv
    cases columns with
    | nil => simp at htypes
    | cons v vs =>
      simp only [List.map_cons, List.cons.injEq] at htypes
      obtain ⟨h1, h2, h3, h4, h5, h6⟩ := hw w (List.mem_cons_self _ _)
      obtain ⟨rest, hrest, hrl, hrt, hrv⟩ := ih vs
        (fun data hd => hw data (List.mem_cons_of_mem _ hd)) hle htypes.2
        (fun column hc => hconv column (List.mem_cons_of_mem _ hc))
      have hno : ¬ (0 < chunk_size ∧
          (w.data.array < count + chunk_size ∨ w.mask.array < count + chunk_size)) := by
        rw [h1, h2]; omega
      have hthrows : ArrayWrapper.Append.throws w.data.type = none := by
        rw [← htypes.1]
        exact hconv v (List.mem_cons_self _ _)
      have happend : w.Append count v chunk_size =
          .ok ⟨{ w.data with count := w.data.count + chunk_size },
               { w.mask with count := w.mask.count + chunk_size }⟩ := by
        simp only [ArrayWrapper.Append, h5, h6, htypes.1, hthrows, if_neg hno]
        simp
      refine ⟨(⟨{ w.data with count := w.data.count + chunk_size },
          { w.mask with count := w.mask.count + chunk_size }⟩ : ArrayWrapper) :: rest,
        ?_, ?_, ?_, ?_⟩
      · simp only [NumpyResultConversion.Append.loop, happend, hrest]
      · simp [hrl]
      · simp [hrt]
      · intro data hd
        rcases List.mem_cons.mp hd with rfl | hd
        · exact ⟨h1, h2, by simp [h3], by simp [h4], h5, h6⟩
        · exact hrv data hd

/-- C37 (counterexample): four conversions the constructor returns, each with
count <= capacity, and a chunk.  A conversion of one INTEGER column with
capacity 1 receives a chunk of 3 rows: Append doubles the capacity once, to 2,
and then writes the rows 0, 1, 2 of arrays of 2 elements.  A conversion of one
VARCHAR column receives a chunk with an INTEGER column: Append stops at the
assertion on the type.  A conversion of two columns receives a chunk of one
column: the chunk is indexed past its columns.  A conversion of a decimal
column whose internal type is none of the four integer widths receives a chunk
of that type: ConvertDecimal throws.  In none of them count grows. -/
theorem NumpyResultConversion.Append_within_capacity_counterexample :
    (∃ c : NumpyResultConversion,
      NumpyResultConversion.new [.INTEGER] 1 = .ok c ∧ c.Valid ∧ c.count ≤ c.capacity ∧
      (DataChunk.filled 3).size = 3 ∧
      c.Resize 2 = .ok ⟨[⟨⟨2, true, .INTEGER, 0⟩, ⟨2, true, .BOOLEAN, 0⟩⟩], 0, 2⟩ ∧
      c.Append (DataChunk.filled 3) = .error .IndexOutOfBounds) ∧
    (∃ c : NumpyResultConversion,
      NumpyResultConversion.new [.VARCHAR] 4 = .ok c ∧ c.Valid ∧ c.count ≤ c.capacity ∧
      (DataChunk.filled 3).size ≤ c.capacity ∧
      c.Append (DataChunk.filled 3) = .error .Assertion) ∧
    (∃ c : NumpyResultConversion,
      NumpyResultConversion.new [.INTEGER, .INTEGER] 4 = .ok c ∧ c.Valid ∧
      c.count ≤ c.capacity ∧ (DataChunk.filled 3).size ≤ c.capacity ∧
      c.Append (DataChunk.filled 3) = .error .IndexOutOfBounds) ∧
    (∃ c : NumpyResultConversion,
      NumpyResultConversion.new [.DECIMAL 39 0] 4 = .ok c ∧ c.Valid ∧ c.count ≤ c.capacity ∧
      c.Append ⟨[Vector.ofValues (.DECIMAL 39 0) [some (.fixed 1)]], 1, []⟩
        = .error .NotImplementedException) :=
  ⟨⟨⟨[⟨⟨1, true, .INTEGER, 0⟩, ⟨1, true, .BOOLEAN, 0⟩⟩], 0, 1⟩, rfl,
      (NumpyResultConversion.new_valid [.INTEGER] 1 _ rfl).1, by decide, rfl, rfl, rfl⟩,
    ⟨⟨[⟨⟨4, true, .VARCHAR, 0⟩, ⟨4, true, .BOOLEAN, 0⟩⟩], 0, 4⟩, rfl,
      (NumpyResultConversion.new_valid [.VARCHAR] 4 _ rfl).1, by decide, by decide, rfl⟩,
    ⟨⟨[⟨⟨4, true, .INTEGER, 0⟩, ⟨4, true, .BOOLEAN, 0⟩⟩,
        ⟨⟨4, true, .INTEGER, 0⟩, ⟨4, true, .BOOLEAN, 0⟩⟩], 0, 4⟩, rfl,
      (NumpyResultConversion.new_valid [.INTEGER, .INTEGER] 4 _ rfl).1, by decide, by decide,
      rfl⟩,
    ⟨⟨[⟨⟨4, true, .DECIMAL 39 0, 0⟩, ⟨4, true, .BOOLEAN, 0⟩⟩], 0, 4⟩, rfl,
      (NumpyResultConversion.new_valid [.DECIMAL 39 0] 4 _ rfl).1, by decide, rfl⟩⟩

/-- C37 (amended): a conversion the constructor returns is valid: every column
is allocated with capacity elements and holds count = 0 rows.  For every valid
conversion state with count <= capacity and every appended chunk that has the
column types of the conversion, each a type Append converts, and at most
capacity rows, Append succeeds, count has grown by exactly chunk.size(),
capacity is either unchanged or doubled, count <= capacity still holds, and
the state is valid again (every column holds count rows in arrays of capacity
elements), so no column is written past its array. -/
theorem NumpyResultConversion.Append_within_capacity (c : NumpyResultConversion)
    (chunk : DataChunk)
    (hvalid : c.Valid) (hcount : c.count ≤ c.capacity) (hsize : chunk.size ≤ c.capacity)
    (htypes : chunk.GetTypes = c.types)
    (hconv : ∀ type ∈ chunk.GetTypes, ArrayWrapper.Append.throws type = none) :
    (∃ after : NumpyResultConversion,
      c.Append chunk = .ok after ∧
      after.count = c.count + chunk.size ∧
      (after.capacity = c.capacity ∨ after.capacity = c.capacity * 2) ∧
      after.count ≤ after.capacity ∧
      after.Valid ∧ after.types = c.types) ∧
    (∀ (types : List LogicalType) (initial_capacity : Nat) (c0 : NumpyResultConversion),
      NumpyResultConversion.new types initial_capacity = .ok c0 →
      c0.Valid ∧ c0.count = 0 ∧ c0.capacity = initial_capacity ∧ c0.types = types) := by
  refine ⟨?_, NumpyResultConversion.new_valid⟩
  obtain ⟨c1, hc1, hv1, hcnt1, hcap1, hle1, htyp1⟩ :
      ∃ c1 : NumpyResultConversion,
        (if c.count + chunk.size > c.capacity then c.Resize (c.capacity * 2) else .ok c)
          = .ok c1 ∧
        c1.Valid ∧ c1.count = c.count ∧
        (c1.capacity = c.capacity ∨ c1.capacity = c.capacity * 2) ∧
        c1.count + chunk.size ≤ c1.capacity ∧
        c1.types = c.types := by
    by_cases hgt : c.count + chunk.size > c.capacity
    · have hne : ¬ c.capacity = 0 := by omega
      refine ⟨{ c with
          owned_data := c.owned_data.map (fun data => data.Resize (c.capacity * 2)),
          capacity := c.capacity * 2 }, ?_, ?_, rfl, Or.inr rfl, ?_, ?_⟩
      · rw [if_pos hgt]
        simp only [NumpyResultConversion.Resize, if_neg hne]
      · intro data hdata
        simp only [List.mem_map] at hdata
        obtain ⟨w, hw, rfl⟩ := hdata
        obtain ⟨-, -, h3, h4, -, -⟩ := hvalid w hw
        exact ⟨rfl, rfl, h3, h4, rfl, rfl⟩
      · show c.count + chunk.size ≤ c.capacity * 2
        omega
      · simp only [NumpyResultConversion.types, List.map_map]
        rfl
    · exact ⟨c, by rw [if_neg hgt], hvalid, rfl, Or.inl rfl, by omega, rfl⟩
  obtain ⟨appended, happ, _, hat, hav⟩ :=
    NumpyResultConversion.Append_loop_ok c1.count chunk.size c1.capacity c1.owned_data
      chunk.data hv1 hle1 (by rw [← htyp1] at htypes; exact htypes)
      (fun column hc => hconv column.GetType (List.mem_map_of_mem _ hc))
  have hall : appended.all (fun data =>
      decide (data.data.count = c1.count + chunk.size ∧
        data.mask.count = c1.count + chunk.size)) = true := by
    rw [List.all_eq_true]
    intro data hd
    obtain ⟨-, -, h3, h4, -, -⟩ := hav data hd
    simp [h3, h4]
  refine ⟨{ c1 with owned_data := appended, count := c1.count + chunk.size }, ?_, ?_, hcap1,
    hle1, ?_, ?_⟩
  · simp only [NumpyResultConversion.Append, hc1, happ, hall, if_true]
  · show c1.count + chunk.size = _
    rw [hcnt1]
  · intro data hd
    exact hav data hd
  · show appended.map (fun data => data.data.type) = _
    rw [hat]
    exact htyp1

/-- C37 (witness): a conversion of one INTEGER column with 3 rows in arrays of
capacity 4 receives a chunk of 3 rows of an INTEGER column: the capacity
doubles to 8 and the count is 6. -/
theorem NumpyResultConversion.Append_within_capacity_witness :
    NumpyResultConversion.sample.Valid ∧
    NumpyResultConversion.sample.count ≤ NumpyResultConversion.sample.capacity ∧
    (DataChunk.filled 3).size ≤ NumpyResultConversion.sample.capacity ∧
    (DataChunk.filled 3).GetTypes = NumpyResultConversion.sample.types ∧
    (∀ type ∈ (DataChunk.filled 3).GetTypes, ArrayWrapper.Append.throws type = none) ∧
    NumpyResultConversion.sample.Append (DataChunk.filled 3)
      = .ok ⟨[⟨⟨8, true, .INTEGER, 6⟩, ⟨8, true, .BOOLEAN, 6⟩⟩], 6, 8⟩ ∧
    ((∃ after : NumpyResultConversion,
      NumpyResultConversion.sample.Append (DataChunk.filled 3) = .ok after ∧
      after.count = NumpyResultConversion.sample.count + (DataChunk.filled 3).size ∧
      (after.capacity = NumpyResultConversion.sample.capacity ∨
        after.capacity = NumpyResultConversion.sample.capacity * 2) ∧
      after.count ≤ after.capacity ∧
      after.Valid ∧ after.types = NumpyResultConversion.sample.types) ∧
    (∀ (types : List LogicalType) (initial_capacity : Nat) (c0 : NumpyResultConversion),
      NumpyResultConversion.new types initial_capacity = .ok c0 →
      c0.Valid ∧ c0.count = 0 ∧ c0.capacity = initial_capacity ∧ c0.types = types)) :=
  ⟨fun data hdata => by
      have : data = ⟨⟨4, true, .INTEGER, 3⟩, ⟨4, true, .BOOLEAN, 3⟩⟩ := by
        simpa [NumpyResultConversion.sample] using hdata
      subst this
      exact ⟨rfl, rfl, rfl, rfl, rfl, rfl⟩,
    by decide, by decide, rfl,
    fun type htype => by
      have : type = .INTEGER := by
        simpa [DataChunk.filled, DataChunk.GetTypes, Vector.GetType] using htype
      subst this
      rfl,
    rfl,
    NumpyResultConversion.Append_within_capacity NumpyResultConversion.sample
      (DataChunk.filled 3)
      (fun data hdata => by
        have : data = ⟨⟨4, true, .INTEGER, 3⟩, ⟨4, true, .BOOLEAN, 3⟩⟩ := by
          simpa [NumpyResultConversion.sample] using hdata
        subst this
        exact ⟨rfl, rfl, rfl, rfl, rfl, rfl⟩)
      (by decide) (by decide) rfl
      (fun type htype => by
        have : type = .INTEGER := by
          simpa [DataChunk.filled, DataChunk.GetTypes, Vector.GetType] using htype
        subst this
        rfl)⟩

/-! The binder: table indexes -/

/-- With more fuel than the index of the binder, GenerateTableIndex on a binder
of well-founded binders ends at the root of the binder: it returns the counter
of the root and increments it. -/
theorem Binder.GenerateTableIndex_root :
    ∀ (fuel : Nat) (binders : List Binder) (b : Nat),
      Binder.WellFounded binders → b < binders.length → b < fuel →
      ∃ (r : Nat) (root : Binder),
        Binder.root fuel binders b = some r ∧ r ≤ b ∧
        binders[r]? = some root ∧ root.parent = none ∧
        Binder.GenerateTableIndex fuel binders b =
          some (root.bound_tables,
            binders.set r { root with bound_tables := root.bound_tables + 1 }) := by
  intro fuel
  induction fuel with
  | zero => intro binders b _ _ h; omega
  | succ fuel ih =>
    intro binders b hwf hb hfuel
    obtain ⟨binder, hbinder⟩ : ∃ binder, binders[b]? = some binder :=
      ⟨binders[b], List.getElem?_eq_getElem hb⟩
    cases hp : binder.parent with
    | none =>
      exact ⟨b, binder, by simp [Binder.root, hbinder, hp], le_refl _, hbinder, hp,
        by simp [Binder.GenerateTableIndex, hbinder, hp]⟩
    | some parent =>
      have hlt : parent < b := hwf b binder parent hbinder hp
      obtain ⟨r, root, h1, h2, h3, h4, h5⟩ := ih binders parent hwf (by omega) (by omega)
      exact ⟨r, root, by simp [Binder.root, hbinder, hp, h1], by omega, h3, h4,
        by simp [Binder.GenerateTableIndex, hbinder, hp, h5]⟩

/-- Steps on a tree whose root is binder 0 with counter c: the calls of
GenerateTableIndex return c, c + 1, ... in the order of the calls. -/
theorem Binder.run_tree :
    ∀ (steps : List BinderStep) (binders : List Binder) (c : Nat) (root : Binder),
      binders[0]? = some root → root.parent = none → root.bound_tables = c →
      Binder.WellFounded binders →
      (∀ (b : Nat) (binder : Binder), 0 < b → binders[b]? = some binder →
        binder.parent ≠ none) →
      Binder.validSteps binders.length steps = true →
      ∃ final, Binder.run binders steps =
        some ((List.range (Binder.calls steps)).map (fun k => c + k), final) := by
  intro steps
  induction steps with
  | nil => intro binders c root _ _ _ _ _ _; exact ⟨binders, rfl⟩
  | cons step steps ih =>
    intro binders c root h0 hp hc hwf hnon hvalid
    have hlen : 0 < binders.length := by
      rcases List.getElem?_eq_some_iff.1 h0 with ⟨h, _⟩; exact h
    cases step with
    | generate b =>
      simp only [Binder.validSteps, Bool.and_eq_true, decide_eq_true_eq] at hvalid
      obtain ⟨r, root1, _, _, h3, h4, h5⟩ :=
        Binder.GenerateTableIndex_root binders.length binders b hwf hvalid.1 hvalid.1
      have hr : r = 0 := by
        by_contra hne
        exact hnon r root1 (Nat.pos_of_ne_zero hne) h3 h4
      subst hr
      have hroot : root1 = root := by rw [h0] at h3; exact (Option.some.inj h3).symm
      subst hroot
      subst hc
      have hset : ∀ (b : Nat), 0 < b →
          (binders.set 0 { root1 with bound_tables := root1.bound_tables + 1 })[b]? =
            binders[b]? := by
        intro b hb
        rw [List.getElem?_set_ne (by omega)]
      obtain ⟨final, hfinal⟩ := ih
        (binders.set 0 { root1 with bound_tables := root1.bound_tables + 1 })
        (root1.bound_tables + 1)
        { root1 with bound_tables := root1.bound_tables + 1 }
        (by rw [List.getElem?_set_self hlen])
        hp rfl
        (by
          intro b binder parent hb hpar
          rcases Nat.eq_zero_or_pos b with hz | hpos
          · subst hz
            rw [List.getElem?_set_self hlen] at hb
            cases hb
            rw [hp] at hpar
            cases hpar
          · rw [hset b hpos] at hb
            exact hwf b binder parent hb hpar)
        (by
          intro b binder hb hbinder
          rw [hset b hb] at hbinder
          exact hnon b binder hb hbinder)
        (by rw [List.length_set]; exact hvalid.2)
      refine ⟨final, ?_⟩
      simp only [Binder.run, h5, hfinal, Binder.calls]
      rw [List.range_succ_eq_map]
      simp only [List.map_cons, List.map_map, Nat.add_zero]
      congr 3
      apply List.map_congr_left
      intro k _
      simp only [Function.comp]
      omega
    | create parent inherit_ctes =>
      simp only [Binder.validSteps, Bool.and_eq_true, decide_eq_true_eq] at hvalid
      have hget : ∀ (b : Nat), b < binders.length →
          (Binder.CreateBinder binders (some parent) inherit_ctes)[b]? = binders[b]? := by
        intro b hb
        simp only [Binder.CreateBinder]
        rw [List.getElem?_append_left hb]
      have hnew : ∀ (b : Nat) (binder : Binder), ¬ b < binders.length →
          (Binder.CreateBinder binders (some parent) inherit_ctes)[b]? = some binder →
          binder = Binder.new (some parent) inherit_ctes ∧ b = binders.length := by
        intro b binder hb hbinder
        simp only [Binder.CreateBinder] at hbinder
        rw [List.getElem?_append_right (by omega)] at hbinder
        rcases Nat.eq_zero_or_pos (b - binders.length) with hz | hpos
        · rw [hz] at hbinder
          simp only [List.getElem?_cons_zero, Option.some.injEq] at hbinder
          exact ⟨hbinder.symm, by omega⟩
        · rw [List.getElem?_eq_none (by simp; omega)] at hbinder
          cases hbinder
      obtain ⟨final, hfinal⟩ := ih
        (Binder.CreateBinder binders (some parent) inherit_ctes) c root
        (by rw [hget 0 hlen]; exact h0) hp hc
        (by
          intro b binder par hb hpar
          by_cases hlt : b < binders.length
          · rw [hget b hlt] at hb
            exact hwf b binder par hb hpar
          · obtain ⟨h1, h2⟩ := hnew b binder hlt hb
            subst h1
            simp only [Binder.new, Option.some.injEq] at hpar
            omega)
        (by
          intro b binder hb hbinder
          by_cases hlt : b < binders.length
          · rw [hget b hlt] at hbinder
            exact hnon b binder hb hbinder
          · obtain ⟨h1, _⟩ := hnew b binder hlt hbinder
            subst h1
            simp [Binder.new])
        (by simp only [Binder.CreateBinder, List.length_append, List.length_singleton]
            exact hvalid.2)
      exact ⟨final, by simp only [Binder.run, Binder.calls, hfinal]⟩

/-- C38: within one binder tree (a new root binder and the binders created
below it by any steps), every call of GenerateTableIndex returns: the k-th call
(counted from 0) returns k, whichever binder it is made on, so no two calls
return the same index.  And for all binders whose parents were created before
them, a call on binder b with more fuel than b returns the counter of the root
of b and increments that counter: the recursion to the root terminates. -/
theorem Binder.GenerateTableIndex_unused (inherit_ctes : Bool) (steps : List BinderStep)
    (hvalid : Binder.validSteps 1 steps = true) :
    (∃ (indexes : List Nat) (final : List Binder),
      Binder.run [Binder.new none inherit_ctes] steps = some (indexes, final) ∧
      indexes.length = Binder.calls steps ∧
      (∀ (k : Nat), k < Binder.calls steps → indexes[k]? = some k) ∧
      indexes.Nodup) ∧
    (∀ (fuel : Nat) (binders : List Binder) (b : Nat),
      Binder.WellFounded binders → b < binders.length → b < fuel →
      ∃ (r : Nat) (root : Binder),
        Binder.root fuel binders b = some r ∧
        binders[r]? = some root ∧ root.parent = none ∧
        Binder.GenerateTableIndex fuel binders b =
          some (root.bound_tables,
            binders.set r { root with bound_tables := root.bound_tables + 1 })) := by
  constructor
  · obtain ⟨final, hfinal⟩ := Binder.run_tree steps [Binder.new none inherit_ctes] 0
      (Binder.new none inherit_ctes) rfl rfl rfl
      (by
        intro b binder parent hb hpar
        rcases Nat.eq_zero_or_pos b with hz | hpos
        · subst hz
          simp only [List.getElem?_cons_zero, Option.some.injEq] at hb
          subst hb
          simp [Binder.new] at hpar
        · rw [List.getElem?_eq_none (by simp; omega)] at hb
          cases hb)
      (by
        intro b binder hb hbinder
        rw [List.getElem?_eq_none (by simp; omega)] at hbinder
        cases hbinder)
      hvalid
    refine ⟨List.range (Binder.calls steps), final, ?_, List.length_range _, ?_,
      List.nodup_range _⟩
    · rw [hfinal]
      simp
    · intro k hk
      rw [List.getElem?_range hk]
  · intro fuel binders b hwf hb hfuel
    obtain ⟨r, root, h1, _, h3, h4, h5⟩ :=
      Binder.GenerateTableIndex_root fuel binders b hwf hb hfuel
    exact ⟨r, root, h1, h3, h4, h5⟩

/-- C38 (witness): a root, a child and a grandchild; the four calls on the
root, the child, the grandchild and the root return 0, 1, 2, 3. -/
theorem Binder.GenerateTableIndex_unused_witness :
    Binder.validSteps 1
        [.generate 0, .create 0 true, .generate 1, .create 1 false, .generate 2,
          .generate 0] = true ∧
      ((∃ (indexes : List Nat) (final : List Binder),
        Binder.run [Binder.new none true]
            [.generate 0, .create 0 true, .generate 1, .create 1 false, .generate 2,
              .generate 0] = some (indexes, final) ∧
        indexes.length = Binder.calls
            [.generate 0, .create 0 true, .generate 1, .create 1 false, .generate 2,
              .generate 0] ∧
        (∀ (k : Nat), k < Binder.calls
            [.generate 0, .create 0 true, .generate 1, .create 1 false, .generate 2,
              .generate 0] → indexes[k]? = some k) ∧
        indexes.Nodup) ∧
      (∀ (fuel : Nat) (binders : List Binder) (b : Nat),
        Binder.WellFounded binders → b < binders.length → b < fuel →
        ∃ (r : Nat) (root : Binder),
          Binder.root fuel binders b = some r ∧
          binders[r]? = some root ∧ root.parent = none ∧
          Binder.GenerateTableIndex fuel binders b =
            some (root.bound_tables,
              binders.set r { root with bound_tables := root.bound_tables + 1 }))) :=
  ⟨by decide, Binder.GenerateTableIndex_unused true _ (by decide)⟩

/-! The binder: correlated columns -/

/-- The search of AddCorrelatedColumn finds an entry exactly if an entry has
the binding of the info. -/
theorem Binder.any_eq_iff (columns : List CorrelatedColumnInfo) (info : CorrelatedColumnInfo) :
    columns.any (fun entry => entry.eq info) = true ↔
      ∃ entry ∈ columns, entry.binding = info.binding := by
  simp [List.any_eq_true, CorrelatedColumnInfo.eq]

/-- AddCorrelatedColumn leaves the binder as it is when an entry has the
binding of the info. -/
theorem Binder.AddCorrelatedColumn_present (binder : Binder) (info : CorrelatedColumnInfo)
    (h : ∃ entry ∈ binder.correlated_columns, entry.binding = info.binding) :
    binder.AddCorrelatedColumn info = binder := by
  simp only [Binder.AddCorrelatedColumn]
  rw [if_pos ((Binder.any_eq_iff _ _).2 h)]

/-- AddCorrelatedColumn appends the info at the end when no entry has its
binding. -/
theorem Binder.AddCorrelatedColumn_absent (binder : Binder) (info : CorrelatedColumnInfo)
    (h : ∀ entry ∈ binder.correlated_columns, entry.binding ≠ info.binding) :
    binder.AddCorrelatedColumn info =
      { binder with correlated_columns := binder.correlated_columns ++ [info] } := by
  simp only [Binder.AddCorrelatedColumn]
  rw [if_neg]
  intro hany
  obtain ⟨entry, hmem, heq⟩ := (Binder.any_eq_iff _ _).1 hany
  exact h entry hmem heq

/-- The two outcomes of AddCorrelatedColumn. -/
theorem Binder.AddCorrelatedColumn_cases (binder : Binder) (info : CorrelatedColumnInfo) :
    ((∃ entry ∈ binder.correlated_columns, entry.binding = info.binding) ∧
      binder.AddCorrelatedColumn info = binder) ∨
    ((∀ entry ∈ binder.correlated_columns, entry.binding ≠ info.binding) ∧
      binder.AddCorrelatedColumn info =
        { binder with correlated_columns := binder.correlated_columns ++ [info] }) := by
  by_cases h : ∃ entry ∈ binder.correlated_columns, entry.binding = info.binding
  · exact Or.inl ⟨h, Binder.AddCorrelatedColumn_present binder info h⟩
  · have h2 : ∀ entry ∈ binder.correlated_columns, entry.binding ≠ info.binding :=
      fun entry hmem heq => h ⟨entry, hmem, heq⟩
    exact Or.inr ⟨h2, Binder.AddCorrelatedColumn_absent binder info h2⟩

/-- AddCorrelatedColumn keeps the bindings of the entries pairwise different. -/
theorem Binder.AddCorrelatedColumn_pairwise (binder : Binder) (info : CorrelatedColumnInfo)
    (h : binder.correlated_columns.Pairwise (fun x y => x.binding ≠ y.binding)) :
    (binder.AddCorrelatedColumn info).correlated_columns.Pairwise
      (fun x y => x.binding ≠ y.binding) := by
  rcases Binder.AddCorrelatedColumn_cases binder info with ⟨_, heq⟩ | ⟨hne, heq⟩
  · rw [heq]; exact h
  · rw [heq]
    rw [List.pairwise_append]
    refine ⟨h, List.pairwise_singleton _ _, ?_⟩
    intro a ha b hb
    rw [List.mem_singleton.1 hb]
    exact hne a ha

/-- MergeCorrelatedColumns keeps the bindings of the entries pairwise
different. -/
theorem Binder.MergeCorrelatedColumns_pairwise :
    ∀ (other : List CorrelatedColumnInfo) (binder : Binder),
      binder.correlated_columns.Pairwise (fun x y => x.binding ≠ y.binding) →
      (binder.MergeCorrelatedColumns other).correlated_columns.Pairwise
        (fun x y => x.binding ≠ y.binding) := by
  intro other
  induction other with
  | nil => intro binder h; exact h
  | cons info other ih =>
    intro binder h
    exact ih (binder.AddCorrelatedColumn info) (Binder.AddCorrelatedColumn_pairwise binder info h)

/-- AddCorrelatedColumn keeps every entry. -/
theorem Binder.AddCorrelatedColumn_mem (binder : Binder) (info entry : CorrelatedColumnInfo)
    (h : entry ∈ binder.correlated_columns) :
    entry ∈ (binder.AddCorrelatedColumn info).correlated_columns := by
  rcases Binder.AddCorrelatedColumn_cases binder info with ⟨_, heq⟩ | ⟨_, heq⟩
  · rw [heq]; exact h
  · rw [heq]; exact List.mem_append_left _ h

/-- MergeCorrelatedColumns keeps every entry. -/
theorem Binder.MergeCorrelatedColumns_mem :
    ∀ (other : List CorrelatedColumnInfo) (binder : Binder) (entry : CorrelatedColumnInfo),
      entry ∈ binder.correlated_columns →
      entry ∈ (binder.MergeCorrelatedColumns other).correlated_columns := by
  intro other
  induction other with
  | nil => intro binder entry h; exact h
  | cons info other ih =>
    intro binder entry h
    exact ih (binder.AddCorrelatedColumn info) entry
      (Binder.AddCorrelatedColumn_mem binder info entry h)

/-- After MergeCorrelatedColumns the binder holds an entry with the binding of
every merged info. -/
theorem Binder.MergeCorrelatedColumns_holds :
    ∀ (other : List CorrelatedColumnInfo) (binder : Binder),
      ∀ info ∈ other,
        ∃ entry ∈ (binder.MergeCorrelatedColumns other).correlated_columns,
          entry.binding = info.binding := by
  intro other
  induction other with
  | nil => intro binder info h; cases h
  | cons first other ih =>
    intro binder info hmem
    rcases List.mem_cons.1 hmem with heq | hrest
    · subst heq
      have hfirst : ∃ entry ∈ (binder.AddCorrelatedColumn info).correlated_columns,
          entry.binding = info.binding := by
        rcases Binder.AddCorrelatedColumn_cases binder info with ⟨hex, heq⟩ | ⟨_, heq⟩
        · rw [heq]; exact hex
        · rw [heq]; exact ⟨info, List.mem_append_right _ (List.mem_singleton.2 rfl), rfl⟩
      obtain ⟨entry, hentry, hb⟩ := hfirst
      exact ⟨entry, Binder.MergeCorrelatedColumns_mem other _ entry hentry, hb⟩
    · exact ih (binder.AddCorrelatedColumn first) info hrest

/-- Merging infos whose bindings the binder already holds changes nothing. -/
theorem Binder.MergeCorrelatedColumns_present :
    ∀ (other : List CorrelatedColumnInfo) (binder : Binder),
      (∀ info ∈ other, ∃ entry ∈ binder.correlated_columns, entry.binding = info.binding) →
      binder.MergeCorrelatedColumns other = binder := by
  intro other
  induction other with
  | nil => intro binder _; rfl
  | cons first other ih =>
    intro binder h
    have hfirst := Binder.AddCorrelatedColumn_present binder first
      (h first (List.mem_cons_self _ _))
    show (binder.AddCorrelatedColumn first).MergeCorrelatedColumns other = binder
    rw [hfirst]
    exact ih binder (fun info hmem => h info (List.mem_cons_of_mem _ hmem))

/-- C39: AddCorrelatedColumn leaves the binder unchanged if correlated_columns
already holds an entry with the binding of the info, and otherwise appends the
info at the end; MergeCorrelatedColumns of one info is AddCorrelatedColumn;
merging keeps the bindings of the entries pairwise different, so the list of a
new binder after any sequence of merges never contains two entries with equal
bindings; and merging the same list twice gives the same binder as merging it
once. -/
theorem Binder.AddCorrelatedColumn_once :
    (∀ (binder : Binder) (info : CorrelatedColumnInfo),
      (∃ entry ∈ binder.correlated_columns, entry.binding = info.binding) →
      binder.AddCorrelatedColumn info = binder) ∧
    (∀ (binder : Binder) (info : CorrelatedColumnInfo),
      (∀ entry ∈ binder.correlated_columns, entry.binding ≠ info.binding) →
      binder.AddCorrelatedColumn info =
        { binder with correlated_columns := binder.correlated_columns ++ [info] }) ∧
    (∀ (binder : Binder) (info : CorrelatedColumnInfo),
      binder.MergeCorrelatedColumns [info] = binder.AddCorrelatedColumn info) ∧
    (∀ (binder : Binder) (other : List CorrelatedColumnInfo),
      binder.correlated_columns.Pairwise (fun x y => x.binding ≠ y.binding) →
      (binder.MergeCorrelatedColumns other).correlated_columns.Pairwise
        (fun x y => x.binding ≠ y.binding)) ∧
    (∀ (parent : Option Nat) (inherit_ctes : Bool) (lists : List (List CorrelatedColumnInfo)),
      (lists.foldl Binder.MergeCorrelatedColumns
          (Binder.new parent inherit_ctes)).correlated_columns.Pairwise
        (fun x y => x.binding ≠ y.binding)) ∧
    (∀ (binder : Binder) (other : List CorrelatedColumnInfo),
      (binder.MergeCorrelatedColumns other).MergeCorrelatedColumns other =
        binder.MergeCorrelatedColumns other) := by
  refine ⟨Binder.AddCorrelatedColumn_present, Binder.AddCorrelatedColumn_absent,
    fun _ _ => rfl, fun binder other h => Binder.MergeCorrelatedColumns_pairwise other binder h,
    ?_, ?_⟩
  · intro parent inherit_ctes lists
    have hgen : ∀ (lists : List (List CorrelatedColumnInfo)) (binder : Binder),
        binder.correlated_columns.Pairwise (fun x y => x.binding ≠ y.binding) →
        (lists.foldl Binder.MergeCorrelatedColumns binder).correlated_columns.Pairwise
          (fun x y => x.binding ≠ y.binding) := by
      intro lists
      induction lists with
      | nil => intro binder h; exact h
      | cons other lists ih =>
        intro binder h
        exact ih _ (Binder.MergeCorrelatedColumns_pairwise other binder h)
    exact hgen lists _ List.Pairwise.nil
  · intro binder other
    exact Binder.MergeCorrelatedColumns_present other _
      (Binder.MergeCorrelatedColumns_holds other binder)

/-! The binder: common table expressions -/

/-- C40 (counterexample): on a new binder the empty name is not bound, yet
AddCTE("", info) stops at the assertion that the name is not empty: no binder
error, no binding added, and a following FindCTE("") returns the null pointer.
Likewise AddCTE("t", null) stops at the assertion on info. -/
theorem Binder.AddCTE_bound_counterexample :
    (Binder.new none true).CTE_bindings "" = none ∧
    ((Binder.new none true).AddCTE "" (some ⟨1, false⟩)).error = some .Assertion ∧
    ((Binder.new none true).AddCTE "" (some ⟨1, false⟩)).state.CTE_bindings "" = none ∧
    Binder.FindCTE 1 [((Binder.new none true).AddCTE "" (some ⟨1, false⟩)).state] 0 "" false =
      some none ∧
    (Binder.new none true).CTE_bindings "t" = none ∧
    ((Binder.new none true).AddCTE "t" none).error = some .Assertion := by
  refine ⟨rfl, rfl, rfl, rfl, rfl, rfl⟩

/-- C40 (amended): for every non-empty name and non-null info, AddCTE(name,
info) raises a binder error if and only if name is already bound in the CTE
bindings of this binder, and then leaves the binder unchanged; otherwise it
succeeds and adds exactly that one binding, all other bindings are unchanged,
and a following FindCTE(name) with skip = false on this binder returns info,
whatever the other binders hold. -/
theorem Binder.AddCTE_bound (binder : Binder) (name : String) (info : CommonTableExpressionInfo)
    (hname : name.isEmpty = false) :
    ((binder.AddCTE name (some info)).error = some .BinderException ↔
      (binder.CTE_bindings name).isSome = true) ∧
    ((binder.CTE_bindings name).isSome = true →
      (binder.AddCTE name (some info)).state = binder) ∧
    (binder.CTE_bindings name = none →
      (binder.AddCTE name (some info)).error = none ∧
      (binder.AddCTE name (some info)).state =
        { binder with
          CTE_bindings := fun n => if n = name then some info else binder.CTE_bindings n } ∧
      (binder.AddCTE name (some info)).state.CTE_bindings name = some info ∧
      (∀ (n : String), n ≠ name →
        (binder.AddCTE name (some info)).state.CTE_bindings n = binder.CTE_bindings n) ∧
      (∀ (fuel : Nat) (binders : List Binder) (b : Nat), b < binders.length →
        Binder.FindCTE (fuel + 1) (binders.set b (binder.AddCTE name (some info)).state) b
          name false = some (some info))) := by
  cases hb : binder.CTE_bindings name with
  | some entry =>
    refine ⟨?_, ?_, ?_⟩
    · simp [Binder.AddCTE, hname, hb]
    · intro _; simp [Binder.AddCTE, hname, hb]
    · intro h; cases h
  | none =>
    have hstate : (binder.AddCTE name (some info)).state =
        { binder with
          CTE_bindings := fun n => if n = name then some info else binder.CTE_bindings n } := by
      simp [Binder.AddCTE, hname, hb]
    refine ⟨?_, ?_, ?_⟩
    · simp [Binder.AddCTE, hname, hb]
    · intro h; cases h
    · intro _
      refine ⟨by simp [Binder.AddCTE, hname, hb], hstate, by rw [hstate]; simp, ?_, ?_⟩
      · intro n hn
        rw [hstate]
        simp [hn]
      · intro fuel binders b hlt
        rw [hstate]
        simp [Binder.FindCTE, List.getElem?_set_self hlt]

/-- C40 (witness): AddCTE("t", info) on a new binder that has a parent. -/
theorem Binder.AddCTE_bound_witness :
    "t".isEmpty = false ∧
    ((((Binder.new (some 0) true).AddCTE "t" (some ⟨1, false⟩)).error = some .BinderException ↔
      ((Binder.new (some 0) true).CTE_bindings "t").isSome = true) ∧
    (((Binder.new (some 0) true).CTE_bindings "t").isSome = true →
      ((Binder.new (some 0) true).AddCTE "t" (some ⟨1, false⟩)).state =
        Binder.new (some 0) true) ∧
    ((Binder.new (some 0) true).CTE_bindings "t" = none →
      ((Binder.new (some 0) true).AddCTE "t" (some ⟨1, false⟩)).error = none ∧
      ((Binder.new (some 0) true).AddCTE "t" (some ⟨1, false⟩)).state =
        { Binder.new (some 0) true with
          CTE_bindings := fun n =>
            if n = "t" then some ⟨1, false⟩ else (Binder.new (some 0) true).CTE_bindings n } ∧
      ((Binder.new (some 0) true).AddCTE "t" (some ⟨1, false⟩)).state.CTE_bindings "t" =
        some ⟨1, false⟩ ∧
      (∀ (n : String), n ≠ "t" →
        ((Binder.new (some 0) true).AddCTE "t" (some ⟨1, false⟩)).state.CTE_bindings n =
          (Binder.new (some 0) true).CTE_bindings n) ∧
      (∀ (fuel : Nat) (binders : List Binder) (b : Nat), b < binders.length →
        Binder.FindCTE (fuel + 1)
          (binders.set b ((Binder.new (some 0) true).AddCTE "t" (some ⟨1, false⟩)).state) b
          "t" false = some (some ⟨1, false⟩)))) :=
  ⟨by decide, Binder.AddCTE_bound (Binder.new (some 0) true) "t" ⟨1, false⟩ (by decide)⟩

/-! Interchange export: the number of buffers at every level of nesting -/

/-- The layout of a holder depends on the number of buffers of its array and
on its children only. -/
theorem LogicalType.layout_congr (type : LogicalType) (h1 h2 : DuckDBArrowArrayChildHolder)
    (hn : h1.array.n_buffers = h2.array.n_buffers) (hc : h1.children = h2.children) :
    type.layout h1 = type.layout h2 := by
  cases type <;> simp only [LogicalType.layout, hn, hc]

/-- SetChildValidityMask does not change the layout of a holder. -/
theorem LogicalType.layout_setArray (type : LogicalType) (c : DuckDBArrowArrayChildHolder)
    (v : FlatVector) :
    type.layout (c.setArray (SetChildValidityMask v c.array)) = type.layout c := by
  cases c
  exact LogicalType.layout_congr type _ _ rfl rfl

/-- A holder laid out for a type has the number of buffers of the type. -/
theorem LogicalType.layout_n_buffers (type : LogicalType) (h : DuckDBArrowArrayChildHolder)
    (hl : type.layout h = true) : some h.array.n_buffers = type.tableBuffers := by
  cases type <;>
    simp only [LogicalType.layout, Bool.and_eq_true, decide_eq_true_eq] at hl <;>
    first | exact hl | exact hl.1

/-- For a type without children the layout is the number of buffers. -/
theorem LogicalType.layout_leaf (type : LogicalType) (h : DuckDBArrowArrayChildHolder)
    (hleaf : ∀ t, type ≠ .LIST t) (hs : ∀ ts, type ≠ .STRUCT ts) (hm : ∀ ts, type ≠ .MAP ts)
    (hn : some h.array.n_buffers = type.tableBuffers) : type.layout h = true := by
  cases type <;>
    first
      | exact absurd rfl (hleaf _)
      | exact absurd rfl (hs _)
      | exact absurd rfl (hm _)
      | (simp only [LogicalType.layout, decide_eq_true_eq]; exact hn)

/-- Holders that are laid out for the field types at their positions are the
holders of a struct of these fields. -/
theorem ChildTypes.layout_of_get :
    ∀ (hs : List DuckDBArrowArrayChildHolder) (ts : ChildTypes),
      (∀ (i : Nat) (f : DuckDBArrowArrayChildHolder), hs[i]? = some f →
        ∃ t : LogicalType, ts.get? i = some t ∧ t.layout f = true) →
      ts.layout hs = true := by
  intro hs
  induction hs with
  | nil => intro ts _; cases ts <;> rfl
  | cons h hs ih =>
    intro ts hget
    cases ts with
    | nil =>
      obtain ⟨t, ht, _⟩ := hget 0 h (by simp)
      cases ht
    | cons name type rest =>
      simp only [ChildTypes.layout, Bool.and_eq_true]
      refine ⟨?_, ih rest ?_⟩
      · obtain ⟨t, ht, hl⟩ := hget 0 h (by simp)
        cases ht
        exact hl
      · intro i f hi
        exact hget (i + 1) f (by simpa using hi)

/-- Every holder of the fields of a struct is laid out for the field type at
its position. -/
theorem ChildTypes.layout_get :
    ∀ (hs : List DuckDBArrowArrayChildHolder) (ts : ChildTypes), ts.layout hs = true →
      ∀ (i : Nat) (f : DuckDBArrowArrayChildHolder), hs[i]? = some f →
        ∃ t : LogicalType, ts.get? i = some t ∧ t.layout f = true := by
  intro hs
  induction hs with
  | nil => intro ts _ i f hi; simp at hi
  | cons h hs ih =>
    intro ts hl i f hi
    cases ts with
    | nil => simp [ChildTypes.layout] at hl
    | cons name type rest =>
      simp only [ChildTypes.layout, Bool.and_eq_true] at hl
      cases i with
      | zero =>
        simp only [List.getElem?_cons_zero, Option.some.injEq] at hi
        subst hi
        exact ⟨type, rfl, hl.1⟩
      | succ i =>
        simp only [List.getElem?_cons_succ] at hi
        exact ih rest hl.2 i f hi

/-- A holder laid out for the element type of a list type. -/
theorem LogicalType.elementLayout_of (type t : LogicalType) (f : DuckDBArrowArrayChildHolder)
    (hg : ListType.GetChildType type = some t) (hl : t.layout f = true) :
    type.elementLayout f = true := by
  cases type with
  | LIST child =>
    cases hg
    simpa [LogicalType.elementLayout] using hl
  | _ => cases hg

/-- Holders that are laid out for the element types of the list fields at
their positions are the holders of the children of a map. -/
theorem ChildTypes.mapLayout_of_get :
    ∀ (hs : List DuckDBArrowArrayChildHolder) (ts : ChildTypes),
      (∀ (i : Nat) (f : DuckDBArrowArrayChildHolder), hs[i]? = some f →
        ∃ t : LogicalType, (ts.get? i).bind ListType.GetChildType = some t ∧
          t.layout f = true) →
      ts.mapLayout hs = true := by
  intro hs
  induction hs with
  | nil => intro ts _; cases ts <;> rfl
  | cons h hs ih =>
    intro ts hget
    cases ts with
    | nil =>
      obtain ⟨t, ht, _⟩ := hget 0 h (by simp)
      cases ht
    | cons name type rest =>
      simp only [ChildTypes.mapLayout, Bool.and_eq_true]
      refine ⟨?_, ih rest ?_⟩
      · obtain ⟨t, ht, hl⟩ := hget 0 h (by simp)
        exact LogicalType.elementLayout_of type t h ht hl
      · intro i f hi
        exact hget (i + 1) f (by simpa using hi)

/-- Every successful call of SetArrowChild leaves a holder whose array, and
the array of every nested child, has the number of buffers of the layout table
for its type. -/
theorem SetArrowChild_layout (uninit : Nat → Nat) (data : FlatVector) :
    ∀ (type : LogicalType) (h : DuckDBArrowArrayChildHolder) (size : Nat)
      (pm : Option ValidityMask) (c : DuckDBArrowArrayChildHolder),
      SetArrowChild uninit h type data size pm = .ok c → type.layout c = true := by
  refine (@FlatVector.rec
    (fun data =>
      (∀ (type : LogicalType) (h : DuckDBArrowArrayChildHolder) (size : Nat)
        (pm : Option ValidityMask) (c : DuckDBArrowArrayChildHolder),
        SetArrowChild uninit h type data size pm = .ok c → type.layout c = true) ∧
      (∀ (m : ValidityMask) (lo : Nat → list_entry_t) (lc : FlatVector) (n : Nat),
        data = .list m lo lc n →
        ∀ (type : LogicalType) (h : DuckDBArrowArrayChildHolder) (size : Nat)
          (pm : Option ValidityMask) (c : DuckDBArrowArrayChildHolder),
          SetArrowChild uninit h type lc size pm = .ok c → type.layout c = true))
    (fun children =>
      (∀ (child_types : ChildTypes) (size : Nat) (mask : ValidityMask) (k : Nat)
        (holders : List DuckDBArrowArrayChildHolder),
        SetStruct.loop uninit child_types size mask children k = .ok holders →
        ∀ (i : Nat) (f : DuckDBArrowArrayChildHolder), holders[i]? = some f →
          ∃ t : LogicalType, child_types.get? (k + i) = some t ∧ t.layout f = true) ∧
      (∀ (child_types : ChildTypes) (size list_size : Nat) (mask : ValidityMask) (k : Nat)
        (holders : List DuckDBArrowArrayChildHolder),
        SetStructMap.loop uninit child_types size list_size mask children k = .ok holders →
        ∀ (i : Nat) (f : DuckDBArrowArrayChildHolder), holders[i]? = some f →
          ∃ t : LogicalType,
            (child_types.get? (k + i)).bind ListType.GetChildType = some t ∧
              t.layout f = true))
    ?_ ?_ ?_ ?_ ?_ ?_ data).1
  · intro validity values
    refine ⟨?_, fun _ _ _ _ hd => by cases hd⟩
    intro type h size pm c hc
    have hnb := SetArrowChild_n_buffers uninit h type _ size pm c hc
    cases h
    cases type with
    | LIST t => cases hc
    | STRUCT ts => cases hc
    | MAP ts => cases hc
    | _ =>
      exact LogicalType.layout_leaf _ c (fun _ heq => by cases heq) (fun _ heq => by cases heq)
        (fun _ heq => by cases heq) hnb
  · intro validity values
    refine ⟨?_, fun _ _ _ _ hd => by cases hd⟩
    intro type h size pm c hc
    have hnb := SetArrowChild_n_buffers uninit h type _ size pm c hc
    cases h
    cases type with
    | LIST t => cases hc
    | STRUCT ts => cases hc
    | MAP ts => cases hc
    | _ =>
      exact LogicalType.layout_leaf _ c (fun _ heq => by cases heq) (fun _ heq => by cases heq)
        (fun _ heq => by cases heq) hnb
  · intro validity entries child list_size ih
    refine ⟨?_, ?_⟩
    · intro type h size pm c hc
      have hnb := SetArrowChild_n_buffers uninit h type _ size pm c hc
      cases h
      cases type with
      | LIST child_type =>
        rw [SetArrowChild_list_eq] at hc
        cases hs : SetArrowChild uninit (InitializeChild .new list_size) child_type child
            list_size (some validity) with
        | error e => rw [hs] at hc; cases hc
        | ok c0 =>
          rw [hs] at hc
          cases hc
          simp only [LogicalType.layout, Bool.and_eq_true, decide_eq_true_eq]
          refine ⟨rfl, ?_⟩
          simp only [DuckDBArrowArrayChildHolder.children, List.all_cons, List.all_nil,
            Bool.and_true]
          rw [LogicalType.layout_setArray]
          exact ih.1 child_type _ _ _ c0 hs
      | STRUCT ts => cases hc
      | MAP ts => cases hc
      | _ =>
        exact LogicalType.layout_leaf _ c (fun _ heq => by cases heq)
          (fun _ heq => by cases heq) (fun _ heq => by cases heq) hnb
    · intro m lo lc n hd
      cases hd
      exact ih.1
  · intro validity children ih
    refine ⟨?_, fun _ _ _ _ hd => by cases hd⟩
    intro type h size pm c hc
    have hnb := SetArrowChild_n_buffers uninit h type _ size pm c hc
    cases h
    cases type with
    | STRUCT child_types =>
      rw [SetArrowChild_struct_eq] at hc
      cases hs : SetStruct.loop uninit child_types size validity children 0 with
      | error e => rw [hs] at hc; cases hc
      | ok holders =>
        rw [hs] at hc
        cases hc
        simp only [LogicalType.layout, Bool.and_eq_true, decide_eq_true_eq]
        refine ⟨rfl, ?_⟩
        apply ChildTypes.layout_of_get
        intro i f hi
        have := ih.1 child_types size validity 0 holders hs i f hi
        rwa [Nat.zero_add] at this
    | MAP child_types =>
      revert ih
      cases children with
      | nil => intro _; cases hc
      | cons keys rest =>
        intro ih
        rw [SetArrowChild_map_eq] at hc
        cases hl : ListVector.GetListSize keys with
        | none => rw [hl] at hc; cases hc
        | some list_size =>
          rw [hl] at hc
          dsimp only at hc
          cases hs : SetStructMap.loop uninit child_types size list_size validity
              (.cons keys rest) 0 with
          | error e => rw [hs] at hc; cases hc
          | ok holders =>
            rw [hs] at hc
            cases hc
            simp only [LogicalType.layout, Bool.and_eq_true, decide_eq_true_eq]
            refine ⟨rfl, ?_⟩
            simp only [DuckDBArrowArrayChildHolder.children, List.all_cons, List.all_nil,
              Bool.and_true, Bool.and_eq_true, decide_eq_true_eq]
            refine ⟨rfl, ?_⟩
            apply ChildTypes.mapLayout_of_get
            intro i f hi
            have := ih.2 child_types size list_size validity 0 holders hs i f hi
            rwa [Nat.zero_add] at this
    | LIST t => cases hc
    | _ =>
      exact LogicalType.layout_leaf _ c (fun _ heq => by cases heq)
        (fun _ heq => by cases heq) (fun _ heq => by cases heq) hnb
  · refine ⟨?_, ?_⟩
    · intro child_types size mask k holders hl i f hi
      cases hl
      simp at hi
    · intro child_types size list_size mask k holders hl i f hi
      cases hl
      simp at hi
  · intro child rest ih1 ih2
    refine ⟨?_, ?_⟩
    · intro child_types size mask k holders hl i f hi
      rw [SetStruct.struct_loop_cons] at hl
      cases hg : child_types.get? k with
      | none => rw [hg] at hl; cases hl
      | some child_type =>
        rw [hg] at hl
        dsimp only at hl
        cases hs : SetArrowChild uninit (InitializeChild .new size) child_type child size
            (some mask) with
        | error e => rw [hs] at hl; cases hl
        | ok c =>
          rw [hs] at hl
          dsimp only at hl
          cases hr : SetStruct.loop uninit child_types size mask rest (k + 1) with
          | error e => rw [hr] at hl; cases hl
          | ok holders1 =>
            rw [hr] at hl
            cases hl
            cases i with
            | zero =>
              simp only [List.getElem?_cons_zero, Option.some.injEq] at hi
              subst hi
              refine ⟨child_type, hg, ?_⟩
              rw [LogicalType.layout_setArray]
              exact ih1.1 child_type _ _ _ c hs
            | succ i =>
              simp only [List.getElem?_cons_succ] at hi
              obtain ⟨t, ht, hlay⟩ := ih2.1 child_types size mask (k + 1) holders1 hr i f hi
              exact ⟨t, by rw [← ht]; congr 1; omega, hlay⟩
    · intro child_types size list_size mask k holders hl i f hi
      revert ih1
      cases child with
      | list m lo lc n =>
        intro ih1
        rw [SetStructMap.loop_cons_eq] at hl
        split at hl
        · cases hl
        · cases hg : (child_types.get? k).bind ListType.GetChildType with
          | none => rw [hg] at hl; cases hl
          | some child_type =>
            rw [hg] at hl
            dsimp only at hl
            cases hs : SetArrowChild uninit
                (if k = 0 then InitializeChild .new list_size
                 else (InitializeChild .new list_size).setArray
                   (SetChildValidityMask lc (InitializeChild .new list_size).array))
                child_type lc list_size (some mask) with
            | error e => rw [hs] at hl; cases hl
            | ok c =>
              rw [hs] at hl
              dsimp only at hl
              cases hr : SetStructMap.loop uninit child_types size list_size mask rest
                  (k + 1) with
              | error e => rw [hr] at hl; cases hl
              | ok holders1 =>
                rw [hr] at hl
                cases hl
                cases i with
                | zero =>
                  simp only [List.getElem?_cons_zero, Option.some.injEq] at hi
                  subst hi
                  exact ⟨child_type, hg, ih1.2 m lo lc n rfl child_type _ _ _ _ hs⟩
                | succ i =>
                  simp only [List.getElem?_cons_succ] at hi
                  obtain ⟨t, ht, hlay⟩ :=
                    ih2.2 child_types size list_size mask (k + 1) holders1 hr i f hi
                  exact ⟨t, by rw [← ht]; congr 2; omega, hlay⟩
      | _ => intro _; cases hl

/-- The child loop of SetStruct returns one holder per child vector. -/
theorem SetStruct.loop_length (uninit : Nat → Nat) (children : FlatVectorList) :
    ∀ (child_types : ChildTypes) (size : Nat) (mask : ValidityMask) (k : Nat)
      (holders : List DuckDBArrowArrayChildHolder),
      SetStruct.loop uninit child_types size mask children k = .ok holders →
      holders.length = children.size := by
  refine @FlatVectorList.rec (fun _ => True)
    (fun children =>
      ∀ (child_types : ChildTypes) (size : Nat) (mask : ValidityMask) (k : Nat)
        (holders : List DuckDBArrowArrayChildHolder),
        SetStruct.loop uninit child_types size mask children k = .ok holders →
        holders.length = children.size)
    (fun _ _ => trivial) (fun _ _ => trivial) (fun _ _ _ _ _ => trivial)
    (fun _ _ _ => trivial) ?_ ?_ children
  · intro child_types size mask k holders hl
    cases hl
    rfl
  · intro child rest _ ih child_types size mask k holders hl
    rw [SetStruct.struct_loop_cons] at hl
    cases hg : child_types.get? k with
    | none => rw [hg] at hl; cases hl
    | some child_type =>
      rw [hg] at hl
      dsimp only at hl
      cases hs : SetArrowChild uninit (InitializeChild .new size) child_type child size
          (some mask) with
      | error e => rw [hs] at hl; cases hl
      | ok c =>
        rw [hs] at hl
        dsimp only at hl
        cases hr : SetStruct.loop uninit child_types size mask rest (k + 1) with
        | error e => rw [hr] at hl; cases hl
        | ok holders1 =>
          rw [hr] at hl
          cases hl
          simp only [List.length_cons, FlatVectorList.size]
          rw [ih child_types size mask (k + 1) holders1 hr]

/-- C18: when ToArrowArray succeeds, the root holder has one child holder per
column, and the array of the holder of every column has the number of buffers
the layout table gives for the logical type of the column (2 for boolean, the
integers, float, double, 128-bit integer, date and the timestamps, 1 for null,
2 for time, 2 for decimal, 3 for string, 2 for list, 1 for struct, 2 for
map), and so has the array of every nested child, at every level (layout): a
struct column has one child holder per field, each with the number of buffers
of its field type, and a list column has one child holder with the number of
buffers of the element type.  The case of the null type, which is reached for
nested children, always succeeds and sets 1 buffer. -/
theorem DataChunk.ToArrowArray_n_buffers (uninit : Nat → Nat)
    (columns : List (LogicalType × FlatVector)) (size : Nat) (out_array : ArrowArray)
    (root_holder : DuckDBArrowArrayHolder)
    (h : DataChunk.ToArrowArray uninit columns size = .ok (out_array, root_holder)) :
    root_holder.children.length = columns.length ∧
    (∀ (col_idx : Nat) (type : LogicalType) (data : FlatVector),
      columns[col_idx]? = some (type, data) →
      ∃ child_holder : DuckDBArrowArrayChildHolder,
        root_holder.children[col_idx]? = some child_holder ∧
        some child_holder.array.n_buffers = type.tableBuffers ∧
        type.layout child_holder = true) ∧
    (∀ (col_idx : Nat) (child_types : ChildTypes) (mask : ValidityMask)
        (children : FlatVectorList),
      columns[col_idx]? = some (.STRUCT child_types, .struct mask children) →
      ∃ child_holder : DuckDBArrowArrayChildHolder,
        root_holder.children[col_idx]? = some child_holder ∧
        child_holder.children.length = children.size ∧
        ∀ (i : Nat) (field : DuckDBArrowArrayChildHolder),
          child_holder.children[i]? = some field →
          ∃ field_type : LogicalType, child_types.get? i = some field_type ∧
            some field.array.n_buffers = field_type.tableBuffers) ∧
    (∀ (col_idx : Nat) (child_type : LogicalType) (mask : ValidityMask)
        (entries : Nat → list_entry_t) (child : FlatVector) (list_size : Nat),
      columns[col_idx]? = some (.LIST child_type, .list mask entries child list_size) →
      ∃ (child_holder element : DuckDBArrowArrayChildHolder),
        root_holder.children[col_idx]? = some child_holder ∧
        child_holder.children = [element] ∧
        some element.array.n_buffers = child_type.tableBuffers) ∧
    (∀ (holder : DuckDBArrowArrayChildHolder) (data : FlatVector) (n : Nat)
        (parent_mask : Option ValidityMask),
      ∃ c : DuckDBArrowArrayChildHolder,
        SetArrowChild uninit holder .SQLNULL data n parent_mask = .ok c ∧
        c.array.n_buffers = 1) := by
  simp only [DataChunk.ToArrowArray] at h
  cases hr : DataChunk.ToArrowArray.columns uninit size columns with
  | error e => rw [hr] at h; cases h
  | ok holders =>
    rw [hr] at h
    simp only at h
    cases h
    obtain ⟨hlen, hget⟩ := DataChunk.ToArrowArray_columns_get uninit size columns holders hr
    refine ⟨hlen, ?_, ?_, ?_, ?_⟩
    · intro col_idx type data hcol
      obtain ⟨c, v, h1, -, h3⟩ := hget col_idx type data hcol
      refine ⟨_, h3, SetArrowChild_n_buffers uninit _ type data size none c h1, ?_⟩
      rw [LogicalType.layout_setArray]
      exact SetArrowChild_layout uninit data type _ size none c h1
    · intro col_idx child_types mask children hcol
      obtain ⟨c, v, h1, -, h3⟩ := hget col_idx _ _ hcol
      have hlay := SetArrowChild_layout uninit _ _ _ size none c h1
      rw [show InitializeChild .new size = .mk (InitializeChild .new size).array none none none []
        from rfl, SetArrowChild_struct_eq] at h1
      cases hs : SetStruct.loop uninit child_types size mask children 0 with
      | error e => rw [hs] at h1; cases h1
      | ok fields =>
        rw [hs] at h1
        cases h1
        refine ⟨_, h3, SetStruct.loop_length uninit children child_types size mask 0 fields hs,
          ?_⟩
        intro i field hi
        simp only [LogicalType.layout, Bool.and_eq_true, decide_eq_true_eq] at hlay
        obtain ⟨t, ht, hl⟩ := ChildTypes.layout_get _ _ hlay.2 i field hi
        exact ⟨t, ht, LogicalType.layout_n_buffers t field hl⟩
    · intro col_idx child_type mask entries child list_size hcol
      obtain ⟨c, v, h1, -, h3⟩ := hget col_idx _ _ hcol
      rw [show InitializeChild .new size = .mk (InitializeChild .new size).array none none none []
        from rfl, SetArrowChild_list_eq] at h1
      cases hs : SetArrowChild uninit (InitializeChild .new list_size) child_type child
          list_size (some mask) with
      | error e => rw [hs] at h1; cases h1
      | ok c0 =>
        rw [hs] at h1
        cases h1
        exact ⟨_, _, h3, rfl, SetArrowChild_n_buffers uninit _ child_type child list_size _ c0 hs⟩
    · intro holder data n parent_mask
      cases holder
      cases data <;> exact ⟨_, rfl, rfl⟩

/-- C18 (witness): the export of the chunk with one column per row of the
layout table succeeds; column 6 is a struct whose field a has the null type,
and the array of that field has 1 buffer. -/
theorem DataChunk.ToArrowArray_n_buffers_witness :
    ∃ (out_array : ArrowArray) (root_holder : DuckDBArrowArrayHolder),
      DataChunk.ToArrowArray (fun _ => 0) DataChunk.exported 2 = .ok (out_array, root_holder) ∧
      (∃ (struct_holder null_field : DuckDBArrowArrayChildHolder),
        DataChunk.exported[6]? =
          some (.STRUCT (.cons "a" .SQLNULL (.cons "b" .INTEGER .nil)),
            .struct ⟨none⟩
              (.cons (.fixed ⟨some (fun _ => false)⟩ (fun _ => 0))
                (.cons (.fixed ⟨none⟩ (fun i => i)) .nil))) ∧
        root_holder.children[6]? = some struct_holder ∧
        struct_holder.children[0]? = some null_field ∧
        null_field.array.n_buffers = 1) ∧
      (root_holder.children.length = DataChunk.exported.length ∧
      (∀ (col_idx : Nat) (type : LogicalType) (data : FlatVector),
        DataChunk.exported[col_idx]? = some (type, data) →
        ∃ child_holder : DuckDBArrowArrayChildHolder,
          root_holder.children[col_idx]? = some child_holder ∧
          some child_holder.array.n_buffers = type.tableBuffers ∧
          type.layout child_holder = true) ∧
      (∀ (col_idx : Nat) (child_types : ChildTypes) (mask : ValidityMask)
          (children : FlatVectorList),
        DataChunk.exported[col_idx]? = some (.STRUCT child_types, .struct mask children) →
        ∃ child_holder : DuckDBArrowArrayChildHolder,
          root_holder.children[col_idx]? = some child_holder ∧
          child_holder.children.length = children.size ∧
          ∀ (i : Nat) (field : DuckDBArrowArrayChildHolder),
            child_holder.children[i]? = some field →
            ∃ field_type : LogicalType, child_types.get? i = some field_type ∧
              some field.array.n_buffers = field_type.tableBuffers) ∧
      (∀ (col_idx : Nat) (child_type : LogicalType) (mask : ValidityMask)
          (entries : Nat → list_entry_t) (child : FlatVector) (list_size : Nat),
        DataChunk.exported[col_idx]? =
          some (.LIST child_type, .list mask entries child list_size) →
        ∃ (child_holder element : DuckDBArrowArrayChildHolder),
          root_holder.children[col_idx]? = some child_holder ∧
          child_holder.children = [element] ∧
          some element.array.n_buffers = child_type.tableBuffers) ∧
      (∀ (holder : DuckDBArrowArrayChildHolder) (data : FlatVector) (n : Nat)
          (parent_mask : Option ValidityMask),
        ∃ c : DuckDBArrowArrayChildHolder,
          SetArrowChild (fun _ => 0) holder .SQLNULL data n parent_mask = .ok c ∧
          c.array.n_buffers = 1)) :=
  ⟨_, _, rfl, ⟨_, _, rfl, rfl, rfl, rfl⟩,
    DataChunk.ToArrowArray_n_buffers (fun _ => 0) DataChunk.exported 2 _ _ rfl⟩

end duckdb
